import Mathlib

/-!
# einit (tinit): the service supervisor, embedded in Lean

A shallow embedding of the service state machine of `src/svc.c`, the observer
wiring of `src/notif.c`, the child reaping of `src/sigchan.c`, the target
shutdown and switch of `src/target.c`, the repository of `src/repo.c`, the
name checks of `src/common.c` and `src/conf.c`, the stdin and stdout settings
of `src/conf.c`, and the control protocol of `src/srv.c` (server) and
`src/lib.c` (client).

* Services live in the repository list; a `struct svc *` is the index of the
  service in that list.
* A function pointer (`handle_evts`, `handle_notif`, the timer callback) is the
  name of the handler family it points to (`handlers.on` / `handlers.off`).
* The operating system is an oracle `env`: the n-th `vfork(2)` and the n-th
  `kill(2)` answer what the oracle says.  Every theorem quantifies over it.
* `sys.log` is a ghost record of the calls made (newest first); it is never
  read by the embedded code.
* The synchronous notification cascade (`svc_mark_ready` / `svc_mark_stopped`
  calling the sinks' handlers, which may mark further services) is tied by
  `svc_handle_notif`, recursive on a fuel counter.  Running out of fuel leaves
  the state as it is and records `action.fuel_out`.
* `assert(0)` branches are compiled out (NDEBUG): they do nothing.
* A C string is the list of its characters before the terminating NUL.
* A datagram buffer is a memory of bytes, one per offset, with the multi-byte
  fields stored low byte first; a pointer into it is an offset.
* The parser of the descriptor files, `fnmatch(3)` and the content of the
  directories are parameters of the functions that use them.
-/

namespace Einit

/-! ## Data model -/

/-- The run state, `enum tinit_svc_state` of `include/tinit/tinit.h`. -/
inductive tinit_svc_state
  | STOPPED
  | STARTING
  | READY
  | STOPPING
  deriving DecidableEq, Repr

/-- The events of `enum svc_evt` (`svc.h`). -/
inductive svc_evt
  | START
  | STOP
  | EXIT
  deriving DecidableEq, Repr

/-- The two handler families a service swaps between: `svc_handle_off_evts`,
`svc_handle_off_notif`, `svc_expire_off` and `svc_handle_on_evts`,
`svc_handle_on_notif`, `svc_expire_on`. -/
inductive handlers
  | off
  | on
  deriving DecidableEq, Repr

/-- The kind of an observer edge. -/
inductive notif_kind
  | starton
  | stopon
  deriving DecidableEq, Repr

/-- The parts of `struct conf_svc` (`conf.h`) the supervisor reads: the number
of start commands, whether a daemon argv is defined, the number of stop
commands, the two signals, the names, and the bytes of `path`, the base name of
the file the descriptor was loaded from (without the final NUL). -/
structure conf_svc where
  name : String
  start_nr : Nat
  daemon : Bool
  stop_nr : Nat
  stop_sig : Int
  reload_sig : Int
  starton : Option (List String)
  stopon : Option (List String)
  path : List Nat := []
  deriving DecidableEq, Repr

/-- A `struct notif_poll` (`notif.h`): capacity `nr` and the sources of the
registered members `members[0 .. cnt)`, in registration order; `cnt` is the
length of `srcs` (the members beyond `cnt` have a NULL source). -/
structure notif_poll where
  nr : Nat
  srcs : List Nat
  deriving DecidableEq, Repr

/-- The count of registered members, `notif_get_poll_cnt`. -/
def notif_get_poll_cnt (poll : notif_poll) : Nat := poll.srcs.length

/-- Modelled from the spec: the single-shot timer `struct utimer` of the
external utils library (`utils/timer.h`, not part of the sources).  "Arming
replaces any previous arm.  Timers are one-shot; expiry is not automatically
rescheduled."  `armed` holds the timeout in seconds while the timer is pending;
`expire` is the installed callback. -/
structure utimer where
  armed : Option Nat
  expire : Option handlers
  deriving DecidableEq, Repr

/-- Modelled from the spec: `utimer_init`, an idle timer with no callback. -/
def utimer_init : utimer := { armed := none, expire := none }

/-- Modelled from the spec: `utimer_setup` installs the expiry callback and
leaves a pending arm as it is. -/
def utimer_setup (t : utimer) (h : handlers) : utimer := { t with expire := some h }

/-- Modelled from the spec: `utimer_arm_sec`, arming replaces any previous arm. -/
def utimer_arm_sec (t : utimer) (secs : Nat) : utimer := { t with armed := some secs }

/-- Modelled from the spec: `utimer_is_armed`. -/
def utimer_is_armed (t : utimer) : Bool := t.armed.isSome

/-- The service, `struct svc` of `svc.h`. -/
structure svc where
  handle_evts : handlers
  child : Int
  state : tinit_svc_state
  handle_notif : handlers
  timer : utimer
  start_cmd : Nat
  starton_obsrv : List Nat
  starton_notif : Option notif_poll
  stop_cmd : Int
  stopon_obsrv : List Nat
  stopon_notif : Option notif_poll
  conf : conf_svc
  deriving DecidableEq, Repr

/-- The notifier poll of a kind. -/
def svc.notif (v : svc) : notif_kind → Option notif_poll
  | .starton => v.starton_notif
  | .stopon => v.stopon_notif

/-- The observer list of a kind: the sinks, in registration order. -/
def svc.obsrv (v : svc) : notif_kind → List Nat
  | .starton => v.starton_obsrv
  | .stopon => v.stopon_obsrv

/-- The registered sources of a kind (none when there is no poll). -/
def svc.srcs (v : svc) (k : notif_kind) : List Nat :=
  match v.notif k with
  | none => []
  | some poll => poll.srcs

/-- Which command a spawned child runs. -/
inductive cmd_ref
  | start (index : Nat)
  | daemon
  | stop (index : Nat)
  deriving DecidableEq, Repr

/-- Ghost record of a call made by the supervisor. -/
inductive action
  | spawn (i : Nat) (cmd : cmd_ref) (tmout : Nat) (ret : Int)
  | kill (i : Nat) (pid : Int) (signo : Int) (ok : Bool)
  | notify (sink : Nat) (src : Nat)
  | start_dispatch (i : Nat)
  | stop_dispatch (i : Nat)
  | ready (i : Nat)
  | stopped (i : Nat)
  | reaped (pid : Int)
  | fuel_out
  deriving DecidableEq, Repr

/-- What `vfork(2)` returns to the parent: the pid of the child, which is
positive, or -1 with a positive errno. -/
inductive vfork_ret
  | child (pid_pred : Nat)
  | error (errno_pred : Nat)
  deriving DecidableEq, Repr

/-- The value `svc_spawn` gets from a `vfork_ret`: the pid, or `-errno`. -/
def vfork_ret.val : vfork_ret → Int
  | .child p => (p : Int) + 1
  | .error n => -((n : Int) + 1)

/-- The operating system: the answer of the n-th `vfork` and whether the n-th
`kill` finds its process. -/
structure env where
  vfork : Nat → vfork_ret
  kill : Nat → Bool

/-- The supervisor state: the repository list, the numbers of `vfork` and
`kill` calls made so far, and the ghost log (newest first). -/
structure sys where
  svcs : List svc
  nfork : Nat
  nkill : Nat
  log : List action
  deriving DecidableEq, Repr

def SIGKILL : Int := 9
def SIGTERM : Int := 15
def ESRCH : Int := 3

/-- The value of `(unsigned int)x` for an `int` x. -/
def to_unsigned (x : Int) : Nat := (x % 4294967296).toNat

/-- Write through a `struct svc *`. -/
def sys.upd (s : sys) (i : Nat) (f : svc → svc) : sys :=
  { s with svcs := s.svcs.modify f i }

/-- Append to the ghost log. -/
def sys.emit (s : sys) (a : action) : sys := { s with log := a :: s.log }

/-- Read `svc->state` through a pointer. -/
def sys.state_of (s : sys) (i : Nat) : Option tinit_svc_state :=
  (s.svcs[i]?).map svc.state

/-! ## svc.c -/

/-- `svc_mark_stopped`: clear the child slot, switch to STOPPED and notify the
stopon observers in registration order. -/
def svc_mark_stopped (notify : sys → Nat → Nat → sys) (s : sys) (i : Nat) : sys :=
  match s.svcs[i]? with
  | none => s
  | some v =>
    let s1 := (s.upd i (fun w => { w with child := -1, state := .STOPPED })).emit (.stopped i)
    v.stopon_obsrv.foldl (fun acc sink => notify acc sink i) s1

/-- `svc_mark_ready`: switch to READY and notify the starton observers in
registration order. -/
def svc_mark_ready (notify : sys → Nat → Nat → sys) (s : sys) (i : Nat) : sys :=
  match s.svcs[i]? with
  | none => s
  | some v =>
    let s1 := (s.upd i (fun w => { w with state := .READY })).emit (.ready i)
    v.starton_obsrv.foldl (fun acc sink => notify acc sink i) s1

/-- `svc_spawn`, parent side: on failure return `-errno`; on success arm the
service timer with `tmout` seconds and return the pid. -/
def svc_spawn (e : env) (s : sys) (i : Nat) (cmd : cmd_ref) (tmout : Nat) : sys × Int :=
  let pid := (e.vfork s.nfork).val
  let s1 := { s with nfork := s.nfork + 1, log := .spawn i cmd tmout pid :: s.log }
  if pid < 0 then (s1, pid)
  else (s1.upd i (fun w => { w with timer := utimer_arm_sec w.timer tmout }), pid)

/-- `svc_spawn_start_cmd`, the start-command dispatcher. -/
def svc_spawn_start_cmd (notify : sys → Nat → Nat → sys) (e : env) (s : sys) (i : Nat) : sys :=
  match s.svcs[i]? with
  | none => s
  | some v =>
    let s0 := s.emit (.start_dispatch i)
    let args : Option cmd_ref :=
      if v.start_cmd < v.conf.start_nr then some (.start v.start_cmd)
      else if v.conf.daemon then some .daemon else none
    let mark : Bool := if v.start_cmd < v.conf.start_nr then false else true
    match args with
    | some cmd =>
      let r := svc_spawn e s0 i cmd 1
      let s1 := r.1.upd i (fun w => { w with child := r.2 })
      if r.2 < 0 then s1
      else if mark then svc_mark_ready notify s1 i else s1
    | none =>
      let s1 := s0.upd i (fun w => { w with child := -1 })
      if mark then svc_mark_ready notify s1 i else s1

/-- `svc_respawn`. -/
def svc_respawn (notify : sys → Nat → Nat → sys) (e : env) (s : sys) (i : Nat) : sys :=
  svc_spawn_start_cmd notify e s i

/-- The loop shared by `svc_may_start` and `svc_may_stop`: decrement the count
once per registered source that is in state `want`. -/
def svc_poll_pending (s : sys) (want : tinit_svc_state) (poll : notif_poll) : Nat :=
  poll.srcs.foldl (fun n src => if s.state_of src = some want then n - 1 else n)
    (notif_get_poll_cnt poll)

/-- `svc_may_start`: no poll, an empty poll, or every registered starton
source READY. -/
def svc_may_start (s : sys) (i : Nat) : Bool :=
  match s.svcs[i]? with
  | none => true
  | some v =>
    match v.starton_notif with
    | none => true
    | some poll =>
      if notif_get_poll_cnt poll ≠ 0 then
        if svc_poll_pending s .READY poll ≠ 0 then false else true
      else true

/-- `svc_expire_on`, the timer callback of a service that is on. -/
def svc_expire_on (notify : sys → Nat → Nat → sys) (e : env) (s : sys) (i : Nat) : sys :=
  match s.svcs[i]? with
  | none => s
  | some v =>
    match v.state with
    | .READY => s
    | .STARTING => if v.child < 0 then svc_respawn notify e s i else s
    | _ => s

/-- `svc_start`. -/
def svc_start (notify : sys → Nat → Nat → sys) (e : env) (s : sys) (i : Nat) : sys :=
  let s1 := s.upd i (fun w =>
    { w with handle_evts := .on, handle_notif := .on, state := .STARTING,
             timer := utimer_setup w.timer .on, start_cmd := 0 })
  if svc_may_start s1 i then svc_spawn_start_cmd notify e s1 i else s1

/-- `svc_spawn_stop_cmd`, the stop-command dispatcher.  The `int` index is
incremented without overflow (it starts at -1 and stops at the number of stop
commands); the comparison is the unsigned one of the code. -/
def svc_spawn_stop_cmd (notify : sys → Nat → Nat → sys) (e : env) (s : sys) (i : Nat) : sys :=
  match s.svcs[i]? with
  | none => s
  | some v =>
    let s0 := (s.upd i (fun w => { w with stop_cmd := w.stop_cmd + 1 })).emit (.stop_dispatch i)
    if to_unsigned (v.stop_cmd + 1) ≥ v.conf.stop_nr then svc_mark_stopped notify s0 i
    else
      let r := svc_spawn e s0 i (.stop (to_unsigned (v.stop_cmd + 1))) 5
      r.1.upd i (fun w => { w with child := r.2 })

/-- `svc_may_stop`: no poll, an empty poll, or every registered stopon source
STOPPED. -/
def svc_may_stop (s : sys) (i : Nat) : Bool :=
  match s.svcs[i]? with
  | none => true
  | some v =>
    match v.stopon_notif with
    | none => true
    | some poll =>
      if notif_get_poll_cnt poll ≠ 0 then
        if svc_poll_pending s .STOPPED poll ≠ 0 then false else true
      else true

/-- `svc_handle_off_evts`, the event handler of a service that is off. -/
def svc_handle_off_evts (notify : sys → Nat → Nat → sys) (e : env) (s : sys) (i : Nat)
    (evt : svc_evt) (_status : Int) : sys :=
  match s.svcs[i]? with
  | none => s
  | some v =>
    match v.state with
    | .STOPPED =>
      match evt with
      | .START => svc_start notify e s i
      | .STOP => s
      | _ => s
    | .STOPPING =>
      match evt with
      | .START => svc_start notify e s i
      | .STOP => s
      | .EXIT => svc_spawn_stop_cmd notify e s i
    | _ => s

/-- `svc_handle_off_notif`, the notification handler of a service that is off. -/
def svc_handle_off_notif (notify : sys → Nat → Nat → sys) (e : env) (s : sys)
    (i : Nat) (src : Nat) : sys :=
  match s.svcs[i]? with
  | none => s
  | some v =>
    match v.state with
    | .STOPPING =>
      match s.state_of src with
      | some .STOPPED => if svc_may_stop s i then svc_spawn_stop_cmd notify e s i else s
      | _ => s
    | _ => s

/-- `svc_kill`: -ESRCH when the child slot holds no pid or `kill(2)` finds no
process, 0 otherwise. -/
def svc_kill (e : env) (s : sys) (i : Nat) (signo : Int) : sys × Int :=
  match s.svcs[i]? with
  | none => (s, -ESRCH)
  | some v =>
    if v.child ≤ 0 then (s, -ESRCH)
    else
      let ok := e.kill s.nkill
      let s1 := { s with nkill := s.nkill + 1, log := .kill i v.child signo ok :: s.log }
      if ok then (s1, 0) else (s1, -ESRCH)

/-- `svc_expire_off`, the timer callback of a service that is off. -/
def svc_expire_off (notify : sys → Nat → Nat → sys) (e : env) (s : sys) (i : Nat) : sys :=
  match s.svcs[i]? with
  | none => s
  | some v =>
    match v.state with
    | .STOPPED => s
    | .STOPPING =>
      let r := svc_kill e s i SIGKILL
      if r.2 ≠ 0 then svc_spawn_stop_cmd notify e r.1 i else r.1
    | _ => s

/-- `svc_stop`. -/
def svc_stop (notify : sys → Nat → Nat → sys) (e : env) (s : sys) (i : Nat) : sys :=
  match s.svcs[i]? with
  | none => s
  | some v =>
    let s1 := s.upd i (fun w =>
      { w with handle_evts := .off, handle_notif := .off, state := .STOPPING,
               timer := utimer_setup w.timer .off, stop_cmd := -1 })
    if !svc_may_stop s1 i then s1
    else
      let r := svc_kill e s1 i v.conf.stop_sig
      if r.2 = 0 then r.1.upd i (fun w => { w with timer := utimer_arm_sec w.timer 5 })
      else svc_spawn_stop_cmd notify e r.1 i

/-- `svc_handle_on_evts`, the event handler of a service that is on. -/
def svc_handle_on_evts (notify : sys → Nat → Nat → sys) (e : env) (s : sys) (i : Nat)
    (evt : svc_evt) (status : Int) : sys :=
  match s.svcs[i]? with
  | none => s
  | some v =>
    match v.state with
    | .STARTING =>
      match evt with
      | .START => s
      | .STOP => svc_stop notify e s i
      | .EXIT =>
        if status = 0 then
          svc_respawn notify e
            (s.upd i (fun w => { w with start_cmd := (w.start_cmd + 1) % 4294967296 })) i
        else if !utimer_is_armed v.timer then svc_respawn notify e s i
        else s.upd i (fun w => { w with child := -1 })
    | .READY =>
      match evt with
      | .START => s
      | .STOP => svc_stop notify e s i
      | .EXIT =>
        if !utimer_is_armed v.timer then
          svc_respawn notify e (s.upd i (fun w => { w with state := .STARTING })) i
        else s.upd i (fun w => { w with child := -1 })
    | _ => s

/-- `svc_handle_on_notif`, the notification handler of a service that is on. -/
def svc_handle_on_notif (notify : sys → Nat → Nat → sys) (e : env) (s : sys)
    (i : Nat) (src : Nat) : sys :=
  match s.svcs[i]? with
  | none => s
  | some v =>
    match v.state with
    | .STARTING =>
      match s.state_of src with
      | some .READY => if svc_may_start s i then svc_spawn_start_cmd notify e s i else s
      | _ => s
    | _ => s

/-- `svc_is_on`. -/
def svc_is_on (v : svc) : Bool := v.handle_notif = .on

/-- `svc_handle_notif`: call the notification handler installed in the sink.
The handler may mark the sink READY or STOPPED, which notifies the sink's own
observers through the same function with one unit of fuel less. -/
def svc_handle_notif (e : env) : Nat → sys → Nat → Nat → sys
  | 0, s, _, _ => s.emit .fuel_out
  | fuel + 1, s, i, src =>
    match s.svcs[i]? with
    | none => s
    | some v =>
      match v.handle_notif with
      | .on =>
        svc_handle_on_notif (fun t a b => svc_handle_notif e fuel t a b) e
          (s.emit (.notify i src)) i src
      | .off =>
        svc_handle_off_notif (fun t a b => svc_handle_notif e fuel t a b) e
          (s.emit (.notify i src)) i src

/-- `svc_handle_evts` (`svc.h`): call the event handler installed in the
service. -/
def svc_handle_evts (notify : sys → Nat → Nat → sys) (e : env) (s : sys) (i : Nat)
    (evt : svc_evt) (status : Int) : sys :=
  match s.svcs[i]? with
  | none => s
  | some v =>
    match v.handle_evts with
    | .on => svc_handle_on_evts notify e s i evt status
    | .off => svc_handle_off_evts notify e s i evt status

/-- Modelled from the spec: the expiry of the timer of service `i`, as the
event loop of the external utils library delivers it: a pending timer is
disarmed ("Timers are one-shot") and its callback is called; an idle timer does
nothing. -/
def utimer_expire (notify : sys → Nat → Nat → sys) (e : env) (s : sys) (i : Nat) : sys :=
  match s.svcs[i]? with
  | none => s
  | some v =>
    if utimer_is_armed v.timer then
      let s1 := s.upd i (fun w => { w with timer := { w.timer with armed := none } })
      match v.timer.expire with
      | some .on => svc_expire_on notify e s1 i
      | some .off => svc_expire_off notify e s1 i
      | none => s1
    else s

/-- `svc_init`: a poll per non-NULL descriptor list, with the capacity of the
list and no member; empty observer lists; off-handlers, child -1, STOPPED and
an idle timer.  The two command indices are not initialised by the code: they
are the parameters `start_cmd` and `stop_cmd`. -/
def svc_init (conf : conf_svc) (start_cmd : Nat) (stop_cmd : Int) : svc :=
  { handle_evts := .off
    child := -1
    state := .STOPPED
    handle_notif := .off
    timer := utimer_init
    start_cmd := start_cmd
    starton_obsrv := []
    starton_notif := conf.starton.map (fun l => { nr := l.length, srcs := [] })
    stop_cmd := stop_cmd
    stopon_obsrv := []
    stopon_notif := conf.stopon.map (fun l => { nr := l.length, srcs := [] })
    conf := conf }

/-- The loop of `svc_has_starton_notifier` / `svc_has_stopon_notifier` over the
registered sources of a poll: stop at the first source from which the match is
found.  `none` is a recursive call that ran out of fuel. -/
def notif_any (visit : Nat → Option Bool) : List Nat → Option Bool
  | [] => some false
  | n :: ns =>
    match visit n with
    | none => none
    | some true => some true
    | some false => notif_any visit ns

/-- `svc_has_starton_notifier` and `svc_has_stopon_notifier` (the same code
for the two kinds): is `m` the service `i` itself, or a direct or transitive
notifier of `i`?  The C recursion has no bound; here it recurses on fuel and
answers `none` when the fuel runs out. -/
def svc_has_notifier (k : notif_kind) (s : sys) : Nat → Nat → Nat → Option Bool
  | 0, _, _ => none
  | fuel + 1, i, m =>
    if i = m then some true
    else
      match s.svcs[i]? with
      | none => some false
      | some v =>
        match v.notif k with
        | none => some false
        | some poll => notif_any (fun n => svc_has_notifier k s fuel n m) poll.srcs

/-- `svc_has_starton_notifier`. -/
def svc_has_starton_notifier (s : sys) (fuel : Nat) (i m : Nat) : Option Bool :=
  svc_has_notifier .starton s fuel i m

/-- `svc_has_stopon_notifier`. -/
def svc_has_stopon_notifier (s : sys) (fuel : Nat) (i m : Nat) : Option Bool :=
  svc_has_notifier .stopon s fuel i m

/-- Store a source in the next free member of a poll (`notif->src = src` and
`poll->cnt++` of `notif_register_poll_sink`). -/
def notif_poll.push (poll : notif_poll) (src : Nat) : notif_poll :=
  { poll with srcs := poll.srcs ++ [src] }

/-- Write the poll of a kind. -/
def svc.set_notif (v : svc) (k : notif_kind) (poll : notif_poll) : svc :=
  match k with
  | .starton => { v with starton_notif := some poll }
  | .stopon => { v with stopon_notif := some poll }

/-- Queue a sink at the back of the observer list of a kind. -/
def svc.push_obsrv (v : svc) (k : notif_kind) (sink : Nat) : svc :=
  match k with
  | .starton => { v with starton_obsrv := v.starton_obsrv ++ [sink] }
  | .stopon => { v with stopon_obsrv := v.stopon_obsrv ++ [sink] }

/-- `notif_register_poll_sink(obsrv->notif, &src->obsrv, src)`: the member
`members[cnt]` of the sink's poll gets the source, is queued at the back of the
source's observer list, and `cnt` grows by one. -/
def notif_register_poll_sink (k : notif_kind) (s : sys) (obsrv src : Nat) (poll : notif_poll) :
    sys :=
  (s.upd obsrv (fun w => w.set_notif k (poll.push src))).upd src
    (fun w => w.push_obsrv k obsrv)

/-- `svc_register_starton_obsrv` and `svc_register_stopon_obsrv` (the same code
for the two kinds): `src` is the notifying service, `obsrv` the observer.
`none` stands for what the code does not define: a NULL service or poll
(asserted), a cycle search that does not return, a member written beyond the
capacity of the poll. -/
def svc_register_obsrv (k : notif_kind) (fuel : Nat) (s : sys) (src obsrv : Nat) : Option sys :=
  match s.svcs[src]?, s.svcs[obsrv]? with
  | some _, some o =>
    match o.notif k with
    | none => none
    | some poll =>
      match svc_has_notifier k s fuel src obsrv with
      | none => none
      | some true => some s
      | some false =>
        if notif_get_poll_cnt poll < poll.nr then
          some (notif_register_poll_sink k s obsrv src poll)
        else none
  | _, _ => none

/-- `svc_register_starton_obsrv`. -/
def svc_register_starton_obsrv (fuel : Nat) (s : sys) (src obsrv : Nat) : Option sys :=
  svc_register_obsrv .starton fuel s src obsrv

/-- `svc_register_stopon_obsrv`. -/
def svc_register_stopon_obsrv (fuel : Nat) (s : sys) (src obsrv : Nat) : Option sys :=
  svc_register_obsrv .stopon fuel s src obsrv

/-! ## repo.c, sigchan.c, target.c -/

/-- The scan of `tinit_repo_search_bypid` from position `n` of the list. -/
def tinit_repo_search_bypid_from (pid : Int) : List svc → Nat → Option Nat
  | [], _ => none
  | v :: vs, n => if v.child = pid then some n else tinit_repo_search_bypid_from pid vs (n + 1)

/-- `tinit_repo_search_bypid`: the first service whose child slot holds `pid`. -/
def tinit_repo_search_bypid (s : sys) (pid : Int) : Option Nat :=
  tinit_repo_search_bypid_from pid s.svcs 0

/-- The `si_code` of a SIGCHLD `siginfo_t`. -/
inductive cld_code
  | EXITED
  | KILLED
  | DUMPED
  | TRAPPED
  | STOPPED
  | CONTINUED
  deriving DecidableEq, Repr

/-- The fields of the `siginfo_t` that `waitid(2)` fills. -/
structure siginfo where
  si_pid : Int
  si_code : cld_code
  si_status : Int
  deriving DecidableEq, Repr

/-- `tinit_sigchan_handle_sigchld`: `infos` is what the successive `waitid`
calls return until no child is waitable; `cnt` is the running count of reaped
owners found STOPPED (taken without overflow). -/
def tinit_sigchan_handle_sigchld (notify : sys → Nat → Nat → sys) (e : env) :
    sys → List siginfo → Nat → sys × Nat
  | s, [], cnt => (s, cnt)
  | s, info :: rest, cnt =>
    if info.si_pid = 0 then (s, cnt)
    else
      let s0 := s.emit (.reaped info.si_pid)
      match tinit_repo_search_bypid s0 info.si_pid with
      | none => tinit_sigchan_handle_sigchld notify e s0 rest cnt
      | some i =>
        let s1 :=
          match info.si_code with
          | .EXITED => svc_handle_evts notify e s0 i .EXIT info.si_status
          | .KILLED => svc_handle_evts notify e s0 i .EXIT (-info.si_status)
          | .DUMPED => svc_handle_evts notify e s0 i .EXIT (-info.si_status)
          | _ => s0
        tinit_sigchan_handle_sigchld notify e s1 rest
          (if s1.state_of i = some .STOPPED then cnt + 1 else cnt)

/-- The fields of `struct tinit_sigchan` the dispatchers use: which dispatcher
is installed, the recorded shutdown signal and the drain counter. -/
structure tinit_sigchan where
  stopping : Bool
  signo : Int
  cnt : Nat
  deriving DecidableEq, Repr

/-- `tinit_sigchan_stop`: install the draining dispatcher with the counter. -/
def tinit_sigchan_stop (chan : tinit_sigchan) (cnt : Nat) : tinit_sigchan :=
  { chan with stopping := true, cnt := cnt }

/-- The body of the loop of `tinit_target_stop` for one service of the
repository. -/
def tinit_target_stop_svc (notify : sys → Nat → Nat → sys) (e : env) (acc : sys × Nat)
    (i : Nat) : sys × Nat :=
  match acc.1.state_of i with
  | none => acc
  | some .STOPPED => acc
  | some .STOPPING => (acc.1, acc.2 + 1)
  | some _ =>
    let s1 := svc_stop notify e acc.1 i
    if s1.state_of i = some .STOPPED then (s1, acc.2) else (s1, acc.2 + 1)

/-- The loop of `tinit_target_stop` over the repository: the state and the
count handed to `tinit_sigchan_stop`. -/
def tinit_target_stop_loop (notify : sys → Nat → Nat → sys) (e : env) (s : sys) : sys × Nat :=
  (List.range s.svcs.length).foldl (tinit_target_stop_svc notify e) (s, 0)

/-- `tinit_target_stop`. -/
def tinit_target_stop (notify : sys → Nat → Nat → sys) (e : env) (s : sys)
    (chan : tinit_sigchan) : sys × tinit_sigchan :=
  let r := tinit_target_stop_loop notify e s
  (r.1, tinit_sigchan_stop chan r.2)

def SIGCHLD : Int := 17
def ESHUTDOWN : Int := 108

/-- One record read from the signal descriptor, with what `waitid` finds when
the record is handled. -/
structure signalfd_siginfo where
  ssi_signo : Int
  waitable : List siginfo
  deriving DecidableEq, Repr

/-- `tinit_sigchan_dispatch_stopping`, after the records have been read: each
SIGCHLD record reaps, the drain counter drops by the count returned (unsigned
arithmetic), and the dispatcher returns -ESHUTDOWN once the counter is zero. -/
def tinit_sigchan_dispatch_stopping (notify : sys → Nat → Nat → sys) (e : env) :
    sys → tinit_sigchan → List signalfd_siginfo → sys × tinit_sigchan × Int
  | s, chan, [] => (s, chan, 0)
  | s, chan, info :: rest =>
    if info.ssi_signo = SIGCHLD then
      let r := tinit_sigchan_handle_sigchld notify e s info.waitable 0
      let chan1 := { chan with cnt := (chan.cnt + 4294967296 - r.2 % 4294967296) % 4294967296 }
      if chan1.cnt = 0 then (r.1, chan1, -ESHUTDOWN)
      else tinit_sigchan_dispatch_stopping notify e r.1 chan1 rest
    else tinit_sigchan_dispatch_stopping notify e s chan rest

/-! ## Runs of the supervisor -/

/-- What can happen to the supervisor between two waits of the event loop. -/
inductive input
  | start (i : Nat)
  | stop (i : Nat)
  | evt (i : Nat) (evt : svc_evt) (status : Int)
  | notif (sink : Nat) (src : Nat)
  | expire (i : Nat)
  | sigchld (infos : List siginfo)
  deriving DecidableEq, Repr

/-- One step of the supervisor: a call of `svc_start` or `svc_stop`, an event
handed to `svc_handle_evts`, a notification handed to `svc_handle_notif`, the
expiry of a service timer, or the reaping of children. -/
def step (e : env) (fuel : Nat) (s : sys) : input → sys
  | .start i => svc_start (svc_handle_notif e fuel) e s i
  | .stop i => svc_stop (svc_handle_notif e fuel) e s i
  | .evt i evt status => svc_handle_evts (svc_handle_notif e fuel) e s i evt status
  | .notif sink src => svc_handle_notif e fuel s sink src
  | .expire i => utimer_expire (svc_handle_notif e fuel) e s i
  | .sigchld infos => (tinit_sigchan_handle_sigchld (svc_handle_notif e fuel) e s infos 0).1

/-- A run: the steps taken one after the other, all with the same fuel. -/
def run (e : env) (fuel : Nat) (s : sys) (l : List input) : sys :=
  l.foldl (step e fuel) s

/-- A service as `svc_init` leaves it, whatever its wiring: off-handlers,
child -1, STOPPED, idle timer. -/
def svc.initial (v : svc) : Prop :=
  v.handle_evts = .off ∧ v.handle_notif = .off ∧ v.child = -1 ∧ v.state = .STOPPED ∧
    v.timer = utimer_init

/-- The states the supervisor can reach from initial services. -/
inductive reachable (e : env) : sys → Prop
  | init (s : sys) (h : ∀ v ∈ s.svcs, v.initial) : reachable e s
  | step (s : sys) (fuel : Nat) (a : input) (h : reachable e s) : reachable e (step e fuel s a)

/-- No service has a registered edge of either kind. -/
def sys.unwired (s : sys) : Prop :=
  ∀ v ∈ s.svcs, ∀ k, v.srcs k = [] ∧ v.obsrv k = []

/-- The wirings that calls of `svc_register_starton_obsrv` and
`svc_register_stopon_obsrv` can build from services with no registered edge. -/
inductive wired : sys → Prop
  | init (s : sys) (h : s.unwired) : wired s
  | starton (s t : sys) (fuel src obsrv : Nat) (h : wired s)
      (hreg : svc_register_starton_obsrv fuel s src obsrv = some t) : wired t
  | stopon (s t : sys) (fuel src obsrv : Nat) (h : wired s)
      (hreg : svc_register_stopon_obsrv fuel s src obsrv = some t) : wired t

/-- The service `a` is a direct notifier of kind `k` of the service `b`: it is
a registered source of the poll of `b`. -/
def sys.notifier (s : sys) (k : notif_kind) (a b : Nat) : Prop :=
  ∃ v, s.svcs[b]? = some v ∧ a ∈ v.srcs k

/-- The direct notifiers of a kind go up a rank: the graph is finite in depth,
so the cycle search returns. -/
def sys.ranked (s : sys) (k : notif_kind) : Prop :=
  ∃ r : Nat → Nat, ∀ x y, s.notifier k x y → r x < r y

/-- The invariant of one service: the two handlers and the timer callback belong
to the same family, the on-family is installed exactly in STARTING and READY,
and a READY service holds the pid of its daemon or -1. -/
def svc.good (v : svc) : Prop :=
  v.handle_evts = v.handle_notif ∧
  (v.timer.expire = none ∨ v.timer.expire = some v.handle_notif) ∧
  (v.handle_notif = .on ↔ (v.state = .STARTING ∨ v.state = .READY)) ∧
  (v.state = .READY → (0 < v.child ∧ v.conf.daemon = true) ∨ v.child = -1)

/-- Every service of the repository satisfies the invariant. -/
def sys.inv (s : sys) : Prop := ∀ (i : Nat) (v : svc), s.svcs[i]? = some v → v.good


/-- The children of service `i` that a log (newest first) shows spawned and
not yet reaped. -/
def outstanding (i : Nat) : List action → List Int
  | [] => []
  | .spawn j _ _ pid :: older =>
    if j = i ∧ 0 < pid then pid :: outstanding i older else outstanding i older
  | .reaped pid :: older => (outstanding i older).filter (fun p => decide (p ≠ pid))
  | _ :: older => outstanding i older

/-- The number of services of the repository that are not STOPPED. -/
def not_stopped (s : sys) : Nat :=
  (s.svcs.filter (fun v => decide (v.state ≠ .STOPPED))).length

/-! ## Elementary changes of a notification cascade -/

/-- One elementary change of state inside a notification cascade, with what the
code has checked when it makes it.  With `gated`, a service is only marked
STOPPED when all its registered stopon sources are STOPPED. -/
inductive micro (gated : Bool) : sys → sys → Prop
  | count (s : sys) (nfork nkill : Nat) (l : List action) :
      micro gated s { s with nfork := nfork, nkill := nkill, log := l ++ s.log }
  | arm (s : sys) (i : Nat) (v : svc) (t : Nat) (hv : s.svcs[i]? = some v)
      (hs : v.state = .STARTING ∨ v.state = .STOPPING) :
      micro gated s (s.upd i (fun w => { w with timer := utimer_arm_sec w.timer t }))
  | child_start (s : sys) (i : Nat) (v : svc) (r : Int) (hv : s.svcs[i]? = some v)
      (hs : v.state = .STARTING) (hd : .start_dispatch i ∈ s.log) :
      micro gated s (s.upd i (fun w => { w with child := r }))
  | ready (s : sys) (i : Nat) (v : svc) (hv : s.svcs[i]? = some v) (hs : v.state = .STARTING)
      (hc : (0 < v.child ∧ v.conf.daemon = true) ∨ v.child = -1)
      (hd : .start_dispatch i ∈ s.log) :
      micro gated s (s.upd i (fun w => { w with state := .READY }))
  | stop_index (s : sys) (i : Nat) (v : svc) (hv : s.svcs[i]? = some v)
      (hs : v.state = .STOPPING) :
      micro gated s (s.upd i (fun w => { w with stop_cmd := w.stop_cmd + 1 }))
  | stopped (s : sys) (i : Nat) (v : svc) (hv : s.svcs[i]? = some v) (hs : v.state = .STOPPING)
      (hg : gated = true → ∀ src ∈ v.srcs .stopon, s.state_of src = some .STOPPED)
      (hd : .stop_dispatch i ∈ s.log) :
      micro gated s (s.upd i (fun w => { w with child := -1, state := .STOPPED }))
  | child_stop (s : sys) (i : Nat) (v : svc) (r : Int) (hv : s.svcs[i]? = some v)
      (hs : v.state = .STOPPING) (hd : .stop_dispatch i ∈ s.log) :
      micro gated s (s.upd i (fun w => { w with child := r }))

/-- A sequence of elementary changes. -/
def casc (gated : Bool) : sys → sys → Prop := Relation.ReflTransGen (micro gated)

/-- Between `s` and `t` no STOPPED service was touched, and every service that
became STOPPED has all its registered stopon sources STOPPED in `t`. -/
def sys.settles (s t : sys) : Prop :=
  (∀ (j : Nat) (w : svc), s.svcs[j]? = some w → w.state = .STOPPED → t.svcs[j]? = some w) ∧
  (∀ (j : Nat) (w : svc), t.svcs[j]? = some w → w.state = .STOPPED →
    s.state_of j = some .STOPPED ∨ ∀ src ∈ w.srcs .stopon, t.state_of src = some .STOPPED)


/-- Since the log was `base`, the start dispatcher of service `a` has run, or
the service `a` is still the record `va`. -/
def sys.dispatched (t : sys) (base : List action) (a : Nat) (va : svc) : Prop :=
  ∃ l, t.log = l ++ base ∧ (.start_dispatch a ∈ l ∨ t.svcs[a]? = some va)

/-- Since the log was `base`, the start dispatcher of service `a` has run. -/
def sys.ran (t : sys) (base : List action) (a : Nat) : Prop :=
  ∃ l, t.log = l ++ base ∧ .start_dispatch a ∈ l

/-! ## common.c and conf.c: names -/

def LOWER_CHARSET : List Char := "abcdefghijklmnopqrstuvwxyz".toList
def UPPER_CHARSET : List Char := "ABCDEFGHIJKLMNOPQRSTUVWXYZ".toList
def ALPHA_CHARSET : List Char := LOWER_CHARSET ++ UPPER_CHARSET
def DIGIT_CHARSET : List Char := "0123456789".toList
def ALNUM_CHARSET : List Char := ALPHA_CHARSET ++ DIGIT_CHARSET

/-- The terminating character of a C string. -/
def NUL : Char := Char.ofNat 0

/-- The character `str[i]` of a C string given by its characters before the
terminating NUL: the NUL itself at the length of the string. -/
def char_at (str : List Char) (i : Nat) : Char := str.getD i NUL

/-- The library function `isalnum(3)` in the C locale: a letter of the basic
Latin alphabet or a decimal digit. -/
def isalnum (c : Char) : Bool :=
  decide ((65 ≤ c.toNat ∧ c.toNat ≤ 90) ∨ (97 ≤ c.toNat ∧ c.toNat ≤ 122) ∨
    (48 ≤ c.toNat ∧ c.toNat ≤ 57))

/-- The library function `isdigit(3)`: a decimal digit. -/
def isdigit (c : Char) : Bool := decide (48 ≤ c.toNat ∧ c.toNat ≤ 57)

/-- The library function `strspn(3)`: the length of the longest prefix of `str`
made of characters of `accept`. -/
def strspn (str accept : List Char) : Nat :=
  (str.takeWhile (fun c => accept.contains c)).length

def TINIT_SVC_NAME_MAX : Nat := 32
def SVC_ENV_NAME_MAX : Nat := 64
def ENOENT : Int := 2
def EINVAL : Int := 22
def ENOSPC : Int := 28
def ENAMETOOLONG : Int := 36
def ENODATA : Int := 61
def EPROTO : Int := 71
def EMSGSIZE : Int := 90

/-- `tinit_probe_inval_char`: the first character found not allowed, or 0. -/
def tinit_probe_inval_char (name : List Char) (len : Nat) : Int :=
  let chr : Nat :=
    if !isalnum (char_at name 0) then 0
    else if !isalnum (char_at name (len - 1)) then len - 1
    else strspn name (ALNUM_CHARSET ++ "-_.@".toList)
  if chr ≠ len then ((char_at name chr).toNat : Int) else 0

/-- `tinit_check_svc_name`. -/
def tinit_check_svc_name (name : List Char) (len : Nat) : Int :=
  if len = 0 then -ENODATA
  else if len ≥ TINIT_SVC_NAME_MAX then -ENAMETOOLONG
  else if tinit_probe_inval_char name len ≠ 0 then -EINVAL
  else 0

/-- The class `[A-Za-z0-9]` of the specification. -/
def spec_class_alnum (c : Char) : Bool :=
  decide (('A' ≤ c ∧ c ≤ 'Z') ∨ ('a' ≤ c ∧ c ≤ 'z') ∨ ('0' ≤ c ∧ c ≤ '9'))

/-- The class `[A-Za-z0-9._@-]` of the specification. -/
def spec_class_name (c : Char) : Bool :=
  spec_class_alnum c || decide (c = '.' ∨ c = '_' ∨ c = '@' ∨ c = '-')

/-- The pattern of the specification for a service name,
`[A-Za-z0-9][A-Za-z0-9._@-]*[A-Za-z0-9]`: a first character, any number of
middle characters, a last character. -/
def spec_svc_name_pattern (name : List Char) : Bool :=
  match name with
  | [] => false
  | first :: rest =>
    match rest.getLast? with
    | none => false
    | some last =>
      spec_class_alnum first && rest.dropLast.all spec_class_name && spec_class_alnum last

/-- The code of `conf_parse_env_var` after the name has been fetched from the
setting: `str` is the name. -/
def conf_parse_env_var (str : List Char) : Int :=
  let len := min str.length SVC_ENV_NAME_MAX
  if len ≥ SVC_ENV_NAME_MAX then -EMSGSIZE
  else
    let chr : Nat :=
      if isdigit (char_at str 0) then 0 else strspn str (ALNUM_CHARSET ++ "_".toList)
    if chr ≠ len then -EINVAL else (len : Int)

/-- The class `[A-Z_]` of the specification. -/
def spec_class_env_first (c : Char) : Bool := decide (('A' ≤ c ∧ c ≤ 'Z') ∨ c = '_')

/-- The class `[A-Z0-9_]` of the specification. -/
def spec_class_env (c : Char) : Bool :=
  decide (('A' ≤ c ∧ c ≤ 'Z') ∨ ('0' ≤ c ∧ c ≤ '9') ∨ c = '_')

/-- The pattern of the specification for the name of an environment variable,
`[A-Z_][A-Z0-9_]*`. -/
def spec_env_name_pattern (name : List Char) : Bool :=
  match name with
  | [] => false
  | first :: rest => spec_class_env_first first && rest.all spec_class_env

/-! ## srv.c and lib.c: the control protocol -/

/-- Modelled from the spec: a datagram buffer, `struct unsk_dgram_buff` of the
external utils library, as the code uses it: `bytes` is the size of the
datagram received or to send, and `data` is the memory of the buffer, one byte
per offset.  "Request/reply datagrams ...  Max total 4096 bytes." -/
structure unsk_dgram_buff where
  bytes : Nat
  data : Nat → Nat

/-- Read a `uint16_t` at an offset of a memory (the low byte first). -/
def load_u16 (data : Nat → Nat) (off : Nat) : Nat := data off + 256 * data (off + 1)

/-- Write a `uint16_t` at an offset of a memory (the low byte first). -/
def store_u16 (data : Nat → Nat) (off : Nat) (v : Nat) : Nat → Nat :=
  Function.update (Function.update data off (v % 256)) (off + 1) (v / 256 % 256)

/-- Read a `uint32_t` at an offset of a memory (the low byte first). -/
def load_u32 (data : Nat → Nat) (off : Nat) : Nat :=
  data off + 256 * data (off + 1) + 65536 * data (off + 2) + 16777216 * data (off + 3)

/-- Write a `uint32_t` at an offset of a memory (the low byte first). -/
def store_u32 (data : Nat → Nat) (off : Nat) (v : Nat) : Nat → Nat :=
  Function.update (Function.update (Function.update (Function.update data off (v % 256))
    (off + 1) (v / 256 % 256)) (off + 2) (v / 65536 % 256)) (off + 3) (v / 16777216 % 256)

/-- The library function `memcpy(3)` to an offset of a memory, from a list of
bytes. -/
def memcpy (data : Nat → Nat) (off : Nat) (src : List Nat) : Nat → Nat :=
  fun i => if off ≤ i ∧ i < off + src.length then src.getD (i - off) 0 else data i

/-- The library function `strnlen(3)` on the string at an offset of a memory:
the number of bytes before the first zero byte, `max` at most. -/
def strnlen (data : Nat → Nat) (off : Nat) : Nat → Nat
  | 0 => 0
  | max + 1 => if data off = 0 then 0 else strnlen data (off + 1) max + 1

/-- The bytes `data[off .. off + n)` of a memory. -/
def mem_bytes (data : Nat → Nat) (off n : Nat) : List Nat :=
  (List.range n).map (fun i => data (off + i))

def TINIT_MSG_TYPE_NR : Nat := 6

def TINIT_STATUS_MSG_TYPE : Nat := 0

def TINIT_SVC_PATTERN_MAX : Nat := 256

def TINIT_MSG_SIZE_MAX : Nat := 4096

def NAME_MAX : Nat := 255

/-- `tinit_srv_parse_request`: the value returned and, when the request is
accepted, what is written to `*type` and to `pattern`.  The header
`struct tinit_request_msg` is 4 bytes: `seq` at offset 0, `type` at offset 2,
the pattern from offset 4.  `sz` is a `size_t`: the subtraction wraps. -/
def tinit_srv_parse_request (buff : unsk_dgram_buff) : Int × Option (Nat × List Nat) :=
  let sz := (buff.bytes + 18446744073709551616 - 4) % 18446744073709551616
  if sz ≤ 1 ∨ sz > TINIT_SVC_PATTERN_MAX then (-EPROTO, none)
  else if load_u16 buff.data 2 ≥ TINIT_MSG_TYPE_NR then (-EPROTO, none)
  else if strnlen buff.data 4 sz + 1 ≠ sz then (-EPROTO, none)
  else (((sz - 1 : Nat) : Int), some (load_u16 buff.data 2, mem_bytes buff.data 4 sz))

/-- Modelled from the spec: `stroll_round_upper` of the external stroll
library, the next multiple of `align` from `value` on.  "packed records, each
aligned to the record-struct alignment". -/
def stroll_round_upper (value align : Nat) : Nat := (value + align - 1) / align * align

/-- Modelled from the spec: `uround_upper` of the external utils library, the
next multiple of `align` from `value` on.  "packed records, each aligned to the
record-struct alignment". -/
def uround_upper (value align : Nat) : Nat := (value + align - 1) / align * align

/-- The value of a constant of `enum tinit_svc_state`. -/
def tinit_svc_state.code : tinit_svc_state → Nat
  | .STOPPED => 0
  | .STARTING => 1
  | .READY => 2
  | .STOPPING => 3

def FNM_NOMATCH : Int := 1

/-- `tinit_srv_build_reply`: `ret` goes negated into the `ret` field of the
reply head (`struct tinit_reply_head`: `seq` at offset 0, `type` at offset 2,
`ret` at offset 4), and the reply is the 6 bytes of the head. -/
def tinit_srv_build_reply (buff : unsk_dgram_buff) (ret : Int) : unsk_dgram_buff :=
  { bytes := 6, data := store_u16 buff.data 4 ((-ret) % 65536).toNat }

/-- `tinit_srv_setup_status_reply`: `ret` is 0 and the reply is the 8 bytes of
`struct tinit_status_reply` (the head and 2 bytes of padding before the first
record). -/
def tinit_srv_setup_status_reply (buff : unsk_dgram_buff) : unsk_dgram_buff :=
  { bytes := 8, data := store_u16 buff.data 4 0 }

/-- `tinit_srv_append_status_reply`: the buffer and the value returned.  A
record `struct tinit_status_data` is 8 bytes: `pid` at offset 0, `adm_state` at
offset 4, `run_state` at offset 5, and `conf_path` starts at offset 6.  `path`
holds the bytes of the string before its NUL. -/
def tinit_srv_append_status_reply (buff : unsk_dgram_buff) (pid : Int) (is_on : Bool)
    (state : tinit_svc_state) (path : List Nat) (len : Nat) : unsk_dgram_buff × Int :=
  let off := stroll_round_upper buff.bytes 8
  let sz := off + (8 + len + 1)
  if sz > TINIT_MSG_SIZE_MAX then
    ({ bytes := 6, data := store_u16 buff.data 4 ENOSPC.toNat }, -ENOSPC)
  else
    let d1 := store_u32 buff.data off (to_unsigned pid)
    let d2 := Function.update d1 (off + 4) (if is_on then 1 else 0)
    let d3 := Function.update d2 (off + 5) state.code
    ({ bytes := sz, data := memcpy d3 (off + 6) ((path ++ [0]).take (len + 1)) }, 0)

/-- The loop of `tinit_srv_request_status` over the repository list, then the
test of `cnt`.  `fnmatch` is the library function with the flags of the code
applied; `cnt` is taken without overflow (fewer than 4096 records fit). -/
def tinit_srv_request_status_loop (fnmatch : List Nat → String → Int) (pattern : List Nat) :
    List svc → unsk_dgram_buff → Nat → unsk_dgram_buff
  | [], buff, cnt => if cnt = 0 then tinit_srv_build_reply buff (-ENOENT) else buff
  | v :: rest, buff, cnt =>
    if fnmatch pattern v.conf.name = FNM_NOMATCH then
      tinit_srv_request_status_loop fnmatch pattern rest buff cnt
    else if fnmatch pattern v.conf.name ≠ 0 then tinit_srv_build_reply buff (-EINVAL)
    else
      let r := tinit_srv_append_status_reply buff v.child (svc_is_on v) v.state v.conf.path
        v.conf.path.length
      if r.2 ≠ 0 then r.1
      else tinit_srv_request_status_loop fnmatch pattern rest r.1 (cnt + 1)

/-- `tinit_srv_request_status`: the reply left in the buffer. -/
def tinit_srv_request_status (fnmatch : List Nat → String → Int) (s : sys)
    (buff : unsk_dgram_buff) (pattern : List Nat) : unsk_dgram_buff :=
  tinit_srv_request_status_loop fnmatch pattern s.svcs (tinit_srv_setup_status_reply buff) 0

/-- The size of a status reply that holds a record per path of the list after
`bytes` bytes: each record starts at the next multiple of 8 and takes 8 bytes,
the path and its NUL. -/
def status_reply_size (bytes : Nat) : List (List Nat) → Nat
  | [] => bytes
  | p :: ps => status_reply_size (stroll_round_upper bytes 8 + (8 + p.length + 1)) ps

/-- The services of a list whose name the pattern matches. -/
def status_matches (fnmatch : List Nat → String → Int) (pattern : List Nat) (l : List svc) :
    List svc :=
  l.filter (fun v => decide (fnmatch pattern v.conf.name = 0))

/-- `struct tinit_status_iter` (`tinit.h`), pointers as offsets into the reply:
`end_off` is the field `end`, `status` the record under the iterator and `len`
the length of its path. -/
structure tinit_status_iter where
  end_off : Nat
  status : Nat
  len : Nat
  deriving DecidableEq, Repr

/-- The value of `(pid_t)x` for a `uint32_t` x. -/
def to_signed (x : Nat) : Int := if x < 2147483648 then (x : Int) else (x : Int) - 4294967296

/-- `tinit_parse_status_data`: the memory (the `pid` of the record is cleared
unless the record is READY) and the value returned. -/
def tinit_parse_status_data (data : Nat → Nat) (status end_off : Nat) : (Nat → Nat) × Int :=
  if status + 6 < end_off then
    let max := min (end_off - (status + 6)) NAME_MAX
    let len := strnlen data (status + 6) max
    if len = 0 ∨ len ≥ max then (data, -EPROTO)
    else if data (status + 4) = 0 then
      if data (status + 5) = tinit_svc_state.STOPPED.code ∨
          data (status + 5) = tinit_svc_state.STOPPING.code then
        (store_u32 data status 0, (len : Int))
      else (data, -EPROTO)
    else if data (status + 4) = 1 then
      if data (status + 5) = tinit_svc_state.STARTING.code then
        (store_u32 data status 0, (len : Int))
      else if data (status + 5) = tinit_svc_state.READY.code then
        if load_u32 data status = 0 then (data, -EPROTO) else (data, (len : Int))
      else (data, -EPROTO)
    else (data, -EPROTO)
  else (data, -ENOENT)

/-- `tinit_step_status`: the memory, the iterator and the value returned. -/
def tinit_step_status (data : Nat → Nat) (iter : tinit_status_iter) :
    (Nat → Nat) × tinit_status_iter × Int :=
  let nxt := iter.status + uround_upper (8 + iter.len + 1) 8
  let r := tinit_parse_status_data data nxt iter.end_off
  if r.2 < 0 then (r.1, iter, r.2)
  else (r.1, { iter with len := r.2.toNat, status := nxt }, 0)

/-- `tinit_parse_status_reply`: the memory, the iterator when the reply is
accepted, and the value returned. -/
def tinit_parse_status_reply (data : Nat → Nat) (size : Nat) (seqno : Nat) :
    (Nat → Nat) × Option tinit_status_iter × Int :=
  if size < 6 ∨ load_u16 data 0 ≠ seqno ∨ load_u16 data 2 ≠ TINIT_STATUS_MSG_TYPE then
    (data, none, -EPROTO)
  else if load_u16 data 4 ≠ 0 then (data, none, -(load_u16 data 4 : Int))
  else if size < 8 then (data, none, -EPROTO)
  else
    let r := tinit_parse_status_data data 8 size
    if r.2 < 0 then (r.1, none, -EPROTO)
    else (r.1, some { end_off := size, status := 8, len := r.2.toNat }, 0)

/-- What the getters `tinit_get_status_pid`, `tinit_get_status_adm_state`,
`tinit_get_status_run_state` and the path used by `tinit_get_status_conf` give
for the record under an iterator. -/
structure status_row where
  pid : Int
  adm_state : Bool
  run_state : Nat
  conf_path : List Nat
  deriving DecidableEq, Repr

/-- `tinit_get_status_pid`. -/
def tinit_get_status_pid (data : Nat → Nat) (iter : tinit_status_iter) : Int :=
  to_signed (load_u32 data iter.status)

/-- `tinit_get_status_adm_state`. -/
def tinit_get_status_adm_state (data : Nat → Nat) (iter : tinit_status_iter) : Bool :=
  decide (data (iter.status + 4) ≠ 0)

/-- `tinit_get_status_run_state`. -/
def tinit_get_status_run_state (data : Nat → Nat) (iter : tinit_status_iter) : Nat :=
  data (iter.status + 5)

/-- The record under an iterator, read through the getters. -/
def status_row_at (data : Nat → Nat) (iter : tinit_status_iter) : status_row :=
  { pid := tinit_get_status_pid data iter
    adm_state := tinit_get_status_adm_state data iter
    run_state := tinit_get_status_run_state data iter
    conf_path := mem_bytes data (iter.status + 6) iter.len }

/-- The loop of `show_status` (`svctl.c`): read the record under the iterator,
then `tinit_step_status`, until it returns a nonzero value: the records read
and that value.  The loop has no bound in the code; here it runs on fuel and
answers `none` when the fuel runs out. -/
def show_status_rows : Nat → (Nat → Nat) → tinit_status_iter → Option (List status_row × Int)
  | 0, _, _ => none
  | fuel + 1, data, iter =>
    let row := status_row_at data iter
    let r := tinit_step_status data iter
    if r.2.2 ≠ 0 then some ([row], r.2.2)
    else
      match show_status_rows fuel r.1 r.2.1 with
      | none => none
      | some w => some (row :: w.1, w.2)

/-- The record the server appends for a service, as a client is to read it:
the pid of a READY service and 0 otherwise, whether the service is on, the
run state and the file name. -/
def status_row_of (v : svc) : status_row :=
  { pid := if v.state = .READY then v.child else 0
    adm_state := svc_is_on v
    run_state := v.state.code
    conf_path := v.conf.path }

/-- What the server asserts or keeps invariant about a service it reports: the
invariant `svc.good`, a child slot that is a `pid_t`, and a file name of 1 to
254 bytes none of which is zero. -/
def svc.reportable (v : svc) : Prop :=
  v.good ∧ -2147483648 ≤ v.child ∧ v.child < 2147483648 ∧
    0 < v.conf.path.length ∧ v.conf.path.length < NAME_MAX ∧ (0 : Nat) ∉ v.conf.path

/-- The record of the service `v` is stored at the offset `o` of a memory, the
`pid` as the server wrote it. -/
def status_held (D : Nat → Nat) (o : Nat) (v : svc) : Prop :=
  load_u32 D o = to_unsigned v.child ∧
  D (o + 4) = (if svc_is_on v then 1 else 0) ∧
  D (o + 5) = v.state.code ∧
  (∀ i, i < v.conf.path.length → D (o + 6 + i) = v.conf.path.getD i 0) ∧
  D (o + 6 + v.conf.path.length) = 0

/-- The records of the services of a list are stored one after the other from
the offset `o` on, in a reply of `e` bytes that ends with the last of them. -/
def status_stored (D : Nat → Nat) : Nat → List svc → Nat → Prop
  | o, [], e => e ≤ o + 6
  | o, v :: rest, e =>
    status_held D o v ∧ o + (8 + v.conf.path.length + 1) ≤ e ∧
      status_stored D (o + uround_upper (8 + v.conf.path.length + 1) 8) rest e

/-! ## srv.c, target.c and repo.c: requests, target switch, repository load -/

/-- The library function `strncmp(3)` on two strings, up to the sign of a
nonzero value: 0 exactly when the strings agree on their first `n` characters. -/
def strncmp (a b : List Char) (n : Nat) : Int := if a.take n = b.take n then 0 else 1

/-- The scan of `tinit_repo_search_byname` from position `n` of the list. -/
def tinit_repo_search_byname_from (name : String) : List svc → Nat → Option Nat
  | [], _ => none
  | v :: vs, n =>
    if strncmp v.conf.name.toList name.toList TINIT_SVC_NAME_MAX = 0 then some n
    else tinit_repo_search_byname_from name vs (n + 1)

/-- `tinit_repo_search_byname`: the first service of the list with the name. -/
def tinit_repo_search_byname (s : sys) (name : String) : Option Nat :=
  tinit_repo_search_byname_from name s.svcs 0

/-- `tinit_srv_request_start`: the state of the supervisor and the reply. -/
def tinit_srv_request_start (notify : sys → Nat → Nat → sys) (e : env) (s : sys)
    (buff : unsk_dgram_buff) (name : String) (len : Nat) : sys × unsk_dgram_buff :=
  if tinit_check_svc_name name.toList len ≠ 0 then
    (s, tinit_srv_build_reply buff (tinit_check_svc_name name.toList len))
  else
    match tinit_repo_search_byname s name with
    | some i =>
      match s.state_of i with
      | some .STARTING => (s, tinit_srv_build_reply buff 0)
      | some .READY => (s, tinit_srv_build_reply buff 0)
      | _ => (svc_start notify e s i, tinit_srv_build_reply buff 0)
    | none => (s, tinit_srv_build_reply buff (-ENOENT))

/-- `tinit_srv_request_stop`: the state of the supervisor and the reply. -/
def tinit_srv_request_stop (notify : sys → Nat → Nat → sys) (e : env) (s : sys)
    (buff : unsk_dgram_buff) (name : String) (len : Nat) : sys × unsk_dgram_buff :=
  if tinit_check_svc_name name.toList len ≠ 0 then
    (s, tinit_srv_build_reply buff (tinit_check_svc_name name.toList len))
  else
    match tinit_repo_search_byname s name with
    | some i =>
      match s.state_of i with
      | some .STOPPED => (s, tinit_srv_build_reply buff 0)
      | some .STOPPING => (s, tinit_srv_build_reply buff 0)
      | _ => (svc_stop notify e s i, tinit_srv_build_reply buff 0)
    | none => (s, tinit_srv_build_reply buff (-ENOENT))

/-- `svc_reload`: send the reload signal of the descriptor (the value of
`svc_kill` is dropped). -/
def svc_reload (e : env) (s : sys) (i : Nat) : sys :=
  match s.svcs[i]? with
  | none => s
  | some v => (svc_kill e s i v.conf.reload_sig).1

/-- `tinit_srv_request_reload`: the state of the supervisor and the reply. -/
def tinit_srv_request_reload (notify : sys → Nat → Nat → sys) (e : env) (s : sys)
    (buff : unsk_dgram_buff) (name : String) (len : Nat) : sys × unsk_dgram_buff :=
  if tinit_check_svc_name name.toList len ≠ 0 then
    (s, tinit_srv_build_reply buff (tinit_check_svc_name name.toList len))
  else
    match tinit_repo_search_byname s name with
    | some i =>
      match s.state_of i with
      | some .STOPPED => (svc_start notify e s i, tinit_srv_build_reply buff 0)
      | some .STOPPING => (svc_start notify e s i, tinit_srv_build_reply buff 0)
      | some .STARTING => (s, tinit_srv_build_reply buff 0)
      | some .READY => (svc_reload e s i, tinit_srv_build_reply buff 0)
      | none => (s, tinit_srv_build_reply buff 0)
    | none => (s, tinit_srv_build_reply buff (-ENOENT))

/-- The test `state == STARTING || state == READY` of `target.c`. -/
def svc.active (v : svc) : Bool := decide (v.state = .STARTING ∨ v.state = .READY)

/-- What a notification cascade leaves as it is in a service: the descriptor,
the registered edges, the handlers, and whether the service is active. -/
def svc.frame (v : svc) :
    conf_svc × Option notif_poll × Option notif_poll × List Nat × List Nat × handlers ×
      handlers × Bool :=
  (v.conf, v.starton_notif, v.stopon_notif, v.starton_obsrv, v.stopon_obsrv, v.handle_evts,
    v.handle_notif, v.active)

/-- The writes of `svc_start` to the service. -/
def svc.turn_on (w : svc) : svc :=
  { w with handle_evts := .on, handle_notif := .on, state := .STARTING,
           timer := utimer_setup w.timer .on, start_cmd := 0 }

/-- The writes of `svc_stop` to the service. -/
def svc.turn_off (w : svc) : svc :=
  { w with handle_evts := .off, handle_notif := .off, state := .STOPPING,
           timer := utimer_setup w.timer .off, stop_cmd := -1 }

/-- The library function `strcmp(3)` on two strings, up to the sign of a
nonzero value: 0 exactly when the strings are equal. -/
def strcmp (a b : List Char) : Int := if a = b then 0 else 1

/-- The inner loop of `tinit_target_switch`: is there a service of the table
`iter` of the new target with the name `name`? -/
def tinit_target_switch_found (s : sys) (iter : List Nat) (name : String) : Bool :=
  iter.any (fun c =>
    match s.svcs[c]? with
    | some curr => decide (strcmp curr.conf.name.toList name.toList = 0)
    | none => false)

/-- The body of the loop of `tinit_target_switch` for one service of the
repository. -/
def tinit_target_switch_svc (notify : sys → Nat → Nat → sys) (e : env) (iter : List Nat)
    (s : sys) (i : Nat) : sys :=
  match s.svcs[i]? with
  | none => s
  | some v =>
    if !tinit_target_switch_found s iter v.conf.name then
      if v.state = .STARTING ∨ v.state = .READY then svc_stop notify e s i else s
    else
      if v.state = .STOPPED ∨ v.state = .STOPPING then svc_start notify e s i else s

/-- `tinit_target_switch`, once `tinit_target_init_iter` has read the directory
of the target: `iter` is its table, the services of the repository that the
entries of the directory resolve to.  The state and the value returned. -/
def tinit_target_switch (notify : sys → Nat → Nat → sys) (e : env) (s : sys)
    (iter : List Nat) : sys × Int :=
  if iter.length = 0 then (s, -ENOENT)
  else ((List.range s.svcs.length).foldl (tinit_target_switch_svc notify e iter) s, 0)

/-- The loop of `tinit_repo_setup_svc_starton` and `tinit_repo_setup_svc_stopon`
(the same code for the two kinds) over the names of the list of the service
`svc`: each name found in the repository is registered as a notifier of `svc`;
a name not found is skipped with a warning.  `none` is a registration that the
code does not define. -/
def tinit_repo_setup_svc_names (k : notif_kind) (fuel : Nat) (svc : Nat) :
    List String → sys → Option sys
  | [], s => some s
  | name :: names, s =>
    match tinit_repo_search_byname s name with
    | some notif =>
      match svc_register_obsrv k fuel s notif svc with
      | none => none
      | some s1 => tinit_repo_setup_svc_names k fuel svc names s1
    | none => tinit_repo_setup_svc_names k fuel svc names s

/-- `tinit_repo_setup_svc_starton`. -/
def tinit_repo_setup_svc_starton (fuel : Nat) (s : sys) (svc : Nat) : Option sys :=
  match s.svcs[svc]? with
  | none => some s
  | some v =>
    match v.conf.starton with
    | none => some s
    | some names => tinit_repo_setup_svc_names .starton fuel svc names s

/-- `tinit_repo_setup_svc_stopon`. -/
def tinit_repo_setup_svc_stopon (fuel : Nat) (s : sys) (svc : Nat) : Option sys :=
  match s.svcs[svc]? with
  | none => some s
  | some v =>
    match v.conf.stopon with
    | none => some s
    | some names => tinit_repo_setup_svc_names .stopon fuel svc names s

/-- The second loop of `tinit_repo_load`, the wiring pass: for each service of
the repository in list order, `tinit_repo_setup_svc_starton` then
`tinit_repo_setup_svc_stopon`. -/
def tinit_repo_load_wire (fuel : Nat) : List Nat → sys → Option sys
  | [], s => some s
  | svc :: rest, s =>
    match tinit_repo_setup_svc_starton fuel s svc with
    | none => none
    | some s1 =>
      match tinit_repo_setup_svc_stopon fuel s1 svc with
      | none => none
      | some s2 => tinit_repo_load_wire fuel rest s2

def DT_REG : Nat := 8

/-- The fields of a `struct dirent` that the repository reads. -/
structure dirent where
  d_type : Nat
  d_name : String
  deriving DecidableEq, Repr

/-- The library function `strrchr(3)`: the string from the last occurrence of
the character on, none when the character does not occur. -/
def strrchr : List Char → Char → Option (List Char)
  | [], _ => none
  | a :: rest, c =>
    match strrchr rest c with
    | some r => some r
    | none => if a = c then some (a :: rest) else none

/-- `svc_create`: a service as `svc_init` leaves it; `junk` is what the two
command indices hold in the memory that `malloc` returns. -/
def svc_create (conf : conf_svc) (junk : Nat × Int) : svc := svc_init conf junk.1 junk.2

/-- `tinit_repo_load_svc`: the repository list after the directory entry has
been handled (memory allocation does not fail).  `conf_create_from_file` is
what the parser of the descriptors returns for a file name of the directory:
the descriptor, or none when the file is not a valid descriptor. -/
def tinit_repo_load_svc (conf_create_from_file : String → Option conf_svc)
    (junk : Nat → Nat × Int) (repo : List svc) (ent : dirent) : List svc :=
  if ent.d_type ≠ DT_REG then repo
  else
    match strrchr ent.d_name.toList '.' with
    | none => repo
    | some ext =>
      if strcmp (ext.drop 1) "conf".toList ≠ 0 then repo
      else
        match conf_create_from_file ent.d_name with
        | none => repo
        | some conf => repo ++ [svc_create conf (junk repo.length)]

/-- `tinit_repo_load`: the entries of the directory are loaded in the order
`readdir` gives them, then the wiring pass runs.  `none` is a wiring that the
code does not define. -/
def tinit_repo_load (conf_create_from_file : String → Option conf_svc)
    (junk : Nat → Nat × Int) (fuel : Nat) (ents : List dirent) : Option sys :=
  let repo := ents.foldl (tinit_repo_load_svc conf_create_from_file junk) []
  tinit_repo_load_wire fuel (List.range repo.length)
    { svcs := repo, nfork := 0, nkill := 0, log := [] }

/-- The checks of `conf_load_root` and `conf_parse_name_setting` that a loaded
descriptor has passed: a name that `tinit_check_svc_name` accepts, a command
or a daemon, and starton and stopon lists that hold neither the same name
twice nor the name of the descriptor. -/
def conf_svc.valid (conf : conf_svc) : Bool :=
  decide (tinit_check_svc_name conf.name.toList conf.name.length = 0) &&
  (decide (conf.start_nr ≠ 0) || decide (conf.stop_nr ≠ 0) || conf.daemon) &&
  (match conf.starton with
   | none => true
   | some l => decide (conf.name ∉ l ∧ l.Nodup)) &&
  (match conf.stopon with
   | none => true
   | some l => decide (conf.name ∉ l ∧ l.Nodup))

/-- The descriptor that `tinit_repo_load_svc` loads for a directory entry: the
one the parser returns for a regular file with the extension "conf", none for
any other entry. -/
def loaded_descriptor (conf_create_from_file : String → Option conf_svc) (ent : dirent) :
    Option conf_svc :=
  if ent.d_type = DT_REG ∧ (strrchr ent.d_name.toList '.').map (fun ext => ext.drop 1) =
      some "conf".toList then conf_create_from_file ent.d_name
  else none

/-- The two assertions at the head of `svc_reload`: the service is READY and
its child slot holds a pid. -/
def svc_reload_asserts (s : sys) (i : Nat) : Bool :=
  match s.svcs[i]? with
  | none => false
  | some v => decide (v.state = .READY) && decide (0 < v.child)

/-! ## conf.c: the stdin and stdout settings -/

def PATH_MAX : Nat := 4096

def ENOTTY : Int := 25

def EBADMSG : Int := 74

/-- `conf_parse_string_setting`: `setting` is what `config_setting_get_string`
returns, the string of a string setting and none (NULL) for a setting of
another type.  The value returned, and what is stored through `string` (none
when nothing is stored). -/
def conf_parse_string_setting (setting : Option (List Char)) (max_size : Nat) :
    Int × Option (List Char) :=
  match setting with
  | none => (-EBADMSG, none)
  | some str =>
    if min str.length max_size = 0 then (-ENODATA, none)
    else if min str.length max_size ≥ max_size then (-EMSGSIZE, none)
    else ((min str.length max_size : Nat), some str)

/-- `conf_load_stdio`: the value returned, and what is stored through `path`
(none when nothing is stored). -/
def conf_load_stdio (setting : Option (List Char)) : Int × Option (List Char) :=
  let r := conf_parse_string_setting setting PATH_MAX
  if r.1 < 0 then (-r.1, none)
  else
    match r.2 with
    | none => (r.1, none)
    | some str =>
      if (strspn str (ALNUM_CHARSET ++ "/._-".toList) : Int) ≠ r.1 % 4294967296 then
        (-EINVAL, none)
      else (r.1, some str)

/-- What `conf_load_stdin` and `conf_load_stdout` do with a setting: return a
code before the local variable `path` is read; read `path` while nothing has
been stored in it, with `len` the value got from `conf_load_stdio`; or store in
the descriptor the copy `strrep(path, len)` of the string that `path` points
to, and return 0 (memory allocation does not fail). -/
inductive conf_stdio_load
  | returned (code : Int)
  | unset_path (len : Int)
  | stored (path : List Char) (len : Int)
  deriving DecidableEq, Repr

/-- `conf_load_stdin`. -/
def conf_load_stdin (setting : Option (List Char)) : conf_stdio_load :=
  let r := conf_load_stdio setting
  if r.1 < 0 then .returned r.1
  else if r.1 ≤ 5 then .returned (-ENOTTY)
  else
    match r.2 with
    | none => .unset_path r.1
    | some path =>
      if path.take 5 ≠ "/dev/".toList then .returned (-ENOTTY) else .stored path r.1

/-- `conf_load_stdout`. -/
def conf_load_stdout (setting : Option (List Char)) : conf_stdio_load :=
  let r := conf_load_stdio setting
  if r.1 < 0 then .returned r.1
  else
    match r.2 with
    | none => .unset_path r.1
    | some path => .stored path r.1



/-! ## The polls during the wiring pass -/

/-- The descriptor list of a kind: what `conf_get_starton` and
`conf_get_stopon` return. -/
def conf_svc.names (conf : conf_svc) : notif_kind → Option (List String)
  | .starton => conf.starton
  | .stopon => conf.stopon

/-- The count `cnt` of the poll of kind `k` of the service `j` (0 when there is
no such poll). -/
def sys.cnt (s : sys) (j : Nat) (k : notif_kind) : Nat :=
  ((s.svcs[j]?).map (fun v => (v.srcs k).length)).getD 0

/-- The capacity `nr` of the poll of kind `k` of the service `j`, none when
there is no such poll. -/
def sys.cap (s : sys) (j : Nat) (k : notif_kind) : Option Nat :=
  (s.svcs[j]?).bind (fun v => (v.notif k).map notif_poll.nr)

/-- A service has a poll of a kind exactly when its descriptor has the list of
that kind, and the capacity of the poll is the number of names of the list. -/
def sys.shaped (s : sys) : Prop :=
  ∀ (j : Nat) (v : svc) (k : notif_kind), s.svcs[j]? = some v →
    s.cap j k = (v.conf.names k).map List.length

/-- No poll holds more members than its capacity. -/
def sys.bounded (s : sys) : Prop :=
  ∀ (j : Nat) (k : notif_kind) (c : Nat), s.cap j k = some c → s.cnt j k ≤ c

/-! ## The edges and the log of a notification cascade -/

/-- The registered edges of a service: its two polls and its two observer
lists. -/
def svc.wiring (v : svc) : Option notif_poll × Option notif_poll × List Nat × List Nat :=
  (v.starton_notif, v.stopon_notif, v.starton_obsrv, v.stopon_obsrv)

/-- The observer lists agree with the polls: a service queued in the observer
list of `a` has `a` as a registered source of its poll of the same kind (a
registration writes both). -/
def sys.linked (s : sys) : Prop :=
  ∀ (k : notif_kind) (a b : Nat) (va : svc), s.svcs[a]? = some va → b ∈ va.obsrv k →
    s.notifier k a b

/-- A stretch of the log with no cascade cut short by the fuel, and where every
service whose notification handler was called satisfies `P`. -/
def notifies_only (P : Nat → Prop) (l : List action) : Prop :=
  ∀ a ∈ l, a ≠ .fuel_out ∧ ∀ sink src, a = .notify sink src → P sink

/-- The state that a source of kind `k` notifies its observers in: READY for
starton, STOPPED for stopon. -/
def notif_kind.want : notif_kind → tinit_svc_state
  | .starton => .READY
  | .stopon => .STOPPED

/-- With `fuel`, a notification of kind `k` (its source is in the state of the
kind) handed to a service of depth below `fuel` in the graph of `g` returns
without running out of fuel, and the handlers it calls after the one of the
sink `j` are those of services strictly downstream of `j`. -/
def cascade_ok (e : env) (g : sys) (k : notif_kind) (r : Nat → Nat) (R fuel : Nat) : Prop :=
  ∀ (s : sys) (j src : Nat), s.svcs.map svc.wiring = g.svcs.map svc.wiring →
    s.state_of src = some k.want → R - r j < fuel →
    ∃ l, notifies_only (Relation.TransGen (g.notifier k) j) l ∧
      ((svc_handle_notif e fuel s j src).log = l ++ .notify j src :: s.log ∨
        ((svc_handle_notif e fuel s j src).log = s.log ∧ l = []))

/-! ## The drain of the shutdown -/

/-- Between `s` and `t` every STOPPED service stays STOPPED, a STOPPED service
outside `P` is not touched, and every service outside `P` that became STOPPED
has all its registered stopon sources STOPPED in `t`. -/
def sys.settles_but (P : Nat → Prop) (s t : sys) : Prop :=
  (∀ (j : Nat), s.state_of j = some .STOPPED → t.state_of j = some .STOPPED) ∧
  (∀ (j : Nat) (w : svc), ¬ P j → s.svcs[j]? = some w → w.state = .STOPPED →
    t.svcs[j]? = some w) ∧
  (∀ (j : Nat) (w : svc), ¬ P j → t.svcs[j]? = some w → w.state = .STOPPED →
    s.state_of j = some .STOPPED ∨ ∀ src ∈ w.srcs .stopon, t.state_of src = some .STOPPED)

/-- The services that the loop of `tinit_sigchan_handle_sigchld` finds as the
owners of the reaped children (the `svc` that `tinit_repo_search_bypid`
returns at each turn), in the order of the loop. -/
def tinit_sigchan_reaped (notify : sys → Nat → Nat → sys) (e : env) :
    sys → List siginfo → List Nat
  | _, [] => []
  | s, info :: rest =>
    if info.si_pid = 0 then []
    else
      match tinit_repo_search_bypid s info.si_pid with
      | none =>
        tinit_sigchan_reaped notify e (tinit_sigchan_handle_sigchld notify e s [info] 0).1 rest
      | some i =>
        i :: tinit_sigchan_reaped notify e (tinit_sigchan_handle_sigchld notify e s [info] 0).1
          rest

/-! ## Concrete systems -/

/-- A descriptor with the given numbers of start and stop commands, with or
without a daemon, SIGTERM for both signals and no starton or stopon name. -/
def demo_conf (name : String) (start_nr : Nat) (daemon : Bool) (stop_nr : Nat) : conf_svc :=
  { name := name, start_nr := start_nr, daemon := daemon, stop_nr := stop_nr,
    stop_sig := SIGTERM, reload_sig := SIGTERM, starton := none, stopon := none }

/-- An operating system where every `vfork` succeeds, with the pids 100, 101,
and so on, and every `kill` finds its process. -/
def demo_env : env := { vfork := fun n => .child (n + 99), kill := fun _ => true }

/-- A repository of one service, "echo": a daemon, no start and no stop
command, as `svc_init` leaves it. -/
def demo_daemon : sys :=
  { svcs := [svc_init (demo_conf "echo" 0 true 0) 0 0], nfork := 0, nkill := 0, log := [] }

/-- The service "echo" once started: READY with the daemon 100 and the
1-second timer armed. -/
def demo_daemon_ready : svc :=
  { svc_init (demo_conf "echo" 0 true 0) 0 0 with
    handle_evts := .on, handle_notif := .on, state := .READY, child := 100,
    timer := { armed := some 1, expire := some .on } }

/-- The service "echo" after its daemon exited within the second that follows
its spawn: READY, the child slot cleared. -/
def demo_daemon_flapped : svc :=
  { demo_daemon_ready with child := -1 }

/-- Two services as `svc_init` leaves them: "a" (index 0) with one start
command, a daemon and `starton = ["b"]`, and "b" (index 1) with a daemon. -/
def demo_chain_base : sys :=
  { svcs := [svc_init { demo_conf "a" 1 true 0 with starton := some ["b"] } 0 0,
             svc_init (demo_conf "b" 0 true 0) 0 0],
    nfork := 0, nkill := 0, log := [] }

/-- The two services wired as the repository does: "b" is registered as the
starton notifier of "a". -/
def demo_chain : sys :=
  (svc_register_starton_obsrv 2 demo_chain_base 1 0).getD demo_chain_base

/-- Two services as `svc_init` leaves them: "a" (index 0) with a daemon and
`stopon = ["b"]`, after `a_start_nr` start commands, and "b" (index 1), with a
daemon or with one start command only. -/
def demo_stopon_base (a_start_nr : Nat) (b_daemon : Bool) : sys :=
  { svcs := [svc_init { demo_conf "a" a_start_nr true 0 with stopon := some ["b"] } 0 0,
             svc_init (demo_conf "b" (if b_daemon then 0 else 1) b_daemon 0) 0 0],
    nfork := 0, nkill := 0, log := [] }

/-- The two services wired as the repository does: "b" is registered as the
stopon notifier of "a". -/
def demo_stopon (a_start_nr : Nat) (b_daemon : Bool) : sys :=
  (svc_register_stopon_obsrv 2 (demo_stopon_base a_start_nr b_daemon) 1 0).getD
    (demo_stopon_base a_start_nr b_daemon)

/-- A signal channel in running mode. -/
def demo_chan : tinit_sigchan := { stopping := false, signo := SIGTERM, cnt := 0 }

/-- The service "echo" after a stop that signalled its daemon 100: STOPPING,
the 5-second timer armed, no stop command run yet. -/
def demo_daemon_stopping : svc :=
  { demo_daemon_ready with
    handle_evts := .off, handle_notif := .off, state := .STOPPING,
    timer := { armed := some 5, expire := some .off }, stop_cmd := -1 }

/-- The service "a" of `demo_stopon 0 b_daemon`, READY with its daemon 100. -/
def demo_stopon_a_ready : svc :=
  { svc_init { demo_conf "a" 0 true 0 with stopon := some ["b"] } 0 0 with
    handle_evts := .on, handle_notif := .on, state := .READY, child := 100,
    timer := { armed := some 1, expire := some .on },
    stopon_notif := some { nr := 1, srcs := [1] } }

/-- The service "a" of `demo_stopon 0 b_daemon` marked STOPPED by the
notification of "b". -/
def demo_stopon_a_stopped : svc :=
  { demo_stopon_a_ready with
    handle_evts := .off, handle_notif := .off, state := .STOPPED, child := -1,
    timer := { armed := some 1, expire := some .off }, stop_cmd := 0 }

/-- The service "a" of `demo_chain`. -/
def demo_chain_a : svc :=
  { svc_init { demo_conf "a" 1 true 0 with starton := some ["b"] } 0 0 with
    starton_notif := some { nr := 1, srcs := [1] } }

/-- The service "b" of `demo_chain`. -/
def demo_chain_b : svc :=
  { svc_init (demo_conf "b" 0 true 0) 0 0 with starton_obsrv := [0] }

/-- The service "a" of `demo_chain` once started while "b" is not READY:
STARTING, the on-handlers installed, nothing spawned. -/
def demo_chain_a_waiting : svc :=
  { demo_chain_a with
    handle_evts := .on, handle_notif := .on, state := .STARTING,
    timer := { armed := none, expire := some .on } }

/-- Two services as `svc_init` leaves them, each naming the other in its
starton list: "a" (index 0) with `starton = ["b"]` and "b" (index 1) with
`starton = ["a"]`. -/
def demo_loop_base : sys :=
  { svcs := [svc_init { demo_conf "a" 0 true 0 with starton := some ["b"] } 0 0,
             svc_init { demo_conf "b" 0 true 0 with starton := some ["a"] } 0 0],
    nfork := 0, nkill := 0, log := [] }

/-- The two services after the wiring of "a": "b" is the registered starton
notifier of "a". -/
def demo_loop : sys :=
  { demo_loop_base with
    svcs := [{ svc_init { demo_conf "a" 0 true 0 with starton := some ["b"] } 0 0 with
               starton_notif := some { nr := 1, srcs := [1] } },
             { svc_init { demo_conf "b" 0 true 0 with starton := some ["a"] } 0 0 with
               starton_obsrv := [0] }] }

/-- A buffer that holds the request of 8 bytes with `seq = 7`, `type = 1`
(START) and the pattern "ssh". -/
def demo_request : unsk_dgram_buff :=
  { bytes := 8, data := fun i => [7, 0, 1, 0, 115, 115, 104, 0].getD i 0 }

/-- A repository of 16 services with origin file names of 254 bytes. -/
def demo_long_paths : sys :=
  { svcs := List.replicate 16
      (svc_init { demo_conf "a" 0 true 0 with path := List.replicate 254 97 } 0 0),
    nfork := 0, nkill := 0, log := [] }

/-- The service "a" of `demo_status_repo`: file "a.conf", READY with the daemon
100. -/
def demo_status_a : svc :=
  { svc_init { demo_conf "a" 0 true 0 with path := [97, 46, 99, 111, 110, 102] } 0 0 with
    handle_evts := .on, handle_notif := .on, state := .READY, child := 100 }

/-- The service "b" of `demo_status_repo`: file "b.conf", STOPPED. -/
def demo_status_b : svc :=
  svc_init { demo_conf "b" 0 true 0 with path := [98, 46, 99, 111, 110, 102] } 0 0

/-- The service "c" of `demo_status_repo`: file "cc.conf", STARTING, the child
slot holding the pid 101 of its start command. -/
def demo_status_c : svc :=
  { svc_init { demo_conf "c" 1 true 0 with path := [99, 99, 46, 99, 111, 110, 102] } 0 0 with
    handle_evts := .on, handle_notif := .on, state := .STARTING, child := 101 }

/-- A repository of three services with origin file names. -/
def demo_status_repo : sys :=
  { svcs := [demo_status_a, demo_status_b, demo_status_c], nfork := 2, nkill := 0, log := [] }

/-- A buffer that holds a STATUS request with `seq = 7` and the pattern "*". -/
def demo_status_request : unsk_dgram_buff :=
  { bytes := 6, data := fun i => [7, 0, 0, 0, 42, 0].getD i 0 }

/-- The service "a" of `demo_loop`: "b" is its registered starton notifier. -/
def demo_loop_a : svc :=
  { svc_init { demo_conf "a" 0 true 0 with starton := some ["b"] } 0 0 with
    starton_notif := some { nr := 1, srcs := [1] } }

/-- The service "b" of `demo_loop`: "a" observes it, and its own poll has no
registered source. -/
def demo_loop_b : svc :=
  { svc_init { demo_conf "b" 0 true 0 with starton := some ["a"] } 0 0 with
    starton_obsrv := [0] }

/-- The service "a" of `demo_loop` once started while "b" is not READY:
STARTING, the on-handlers installed, nothing spawned. -/
def demo_loop_a_waiting : svc :=
  { demo_loop_a with
    handle_evts := .on, handle_notif := .on, state := .STARTING,
    timer := { armed := none, expire := some .on } }

/-- The two services of `demo_loop` after `svc_start` on "a": "a" waits for
"b", which is STOPPED. -/
def demo_loop_waiting : sys :=
  { demo_loop with svcs := [demo_loop_a_waiting, demo_loop_b] }

/-- Two services: "echo", READY with its daemon 100, and "b", STOPPED. -/
def demo_switch_from : sys :=
  { svcs := [demo_daemon_ready, svc_init (demo_conf "b" 0 true 0) 0 0],
    nfork := 1, nkill := 0, log := [] }

/-- A directory with the two entries "x.conf" and "y.conf". -/
def demo_dir : List dirent :=
  [{ d_type := DT_REG, d_name := "x.conf" }, { d_type := DT_REG, d_name := "y.conf" }]

/-- A parser for which "x.conf" and "y.conf" both hold a valid descriptor of a
service named "a". -/
def demo_same_name (path : String) : Option conf_svc :=
  if path = "x.conf" then some { demo_conf "a" 0 true 0 with path := [120, 46, 99, 111, 110, 102] }
  else if path = "y.conf" then
    some { demo_conf "a" 1 false 0 with path := [121, 46, 99, 111, 110, 102] }
  else none

/-- A parser for which "x.conf" holds the descriptor of "a" with
`starton = ["b"]` and "y.conf" the descriptor of "b" with `starton = ["a"]`. -/
def demo_mutual (path : String) : Option conf_svc :=
  if path = "x.conf" then some { demo_conf "a" 0 true 0 with starton := some ["b"] }
  else if path = "y.conf" then some { demo_conf "b" 0 true 0 with starton := some ["a"] }
  else none

/-- Two services as `svc_init` leaves them: "a" (index 0), a daemon with
`starton = ["b"]`, and "b" (index 1), a daemon. -/
def demo_wait_base : sys :=
  { svcs := [svc_init { demo_conf "a" 0 true 0 with starton := some ["b"] } 0 0,
             svc_init (demo_conf "b" 0 true 0) 0 0],
    nfork := 0, nkill := 0, log := [] }

/-- The two services wired as the repository does: "b" is registered as the
starton notifier of "a". -/
def demo_wait : sys :=
  (svc_register_starton_obsrv 2 demo_wait_base 1 0).getD demo_wait_base

/-- The service "a" of `demo_wait` once started while "b" is not READY:
STARTING, the on-handlers installed, nothing spawned. -/
def demo_wait_a_waiting : svc :=
  { svc_init { demo_conf "a" 0 true 0 with starton := some ["b"] } 0 0 with
    starton_notif := some { nr := 1, srcs := [1] },
    handle_evts := .on, handle_notif := .on, state := .STARTING,
    timer := { armed := none, expire := some .on } }

/-- The two services of `demo_wait` after `svc_start` on "a": "a" waits for
"b", which is STOPPED and has "a" as observer. -/
def demo_waiting : sys :=
  { demo_wait_base with
    svcs := [demo_wait_a_waiting,
             { svc_init (demo_conf "b" 0 true 0) 0 0 with starton_obsrv := [0] }] }

/-- A repository of one service, "echo": one start command, no daemon and no
stop command, as `svc_init` leaves it. -/
def demo_oneshot : sys :=
  { svcs := [svc_init (demo_conf "echo" 1 false 0) 0 0], nfork := 0, nkill := 0, log := [] }

/-- Two services as `svc_init` leaves them: "a" (index 0) with a daemon, one
stop command and `stopon = ["b"]`, and "b" (index 1) with a daemon. -/
def demo_stopcmd_base : sys :=
  { svcs := [svc_init { demo_conf "a" 0 true 1 with stopon := some ["b"] } 0 0,
             svc_init (demo_conf "b" 0 true 0) 0 0],
    nfork := 0, nkill := 0, log := [] }

/-- The two services wired as the repository does: "b" is registered as the
stopon notifier of "a". -/
def demo_stopcmd : sys :=
  (svc_register_stopon_obsrv 2 demo_stopcmd_base 1 0).getD demo_stopcmd_base

/-- An operating system where the second `vfork` fails with ENOMEM and every
other one succeeds, with the pids 100, 101, and so on by call count. -/
def demo_env_nomem : env :=
  { vfork := fun n => if n = 1 then .error 11 else .child (n + 99), kill := fun _ => true }

/-- A repository of one service, "echo": two start commands, a daemon and no
stop command, as `svc_init` leaves it. -/
def demo_twostep : sys :=
  { svcs := [svc_init (demo_conf "echo" 2 true 0) 0 0], nfork := 0, nkill := 0, log := [] }

/-- The service "echo" of `demo_twostep` in STARTING, its first start command
100 in flight. -/
def demo_twostep_first : svc :=
  { svc_init (demo_conf "echo" 2 true 0) 0 0 with
    handle_evts := .on, handle_notif := .on, state := .STARTING, child := 100,
    timer := { armed := some 1, expire := some .on } }

/-! # Properties -/

theorem svcs_emit (s : sys) (a : action) : (s.emit a).svcs = s.svcs := rfl

theorem get_upd (s : sys) (i j : Nat) (f : svc → svc) :
    (s.upd i f).svcs[j]? = (s.svcs[j]?).map (fun a => if i = j then f a else a) := by
  simp [sys.upd, List.getElem?_modify]

theorem get_upd_self (s : sys) (i : Nat) (f : svc → svc) :
    (s.upd i f).svcs[i]? = (s.svcs[i]?).map f := by
  simp [get_upd]

theorem get_upd_ne (s : sys) (i j : Nat) (f : svc → svc) (h : i ≠ j) :
    (s.upd i f).svcs[j]? = s.svcs[j]? := by
  simp [get_upd, h]

theorem inv_emit {s : sys} (a : action) (h : s.inv) : (s.emit a).inv := h

theorem inv_upd {s : sys} {i : Nat} {f : svc → svc} (h : s.inv)
    (hf : ∀ v, s.svcs[i]? = some v → v.good → (f v).good) : (s.upd i f).inv := by
  intro j w hw
  rw [get_upd] at hw
  cases hj : s.svcs[j]? with
  | none => simp [hj] at hw
  | some u =>
    simp [hj] at hw
    by_cases hij : i = j
    · subst hij
      simp at hw
      subst hw
      exact hf u hj (h _ _ hj)
    · simp [hij] at hw
      subst hw
      exact h _ _ hj

theorem inv_foldl {notify : sys → Nat → Nat → sys} (P : sys → Prop)
    (hn : ∀ s a b, P s → P (notify s a b)) (l : List Nat) (i : Nat) :
    ∀ s, P s → P (l.foldl (fun acc sink => notify acc sink i) s) := by
  induction l with
  | nil => intro s h; exact h
  | cons a l ih => intro s h; exact ih _ (hn _ _ _ h)

theorem svc_mark_ready_inv {notify : sys → Nat → Nat → sys}
    (hn : ∀ s a b, s.inv → (notify s a b).inv) (s : sys) (i : Nat)
    (h : (s.upd i (fun w => { w with state := .READY })).inv) (h0 : s.inv) :
    (svc_mark_ready notify s i).inv := by
  unfold svc_mark_ready
  split
  · exact h0
  · exact inv_foldl _ hn _ _ _ (inv_emit _ h)

theorem svc_mark_stopped_inv {notify : sys → Nat → Nat → sys}
    (hn : ∀ s a b, s.inv → (notify s a b).inv) (s : sys) (i : Nat)
    (h : (s.upd i (fun w => { w with child := -1, state := .STOPPED })).inv) (h0 : s.inv) :
    (svc_mark_stopped notify s i).inv := by
  unfold svc_mark_stopped
  split
  · exact h0
  · exact inv_foldl _ hn _ _ _ (inv_emit _ h)

theorem vfork_val_ne_zero (r : vfork_ret) : r.val ≠ 0 := by
  cases r <;> simp [vfork_ret.val] <;> omega

theorem svc_spawn_inv (e : env) (s : sys) (i : Nat) (cmd : cmd_ref) (t : Nat) (h : s.inv) :
    (svc_spawn e s i cmd t).1.inv := by
  unfold svc_spawn
  simp only []
  split
  · exact h
  · apply inv_upd (s := { s with nfork := s.nfork + 1, log := _ }) h
    intro v _ hv
    exact hv

theorem svc_spawn_get (e : env) (s : sys) (i j : Nat) (cmd : cmd_ref) (t : Nat) :
    ((svc_spawn e s i cmd t).1.svcs[j]?).map svc.state = (s.svcs[j]?).map svc.state := by
  unfold svc_spawn
  simp only []
  split
  · rfl
  · rw [get_upd]
    cases s.svcs[j]? <;> simp
    split <;> rfl

theorem svc_spawn_snd (e : env) (s : sys) (i : Nat) (cmd : cmd_ref) (t : Nat) :
    (svc_spawn e s i cmd t).2 = (e.vfork s.nfork).val := by
  unfold svc_spawn
  simp only []
  split <;> rfl

theorem svc_spawn_get_self (e : env) (s : sys) (i : Nat) (cmd : cmd_ref) (t : Nat) :
    (svc_spawn e s i cmd t).1.svcs[i]? = (s.svcs[i]?).map (fun w =>
      if (e.vfork s.nfork).val < 0 then w else { w with timer := utimer_arm_sec w.timer t }) := by
  unfold svc_spawn
  simp only []
  split
  · cases s.svcs[i]? <;> simp
  · rw [get_upd_self]

theorem svc_mark_ready_inv2 {notify : sys → Nat → Nat → sys}
    (hn : ∀ s a b, s.inv → (notify s a b).inv) (s : sys) (i : Nat) (h0 : s.inv)
    (h : ∀ v, s.svcs[i]? = some v → ({ v with state := .READY } : svc).good) :
    (svc_mark_ready notify s i).inv :=
  svc_mark_ready_inv hn s i (inv_upd h0 (fun v hv _ => h v hv)) h0

theorem svc_mark_stopped_inv2 {notify : sys → Nat → Nat → sys}
    (hn : ∀ s a b, s.inv → (notify s a b).inv) (s : sys) (i : Nat) (h0 : s.inv)
    (h : ∀ v, s.svcs[i]? = some v → ({ v with child := -1, state := .STOPPED } : svc).good) :
    (svc_mark_stopped notify s i).inv :=
  svc_mark_stopped_inv hn s i (inv_upd h0 (fun v hv _ => h v hv)) h0

theorem svc_spawn_start_cmd_inv {notify : sys → Nat → Nat → sys}
    (hn : ∀ s a b, s.inv → (notify s a b).inv) (e : env) (s : sys) (i : Nat) (h0 : s.inv)
    (hst : ∀ v, s.svcs[i]? = some v → v.state = .STARTING) :
    (svc_spawn_start_cmd notify e s i).inv := by
  unfold svc_spawn_start_cmd
  cases hv : s.svcs[i]? with
  | none => exact h0
  | some v =>
    have hg := h0 i v hv
    have hs := hst v hv
    obtain ⟨g1, g2, g3, g4⟩ := hg
    have hon : v.handle_notif = .on := g3.2 (Or.inl hs)
    rw [hon] at g1 g2
    simp only []
    have hspawn : ∀ cmd, ((svc_spawn e (s.emit (.start_dispatch i)) i cmd 1).1.upd i
        (fun w => { w with child := (svc_spawn e (s.emit (.start_dispatch i)) i cmd 1).2 })).inv := by
      intro cmd
      apply inv_upd (svc_spawn_inv _ _ _ _ _ (inv_emit _ h0))
      intro w hw _
      rw [svc_spawn_get_self, svcs_emit, hv] at hw
      simp at hw
      subst hw
      split <;> simp [svc.good, hs, g1, g2, hon, utimer_arm_sec]
    by_cases hlt : v.start_cmd < v.conf.start_nr
    · simp only [hlt, if_true]
      split
      · exact hspawn _
      · exact hspawn _
    · simp only [hlt, if_false]
      by_cases hd : v.conf.daemon = true
      · simp only [hd, if_true]
        split
        · exact hspawn _
        · rename_i hneg
          apply svc_mark_ready_inv2 hn _ _ (hspawn _)
          intro w hw
          rw [get_upd_self, svc_spawn_get_self, svcs_emit, hv] at hw
          simp at hw
          subst hw
          rw [svc_spawn_snd] at hneg ⊢
          have hnz := vfork_val_ne_zero (e.vfork (s.emit (.start_dispatch i)).nfork)
          have hpos : 0 < (e.vfork (s.emit (.start_dispatch i)).nfork).val := by omega
          split <;> simp [svc.good, hs, g1, g2, utimer_arm_sec, hon, hd, hpos]
      · simp only [hd]
        simp only [if_true]
        apply svc_mark_ready_inv2 hn
        · apply inv_upd (inv_emit _ h0)
          intro w hw _
          rw [svcs_emit, hv] at hw
          simp at hw
          subst hw
          simp [svc.good, hs, g1, g2, hon]
        · intro w hw
          rw [get_upd_self, svcs_emit, hv] at hw
          simp at hw
          subst hw
          simp [svc.good, hs, g1, g2, hon]

theorem svc_start_inv {notify : sys → Nat → Nat → sys}
    (hn : ∀ s a b, s.inv → (notify s a b).inv) (e : env) (s : sys) (i : Nat) (h0 : s.inv) :
    (svc_start notify e s i).inv := by
  unfold svc_start
  have h1 : (s.upd i (fun w =>
      { w with handle_evts := .on, handle_notif := .on, state := .STARTING,
               timer := utimer_setup w.timer .on, start_cmd := 0 })).inv := by
    apply inv_upd h0
    intro v _ _
    simp [svc.good, utimer_setup]
  simp only []
  split
  · apply svc_spawn_start_cmd_inv hn e _ i h1
    intro v hv
    rw [get_upd_self] at hv
    cases hs : s.svcs[i]? with
    | none => simp [hs] at hv
    | some u => simp [hs] at hv; subst hv; rfl
  · exact h1

theorem svc_spawn_stop_cmd_inv {notify : sys → Nat → Nat → sys}
    (hn : ∀ s a b, s.inv → (notify s a b).inv) (e : env) (s : sys) (i : Nat) (h0 : s.inv)
    (hst : ∀ v, s.svcs[i]? = some v → v.state = .STOPPING) :
    (svc_spawn_stop_cmd notify e s i).inv := by
  unfold svc_spawn_stop_cmd
  cases hv : s.svcs[i]? with
  | none => exact h0
  | some v =>
    have hg := h0 i v hv
    have hs := hst v hv
    obtain ⟨g1, g2, g3, g4⟩ := hg
    have hoff : v.handle_notif = .off := by
      cases hh : v.handle_notif
      · rfl
      · rcases g3.1 hh with h | h <;> simp [hs] at h
    rw [hoff] at g1 g2
    simp only []
    have h1 : ((s.upd i (fun w => { w with stop_cmd := w.stop_cmd + 1 })).emit
        (.stop_dispatch i)).inv := by
      apply inv_emit
      apply inv_upd h0
      intro w hw _
      rw [hv] at hw
      simp at hw
      subst hw
      simp [svc.good, hs, g1, g2, hoff]
    split
    · apply svc_mark_stopped_inv2 hn _ _ h1
      intro w hw
      rw [svcs_emit, get_upd_self, hv] at hw
      simp at hw
      subst hw
      simp [svc.good, g1, g2, hoff]
    · apply inv_upd (svc_spawn_inv _ _ _ _ _ h1)
      intro w hw _
      rw [svc_spawn_get_self, svcs_emit, get_upd_self, hv] at hw
      simp at hw
      subst hw
      split <;> simp [svc.good, hs, g1, g2, hoff, utimer_arm_sec]

theorem svc_kill_svcs (e : env) (s : sys) (i : Nat) (signo : Int) :
    (svc_kill e s i signo).1.svcs = s.svcs := by
  unfold svc_kill
  split
  · rfl
  · split
    · rfl
    · simp only []
      split <;> rfl

theorem inv_of_svcs_eq {s t : sys} (h : t.svcs = s.svcs) (h0 : s.inv) : t.inv := by
  intro i v hv
  rw [h] at hv
  exact h0 i v hv

theorem svc_kill_inv (e : env) (s : sys) (i : Nat) (signo : Int) (h0 : s.inv) :
    (svc_kill e s i signo).1.inv :=
  inv_of_svcs_eq (svc_kill_svcs e s i signo) h0

theorem svc_stop_inv {notify : sys → Nat → Nat → sys}
    (hn : ∀ s a b, s.inv → (notify s a b).inv) (e : env) (s : sys) (i : Nat) (h0 : s.inv) :
    (svc_stop notify e s i).inv := by
  unfold svc_stop
  cases hv : s.svcs[i]? with
  | none => exact h0
  | some v =>
    simp only []
    have h1 : (s.upd i (fun w =>
        { w with handle_evts := .off, handle_notif := .off, state := .STOPPING,
                 timer := utimer_setup w.timer .off, stop_cmd := -1 })).inv := by
      apply inv_upd h0
      intro v _ _
      simp [svc.good, utimer_setup]
    split
    · exact h1
    · split
      · apply inv_upd (svc_kill_inv _ _ _ _ h1)
        intro w hw hg
        rw [svc_kill_svcs] at hw
        obtain ⟨g1, g2, g3, g4⟩ := hg
        exact ⟨g1, g2, g3, g4⟩
      · apply svc_spawn_stop_cmd_inv hn e _ i (svc_kill_inv _ _ _ _ h1)
        intro w hw
        rw [svc_kill_svcs, get_upd_self, hv] at hw
        simp at hw
        subst hw
        rfl

theorem svc_expire_on_inv {notify : sys → Nat → Nat → sys}
    (hn : ∀ s a b, s.inv → (notify s a b).inv) (e : env) (s : sys) (i : Nat) (h0 : s.inv) :
    (svc_expire_on notify e s i).inv := by
  unfold svc_expire_on
  cases hv : s.svcs[i]? with
  | none => exact h0
  | some v =>
    simp only []
    split
    · exact h0
    · rename_i hs
      split
      · apply svc_spawn_start_cmd_inv hn e s i h0
        intro w hw
        rw [hv] at hw
        cases hw
        exact hs
      · exact h0
    · exact h0

theorem svc_expire_off_inv {notify : sys → Nat → Nat → sys}
    (hn : ∀ s a b, s.inv → (notify s a b).inv) (e : env) (s : sys) (i : Nat) (h0 : s.inv) :
    (svc_expire_off notify e s i).inv := by
  unfold svc_expire_off
  cases hv : s.svcs[i]? with
  | none => exact h0
  | some v =>
    simp only []
    split
    · exact h0
    · rename_i hs
      split
      · apply svc_spawn_stop_cmd_inv hn e _ i (svc_kill_inv _ _ _ _ h0)
        intro w hw
        rw [svc_kill_svcs, hv] at hw
        cases hw
        exact hs
      · exact svc_kill_inv _ _ _ _ h0
    · exact h0

theorem svc_handle_off_evts_inv {notify : sys → Nat → Nat → sys}
    (hn : ∀ s a b, s.inv → (notify s a b).inv) (e : env) (s : sys) (i : Nat)
    (evt : svc_evt) (status : Int) (h0 : s.inv) :
    (svc_handle_off_evts notify e s i evt status).inv := by
  unfold svc_handle_off_evts
  cases hv : s.svcs[i]? with
  | none => exact h0
  | some v =>
    simp only []
    split
    · split
      · exact svc_start_inv hn e s i h0
      · exact h0
      · exact h0
    · rename_i hs
      split
      · exact svc_start_inv hn e s i h0
      · exact h0
      · apply svc_spawn_stop_cmd_inv hn e s i h0
        intro w hw
        rw [hv] at hw
        cases hw
        exact hs
    · exact h0

theorem svc_handle_off_notif_inv {notify : sys → Nat → Nat → sys}
    (hn : ∀ s a b, s.inv → (notify s a b).inv) (e : env) (s : sys) (i src : Nat)
    (h0 : s.inv) : (svc_handle_off_notif notify e s i src).inv := by
  unfold svc_handle_off_notif
  cases hv : s.svcs[i]? with
  | none => exact h0
  | some v =>
    simp only []
    split
    · rename_i hs
      split
      · split
        · apply svc_spawn_stop_cmd_inv hn e s i h0
          intro w hw
          rw [hv] at hw
          cases hw
          exact hs
        · exact h0
      · exact h0
    · exact h0

theorem svc_handle_on_notif_inv {notify : sys → Nat → Nat → sys}
    (hn : ∀ s a b, s.inv → (notify s a b).inv) (e : env) (s : sys) (i src : Nat)
    (h0 : s.inv) : (svc_handle_on_notif notify e s i src).inv := by
  unfold svc_handle_on_notif
  cases hv : s.svcs[i]? with
  | none => exact h0
  | some v =>
    simp only []
    split
    · rename_i hs
      split
      · split
        · apply svc_spawn_start_cmd_inv hn e s i h0
          intro w hw
          rw [hv] at hw
          cases hw
          exact hs
        · exact h0
      · exact h0
    · exact h0

theorem svc_handle_on_evts_inv {notify : sys → Nat → Nat → sys}
    (hn : ∀ s a b, s.inv → (notify s a b).inv) (e : env) (s : sys) (i : Nat)
    (evt : svc_evt) (status : Int) (h0 : s.inv) :
    (svc_handle_on_evts notify e s i evt status).inv := by
  unfold svc_handle_on_evts
  cases hv : s.svcs[i]? with
  | none => exact h0
  | some v =>
    obtain ⟨g1, g2, g3, g4⟩ := h0 i v hv
    simp only []
    split
    · rename_i hs
      have hon : v.handle_notif = .on := g3.2 (Or.inl hs)
      rw [hon] at g1 g2
      split
      · exact h0
      · exact svc_stop_inv hn e s i h0
      · split
        · apply svc_spawn_start_cmd_inv hn e _ i
          · apply inv_upd h0
            intro w hw _
            rw [hv] at hw
            cases hw
            simp [svc.good, hs, g1, g2, hon]
          · intro w hw
            rw [get_upd_self, hv] at hw
            simp at hw
            subst hw
            exact hs
        · split
          · apply svc_spawn_start_cmd_inv hn e s i h0
            intro w hw
            rw [hv] at hw
            cases hw
            exact hs
          · apply inv_upd h0
            intro w hw _
            rw [hv] at hw
            cases hw
            simp [svc.good, hs, g1, g2, hon]
    · rename_i hs
      have hon : v.handle_notif = .on := g3.2 (Or.inr hs)
      rw [hon] at g1 g2
      split
      · exact h0
      · exact svc_stop_inv hn e s i h0
      · split
        · apply svc_spawn_start_cmd_inv hn e _ i
          · apply inv_upd h0
            intro w hw _
            rw [hv] at hw
            cases hw
            simp [svc.good, g1, g2, hon]
          · intro w hw
            rw [get_upd_self, hv] at hw
            simp at hw
            subst hw
            rfl
        · apply inv_upd h0
          intro w hw _
          rw [hv] at hw
          cases hw
          simp [svc.good, hs, g1, g2, hon]
    · exact h0

theorem svc_handle_notif_inv (e : env) (fuel : Nat) :
    ∀ s a b, s.inv → (svc_handle_notif e fuel s a b).inv := by
  induction fuel with
  | zero => intro s a b h; exact inv_emit _ h
  | succ n ih =>
    intro s a b h
    unfold svc_handle_notif
    split
    · exact h
    · split
      · exact svc_handle_on_notif_inv ih e _ a b (inv_emit _ h)
      · exact svc_handle_off_notif_inv ih e _ a b (inv_emit _ h)

theorem svc_handle_evts_inv {notify : sys → Nat → Nat → sys}
    (hn : ∀ s a b, s.inv → (notify s a b).inv) (e : env) (s : sys) (i : Nat)
    (evt : svc_evt) (status : Int) (h0 : s.inv) :
    (svc_handle_evts notify e s i evt status).inv := by
  unfold svc_handle_evts
  split
  · exact h0
  · split
    · exact svc_handle_on_evts_inv hn e s i evt status h0
    · exact svc_handle_off_evts_inv hn e s i evt status h0

theorem utimer_expire_inv {notify : sys → Nat → Nat → sys}
    (hn : ∀ s a b, s.inv → (notify s a b).inv) (e : env) (s : sys) (i : Nat) (h0 : s.inv) :
    (utimer_expire notify e s i).inv := by
  unfold utimer_expire
  split
  · exact h0
  · split
    · have h1 : (s.upd i (fun w => { w with timer := { w.timer with armed := none } })).inv := by
        apply inv_upd h0
        intro w _ hg
        exact hg
      simp only []
      split
      · exact svc_expire_on_inv hn e _ i h1
      · exact svc_expire_off_inv hn e _ i h1
      · exact h1
    · exact h0

theorem tinit_sigchan_handle_sigchld_inv {notify : sys → Nat → Nat → sys}
    (hn : ∀ s a b, s.inv → (notify s a b).inv) (e : env) (infos : List siginfo) :
    ∀ s cnt, s.inv → (tinit_sigchan_handle_sigchld notify e s infos cnt).1.inv := by
  induction infos with
  | nil => intro s cnt h; exact h
  | cons info rest ih =>
    intro s cnt h
    unfold tinit_sigchan_handle_sigchld
    split
    · exact h
    · simp only []
      split
      · exact ih _ _ (inv_emit _ h)
      · apply ih
        split
        · exact svc_handle_evts_inv hn e _ _ _ _ (inv_emit _ h)
        · exact svc_handle_evts_inv hn e _ _ _ _ (inv_emit _ h)
        · exact svc_handle_evts_inv hn e _ _ _ _ (inv_emit _ h)
        · exact inv_emit _ h

theorem step_inv (e : env) (fuel : Nat) (s : sys) (a : input) (h : s.inv) :
    (step e fuel s a).inv := by
  have hn := svc_handle_notif_inv e fuel
  cases a with
  | start i => exact svc_start_inv hn e s i h
  | stop i => exact svc_stop_inv hn e s i h
  | evt i evt status => exact svc_handle_evts_inv hn e s i evt status h
  | notif sink src => exact hn s sink src h
  | expire i => exact utimer_expire_inv hn e s i h
  | sigchld infos => exact tinit_sigchan_handle_sigchld_inv hn e infos s 0 h

theorem initial_good (v : svc) (h : v.initial) : v.good := by
  obtain ⟨h1, h2, h3, h4, h5⟩ := h
  simp [svc.good, h1, h2, h3, h4, h5, utimer_init]

theorem reachable_inv (e : env) (s : sys) (h : reachable e s) : s.inv := by
  induction h with
  | init s h =>
    intro i v hv
    exact initial_good v (h v (List.mem_iff_getElem?.2 ⟨i, hv⟩))
  | step s fuel a _ ih => exact step_inv e fuel s a ih


theorem casc_refl (g : Bool) (s : sys) : casc g s s := Relation.ReflTransGen.refl

theorem casc_trans {g : Bool} {s t u : sys} (h1 : casc g s t) (h2 : casc g t u) : casc g s u :=
  Relation.ReflTransGen.trans h1 h2

theorem casc_one {g : Bool} {s t : sys} (h : micro g s t) : casc g s t :=
  Relation.ReflTransGen.single h

theorem casc_emit (g : Bool) (s : sys) (a : action) : casc g s (s.emit a) := by
  have h : micro g s _ := micro.count s s.nfork s.nkill [a]
  exact casc_one h

theorem casc_foldl {g : Bool} {notify : sys → Nat → Nat → sys}
    (hn : ∀ s a b, casc g s (notify s a b)) (l : List Nat) (i : Nat) :
    ∀ s, casc g s (l.foldl (fun acc sink => notify acc sink i) s) := by
  induction l with
  | nil => intro s; exact casc_refl g s
  | cons a l ih => intro s; exact casc_trans (hn s a i) (ih _)

theorem svc_spawn_casc (g : Bool) (e : env) (s : sys) (i : Nat) (cmd : cmd_ref) (t : Nat)
    (v : svc) (hv : s.svcs[i]? = some v) (hs : v.state = .STARTING ∨ v.state = .STOPPING) :
    casc g s (svc_spawn e s i cmd t).1 := by
  unfold svc_spawn
  simp only []
  have h1 : casc g s { s with nfork := s.nfork + 1,
                               log := (action.spawn i cmd t (e.vfork s.nfork).val) :: s.log } :=
    casc_one (micro.count s (s.nfork + 1) s.nkill [.spawn i cmd t (e.vfork s.nfork).val])
  split
  · exact h1
  · exact casc_trans h1 (casc_one (micro.arm _ i v t hv hs))

theorem svc_spawn_log (e : env) (s : sys) (i : Nat) (cmd : cmd_ref) (t : Nat) :
    (svc_spawn e s i cmd t).1.log = .spawn i cmd t (e.vfork s.nfork).val :: s.log := by
  unfold svc_spawn
  simp only []
  split <;> rfl

theorem svc_mark_ready_casc {g : Bool} {notify : sys → Nat → Nat → sys}
    (hn : ∀ s a b, casc g s (notify s a b)) (s : sys) (i : Nat) (v : svc)
    (hv : s.svcs[i]? = some v) (hs : v.state = .STARTING)
    (hc : (0 < v.child ∧ v.conf.daemon = true) ∨ v.child = -1)
    (hd : .start_dispatch i ∈ s.log) :
    casc g s (svc_mark_ready notify s i) := by
  unfold svc_mark_ready
  rw [hv]
  simp only []
  exact casc_trans (casc_one (micro.ready s i v hv hs hc hd))
    (casc_trans (casc_emit g _ _) (casc_foldl hn _ _ _))

theorem svc_mark_stopped_casc {g : Bool} {notify : sys → Nat → Nat → sys}
    (hn : ∀ s a b, casc g s (notify s a b)) (s : sys) (i : Nat) (v : svc)
    (hv : s.svcs[i]? = some v) (hs : v.state = .STOPPING)
    (hg : g = true → ∀ src ∈ v.srcs .stopon, s.state_of src = some .STOPPED)
    (hd : .stop_dispatch i ∈ s.log) :
    casc g s (svc_mark_stopped notify s i) := by
  unfold svc_mark_stopped
  rw [hv]
  simp only []
  exact casc_trans (casc_one (micro.stopped s i v hv hs hg hd))
    (casc_trans (casc_emit g _ _) (casc_foldl hn _ _ _))

theorem svc_spawn_start_cmd_casc_emit {g : Bool} {notify : sys → Nat → Nat → sys}
    (hn : ∀ s a b, casc g s (notify s a b)) (e : env) (s : sys) (i : Nat) (v : svc)
    (hv : s.svcs[i]? = some v) (hs : v.state = .STARTING) :
    casc g (s.emit (.start_dispatch i)) (svc_spawn_start_cmd notify e s i) := by
  unfold svc_spawn_start_cmd
  rw [hv]
  simp only []
  have hv0 : (s.emit (.start_dispatch i)).svcs[i]? = some v := hv
  have hspawn : ∀ cmd, casc g (s.emit (.start_dispatch i)) ((svc_spawn e (s.emit (.start_dispatch i)) i cmd 1).1.upd i
      (fun w => { w with child := (svc_spawn e (s.emit (.start_dispatch i)) i cmd 1).2 })) := by
    intro cmd
    refine casc_trans (svc_spawn_casc g e _ i cmd 1 v hv0 (Or.inl hs)) ?_
    have hw := svc_spawn_get_self e (s.emit (.start_dispatch i)) i cmd 1
    rw [hv0] at hw
    simp only [Option.map_some'] at hw
    refine casc_one (micro.child_start _ i _ _ hw ?_ ?_)
    · split <;> exact hs
    · rw [svc_spawn_log]; simp [sys.emit]
  have hmark : ∀ cmd, ¬ (svc_spawn e (s.emit (.start_dispatch i)) i cmd 1).2 < 0 →
      v.conf.daemon = true →
      casc g (s.emit (.start_dispatch i)) (svc_mark_ready notify ((svc_spawn e (s.emit (.start_dispatch i)) i cmd 1).1.upd i
        (fun w => { w with child := (svc_spawn e (s.emit (.start_dispatch i)) i cmd 1).2 })) i) := by
    intro cmd hneg hdm
    refine casc_trans (hspawn cmd) ?_
    have hw : ((svc_spawn e (s.emit (.start_dispatch i)) i cmd 1).1.upd i
        (fun w => { w with child := (svc_spawn e (s.emit (.start_dispatch i)) i cmd 1).2 })).svcs[i]?
        = some { (if (e.vfork (s.emit (.start_dispatch i)).nfork).val < 0 then v
                  else { v with timer := utimer_arm_sec v.timer 1 }) with
                 child := (svc_spawn e (s.emit (.start_dispatch i)) i cmd 1).2 } := by
      rw [get_upd_self, svc_spawn_get_self, hv0]
      rfl
    refine svc_mark_ready_casc hn _ i _ hw ?_ ?_ ?_
    · simp only []; split <;> exact hs
    · left
      rw [svc_spawn_snd] at hneg ⊢
      have hnz := vfork_val_ne_zero (e.vfork (s.emit (.start_dispatch i)).nfork)
      refine ⟨by simp only []; omega, ?_⟩
      simp only []
      split <;> exact hdm
    · show action.start_dispatch i ∈ (svc_spawn e (s.emit (.start_dispatch i)) i cmd 1).1.log
      rw [svc_spawn_log]; simp [sys.emit]
  by_cases hlt : v.start_cmd < v.conf.start_nr
  · simp only [hlt, if_true]
    split
    · exact hspawn _
    · exact hspawn _
  · simp only [hlt, if_false]
    by_cases hdm : v.conf.daemon = true
    · simp only [hdm, if_true]
      split
      · exact hspawn _
      · rename_i hneg
        exact hmark _ hneg hdm
    · simp only [hdm]
      simp only [if_true]
      have h1 : casc g (s.emit (.start_dispatch i))
          ((s.emit (.start_dispatch i)).upd i (fun w => { w with child := -1 })) :=
        casc_one (micro.child_start _ i v (-1) hv0 hs (by simp [sys.emit]))
      refine casc_trans h1 (svc_mark_ready_casc hn _ i { v with child := -1 } ?_ hs (Or.inr rfl) ?_)
      · rw [get_upd_self, hv0]; rfl
      · show action.start_dispatch i ∈ (s.emit (.start_dispatch i)).log
        simp [sys.emit]

theorem svc_spawn_start_cmd_casc {g : Bool} {notify : sys → Nat → Nat → sys}
    (hn : ∀ s a b, casc g s (notify s a b)) (e : env) (s : sys) (i : Nat) (v : svc)
    (hv : s.svcs[i]? = some v) (hs : v.state = .STARTING) :
    casc g s (svc_spawn_start_cmd notify e s i) :=
  casc_trans (casc_emit g s _) (svc_spawn_start_cmd_casc_emit hn e s i v hv hs)

theorem pending_foldl (p : Nat → Prop) [DecidablePred p] (l : List Nat) :
    ∀ n, l.foldl (fun n src => if p src then n - 1 else n) n = n - l.countP (fun x => decide (p x)) := by
  induction l with
  | nil => intro n; simp
  | cons a l ih =>
    intro n
    rw [List.foldl_cons, ih, List.countP_cons]
    by_cases h : p a <;> simp [h]
    omega

theorem svc_poll_pending_eq_zero (s : sys) (want : tinit_svc_state) (poll : notif_poll) :
    svc_poll_pending s want poll = 0 ↔ ∀ src ∈ poll.srcs, s.state_of src = some want := by
  unfold svc_poll_pending notif_get_poll_cnt
  rw [pending_foldl (fun src => s.state_of src = some want)]
  have hle := List.countP_le_length (fun x => decide (s.state_of x = some want)) (l := poll.srcs)
  constructor
  · intro h
    have heq : List.countP (fun x => decide (s.state_of x = some want)) poll.srcs
        = poll.srcs.length := by omega
    rw [List.countP_eq_length] at heq
    intro src hsrc
    simpa using heq src hsrc
  · intro h
    have heq : List.countP (fun x => decide (s.state_of x = some want)) poll.srcs
        = poll.srcs.length := by
      rw [List.countP_eq_length]
      intro src hsrc
      simpa using h src hsrc
    omega

theorem svc_may_stop_iff (s : sys) (i : Nat) (v : svc) (hv : s.svcs[i]? = some v) :
    svc_may_stop s i = true ↔ ∀ src ∈ v.srcs .stopon, s.state_of src = some .STOPPED := by
  unfold svc_may_stop
  rw [hv]
  simp only [svc.srcs, svc.notif]
  cases hp : v.stopon_notif with
  | none => simp
  | some poll =>
    simp only []
    by_cases hc : notif_get_poll_cnt poll = 0
    · have hnil : poll.srcs = [] := List.length_eq_zero.1 hc
      simp [hc, hnil]
    · simp only [hc, ne_eq, not_false_eq_true, if_true]
      rw [← svc_poll_pending_eq_zero]
      by_cases hz : svc_poll_pending s .STOPPED poll = 0 <;> simp [hz]

theorem svc_may_start_iff (s : sys) (i : Nat) (v : svc) (hv : s.svcs[i]? = some v) :
    svc_may_start s i = true ↔ ∀ src ∈ v.srcs .starton, s.state_of src = some .READY := by
  unfold svc_may_start
  rw [hv]
  simp only [svc.srcs, svc.notif]
  cases hp : v.starton_notif with
  | none => simp
  | some poll =>
    simp only []
    by_cases hc : notif_get_poll_cnt poll = 0
    · have hnil : poll.srcs = [] := List.length_eq_zero.1 hc
      simp [hc, hnil]
    · simp only [hc, ne_eq, not_false_eq_true, if_true]
      rw [← svc_poll_pending_eq_zero]
      by_cases hz : svc_poll_pending s .READY poll = 0 <;> simp [hz]

theorem state_of_upd_keep (s : sys) (i j : Nat) (f : svc → svc)
    (hf : ∀ w, (f w).state = w.state) : (s.upd i f).state_of j = s.state_of j := by
  unfold sys.state_of
  rw [get_upd]
  cases s.svcs[j]? with
  | none => rfl
  | some u =>
    simp only [Option.map_some']
    by_cases hij : i = j
    · simp [hij, hf]
    · simp [hij]

theorem svc_spawn_stop_cmd_casc {g : Bool} {notify : sys → Nat → Nat → sys}
    (hn : ∀ s a b, casc g s (notify s a b)) (e : env) (s : sys) (i : Nat) (v : svc)
    (hv : s.svcs[i]? = some v) (hs : v.state = .STOPPING)
    (hg : g = true → ∀ src ∈ v.srcs .stopon, s.state_of src = some .STOPPED) :
    casc g s (svc_spawn_stop_cmd notify e s i) := by
  unfold svc_spawn_stop_cmd
  rw [hv]
  simp only []
  have h0 : casc g s ((s.upd i (fun w => { w with stop_cmd := w.stop_cmd + 1 })).emit
      (.stop_dispatch i)) :=
    casc_trans (casc_one (micro.stop_index s i v hv hs)) (casc_emit g _ _)
  have hv0 : ((s.upd i (fun w => { w with stop_cmd := w.stop_cmd + 1 })).emit
      (.stop_dispatch i)).svcs[i]? = some { v with stop_cmd := v.stop_cmd + 1 } := by
    rw [svcs_emit, get_upd_self, hv]; rfl
  have hlog : action.stop_dispatch i ∈ ((s.upd i (fun w => { w with stop_cmd := w.stop_cmd + 1 })).emit
      (.stop_dispatch i)).log := by simp [sys.emit]
  split
  · refine casc_trans h0 (svc_mark_stopped_casc hn _ i _ hv0 hs ?_ hlog)
    intro hgt src hsrc
    have h1 := hg hgt src hsrc
    exact (state_of_upd_keep s i src (fun w => { w with stop_cmd := w.stop_cmd + 1 })
      (fun _ => rfl)).trans h1
  · refine casc_trans h0 (casc_trans (svc_spawn_casc g e _ i
      (.stop (to_unsigned (v.stop_cmd + 1))) 5 _ hv0 (Or.inr hs)) ?_)
    have hw := svc_spawn_get_self e ((s.upd i (fun w => { w with stop_cmd := w.stop_cmd + 1 })).emit
      (.stop_dispatch i)) i (.stop (to_unsigned (v.stop_cmd + 1))) 5
    rw [hv0] at hw
    simp only [Option.map_some'] at hw
    refine casc_one (micro.child_stop _ i _ _ hw ?_ ?_)
    · split <;> exact hs
    · rw [svc_spawn_log]
      exact List.mem_cons_of_mem _ hlog

theorem svc_handle_on_notif_casc {g : Bool} {notify : sys → Nat → Nat → sys}
    (hn : ∀ s a b, casc g s (notify s a b)) (e : env) (s : sys) (i src : Nat) :
    casc g s (svc_handle_on_notif notify e s i src) := by
  unfold svc_handle_on_notif
  cases hv : s.svcs[i]? with
  | none => exact casc_refl g s
  | some v =>
    simp only []
    split
    · rename_i hs
      split
      · split
        · exact svc_spawn_start_cmd_casc hn e s i v hv hs
        · exact casc_refl g s
      · exact casc_refl g s
    · exact casc_refl g s

theorem svc_handle_off_notif_casc {g : Bool} {notify : sys → Nat → Nat → sys}
    (hn : ∀ s a b, casc g s (notify s a b)) (e : env) (s : sys) (i src : Nat) :
    casc g s (svc_handle_off_notif notify e s i src) := by
  unfold svc_handle_off_notif
  cases hv : s.svcs[i]? with
  | none => exact casc_refl g s
  | some v =>
    simp only []
    split
    · rename_i hs
      split
      · split
        · rename_i hm
          exact svc_spawn_stop_cmd_casc hn e s i v hv hs
            (fun _ => (svc_may_stop_iff s i v hv).1 hm)
        · exact casc_refl g s
      · exact casc_refl g s
    · exact casc_refl g s

theorem svc_handle_notif_casc (g : Bool) (e : env) (fuel : Nat) :
    ∀ s a b, casc g s (svc_handle_notif e fuel s a b) := by
  induction fuel with
  | zero => intro s a b; exact casc_emit g s _
  | succ n ih =>
    intro s a b
    unfold svc_handle_notif
    split
    · exact casc_refl g s
    · split
      · exact casc_trans (casc_emit g s _) (svc_handle_on_notif_casc ih e _ a b)
      · exact casc_trans (casc_emit g s _) (svc_handle_off_notif_casc ih e _ a b)

theorem micro_cases {g : Bool} {s t : sys} (h : micro g s t) :
    (t.svcs = s.svcs ∧ ∃ l, t.log = l ++ s.log) ∨
    (∃ (i : Nat) (v : svc) (f : svc → svc), s.svcs[i]? = some v ∧
      (v.state = .STARTING ∨ v.state = .STOPPING) ∧ t = s.upd i f) := by
  cases h with
  | count nfork nkill l => exact Or.inl ⟨rfl, l, rfl⟩
  | arm i v t hv hs => exact Or.inr ⟨i, v, _, hv, hs, rfl⟩
  | child_start i v r hv hs hd => exact Or.inr ⟨i, v, _, hv, Or.inl hs, rfl⟩
  | ready i v hv hs hc hd => exact Or.inr ⟨i, v, _, hv, Or.inl hs, rfl⟩
  | stop_index i v hv hs => exact Or.inr ⟨i, v, _, hv, Or.inr hs, rfl⟩
  | stopped i v hv hs hg hd => exact Or.inr ⟨i, v, _, hv, Or.inr hs, rfl⟩
  | child_stop i v r hv hs hd => exact Or.inr ⟨i, v, _, hv, Or.inr hs, rfl⟩

theorem micro_stable {g : Bool} {s t : sys} (h : micro g s t) (j : Nat) (w : svc)
    (hw : s.svcs[j]? = some w) (hst : w.state = .STOPPED) : t.svcs[j]? = some w := by
  rcases micro_cases h with ⟨h1, _⟩ | ⟨i, v, f, hv, hs, ht⟩
  · rw [h1]; exact hw
  · subst ht
    by_cases hij : i = j
    · subst hij
      rw [hv] at hw
      cases hw
      rcases hs with hs | hs <;> simp [hs] at hst
    · rw [get_upd_ne _ _ _ _ hij]; exact hw

theorem casc_stable {g : Bool} {s t : sys} (h : casc g s t) (j : Nat) (w : svc)
    (hw : s.svcs[j]? = some w) (hst : w.state = .STOPPED) : t.svcs[j]? = some w := by
  induction h with
  | refl => exact hw
  | tail _ hstep ih => exact micro_stable hstep j w ih hst

theorem micro_log {g : Bool} {s t : sys} (h : micro g s t) : ∃ l, t.log = l ++ s.log := by
  rcases micro_cases h with ⟨_, h2⟩ | ⟨i, v, f, _, _, ht⟩
  · exact h2
  · subst ht; exact ⟨[], rfl⟩

theorem casc_log {g : Bool} {s t : sys} (h : casc g s t) : ∃ l, t.log = l ++ s.log := by
  induction h with
  | refl => exact ⟨[], rfl⟩
  | tail _ hstep ih =>
    obtain ⟨l1, h1⟩ := ih
    obtain ⟨l2, h2⟩ := micro_log hstep
    exact ⟨l2 ++ l1, by rw [h2, h1, List.append_assoc]⟩

theorem casc_log_mem {g : Bool} {s t : sys} (h : casc g s t) (a : action) (ha : a ∈ s.log) :
    a ∈ t.log := by
  obtain ⟨l, hl⟩ := casc_log h
  rw [hl]
  exact List.mem_append_right _ ha

theorem settles_refl (s : sys) : s.settles s :=
  ⟨fun _ _ hw _ => hw, fun j w hw hst => Or.inl (by simp [sys.state_of, hw, hst])⟩

theorem settles_trans {s t u : sys} (h1 : s.settles t) (h2 : t.settles u) : s.settles u := by
  refine ⟨fun j w hw hst => h2.1 j w (h1.1 j w hw hst) hst, ?_⟩
  intro j w hw hst
  rcases h2.2 j w hw hst with h | h
  · -- already STOPPED in t, with the same record
    unfold sys.state_of at h
    cases ht : t.svcs[j]? with
    | none => simp [ht] at h
    | some w1 =>
      simp [ht] at h
      have hsame := h2.1 j w1 ht h
      rw [hw] at hsame
      cases hsame
      rcases h1.2 j w ht hst with h3 | h3
      · exact Or.inl h3
      · right
        intro src hsrc
        have h4 := h3 src hsrc
        unfold sys.state_of at h4 ⊢
        cases hts : t.svcs[src]? with
        | none => simp [hts] at h4
        | some w2 =>
          simp [hts] at h4
          rw [h2.1 src w2 hts h4]
          simp [h4]
  · exact Or.inr h

theorem settles_of_svcs_eq {s t : sys} (h : t.svcs = s.svcs) : s.settles t := by
  refine ⟨fun j w hw _ => by rw [h]; exact hw, fun j w hw hst => Or.inl ?_⟩
  rw [h] at hw
  simp [sys.state_of, hw, hst]

theorem settles_upd {s : sys} {i : Nat} {v : svc} {f : svc → svc} (hv : s.svcs[i]? = some v)
    (hs : v.state ≠ .STOPPED)
    (hf : (f v).state = .STOPPED → ∀ src ∈ (f v).srcs .stopon, s.state_of src = some .STOPPED) :
    s.settles (s.upd i f) := by
  refine ⟨?_, ?_⟩
  · intro j w hw hst
    by_cases hij : i = j
    · subst hij
      rw [hv] at hw
      cases hw
      exact absurd hst hs
    · rw [get_upd_ne _ _ _ _ hij]; exact hw
  · intro j w hw hst
    by_cases hij : i = j
    · subst hij
      rw [get_upd_self, hv] at hw
      simp at hw
      subst hw
      right
      intro src hsrc
      have h1 := hf hst src hsrc
      by_cases hsi : i = src
      · subst hsi
        simp [sys.state_of, hv] at h1
        exact absurd h1 hs
      · unfold sys.state_of at h1 ⊢
        rw [get_upd_ne _ _ _ _ hsi]
        exact h1
    · rw [get_upd_ne _ _ _ _ hij] at hw
      left
      simp [sys.state_of, hw, hst]

theorem micro_settles {s t : sys} (h : micro true s t) : s.settles t := by
  cases h with
  | count nfork nkill l => exact settles_of_svcs_eq rfl
  | arm i v t hv hs =>
    refine settles_upd hv (by rcases hs with hs | hs <;> simp [hs]) ?_
    intro h; rcases hs with hs | hs <;> simp [hs] at h
  | child_start i v r hv hs hd =>
    refine settles_upd hv (by simp [hs]) ?_
    intro h; simp [hs] at h
  | ready i v hv hs hc hd =>
    refine settles_upd hv (by simp [hs]) ?_
    intro h; simp at h
  | stop_index i v hv hs =>
    refine settles_upd hv (by simp [hs]) ?_
    intro h; simp [hs] at h
  | stopped i v hv hs hg hd =>
    refine settles_upd hv (by simp [hs]) ?_
    intro _ src hsrc
    exact hg rfl src hsrc
  | child_stop i v r hv hs hd =>
    refine settles_upd hv (by simp [hs]) ?_
    intro h; simp [hs] at h

theorem casc_settles {s t : sys} (h : casc true s t) : s.settles t := by
  induction h with
  | refl => exact settles_refl s
  | tail _ hstep ih => exact settles_trans ih (micro_settles hstep)

theorem svc_kill_casc (g : Bool) (e : env) (s : sys) (i : Nat) (signo : Int) :
    casc g s (svc_kill e s i signo).1 := by
  unfold svc_kill
  split
  · exact casc_refl g s
  · split
    · exact casc_refl g s
    · rename_i v _ _
      have h := casc_one (@micro.count g s s.nfork (s.nkill + 1)
        [.kill i v.child signo (e.kill s.nkill)])
      simp only []
      split <;> exact h

theorem svc_stop_settles (e : env) (fuel : Nat) (s : sys) (i : Nat)
    (hs : s.state_of i ≠ some .STOPPED) :
    s.settles (svc_stop (svc_handle_notif e fuel) e s i) := by
  unfold svc_stop
  cases hv : s.svcs[i]? with
  | none => exact settles_refl s
  | some v =>
    simp only []
    have hvs : v.state ≠ .STOPPED := by
      intro h; apply hs; simp [sys.state_of, hv, h]
    have h1 : s.settles (s.upd i (fun w =>
        { w with handle_evts := .off, handle_notif := .off, state := .STOPPING,
                 timer := utimer_setup w.timer .off, stop_cmd := -1 })) := by
      refine settles_upd hv hvs ?_
      intro h; simp at h
    have hv1 : (s.upd i (fun w =>
        { w with handle_evts := .off, handle_notif := .off, state := .STOPPING,
                 timer := utimer_setup w.timer .off, stop_cmd := -1 })).svcs[i]? =
        some { v with handle_evts := .off, handle_notif := .off, state := .STOPPING,
                      timer := utimer_setup v.timer .off, stop_cmd := -1 } := by
      rw [get_upd_self, hv]; rfl
    split
    · exact h1
    · rename_i hm
      simp only [Bool.not_eq_true, Bool.not_eq_false'] at hm
      refine settles_trans h1 (casc_settles ?_)
      have hk := svc_kill_casc true e (s.upd i (fun w =>
        { w with handle_evts := .off, handle_notif := .off, state := .STOPPING,
                 timer := utimer_setup w.timer .off, stop_cmd := -1 })) i v.conf.stop_sig
      have hv2 := hv1
      rw [← svc_kill_svcs e _ i v.conf.stop_sig] at hv2
      split
      · exact casc_trans hk (casc_one (micro.arm _ i _ 5 hv2 (Or.inr rfl)))
      · refine casc_trans hk (svc_spawn_stop_cmd_casc (svc_handle_notif_casc true e fuel) e _ i _
          hv2 rfl ?_)
        intro _ src hsrc
        have h3 := (svc_may_stop_iff _ i _ hv1).1 (by simpa using hm) src hsrc
        unfold sys.state_of at h3 ⊢
        rw [svc_kill_svcs]
        exact h3

theorem tinit_target_stop_svc_settles (e : env) (fuel : Nat) (acc : sys × Nat) (i : Nat) :
    acc.1.settles (tinit_target_stop_svc (svc_handle_notif e fuel) e acc i).1 := by
  unfold tinit_target_stop_svc
  split
  · exact settles_refl _
  · exact settles_refl _
  · exact settles_refl _
  · rename_i st hne1 hne2 hst
    have h := svc_stop_settles e fuel acc.1 i (by rw [hst]; intro h; cases h; exact hne1 rfl)
    simp only []
    split <;> exact h

theorem tinit_target_stop_fold_settles (e : env) (fuel : Nat) (l : List Nat) :
    ∀ acc : sys × Nat,
      acc.1.settles (l.foldl (tinit_target_stop_svc (svc_handle_notif e fuel) e) acc).1 := by
  induction l with
  | nil => intro acc; exact settles_refl _
  | cons a l ih =>
    intro acc
    exact settles_trans (tinit_target_stop_svc_settles e fuel acc a) (ih _)


theorem upd_upd (s : sys) (i : Nat) (f g : svc → svc) :
    (s.upd i f).upd i g = s.upd i (fun w => g (f w)) := by
  unfold sys.upd
  simp only [sys.mk.injEq, and_true]
  apply List.ext_getElem?
  intro n
  simp only [List.getElem?_modify]
  cases s.svcs[n]? with
  | none => rfl
  | some u =>
    by_cases hin : i = n <;> simp [hin]

theorem state_of_upd_other (s : sys) (i j : Nat) (f : svc → svc) (h : i ≠ j) :
    (s.upd i f).state_of j = s.state_of j := by
  unfold sys.state_of
  rw [get_upd_ne _ _ _ _ h]

theorem demo_daemon_initial : ∀ v ∈ demo_daemon.svcs, v.initial := by
  intro v hv
  simp only [demo_daemon, List.mem_singleton] at hv
  subst hv
  exact ⟨rfl, rfl, rfl, rfl, rfl⟩

theorem reachable_run (e : env) (fuel : Nat) (l : List input) :
    ∀ s, reachable e s → reachable e (run e fuel s l) := by
  induction l with
  | nil => intro s h; exact h
  | cons a l ih => intro s h; exact ih _ (reachable.step s fuel a h)

/-- C1: in every state reachable from initial services by calls of svc_start
and svc_stop, START/STOP/EXIT events, notifications, timer expiries and
reaping, a service has the on-handlers installed (svc_is_on) if and only if its
run state is STARTING or READY, and the off-handlers if and only if its run
state is STOPPED or STOPPING. -/
theorem handlers_match_run_state (e : env) (s : sys) (h : reachable e s) (v : svc)
    (hv : v ∈ s.svcs) :
    (svc_is_on v = true ↔ (v.state = .STARTING ∨ v.state = .READY)) ∧
    ((v.handle_evts = .on ∧ v.handle_notif = .on) ↔
      (v.state = .STARTING ∨ v.state = .READY)) ∧
    ((v.handle_evts = .off ∧ v.handle_notif = .off) ↔
      (v.state = .STOPPED ∨ v.state = .STOPPING)) := by
  obtain ⟨i, hi⟩ := List.mem_iff_getElem?.1 hv
  obtain ⟨g1, _, g3, _⟩ := reachable_inv e s h i v hi
  refine ⟨?_, ?_, ?_⟩
  · simp [svc_is_on, g3]
  · rw [g1]
    simp [g3]
  · rw [g1]
    cases hs : v.state <;> cases hh : v.handle_notif <;> simp [hs, hh] at g3 ⊢

/-- C1 on the service "echo" once started (READY, daemon 100). -/
theorem handlers_match_run_state_witness :
    reachable demo_env (run demo_env 1 demo_daemon [.start 0]) ∧
    demo_daemon_ready ∈ (run demo_env 1 demo_daemon [.start 0]).svcs ∧
    (svc_is_on demo_daemon_ready = true ↔
      (demo_daemon_ready.state = .STARTING ∨ demo_daemon_ready.state = .READY)) :=
  ⟨reachable_run _ _ _ _ (reachable.init _ demo_daemon_initial),
   by decide,
   (handlers_match_run_state demo_env (run demo_env 1 demo_daemon [.start 0])
      (reachable_run _ _ _ _ (reachable.init _ demo_daemon_initial))
      demo_daemon_ready (by decide)).1⟩

/-- C4, the code at the failing inputs.  First run: "echo" is started (daemon
100), its timer expires, it is stopped (SIGTERM to 100, which is not reaped)
and started again: `svc_start` spawns the daemon 101 while 100 is outstanding.
Second run: "a" waits for "b"; "b" becomes READY (daemon 100) and "a" spawns
its start command 101; the timer of "b" expires, the daemon of "b" exits and is
respawned (102): the notification makes "a" spawn its start command again
(103) while 101 is outstanding. -/
theorem spawn_over_outstanding_child :
    outstanding 0 (run demo_env 1 demo_daemon [.start 0, .expire 0, .stop 0, .start 0]).log
      = [101, 100] ∧
    outstanding 0 (run demo_env 2 demo_chain
      [.start 0, .start 1, .expire 1, .sigchld [⟨100, .EXITED, 0⟩]]).log = [103, 101] := by
  constructor <;> decide

/-- C5, the code at the failing input: "echo" is started (daemon 100, timer
armed for 1 s) and the daemon exits with status 0 before the timer expires.
The daemon is not respawned at once (one `vfork` so far, child slot -1, still
READY), and the expiry of the timer changes nothing but the timer: no `vfork`,
child slot still -1, still READY. -/
theorem flap_guard_no_respawn_on_expiry :
    (run demo_env 1 demo_daemon [.start 0, .sigchld [⟨100, .EXITED, 0⟩]]).svcs
      = [demo_daemon_flapped] ∧
    (run demo_env 1 demo_daemon [.start 0, .sigchld [⟨100, .EXITED, 0⟩]]).nfork = 1 ∧
    (run demo_env 1 demo_daemon [.start 0, .sigchld [⟨100, .EXITED, 0⟩], .expire 0]).svcs
      = [{ demo_daemon_flapped with timer := { armed := none, expire := some .on } }] ∧
    (run demo_env 1 demo_daemon [.start 0, .sigchld [⟨100, .EXITED, 0⟩], .expire 0]).nfork
      = 1 := by
  refine ⟨?_, ?_, ?_, ?_⟩ <;> decide

/-- C6, the code at the failing inputs.  First run: "a" (daemon 100, waits for
"b" to stop) and "b" (no child) are READY; `tinit_target_stop` counts "a" when
its stop is deferred, then stops "b", whose notification marks "a" STOPPED:
the count handed to `tinit_sigchan_stop` is 1 and no service is left to wait
for.  Second run: both have a daemon; `tinit_target_stop` hands over the count
2; the SIGCHLD of the daemon of "b" marks "b" and, by notification, "a"
STOPPED: two services became STOPPED, the counter drops by one to 1, and the
dispatcher does not report the end of the drain. -/
theorem drain_counter_misses_notified_stops :
    (tinit_target_stop (svc_handle_notif demo_env 2) demo_env
      (run demo_env 2 (demo_stopon 0 false) [.start 0, .start 1, .sigchld [⟨101, .EXITED, 0⟩]])
      demo_chan).2.cnt = 1 ∧
    not_stopped (tinit_target_stop (svc_handle_notif demo_env 2) demo_env
      (run demo_env 2 (demo_stopon 0 false) [.start 0, .start 1, .sigchld [⟨101, .EXITED, 0⟩]])
      demo_chan).1 = 0 ∧
    (tinit_target_stop (svc_handle_notif demo_env 2) demo_env
      (run demo_env 2 (demo_stopon 0 true) [.start 0, .start 1]) demo_chan).2.cnt = 2 ∧
    not_stopped (tinit_target_stop (svc_handle_notif demo_env 2) demo_env
      (run demo_env 2 (demo_stopon 0 true) [.start 0, .start 1]) demo_chan).1 = 2 ∧
    (tinit_sigchan_dispatch_stopping (svc_handle_notif demo_env 2) demo_env
      (tinit_target_stop (svc_handle_notif demo_env 2) demo_env
        (run demo_env 2 (demo_stopon 0 true) [.start 0, .start 1]) demo_chan).1
      (tinit_target_stop (svc_handle_notif demo_env 2) demo_env
        (run demo_env 2 (demo_stopon 0 true) [.start 0, .start 1]) demo_chan).2
      [⟨SIGCHLD, [⟨101, .EXITED, 0⟩]⟩]).2 = ({ stopping := true, signo := SIGTERM, cnt := 1 }, 0) ∧
    not_stopped (tinit_sigchan_dispatch_stopping (svc_handle_notif demo_env 2) demo_env
      (tinit_target_stop (svc_handle_notif demo_env 2) demo_env
        (run demo_env 2 (demo_stopon 0 true) [.start 0, .start 1]) demo_chan).1
      (tinit_target_stop (svc_handle_notif demo_env 2) demo_env
        (run demo_env 2 (demo_stopon 0 true) [.start 0, .start 1]) demo_chan).2
      [⟨SIGCHLD, [⟨101, .EXITED, 0⟩]⟩]).1 = 0 := by
  refine ⟨?_, ?_, ?_, ?_, ?_, ?_⟩ <;> decide

/-- C8, amended: for a service in STARTING or READY whose child slot holds a
pid that `kill` finds, and whose registered stopon sources are all STOPPED, a
STOP (the STOP event, or `svc_stop` itself) installs the off-handlers, sets the
run state to STOPPING and the stop command index to -1, sends the configured
stop signal to the child and arms the timer for 5 seconds; nothing else
changes: no command is spawned and no stop command is dispatched. -/
theorem svc_stop_signals_live_child (notify : sys → Nat → Nat → sys) (e : env) (s : sys)
    (i : Nat) (v : svc) (status : Int) (hv : s.svcs[i]? = some v)
    (hst : v.state = .STARTING ∨ v.state = .READY) (hon : v.handle_evts = .on)
    (hc : 0 < v.child) (hk : e.kill s.nkill = true)
    (hsrc : ∀ src ∈ v.srcs .stopon, s.state_of src = some .STOPPED) :
    svc_handle_evts notify e s i .STOP status = svc_stop notify e s i ∧
    svc_stop notify e s i =
      { svcs := s.svcs.modify (fun w =>
          { w with handle_evts := .off, handle_notif := .off, state := .STOPPING,
                   timer := { armed := some 5, expire := some .off }, stop_cmd := -1 }) i,
        nfork := s.nfork, nkill := s.nkill + 1,
        log := .kill i v.child v.conf.stop_sig true :: s.log } := by
  constructor
  · unfold svc_handle_evts svc_handle_on_evts
    rw [hv]
    simp only [hon]
    rcases hst with h | h <;> simp [h]
  · unfold svc_stop
    rw [hv]
    simp only []
    have hv1 : (s.upd i (fun w =>
        { w with handle_evts := .off, handle_notif := .off, state := .STOPPING,
                 timer := utimer_setup w.timer .off, stop_cmd := -1 })).svcs[i]? =
        some { v with handle_evts := .off, handle_notif := .off, state := .STOPPING,
                      timer := utimer_setup v.timer .off, stop_cmd := -1 } := by
      rw [get_upd_self, hv]; rfl
    have hm : svc_may_stop (s.upd i (fun w =>
        { w with handle_evts := .off, handle_notif := .off, state := .STOPPING,
                 timer := utimer_setup w.timer .off, stop_cmd := -1 })) i = true := by
      rw [svc_may_stop_iff _ i _ hv1]
      intro src hmem
      have h1 := hsrc src hmem
      by_cases hi : i = src
      · subst hi
        simp [sys.state_of, hv] at h1
        rcases hst with h | h <;> simp [h] at h1
      · rw [state_of_upd_other _ _ _ _ hi]; exact h1
    simp only [hm, Bool.not_true, Bool.false_eq_true, if_false]
    unfold svc_kill
    rw [hv1]
    have hnc : ¬ v.child ≤ 0 := by omega
    simp only [hnc, if_false]
    have hk1 : e.kill (s.upd i (fun w =>
        { w with handle_evts := .off, handle_notif := .off, state := .STOPPING,
                 timer := utimer_setup w.timer .off, stop_cmd := -1 })).nkill = true := hk
    simp only [hk1, if_true]
    simp only [sys.upd, utimer_setup, utimer_arm_sec, sys.mk.injEq, and_true, true_and]
    apply List.ext_getElem?
    intro n
    simp only [List.getElem?_modify]
    cases s.svcs[n]? with
    | none => rfl
    | some u =>
      by_cases hin : i = n <;> simp [hin]

theorem to_unsigned_natCast (n : Nat) (h : n < 4294967296) : to_unsigned (n : Int) = n := by
  unfold to_unsigned
  have h1 : ((n : Int) % 4294967296) = (n : Int) := by omega
  rw [h1]
  exact Int.toNat_natCast n

/-- C9: for a service in STOPPING.  When its timer (callback `svc_expire_off`)
expires and the child slot holds a pid: if `kill` finds the process, SIGKILL is
sent and only the timer changes (the stop index and the state are as before);
if `kill` reports no such process, the stop dispatcher runs at once.  An EXIT
event advances the stop index by one to `n`; when `n` is below the number of
stop commands, stop command `n` is spawned with a 5 s timeout and the outcome
of the spawn is stored in the child slot; when `n` has reached the number of
stop commands, the service is STOPPED with its child slot cleared, whatever
the notification cascade does. -/
theorem stop_timeout_sequence (e : env) (fuel : Nat) (s : sys) (i : Nat) (v : svc)
    (hv : s.svcs[i]? = some v) (hs : v.state = .STOPPING) :
    (∀ t : Nat, v.timer = { armed := some t, expire := some .off } → 0 < v.child →
      e.kill s.nkill = true →
      utimer_expire (svc_handle_notif e fuel) e s i =
        { svcs := s.svcs.modify (fun w => { w with timer := { w.timer with armed := none } }) i,
          nfork := s.nfork, nkill := s.nkill + 1,
          log := .kill i v.child SIGKILL true :: s.log }) ∧
    (∀ t : Nat, v.timer = { armed := some t, expire := some .off } → 0 < v.child →
      e.kill s.nkill = false →
      utimer_expire (svc_handle_notif e fuel) e s i =
        svc_spawn_stop_cmd (svc_handle_notif e fuel) e
          { svcs := s.svcs.modify (fun w => { w with timer := { w.timer with armed := none } }) i,
            nfork := s.nfork, nkill := s.nkill + 1,
            log := .kill i v.child SIGKILL false :: s.log } i) ∧
    (∀ (status : Int) (n : Nat), v.handle_evts = .off → v.stop_cmd + 1 = (n : Int) →
      n < v.conf.stop_nr → n < 4294967296 →
      svc_handle_evts (svc_handle_notif e fuel) e s i .EXIT status =
        { svcs := s.svcs.modify (fun w =>
            { w with stop_cmd := (n : Int), child := (e.vfork s.nfork).val,
                     timer := if (e.vfork s.nfork).val < 0 then w.timer
                              else { w.timer with armed := some 5 } }) i,
          nfork := s.nfork + 1, nkill := s.nkill,
          log := .spawn i (.stop n) 5 (e.vfork s.nfork).val :: .stop_dispatch i :: s.log }) ∧
    (∀ (status : Int) (n : Nat), v.handle_evts = .off → v.stop_cmd + 1 = (n : Int) →
      v.conf.stop_nr ≤ n → n < 4294967296 →
      (svc_handle_evts (svc_handle_notif e fuel) e s i .EXIT status).svcs[i]? =
        some { v with stop_cmd := (n : Int), child := -1, state := .STOPPED }) := by
  have hexp : ∀ t : Nat, v.timer = { armed := some t, expire := some .off } →
      utimer_expire (svc_handle_notif e fuel) e s i =
        svc_expire_off (svc_handle_notif e fuel) e
          (s.upd i (fun w => { w with timer := { w.timer with armed := none } })) i := by
    intro t ht
    unfold utimer_expire
    rw [hv]
    simp [ht, utimer_is_armed]
  have hv1 : (s.upd i (fun w => { w with timer := { w.timer with armed := none } })).svcs[i]?
      = some { v with timer := { v.timer with armed := none } } := by
    rw [get_upd_self, hv]; rfl
  have hevt : ∀ status : Int, v.handle_evts = .off →
      svc_handle_evts (svc_handle_notif e fuel) e s i .EXIT status =
        svc_spawn_stop_cmd (svc_handle_notif e fuel) e s i := by
    intro status hoff
    unfold svc_handle_evts svc_handle_off_evts
    rw [hv]
    simp [hoff, hs]
  refine ⟨?_, ?_, ?_, ?_⟩
  · intro t ht hc hk
    rw [hexp t ht]
    unfold svc_expire_off
    rw [hv1]
    simp only [hs]
    unfold svc_kill
    rw [hv1]
    have hnc : ¬ v.child ≤ 0 := by omega
    have hk1 : e.kill (s.upd i (fun w =>
        { w with timer := { w.timer with armed := none } })).nkill = true := hk
    simp [hnc, hk, sys.upd]
  · intro t ht hc hk
    rw [hexp t ht]
    unfold svc_expire_off
    rw [hv1]
    simp only [hs]
    unfold svc_kill
    rw [hv1]
    have hnc : ¬ v.child ≤ 0 := by omega
    have hk1 : e.kill (s.upd i (fun w =>
        { w with timer := { w.timer with armed := none } })).nkill = false := hk
    simp [hnc, hk, sys.upd, ESRCH]
  · intro status n hoff hn hlt hb
    rw [hevt status hoff]
    unfold svc_spawn_stop_cmd
    rw [hv]
    simp only [hn, to_unsigned_natCast n hb]
    have hnlt : ¬ n ≥ v.conf.stop_nr := by omega
    simp only [hnlt, if_false]
    unfold svc_spawn
    simp only [sys.emit, sys.upd]
    split
    · simp only [sys.mk.injEq, and_true, true_and]
      apply List.ext_getElem?
      intro m
      simp only [List.getElem?_modify]
      cases hm : s.svcs[m]? with
      | none => rfl
      | some u =>
        by_cases him : i = m
        · subst him
          rw [hv] at hm
          cases hm
          simp [hn, *]
        · simp [him]
    · simp only [sys.mk.injEq, and_true, true_and]
      apply List.ext_getElem?
      intro m
      simp only [List.getElem?_modify]
      cases hm : s.svcs[m]? with
      | none => rfl
      | some u =>
        by_cases him : i = m
        · subst him
          rw [hv] at hm
          cases hm
          simp [hn, utimer_arm_sec, *]
        · simp [him]
  · intro status n hoff hn hge hb
    rw [hevt status hoff]
    unfold svc_spawn_stop_cmd
    rw [hv]
    simp only [hn, to_unsigned_natCast n hb]
    have hnge : n ≥ v.conf.stop_nr := hge
    simp only [hnge, if_true]
    have hv0 : ((s.upd i (fun w => { w with stop_cmd := w.stop_cmd + 1 })).emit
        (.stop_dispatch i)).svcs[i]? = some { v with stop_cmd := v.stop_cmd + 1 } := by
      rw [svcs_emit, get_upd_self, hv]; rfl
    unfold svc_mark_stopped
    rw [hv0]
    simp only []
    refine casc_stable (casc_foldl (svc_handle_notif_casc true e fuel) _ _ _) i _ ?_ rfl
    rw [svcs_emit, get_upd_self, hv0]
    simp [hn]

/-- C8, as stated, fails: "a" is READY with the live daemon 100 and waits for
"b", which is READY, to stop.  A STOP event installs the off-handlers and sets
STOPPING, but sends no signal (the log is unchanged) and does not arm the
timer for 5 seconds (the 1-second arm of the spawn is still pending). -/
theorem svc_stop_deferred_counterexample :
    (run demo_env 2 (demo_stopon 0 true) [.start 0, .start 1]).svcs[0]?
      = some demo_stopon_a_ready ∧
    (run demo_env 2 (demo_stopon 0 true) [.start 0, .start 1, .evt 0 .STOP 0]).svcs[0]?
      = some { demo_stopon_a_ready with
               handle_evts := .off, handle_notif := .off, state := .STOPPING,
               timer := { armed := some 1, expire := some .off }, stop_cmd := -1 } ∧
    (run demo_env 2 (demo_stopon 0 true) [.start 0, .start 1, .evt 0 .STOP 0]).log
      = (run demo_env 2 (demo_stopon 0 true) [.start 0, .start 1]).log := by
  refine ⟨?_, ?_, ?_⟩ <;> decide

/-- C8, amended, on the service "echo", READY with the daemon 100: `svc_stop`
sends SIGTERM to 100 and arms the timer for 5 seconds. -/
theorem svc_stop_signals_live_child_witness :
    (run demo_env 1 demo_daemon [.start 0]).svcs[0]? = some demo_daemon_ready ∧
    svc_stop (svc_handle_notif demo_env 1) demo_env (run demo_env 1 demo_daemon [.start 0]) 0 =
      { svcs := [demo_daemon_stopping], nfork := 1, nkill := 1,
        log := .kill 0 100 SIGTERM true :: (run demo_env 1 demo_daemon [.start 0]).log } :=
  ⟨by decide,
   (svc_stop_signals_live_child (svc_handle_notif demo_env 1) demo_env
      (run demo_env 1 demo_daemon [.start 0]) 0 demo_daemon_ready 0 (by decide)
      (Or.inr rfl) rfl (by decide) rfl (by decide)).2.trans (by decide)⟩

/-- C9 on the service "echo", STOPPING after SIGTERM: the expiry of the timer
sends SIGKILL to 100, and the EXIT event marks the service STOPPED. -/
theorem stop_timeout_sequence_witness :
    (run demo_env 1 demo_daemon [.start 0, .stop 0]).svcs[0]? = some demo_daemon_stopping ∧
    utimer_expire (svc_handle_notif demo_env 1) demo_env
      (run demo_env 1 demo_daemon [.start 0, .stop 0]) 0 =
      { svcs := [{ demo_daemon_stopping with timer := { armed := none, expire := some .off } }],
        nfork := 1, nkill := 2,
        log := .kill 0 100 SIGKILL true :: (run demo_env 1 demo_daemon [.start 0, .stop 0]).log } ∧
    (svc_handle_evts (svc_handle_notif demo_env 1) demo_env
      (run demo_env 1 demo_daemon [.start 0, .stop 0]) 0 .EXIT 0).svcs[0]? =
      some { demo_daemon_stopping with stop_cmd := 0, child := -1, state := .STOPPED } :=
  ⟨by decide,
   ((stop_timeout_sequence demo_env 1 (run demo_env 1 demo_daemon [.start 0, .stop 0]) 0
      demo_daemon_stopping (by decide) rfl).1 5 rfl (by decide) rfl).trans (by decide),
   (stop_timeout_sequence demo_env 1 (run demo_env 1 demo_daemon [.start 0, .stop 0]) 0
      demo_daemon_stopping (by decide) rfl).2.2.2 0 0 rfl (by decide) (by decide) (by decide)⟩

theorem micro_keeps {g : Bool} {s t : sys} (h : micro g s t) (j : Nat) (w : svc)
    (hw : s.svcs[j]? = some w) (hst : w.state = .STOPPED ∨ w.state = .READY) :
    t.svcs[j]? = some w := by
  rcases micro_cases h with ⟨h1, _⟩ | ⟨i, v, f, hv, hs, ht⟩
  · rw [h1]; exact hw
  · subst ht
    by_cases hij : i = j
    · subst hij
      rw [hv] at hw
      cases hw
      rcases hs with hs | hs <;> rcases hst with hst | hst <;> simp [hs] at hst
    · rw [get_upd_ne _ _ _ _ hij]; exact hw

theorem casc_keeps {g : Bool} {s t : sys} (h : casc g s t) (j : Nat) (w : svc)
    (hw : s.svcs[j]? = some w) (hst : w.state = .STOPPED ∨ w.state = .READY) :
    t.svcs[j]? = some w := by
  induction h with
  | refl => exact hw
  | tail _ hstep ih => exact micro_keeps hstep j w ih hst

theorem ran_casc {g : Bool} {s t : sys} {base : List action} {a : Nat} (h : casc g s t)
    (hr : s.ran base a) : t.ran base a := by
  obtain ⟨l, hl, hd⟩ := hr
  obtain ⟨l2, h2⟩ := casc_log h
  exact ⟨l2 ++ l, by rw [h2, hl, List.append_assoc], List.mem_append_right _ hd⟩

theorem dispatched_of_ran {t : sys} {base : List action} {a : Nat} {va : svc}
    (h : t.ran base a) : t.dispatched base a va := by
  obtain ⟨l, hl, hd⟩ := h
  exact ⟨l, hl, Or.inl hd⟩

theorem dispatched_emit {t : sys} {base : List action} {a : Nat} {va : svc}
    (h : t.dispatched base a va) (x : action) : (t.emit x).dispatched base a va := by
  obtain ⟨l, hl, hd⟩ := h
  refine ⟨x :: l, by simp [sys.emit, hl], ?_⟩
  rcases hd with hd | hd
  · exact Or.inl (List.mem_cons_of_mem _ hd)
  · exact Or.inr hd

theorem dispatched_upd {t : sys} {base : List action} {a : Nat} {va : svc}
    (h : t.dispatched base a va) (i : Nat) (f : svc → svc) (hi : i ≠ a) :
    (t.upd i f).dispatched base a va := by
  obtain ⟨l, hl, hd⟩ := h
  refine ⟨l, hl, ?_⟩
  rcases hd with hd | hd
  · exact Or.inl hd
  · right
    rw [get_upd_ne _ _ _ _ hi]; exact hd

theorem dispatched_spawn {t : sys} {base : List action} {a : Nat} {va : svc}
    (h : t.dispatched base a va) (e : env) (i : Nat) (cmd : cmd_ref) (tm : Nat) (hi : i ≠ a) :
    (svc_spawn e t i cmd tm).1.dispatched base a va := by
  obtain ⟨l, hl, hd⟩ := h
  refine ⟨.spawn i cmd tm (e.vfork t.nfork).val :: l, by rw [svc_spawn_log, hl]; rfl, ?_⟩
  rcases hd with hd | hd
  · exact Or.inl (List.mem_cons_of_mem _ hd)
  · right
    unfold svc_spawn
    simp only []
    split
    · exact hd
    · rw [get_upd_ne _ _ _ _ hi]; exact hd

theorem dispatched_foldl {notify : sys → Nat → Nat → sys} {base : List action} {a : Nat}
    {va : svc} (hn : ∀ s x y, s.dispatched base a va → (notify s x y).dispatched base a va)
    (l : List Nat) (i : Nat) :
    ∀ s, s.dispatched base a va →
      (l.foldl (fun acc sink => notify acc sink i) s).dispatched base a va := by
  induction l with
  | nil => intro s h; exact h
  | cons x l ih => intro s h; exact ih _ (hn _ _ _ h)

theorem svc_mark_ready_dispatched {notify : sys → Nat → Nat → sys} {base : List action}
    {a : Nat} {va : svc}
    (hn : ∀ s x y, s.dispatched base a va → (notify s x y).dispatched base a va)
    (s : sys) (i : Nat) (hi : i ≠ a) (h : s.dispatched base a va) :
    (svc_mark_ready notify s i).dispatched base a va := by
  unfold svc_mark_ready
  split
  · exact h
  · exact dispatched_foldl hn _ _ _ (dispatched_emit (dispatched_upd h i _ hi) _)

theorem svc_mark_stopped_dispatched {notify : sys → Nat → Nat → sys} {base : List action}
    {a : Nat} {va : svc}
    (hn : ∀ s x y, s.dispatched base a va → (notify s x y).dispatched base a va)
    (s : sys) (i : Nat) (hi : i ≠ a) (h : s.dispatched base a va) :
    (svc_mark_stopped notify s i).dispatched base a va := by
  unfold svc_mark_stopped
  split
  · exact h
  · exact dispatched_foldl hn _ _ _ (dispatched_emit (dispatched_upd h i _ hi) _)

theorem svc_spawn_start_cmd_ran {g : Bool} {notify : sys → Nat → Nat → sys}
    (hc : ∀ s x y, casc g s (notify s x y)) (e : env) (s : sys) (i : Nat) (v : svc)
    (hv : s.svcs[i]? = some v) (hs : v.state = .STARTING) (base : List action)
    (hb : ∃ l, s.log = l ++ base) :
    (svc_spawn_start_cmd notify e s i).ran base i := by
  obtain ⟨l, hl⟩ := hb
  have h0 : (s.emit (.start_dispatch i)).ran base i :=
    ⟨.start_dispatch i :: l, by simp [sys.emit, hl], List.mem_cons_self _ _⟩
  exact ran_casc (svc_spawn_start_cmd_casc_emit hc e s i v hv hs) h0

theorem svc_spawn_start_cmd_dispatched {notify : sys → Nat → Nat → sys}
    {base : List action} {a : Nat} {va : svc}
    (hc : ∀ s x y, casc false s (notify s x y))
    (hn : ∀ s x y, s.dispatched base a va → (notify s x y).dispatched base a va)
    (e : env) (s : sys) (i : Nat) (v : svc) (hv : s.svcs[i]? = some v)
    (hs : v.state = .STARTING) (h : s.dispatched base a va) :
    (svc_spawn_start_cmd notify e s i).dispatched base a va := by
  by_cases hi : i = a
  · subst hi
    obtain ⟨l, hl, _⟩ := h
    exact dispatched_of_ran (svc_spawn_start_cmd_ran hc e s i v hv hs base ⟨l, hl⟩)
  · unfold svc_spawn_start_cmd
    rw [hv]
    simp only []
    have h0 := dispatched_emit h (.start_dispatch i)
    have hspawn : ∀ cmd, ((svc_spawn e (s.emit (.start_dispatch i)) i cmd 1).1.upd i
        (fun w => { w with child := (svc_spawn e (s.emit (.start_dispatch i)) i cmd 1).2 })).dispatched
        base a va :=
      fun cmd => dispatched_upd (dispatched_spawn h0 e i cmd 1 hi) i _ hi
    by_cases hlt : v.start_cmd < v.conf.start_nr
    · simp only [hlt, if_true]
      split
      · exact hspawn _
      · exact hspawn _
    · simp only [hlt, if_false]
      by_cases hdm : v.conf.daemon = true
      · simp only [hdm, if_true]
        split
        · exact hspawn _
        · exact svc_mark_ready_dispatched hn _ i hi (hspawn _)
      · simp only [hdm]
        simp only [if_true]
        exact svc_mark_ready_dispatched hn _ i hi (dispatched_upd h0 i _ hi)

theorem svc_spawn_stop_cmd_dispatched {notify : sys → Nat → Nat → sys}
    {base : List action} {a : Nat} {va : svc}
    (hc : ∀ s x y, casc false s (notify s x y))
    (hn : ∀ s x y, s.dispatched base a va → (notify s x y).dispatched base a va)
    (e : env) (s : sys) (i : Nat) (v : svc) (hv : s.svcs[i]? = some v)
    (hs : v.state = .STOPPING) (hva : va.state = .STARTING) (h : s.dispatched base a va) :
    (svc_spawn_stop_cmd notify e s i).dispatched base a va := by
  by_cases hi : i = a
  · subst hi
    obtain ⟨l, hl, hd | hd⟩ := h
    · exact dispatched_of_ran (ran_casc
        (svc_spawn_stop_cmd_casc hc e s i v hv hs (by simp)) ⟨l, hl, hd⟩)
    · rw [hv] at hd
      cases hd
      rw [hva] at hs
      cases hs
  · unfold svc_spawn_stop_cmd
    rw [hv]
    simp only []
    have h0 := dispatched_emit (dispatched_upd h i (fun w => { w with stop_cmd := w.stop_cmd + 1 }) hi)
      (.stop_dispatch i)
    split
    · exact svc_mark_stopped_dispatched hn _ i hi h0
    · exact dispatched_upd (dispatched_spawn h0 e i _ 5 hi) i _ hi

theorem svc_handle_on_notif_dispatched {notify : sys → Nat → Nat → sys}
    {base : List action} {a : Nat} {va : svc}
    (hc : ∀ s x y, casc false s (notify s x y))
    (hn : ∀ s x y, s.dispatched base a va → (notify s x y).dispatched base a va)
    (e : env) (s : sys) (i src : Nat) (h : s.dispatched base a va) :
    (svc_handle_on_notif notify e s i src).dispatched base a va := by
  unfold svc_handle_on_notif
  cases hv : s.svcs[i]? with
  | none => exact h
  | some v =>
    simp only []
    split
    · rename_i hs
      split
      · split
        · exact svc_spawn_start_cmd_dispatched hc hn e s i v hv hs h
        · exact h
      · exact h
    · exact h

theorem svc_handle_off_notif_dispatched {notify : sys → Nat → Nat → sys}
    {base : List action} {a : Nat} {va : svc}
    (hc : ∀ s x y, casc false s (notify s x y))
    (hn : ∀ s x y, s.dispatched base a va → (notify s x y).dispatched base a va)
    (e : env) (s : sys) (i src : Nat) (hva : va.state = .STARTING)
    (h : s.dispatched base a va) :
    (svc_handle_off_notif notify e s i src).dispatched base a va := by
  unfold svc_handle_off_notif
  cases hv : s.svcs[i]? with
  | none => exact h
  | some v =>
    simp only []
    split
    · rename_i hs
      split
      · split
        · exact svc_spawn_stop_cmd_dispatched hc hn e s i v hv hs hva h
        · exact h
      · exact h
    · exact h

theorem svc_handle_notif_dispatched (e : env) (base : List action) (a : Nat) (va : svc)
    (hva : va.state = .STARTING) (fuel : Nat) :
    ∀ s x y, s.dispatched base a va → (svc_handle_notif e fuel s x y).dispatched base a va := by
  induction fuel with
  | zero => intro s x y h; exact dispatched_emit h _
  | succ n ih =>
    intro s x y h
    unfold svc_handle_notif
    split
    · exact h
    · split
      · exact svc_handle_on_notif_dispatched (svc_handle_notif_casc false e n) ih e _ x y
          (dispatched_emit h _)
      · exact svc_handle_off_notif_dispatched (svc_handle_notif_casc false e n) ih e _ x y hva
          (dispatched_emit h _)

/-- A service that is STARTING with the on-handlers, notified by a READY
source while all its registered starton sources are READY, runs its start
dispatcher. -/
theorem svc_handle_notif_runs (e : env) (fuel : Nat) (t : sys) (a b : Nat) (va : svc)
    (base : List action) (hb : ∃ l, t.log = l ++ base)
    (hva : t.svcs[a]? = some va) (hsa : va.state = .STARTING) (hoa : va.handle_notif = .on)
    (hbr : t.state_of b = some .READY)
    (hsrc : ∀ src ∈ va.srcs .starton, t.state_of src = some .READY) :
    (svc_handle_notif e (fuel + 1) t a b).ran base a := by
  unfold svc_handle_notif
  rw [hva]
  simp only [hoa]
  unfold svc_handle_on_notif
  have hva1 : (t.emit (.notify a b)).svcs[a]? = some va := hva
  rw [hva1]
  simp only [hsa]
  have hbr1 : (t.emit (.notify a b)).state_of b = some .READY := hbr
  rw [hbr1]
  simp only []
  have hm : svc_may_start (t.emit (.notify a b)) a = true :=
    (svc_may_start_iff _ a va hva1).2 hsrc
  simp only [hm, if_true]
  obtain ⟨l, hl⟩ := hb
  exact svc_spawn_start_cmd_ran (svc_handle_notif_casc false e fuel) e _ a va hva1 hsa base
    ⟨.notify a b :: l, by simp [sys.emit, hl]⟩

/-- The loop of `svc_mark_ready` over the observers: when `a` is among them,
its start dispatcher has run when the loop ends. -/
theorem mark_ready_loop_runs (e : env) (fuel : Nat) (a b : Nat) (va wb : svc)
    (base : List action) (hab : a ≠ b) (hsa : va.state = .STARTING)
    (hoa : va.handle_notif = .on) (hwb : wb.state = .READY)
    (l : List Nat) (ha : a ∈ l) :
    ∀ t : sys, t.dispatched base a va → t.svcs[b]? = some wb →
      (∀ src ∈ va.srcs .starton, src ≠ b → ∃ w, t.svcs[src]? = some w ∧ w.state = .READY) →
      (l.foldl (fun acc sink => svc_handle_notif e (fuel + 1) acc sink b) t).ran base a := by
  induction l with
  | nil => simp at ha
  | cons x l ih =>
    intro t hd hb hsrc
    rw [List.foldl_cons]
    have hc := svc_handle_notif_casc false e (fuel + 1) t x b
    have hb1 := casc_keeps hc b wb hb (Or.inr hwb)
    have hsrc1 : ∀ src ∈ va.srcs .starton, src ≠ b →
        ∃ w, (svc_handle_notif e (fuel + 1) t x b).svcs[src]? = some w ∧ w.state = .READY := by
      intro src hs hne
      obtain ⟨w, hw, hwr⟩ := hsrc src hs hne
      exact ⟨w, casc_keeps hc src w hw (Or.inr hwr), hwr⟩
    have hran : (svc_handle_notif e (fuel + 1) t x b).ran base a ∨
        (x ≠ a ∧ a ∈ l ∧ (svc_handle_notif e (fuel + 1) t x b).dispatched base a va) := by
      obtain ⟨lg, hlg, hdd | hdd⟩ := hd
      · exact Or.inl (ran_casc hc ⟨lg, hlg, hdd⟩)
      · by_cases hx : x = a
        · subst hx
          left
          refine svc_handle_notif_runs e fuel t x b va base ⟨lg, hlg⟩ hdd hsa hoa ?_ ?_
          · simp [sys.state_of, hb, hwb]
          · intro src hs
            by_cases hne : src = b
            · subst hne; simp [sys.state_of, hb, hwb]
            · obtain ⟨w, hw, hwr⟩ := hsrc src hs hne
              simp [sys.state_of, hw, hwr]
        · right
          refine ⟨hx, ?_, svc_handle_notif_dispatched e base a va hsa (fuel + 1) t x b
            ⟨lg, hlg, Or.inr hdd⟩⟩
          rcases List.mem_cons.1 ha with h | h
          · exact absurd h.symm hx
          · exact h
    rcases hran with h | ⟨_, hal, h⟩
    · exact ran_casc (casc_foldl (svc_handle_notif_casc false e (fuel + 1)) l b _) h
    · exact ih hal _ h hb1 hsrc1

/-- C10, as stated, fails: "a" is STARTING with no registered starton source
(so every one of them is READY) and its start command 100 in flight; "b", which
it observes for stopon, is marked STOPPED and notifies "a": the notification is
the last thing recorded, the start dispatcher of "a" does not run. -/
theorem notif_from_stopped_source_counterexample :
    (run demo_env 2 (demo_stopon 1 true)
      [.start 0, .start 1, .stop 1, .sigchld [⟨101, .EXITED, 0⟩]]).log.head?
      = some (.notify 0 1) ∧
    ((run demo_env 2 (demo_stopon 1 true)
      [.start 0, .start 1, .stop 1, .sigchld [⟨101, .EXITED, 0⟩]]).svcs[0]?).map
        (fun v => (v.state, v.handle_notif, v.srcs .starton, v.child))
      = some (.STARTING, .on, [], 100) ∧
    (run demo_env 2 (demo_stopon 1 true)
      [.start 0, .start 1, .stop 1, .sigchld [⟨101, .EXITED, 0⟩]]).state_of 1
      = some .STOPPED := by
  refine ⟨?_, ?_, ?_⟩ <;> decide

/-- C10, amended: for a service `i`.  `svc_start` runs the start dispatcher if
and only if every registered starton source is READY at that moment (otherwise
it only installs the on-handlers and sets STARTING).  A notification received
while STARTING runs the start dispatcher if and only if the notifying source is
READY and every registered starton source is READY; a notification received
while READY changes nothing.  Hence, when `i` is STARTING and observes `b`, all
its other starton sources being READY, the start dispatcher of `i` runs within
the call of `svc_mark_ready` for `b`. -/
theorem start_dispatcher_gate (e : env) (fuel : Nat) (s : sys) (i : Nat) (v : svc)
    (hv : s.svcs[i]? = some v) :
    (((∀ src ∈ v.srcs .starton,
        (s.upd i (fun w =>
          { w with handle_evts := .on, handle_notif := .on, state := .STARTING,
                   timer := utimer_setup w.timer .on, start_cmd := 0 })).state_of src
          = some .READY) →
      svc_start (svc_handle_notif e fuel) e s i =
        svc_spawn_start_cmd (svc_handle_notif e fuel) e
          (s.upd i (fun w =>
            { w with handle_evts := .on, handle_notif := .on, state := .STARTING,
                     timer := utimer_setup w.timer .on, start_cmd := 0 })) i) ∧
     (¬ (∀ src ∈ v.srcs .starton,
        (s.upd i (fun w =>
          { w with handle_evts := .on, handle_notif := .on, state := .STARTING,
                   timer := utimer_setup w.timer .on, start_cmd := 0 })).state_of src
          = some .READY) →
      svc_start (svc_handle_notif e fuel) e s i =
        s.upd i (fun w =>
          { w with handle_evts := .on, handle_notif := .on, state := .STARTING,
                   timer := utimer_setup w.timer .on, start_cmd := 0 }))) ∧
    (∀ src : Nat, v.handle_notif = .on → v.state = .STARTING →
      ((s.state_of src = some .READY ∧ ∀ x ∈ v.srcs .starton, s.state_of x = some .READY) →
        svc_handle_notif e (fuel + 1) s i src =
          svc_spawn_start_cmd (svc_handle_notif e fuel) e (s.emit (.notify i src)) i) ∧
      (¬ (s.state_of src = some .READY ∧ ∀ x ∈ v.srcs .starton, s.state_of x = some .READY) →
        svc_handle_notif e (fuel + 1) s i src = s.emit (.notify i src))) ∧
    (∀ src : Nat, v.handle_notif = .on → v.state = .READY →
      svc_handle_notif e (fuel + 1) s i src = s.emit (.notify i src)) ∧
    (∀ (b : Nat) (vb : svc), i ≠ b → v.handle_notif = .on → v.state = .STARTING →
      s.svcs[b]? = some vb → i ∈ vb.starton_obsrv →
      (∀ src ∈ v.srcs .starton, src ≠ b → s.state_of src = some .READY) →
      ∃ l, (svc_mark_ready (svc_handle_notif e (fuel + 1)) s b).log = l ++ s.log ∧
        .start_dispatch i ∈ l) := by
  refine ⟨?_, ?_, ?_, ?_⟩
  · have hv1 : (s.upd i (fun w =>
        { w with handle_evts := .on, handle_notif := .on, state := .STARTING,
                 timer := utimer_setup w.timer .on, start_cmd := 0 })).svcs[i]? =
        some { v with handle_evts := .on, handle_notif := .on, state := .STARTING,
                      timer := utimer_setup v.timer .on, start_cmd := 0 } := by
      rw [get_upd_self, hv]; rfl
    have hiff := svc_may_start_iff _ i _ hv1
    constructor
    · intro h
      unfold svc_start
      simp only []
      rw [if_pos (hiff.2 h)]
    · intro h
      unfold svc_start
      simp only []
      rw [if_neg (fun hm => h (hiff.1 hm))]
  · intro src hon hst
    have hv1 : (s.emit (.notify i src)).svcs[i]? = some v := hv
    have hiff := svc_may_start_iff _ i v hv1
    have hun : svc_handle_notif e (fuel + 1) s i src =
        svc_handle_on_notif (fun t a b => svc_handle_notif e fuel t a b) e
          (s.emit (.notify i src)) i src := by
      rw [svc_handle_notif]
      simp only [hv, hon]
    constructor
    · rintro ⟨h1, h2⟩
      rw [hun]
      unfold svc_handle_on_notif
      rw [hv1]
      simp only [hst]
      have h1e : (s.emit (.notify i src)).state_of src = some .READY := h1
      rw [h1e]
      simp only []
      rw [if_pos (hiff.2 h2)]
    · intro h
      rw [hun]
      unfold svc_handle_on_notif
      rw [hv1]
      simp only [hst]
      by_cases h1 : s.state_of src = some .READY
      · have h1e : (s.emit (.notify i src)).state_of src = some .READY := h1
        rw [h1e]
        simp only []
        rw [if_neg (fun hm => h ⟨h1, hiff.1 hm⟩)]
      · have h1e : (s.emit (.notify i src)).state_of src = s.state_of src := rfl
        rw [h1e]
        split
        · rename_i heq; exact absurd heq h1
        · rfl
  · intro src hon hst
    rw [svc_handle_notif]
    simp only [hv, hon]
    unfold svc_handle_on_notif
    have hv1 : (s.emit (.notify i src)).svcs[i]? = some v := hv
    rw [hv1]
    simp only [hst]
  · intro b vb hib hon hst hvb hobs hsrc
    unfold svc_mark_ready
    rw [hvb]
    simp only []
    refine mark_ready_loop_runs e fuel i b v { vb with state := .READY } s.log hib hst hon rfl
      vb.starton_obsrv hobs _ ?_ ?_ ?_
    · refine ⟨[.ready b], rfl, Or.inr ?_⟩
      rw [svcs_emit, get_upd_ne _ _ _ _ (Ne.symm hib)]
      exact hv
    · rw [svcs_emit, get_upd_self, hvb]; rfl
    · intro src hs hne
      have h1 := hsrc src hs hne
      rw [svcs_emit, get_upd_ne _ _ _ _ (Ne.symm hne)]
      unfold sys.state_of at h1
      cases hw : s.svcs[src]? with
      | none => simp [hw] at h1
      | some w => simp [hw] at h1; exact ⟨w, rfl, h1⟩

/-- C10, amended, on "a" (starton "b") and "b": started first, "a" only
switches to STARTING; marking "b" READY runs the start dispatcher of "a". -/
theorem start_dispatcher_gate_witness :
    demo_chain.svcs = [demo_chain_a, demo_chain_b] ∧
    svc_start (svc_handle_notif demo_env 2) demo_env demo_chain 0 =
      { demo_chain with svcs := [demo_chain_a_waiting, demo_chain_b] } ∧
    ∃ l, (svc_mark_ready (svc_handle_notif demo_env 2)
            { demo_chain with svcs := [demo_chain_a_waiting, demo_chain_b] } 1).log
        = l ++ demo_chain.log ∧ .start_dispatch 0 ∈ l :=
  ⟨by decide,
   ((start_dispatcher_gate demo_env 2 demo_chain 0 demo_chain_a (by decide)).1.2
     (by decide)).trans (by decide),
   (start_dispatcher_gate demo_env 1 { demo_chain with svcs := [demo_chain_a_waiting, demo_chain_b] }
      0 demo_chain_a_waiting (by decide)).2.2.2 1 demo_chain_b (by decide) rfl rfl (by decide)
      (by decide) (by decide)⟩

theorem notif_any_false (f : Nat → Option Bool) (l : List Nat) (h : notif_any f l = some false) :
    ∀ n ∈ l, f n = some false := by
  induction l with
  | nil => intro n hn; simp at hn
  | cons x l ih =>
    unfold notif_any at h
    cases hx : f x with
    | none => simp [hx] at h
    | some b =>
      cases b with
      | true => simp [hx] at h
      | false =>
        simp only [hx] at h
        intro n hn
        rcases List.mem_cons.1 hn with h1 | h1
        · rw [h1]; exact hx
        · exact ih h n h1

/-- A cycle search that answers "no" is right: the match is neither the
service nor one of its direct or transitive notifiers. -/
theorem svc_has_notifier_false (k : notif_kind) (s : sys) (fuel : Nat) :
    ∀ i m, svc_has_notifier k s fuel i m = some false →
      ¬ Relation.ReflTransGen (s.notifier k) m i := by
  induction fuel with
  | zero => intro i m h; simp [svc_has_notifier] at h
  | succ n ih =>
    intro i m h hr
    unfold svc_has_notifier at h
    by_cases him : i = m
    · simp [him] at h
    · simp only [him, if_false] at h
      rcases Relation.ReflTransGen.cases_tail hr with h1 | ⟨c, hmc, hci⟩
      · exact him h1
      · obtain ⟨v, hv, hcv⟩ := hci
        rw [hv] at h
        simp only [svc.srcs] at hcv
        cases hp : v.notif k with
        | none => simp [hp] at hcv
        | some poll =>
          simp only [hp] at h hcv
          exact ih c m (notif_any_false _ _ h c hcv) hmc

theorem transGen_add_edge {r : Nat → Nat → Prop} {a b : Nat} {x y : Nat}
    (h : Relation.TransGen (fun u w => r u w ∨ (u = a ∧ w = b)) x y) :
    Relation.TransGen r x y ∨
      (Relation.ReflTransGen r x a ∧ Relation.ReflTransGen r b y) := by
  induction h with
  | single h1 =>
    rcases h1 with h1 | ⟨h1, h2⟩
    · exact Or.inl (Relation.TransGen.single h1)
    · subst h1; subst h2
      exact Or.inr ⟨Relation.ReflTransGen.refl, Relation.ReflTransGen.refl⟩
  | tail _ h2 ih =>
    rcases h2 with h2 | ⟨h2, h3⟩
    · rcases ih with ih | ⟨ih1, ih2⟩
      · exact Or.inl (Relation.TransGen.tail ih h2)
      · exact Or.inr ⟨ih1, Relation.ReflTransGen.tail ih2 h2⟩
    · subst h2; subst h3
      rcases ih with ih | ⟨ih1, _⟩
      · exact Or.inr ⟨ih.to_reflTransGen, Relation.ReflTransGen.refl⟩
      · exact Or.inr ⟨ih1, Relation.ReflTransGen.refl⟩

theorem acyclic_add_edge {r : Nat → Nat → Prop} {a b : Nat}
    (hr : ∀ x, ¬ Relation.TransGen r x x) (hab : ¬ Relation.ReflTransGen r b a) :
    ∀ x, ¬ Relation.TransGen (fun u w => r u w ∨ (u = a ∧ w = b)) x x := by
  intro x hx
  rcases transGen_add_edge hx with h | ⟨h1, h2⟩
  · exact hr x h
  · exact hab (Relation.ReflTransGen.trans h2 h1)

theorem srcs_push_obsrv (v : svc) (k k2 : notif_kind) (x : Nat) :
    (v.push_obsrv k x).srcs k2 = v.srcs k2 := by
  cases k <;> cases k2 <;> rfl

theorem srcs_set_notif (v : svc) (k k2 : notif_kind) (poll : notif_poll) :
    (v.set_notif k poll).srcs k2 = if k2 = k then poll.srcs else v.srcs k2 := by
  cases k <;> cases k2 <;> simp [svc.set_notif, svc.srcs, svc.notif]

/-- The direct notifiers after a registration: those before, and the new
edge. -/
theorem notifier_register (k k2 : notif_kind) (s : sys) (obsrv src : Nat) (o : svc)
    (poll : notif_poll) (ho : s.svcs[obsrv]? = some o) (hp : o.notif k = some poll)
    (x y : Nat) (h : (notif_register_poll_sink k s obsrv src poll).notifier k2 x y) :
    s.notifier k2 x y ∨ (k2 = k ∧ x = src ∧ y = obsrv) := by
  obtain ⟨v, hv, hx⟩ := h
  unfold notif_register_poll_sink at hv
  rw [get_upd, get_upd] at hv
  cases hy : s.svcs[y]? with
  | none => simp [hy] at hv
  | some u =>
    simp only [hy, Option.map_some', Option.some.injEq] at hv
    subst hv
    by_cases hoy : obsrv = y
    · subst hoy
      rw [ho] at hy
      cases hy
      have hsrcs : ∀ w : svc, (if src = obsrv then w.push_obsrv k obsrv else w).srcs k2
          = w.srcs k2 := by
        intro w; split
        · exact srcs_push_obsrv w k k2 obsrv
        · rfl
      rw [hsrcs] at hx
      simp only [if_true] at hx
      rw [srcs_set_notif] at hx
      by_cases hk : k2 = k
      · subst hk
        simp only [if_true, notif_poll.push, List.mem_append, List.mem_singleton] at hx
        rcases hx with hx | hx
        · left
          exact ⟨o, ho, by simp [svc.srcs, hp, hx]⟩
        · right
          exact ⟨rfl, hx, rfl⟩
      · simp only [hk, if_false] at hx
        exact Or.inl ⟨o, ho, hx⟩
    · simp only [hoy, if_false] at hx
      have hsrcs : (if src = y then u.push_obsrv k obsrv else u).srcs k2 = u.srcs k2 := by
        split
        · exact srcs_push_obsrv u k k2 obsrv
        · rfl
      rw [hsrcs] at hx
      exact Or.inl ⟨u, hy, hx⟩

theorem register_acyclic (k : notif_kind) (fuel : Nat) (s t : sys) (src obsrv : Nat)
    (ih : ∀ (k2 : notif_kind) (a : Nat), ¬ Relation.TransGen (s.notifier k2) a a)
    (hreg : svc_register_obsrv k fuel s src obsrv = some t) :
    ∀ (k2 : notif_kind) (a : Nat), ¬ Relation.TransGen (t.notifier k2) a a := by
  intro k2 a
  unfold svc_register_obsrv at hreg
  cases hs : s.svcs[src]? with
  | none => simp [hs] at hreg
  | some sv =>
    cases ho : s.svcs[obsrv]? with
    | none => simp [hs, ho] at hreg
    | some o =>
      simp only [hs, ho] at hreg
      cases hp : o.notif k with
      | none => simp [hp] at hreg
      | some poll =>
        simp only [hp] at hreg
        cases hd : svc_has_notifier k s fuel src obsrv with
        | none => simp [hd] at hreg
        | some found =>
          cases found with
          | true =>
            simp only [hd, Option.some.injEq] at hreg
            subst hreg
            exact ih k2 a
          | false =>
            simp only [hd] at hreg
            by_cases hcap : notif_get_poll_cnt poll < poll.nr
            · simp only [hcap, if_true, Option.some.injEq] at hreg
              subst hreg
              intro hcyc
              by_cases hk : k2 = k
              · subst hk
                have hmono : Relation.TransGen
                    (fun u w => s.notifier k2 u w ∨ (u = src ∧ w = obsrv)) a a := by
                  refine Relation.TransGen.mono ?_ hcyc
                  intro x y hxy
                  rcases notifier_register k2 k2 s obsrv src o poll ho hp x y hxy with h1 | h1
                  · exact Or.inl h1
                  · exact Or.inr ⟨h1.2.1, h1.2.2⟩
                exact acyclic_add_edge (ih k2) (svc_has_notifier_false k2 s fuel src obsrv hd) a
                  hmono
              · refine ih k2 a (Relation.TransGen.mono ?_ hcyc)
                intro x y hxy
                rcases notifier_register k k2 s obsrv src o poll ho hp x y hxy with h1 | h1
                · exact h1
                · exact absurd h1.1 hk
            · simp [hcap] at hreg

theorem notif_any_some (f : Nat → Option Bool) (l : List Nat)
    (h : ∀ n ∈ l, ∃ b, f n = some b) : ∃ b, notif_any f l = some b := by
  induction l with
  | nil => exact ⟨false, rfl⟩
  | cons x l ih =>
    obtain ⟨b, hb⟩ := h x (List.mem_cons_self _ _)
    unfold notif_any
    rw [hb]
    cases b with
    | true => exact ⟨true, rfl⟩
    | false => exact ih (fun n hn => h n (List.mem_cons_of_mem _ hn))

/-- With more fuel than the rank of the service, the cycle search returns. -/
theorem svc_has_notifier_returns (k : notif_kind) (s : sys) (r : Nat → Nat)
    (hr : ∀ x y, s.notifier k x y → r x < r y) (m : Nat) :
    ∀ (fuel i : Nat), r i < fuel → ∃ b, svc_has_notifier k s fuel i m = some b := by
  intro fuel
  induction fuel with
  | zero => intro i h; omega
  | succ n ih =>
    intro i h
    unfold svc_has_notifier
    by_cases him : i = m
    · exact ⟨true, by simp [him]⟩
    · simp only [him, if_false]
      cases hv : s.svcs[i]? with
      | none => exact ⟨false, rfl⟩
      | some v =>
        simp only []
        cases hp : v.notif k with
        | none => exact ⟨false, rfl⟩
        | some poll =>
          simp only []
          apply notif_any_some
          intro c hc
          have hlt : r c < r i := hr c i ⟨v, hv, by simp [svc.srcs, hp, hc]⟩
          exact ih c (by omega)

theorem notif_any_congr (f g : Nat → Option Bool) (l : List Nat) (b : Bool)
    (h : ∀ n ∈ l, ∀ c, f n = some c → g n = some c) (hf : notif_any f l = some b) :
    notif_any g l = some b := by
  induction l with
  | nil => exact hf
  | cons x l ih =>
    unfold notif_any at hf ⊢
    cases hx : f x with
    | none => simp [hx] at hf
    | some c =>
      rw [h x (List.mem_cons_self _ _) c hx]
      rw [hx] at hf
      cases c with
      | true => exact hf
      | false => exact ih (fun n hn => h n (List.mem_cons_of_mem _ hn)) hf

/-- The answer of the cycle search does not depend on the fuel that is left. -/
theorem svc_has_notifier_mono (k : notif_kind) (s : sys) (m : Nat) :
    ∀ (fuel i : Nat) (b : Bool), svc_has_notifier k s fuel i m = some b →
      svc_has_notifier k s (fuel + 1) i m = some b := by
  intro fuel
  induction fuel with
  | zero => intro i b h; simp [svc_has_notifier] at h
  | succ n ih =>
    intro i b h
    rw [svc_has_notifier] at h ⊢
    by_cases him : i = m
    · simpa [him] using h
    · simp only [him, if_false] at h ⊢
      cases hv : s.svcs[i]? with
      | none => simpa [hv] using h
      | some v =>
        simp only [hv] at h ⊢
        cases hp : v.notif k with
        | none => simpa [hp] using h
        | some poll =>
          simp only [hp] at h ⊢
          exact notif_any_congr _ _ _ _ (fun c _ d hd => ih c d hd) h

theorem ranked_register (k : notif_kind) (fuel : Nat) (s t : sys) (src obsrv : Nat)
    (ih : ∀ k2 : notif_kind, s.ranked k2)
    (hreg : svc_register_obsrv k fuel s src obsrv = some t) :
    ∀ k2 : notif_kind, t.ranked k2 := by
  intro k2
  unfold svc_register_obsrv at hreg
  cases hs : s.svcs[src]? with
  | none => simp [hs] at hreg
  | some sv =>
    cases ho : s.svcs[obsrv]? with
    | none => simp [hs, ho] at hreg
    | some o =>
      simp only [hs, ho] at hreg
      cases hp : o.notif k with
      | none => simp [hp] at hreg
      | some poll =>
        simp only [hp] at hreg
        cases hd : svc_has_notifier k s fuel src obsrv with
        | none => simp [hd] at hreg
        | some found =>
          cases found with
          | true =>
            simp only [hd, Option.some.injEq] at hreg
            subst hreg
            exact ih k2
          | false =>
            simp only [hd] at hreg
            by_cases hcap : notif_get_poll_cnt poll < poll.nr
            · simp only [hcap, if_true, Option.some.injEq] at hreg
              subst hreg
              obtain ⟨r, hr⟩ := ih k2
              by_cases hk : k2 = k
              · subst hk
                have hno := svc_has_notifier_false k2 s fuel src obsrv hd
                classical
                refine ⟨fun x => r x +
                  (if Relation.ReflTransGen (s.notifier k2) obsrv x then r src + 1 else 0), ?_⟩
                intro x y hxy
                rcases notifier_register k2 k2 s obsrv src o poll ho hp x y hxy with h1 | h1
                · have hlt := hr x y h1
                  by_cases hx : Relation.ReflTransGen (s.notifier k2) obsrv x
                  · have hy : Relation.ReflTransGen (s.notifier k2) obsrv y :=
                      Relation.ReflTransGen.tail hx h1
                    simp only [hx, hy, if_true]
                    omega
                  · simp only [hx, if_false]
                    split <;> omega
                · obtain ⟨_, hxs, hyo⟩ := h1
                  subst hxs; subst hyo
                  have hy : Relation.ReflTransGen (s.notifier k2) y y :=
                    Relation.ReflTransGen.refl
                  simp only [hno, hy, if_true, if_false]
                  omega
              · refine ⟨r, fun x y hxy => ?_⟩
                rcases notifier_register k k2 s obsrv src o poll ho hp x y hxy with h1 | h1
                · exact hr x y h1
                · exact absurd h1.1 hk
            · simp [hcap] at hreg

theorem wired_ranked (s : sys) (h : wired s) : ∀ k : notif_kind, s.ranked k := by
  induction h with
  | init s hs =>
    intro k
    refine ⟨fun _ => 0, ?_⟩
    intro x y hxy
    obtain ⟨v, hv, hc⟩ := hxy
    have h1 := (hs v (List.mem_iff_getElem?.2 ⟨y, hv⟩) k).1
    rw [h1] at hc
    simp at hc
  | starton s t fuel src obsrv _ hreg ih =>
    exact ranked_register .starton fuel s t src obsrv ih hreg
  | stopon s t fuel src obsrv _ hreg ih =>
    exact ranked_register .stopon fuel s t src obsrv ih hreg

/-- On a wiring built by registrations the cycle search terminates: with
enough fuel it returns an answer, and more fuel gives the same answer. -/
theorem svc_has_notifier_terminates (s : sys) (h : wired s) (k : notif_kind) (i m : Nat) :
    ∃ (fuel : Nat) (b : Bool), ∀ more : Nat,
      svc_has_notifier k s (fuel + more) i m = some b := by
  obtain ⟨r, hr⟩ := wired_ranked s h k
  obtain ⟨b, hb⟩ := svc_has_notifier_returns k s r hr m (r i + 1) i (by omega)
  refine ⟨r i + 1, b, ?_⟩
  intro more
  induction more with
  | zero => exact hb
  | succ n ih => exact svc_has_notifier_mono k s m _ i b ih

theorem demo_loop_base_unwired : demo_loop_base.unwired := by
  intro v hv k
  simp only [demo_loop_base, List.mem_cons, List.mem_singleton, List.not_mem_nil, or_false] at hv
  rcases hv with rfl | rfl <;> cases k <;> exact ⟨rfl, rfl⟩

/-- C2: starting from services with no registered edge, after any sequence of
calls of `svc_register_starton_obsrv` and `svc_register_stopon_obsrv` the
notifier graph of each kind has no cycle: no service is a direct or transitive
notifier of itself. -/
theorem notifier_graph_acyclic (s : sys) (h : wired s) :
    ∀ (k : notif_kind) (a : Nat), ¬ Relation.TransGen (s.notifier k) a a := by
  induction h with
  | init s hs =>
    intro k a ha
    obtain ⟨c, _, hca⟩ := Relation.TransGen.tail'_iff.1 ha
    obtain ⟨v, hv, hc⟩ := hca
    have h1 := (hs v (List.mem_iff_getElem?.2 ⟨a, hv⟩) k).1
    rw [h1] at hc
    simp at hc
  | starton s t fuel src obsrv _ hreg ih =>
    exact register_acyclic .starton fuel s t src obsrv ih hreg
  | stopon s t fuel src obsrv _ hreg ih =>
    exact register_acyclic .stopon fuel s t src obsrv ih hreg

/-- C2 on "a" and "b" that name each other: the first registration adds the
edge, the second is rejected and changes nothing, and "a" is not its own
notifier. -/
theorem notifier_graph_acyclic_witness :
    svc_register_starton_obsrv 2 demo_loop_base 1 0 = some demo_loop ∧
    svc_register_starton_obsrv 2 demo_loop 0 1 = some demo_loop ∧
    ¬ Relation.TransGen (demo_loop.notifier .starton) 0 0 :=
  ⟨by decide, by decide,
   notifier_graph_acyclic demo_loop
     (wired.starton demo_loop demo_loop 2 0 1
       (wired.starton demo_loop_base demo_loop 2 1 0 (wired.init _ demo_loop_base_unwired)
         (by decide))
       (by decide)) .starton 0⟩

theorem char_le_iff (a b : Char) : a ≤ b ↔ a.toNat ≤ b.toNat := by
  rw [Char.le_def, UInt32.le_def, BitVec.le_def]
  exact Iff.rfl

theorem char_toNat_inj {a b : Char} (h : a.toNat = b.toNat) : a = b := by
  have ha : Char.ofNat a.toNat = a := Char.ofNat_toNat a
  have hb : Char.ofNat b.toNat = b := Char.ofNat_toNat b
  rw [← ha, ← hb, h]

theorem spec_class_alnum_eq (c : Char) : spec_class_alnum c = isalnum c := by
  simp only [spec_class_alnum, isalnum, char_le_iff]
  rfl

set_option maxRecDepth 100000 in
theorem mem_ALNUM_fin : ∀ n : Fin 128,
    (Char.ofNat n.val ∈ ALNUM_CHARSET ↔ ((65 ≤ n.val ∧ n.val ≤ 90) ∨ (97 ≤ n.val ∧ n.val ≤ 122) ∨
      (48 ≤ n.val ∧ n.val ≤ 57))) := by
  decide

theorem ALNUM_lt : ∀ d ∈ ALNUM_CHARSET, d.toNat < 128 := by decide

theorem mem_ALNUM_iff (c : Char) : c ∈ ALNUM_CHARSET ↔ isalnum c = true := by
  simp only [isalnum, decide_eq_true_eq]
  by_cases h : c.toNat < 128
  · have := mem_ALNUM_fin ⟨c.toNat, h⟩
    simpa [Char.ofNat_toNat] using this
  · constructor
    · intro hm; exact absurd (ALNUM_lt c hm) h
    · intro hr; omega



theorem char_at_mem {str : List Char} {i : Nat} (h : i < str.length) : char_at str i ∈ str := by
  unfold char_at
  rw [List.getD_eq_getElem _ _ h]
  exact List.getElem_mem _

theorem char_at_zero_cons (a : Char) (l : List Char) : char_at (a :: l) 0 = a := rfl

theorem char_at_last (l : List Char) (a : Char) (h : l.getLast? = some a) :
    char_at l (l.length - 1) = a := by
  unfold char_at
  rw [List.getLast?_eq_getElem?] at h
  rw [List.getD_eq_getElem?_getD, h]
  rfl

theorem toNat_ne_zero_of_mem {name : List Char} (hnul : NUL ∉ name) {c : Char} (h : c ∈ name) :
    ((c.toNat : Nat) : Int) ≠ 0 := by
  intro h0
  have h1 : c.toNat = NUL.toNat := by
    have : c.toNat = 0 := by exact_mod_cast h0
    rw [this]; rfl
  exact hnul (char_toNat_inj h1 ▸ h)

theorem strspn_le (str accept : List Char) : strspn str accept ≤ str.length := by
  unfold strspn
  exact (List.takeWhile_sublist _).length_le

theorem strspn_eq_length_iff (str accept : List Char) :
    strspn str accept = str.length ↔ ∀ c ∈ str, c ∈ accept := by
  unfold strspn
  induction str with
  | nil => simp
  | cons a l ih =>
    by_cases ha : a ∈ accept
    · have ih2 : (List.takeWhile (fun c => decide (c ∈ accept)) l).length = l.length ↔
          ∀ c ∈ l, c ∈ accept := by simpa using ih
      simp [List.takeWhile_cons, ha, ih2]
    · have hle := (List.takeWhile_sublist (fun c => decide (c ∈ accept)) (l := l)).length_le
      simp [List.takeWhile_cons, ha]

theorem mem_name_charset (c : Char) :
    c ∈ ALNUM_CHARSET ++ "-_.@".toList ↔ spec_class_name c = true := by
  rw [List.mem_append, mem_ALNUM_iff, spec_class_name, spec_class_alnum_eq]
  have : "-_.@".toList = ['-', '_', '.', '@'] := rfl
  rw [this]
  simp only [List.mem_cons, List.mem_singleton, List.not_mem_nil, or_false, Bool.or_eq_true,
    decide_eq_true_eq]
  tauto

theorem probe_zero_iff (name : List Char) (hnul : NUL ∉ name) (hne : name ≠ []) :
    tinit_probe_inval_char name name.length = 0 ↔
      (isalnum (char_at name 0) = true ∧ isalnum (char_at name (name.length - 1)) = true ∧
        ∀ c ∈ name, spec_class_name c = true) := by
  have hpos : 0 < name.length := List.length_pos.mpr hne
  unfold tinit_probe_inval_char
  by_cases h0 : isalnum (char_at name 0) = true
  · by_cases h1 : isalnum (char_at name (name.length - 1)) = true
    · simp only [h0, h1, Bool.not_true, Bool.false_eq_true, if_false, true_and]
      by_cases hs : strspn name (ALNUM_CHARSET ++ "-_.@".toList) = name.length
      · simp only [hs, ne_eq, not_true_eq_false, if_false, true_iff]
        intro c hc
        exact (mem_name_charset c).mp ((strspn_eq_length_iff _ _).mp hs c hc)
      · simp only [ne_eq, hs, not_false_eq_true, if_true]
        have hlt : strspn name (ALNUM_CHARSET ++ "-_.@".toList) < name.length :=
          lt_of_le_of_ne (strspn_le _ _) hs
        constructor
        · intro h; exact absurd h (toNat_ne_zero_of_mem hnul (char_at_mem hlt))
        · intro h
          exact absurd ((strspn_eq_length_iff _ _).mpr
            (fun c hc => (mem_name_charset c).mpr (h c hc))) hs
    · have hne1 : name.length - 1 ≠ name.length := by omega
      simp only [h0, h1, Bool.not_true, Bool.false_eq_true, if_false, Bool.not_false, if_true,
        ne_eq, hne1, not_false_eq_true, false_and, and_false, iff_false]
      exact toNat_ne_zero_of_mem hnul (char_at_mem (by omega))
  · have hne0 : (0 : Nat) ≠ name.length := by omega
    simp only [h0, Bool.not_false, if_true, ne_eq, hne0, not_false_eq_true, Bool.false_eq_true,
      false_and, iff_false]
    exact toNat_ne_zero_of_mem hnul (char_at_mem hpos)

theorem check_zero_iff (name : List Char) (hnul : NUL ∉ name) :
    tinit_check_svc_name name name.length = 0 ↔
      (1 ≤ name.length ∧ name.length ≤ 31 ∧ isalnum (char_at name 0) = true ∧
        isalnum (char_at name (name.length - 1)) = true ∧ ∀ c ∈ name, spec_class_name c = true) := by
  unfold tinit_check_svc_name TINIT_SVC_NAME_MAX ENODATA ENAMETOOLONG EINVAL
  by_cases hl : name.length = 0
  · simp [hl]
  · by_cases hm : name.length ≥ 32
    · simp only [hl, if_false, hm, if_true]
      constructor
      · intro h; omega
      · intro h; omega
    · have hne : name ≠ [] := fun h => hl (by simp [h])
      simp only [hl, if_false, hm]
      by_cases hp : tinit_probe_inval_char name name.length = 0
      · have := (probe_zero_iff name hnul hne).mp hp
        simp only [hp, ne_eq, not_true_eq_false, if_false, true_iff]
        exact ⟨by omega, by omega, this⟩
      · simp only [ne_eq, hp, not_false_eq_true, if_true]
        constructor
        · intro h; omega
        · intro h; exact absurd ((probe_zero_iff name hnul hne).mpr h.2.2) hp



theorem spec_class_name_of_alnum {c : Char} (h : spec_class_alnum c = true) :
    spec_class_name c = true := by
  simp [spec_class_name, h]

theorem getLast?_cons_of_some {a l : Char} {rest : List Char} (h : rest.getLast? = some l) :
    (a :: rest).getLast? = some l := by
  cases rest with
  | nil => simp at h
  | cons b r => rw [List.getLast?_cons_cons]; exact h

theorem valid_iff_pattern (name : List Char) (hne : name ≠ []) :
    (isalnum (char_at name 0) = true ∧ isalnum (char_at name (name.length - 1)) = true ∧
        ∀ c ∈ name, spec_class_name c = true) ↔
      (spec_svc_name_pattern name = true ∨ ∃ c, name = [c] ∧ spec_class_alnum c = true) := by
  cases name with
  | nil => exact absurd rfl hne
  | cons a rest =>
    cases hr : rest.getLast? with
    | none =>
      have hrest : rest = [] := List.getLast?_eq_none_iff.mp hr
      subst hrest
      simp only [spec_svc_name_pattern, List.getLast?_nil, Bool.false_eq_true, false_or,
        List.length_singleton, Nat.sub_self, char_at_zero_cons, List.mem_singleton,
        forall_eq, ← spec_class_alnum_eq]
      constructor
      · intro h; exact ⟨a, rfl, h.1⟩
      · rintro ⟨c, hc, hal⟩
        cases hc
        exact ⟨hal, hal, spec_class_name_of_alnum hal⟩
    | some l =>
      have hlast := char_at_last (a :: rest) l (getLast?_cons_of_some hr)
      have hsplit : rest.dropLast ++ [l] = rest := List.dropLast_append_getLast? l hr
      have hno : ¬ ∃ c, a :: rest = [c] ∧ spec_class_alnum c = true := by
        rintro ⟨c, hc, -⟩
        cases hc
        simp at hr
      simp only [hlast, char_at_zero_cons, spec_svc_name_pattern, hr, hno, or_false,
        Bool.and_eq_true, List.all_eq_true, ← spec_class_alnum_eq]
      constructor
      · rintro ⟨h1, h2, h3⟩
        refine ⟨⟨h1, fun c hc => h3 c ?_⟩, h2⟩
        exact List.mem_cons_of_mem _ (List.dropLast_subset _ hc)
      · rintro ⟨⟨h1, h2⟩, h3⟩
        refine ⟨h1, h3, fun c hc => ?_⟩
        rcases List.mem_cons.mp hc with rfl | hc
        · exact spec_class_name_of_alnum h1
        · rw [← hsplit] at hc
          rcases List.mem_append.mp hc with hc | hc
          · exact h2 c hc
          · rw [List.mem_singleton.mp hc]; exact spec_class_name_of_alnum h3

theorem invalid_iff (name : List Char) (hne : name ≠ []) :
    ¬ (isalnum (char_at name 0) = true ∧ isalnum (char_at name (name.length - 1)) = true ∧
        ∀ c ∈ name, spec_class_name c = true) ↔
      ((∃ c ∈ name, spec_class_name c = false) ∨
        (∃ c, name.head? = some c ∧ spec_class_alnum c = false) ∨
        (∃ c, name.getLast? = some c ∧ spec_class_alnum c = false)) := by
  obtain ⟨a, ha⟩ : ∃ a, name.head? = some a := by
    cases name with
    | nil => exact absurd rfl hne
    | cons a r => exact ⟨a, rfl⟩
  obtain ⟨l, hl⟩ : ∃ l, name.getLast? = some l := by
    cases h : name.getLast? with
    | none => exact absurd (List.getLast?_eq_none_iff.mp h) hne
    | some l => exact ⟨l, rfl⟩
  have h0 : char_at name 0 = a := by
    cases name with
    | nil => exact absurd rfl hne
    | cons b r => simp at ha; rw [← ha]; rfl
  have h1 := char_at_last name l hl
  rw [h0, h1, ha, hl]
  simp only [← spec_class_alnum_eq, Option.some.injEq, exists_eq_left']
  constructor
  · intro h
    by_cases ha1 : spec_class_alnum a = true
    · by_cases hl1 : spec_class_alnum l = true
      · left
        by_contra hall
        apply h
        refine ⟨ha1, hl1, fun c hc => ?_⟩
        by_contra hcn
        exact hall ⟨c, hc, by simpa using hcn⟩
      · right; right; simpa using hl1
    · right; left; simpa using ha1
  · rintro (⟨c, hc, hcn⟩ | h | h) ⟨h1, h2, h3⟩
    · rw [h3 c hc] at hcn; cases hcn
    · rw [h1] at h; cases h
    · rw [h2] at h; cases h

/-- C19, counterexample: the name "a" has one character, so it does not match
the pattern `[A-Za-z0-9][A-Za-z0-9._@-]*[A-Za-z0-9]`, which takes two
characters at least; `tinit_check_svc_name` returns 0 for it. -/
theorem one_char_name_accepted_counterexample :
    tinit_check_svc_name "a".toList "a".toList.length = 0 ∧
      spec_svc_name_pattern "a".toList = false := by
  decide

/-- C19, amended: for a name of `len` characters, `tinit_check_svc_name` returns
0 exactly when `1 ≤ len ≤ 31` and the name either matches
`[A-Za-z0-9][A-Za-z0-9._@-]*[A-Za-z0-9]` or is one character of `[A-Za-z0-9]`;
it returns -ENODATA exactly for the empty name, -ENAMETOOLONG exactly for
`len ≥ 32`, and -EINVAL exactly when `1 ≤ len ≤ 31` and some character is not
of `[A-Za-z0-9._@-]` or the first or the last character is not of
`[A-Za-z0-9]`. -/
theorem check_svc_name_result (name : List Char) (hnul : NUL ∉ name) :
    (tinit_check_svc_name name name.length = 0 ↔
      1 ≤ name.length ∧ name.length ≤ 31 ∧
        (spec_svc_name_pattern name = true ∨ ∃ c, name = [c] ∧ spec_class_alnum c = true)) ∧
    (tinit_check_svc_name name name.length = -ENODATA ↔ name.length = 0) ∧
    (tinit_check_svc_name name name.length = -ENAMETOOLONG ↔ 32 ≤ name.length) ∧
    (tinit_check_svc_name name name.length = -EINVAL ↔
      1 ≤ name.length ∧ name.length ≤ 31 ∧
        ((∃ c ∈ name, spec_class_name c = false) ∨
          (∃ c, name.head? = some c ∧ spec_class_alnum c = false) ∨
          (∃ c, name.getLast? = some c ∧ spec_class_alnum c = false))) := by
  have hz := check_zero_iff name hnul
  by_cases hl : name.length = 0
  · have hv : tinit_check_svc_name name name.length = -ENODATA := by
      simp [tinit_check_svc_name, hl]
    rw [hv]
    refine ⟨⟨fun h => absurd h (by decide), fun h => by omega⟩, ⟨fun _ => hl, fun _ => rfl⟩,
      ⟨fun h => absurd h (by decide), fun h => by omega⟩,
      ⟨fun h => absurd h (by decide), fun h => by omega⟩⟩
  · by_cases hm : 32 ≤ name.length
    · have hv : tinit_check_svc_name name name.length = -ENAMETOOLONG := by
        simp [tinit_check_svc_name, hl, TINIT_SVC_NAME_MAX, hm]
      rw [hv]
      refine ⟨⟨fun h => absurd h (by decide), fun h => by omega⟩,
        ⟨fun h => absurd h (by decide), fun h => absurd h hl⟩, ⟨fun _ => hm, fun _ => rfl⟩,
        ⟨fun h => absurd h (by decide), fun h => by omega⟩⟩
    · have hne : name ≠ [] := fun h => hl (by simp [h])
      have hvp := valid_iff_pattern name hne
      have hiv := invalid_iff name hne
      by_cases hp : tinit_probe_inval_char name name.length = 0
      · have hv : tinit_check_svc_name name name.length = 0 := by
          simp [tinit_check_svc_name, hl, TINIT_SVC_NAME_MAX, hm, hp]
        have hvalid := (probe_zero_iff name hnul hne).mp hp
        rw [hv]
        refine ⟨⟨fun _ => ⟨by omega, by omega, hvp.mp hvalid⟩, fun _ => rfl⟩,
          ⟨fun h => absurd h (by decide), fun h => absurd h hl⟩,
          ⟨fun h => absurd h (by decide), fun h => absurd h hm⟩,
          ⟨fun h => absurd h (by decide), fun h => absurd hvalid (hiv.mpr h.2.2)⟩⟩
      · have hv : tinit_check_svc_name name name.length = -EINVAL := by
          simp [tinit_check_svc_name, hl, TINIT_SVC_NAME_MAX, hm, hp]
        have hinvalid : ¬ _ := fun h => hp ((probe_zero_iff name hnul hne).mpr h)
        rw [hv]
        refine ⟨⟨fun h => absurd h (by decide), fun h => absurd (hvp.mpr h.2.2) hinvalid⟩,
          ⟨fun h => absurd h (by decide), fun h => absurd h hl⟩,
          ⟨fun h => absurd h (by decide), fun h => absurd h hm⟩,
          ⟨fun _ => ⟨by omega, by omega, hiv.mp hinvalid⟩, fun _ => rfl⟩⟩

/-- C19, witness: the name "sshd@tty.1" has no NUL, and is accepted since it
has 10 characters and matches the pattern. -/
theorem check_svc_name_result_witness :
    NUL ∉ "sshd@tty.1".toList ∧
      tinit_check_svc_name "sshd@tty.1".toList "sshd@tty.1".toList.length = 0 :=
  ⟨by decide,
   (check_svc_name_result "sshd@tty.1".toList (by decide)).1.mpr
     ⟨by decide, by decide, Or.inl (by decide)⟩⟩



theorem mem_env_charset (c : Char) :
    c ∈ ALNUM_CHARSET ++ "_".toList ↔ (isalnum c = true ∨ c = '_') := by
  rw [List.mem_append, mem_ALNUM_iff]
  have : "_".toList = ['_'] := rfl
  rw [this, List.mem_singleton]

/-- C20: for a name shorter than 64 characters, `conf_parse_env_var` returns the
length of the name exactly when the name does not begin with a digit and is
made of characters of `[A-Za-z0-9_]`, lowercase letters included, and -EINVAL
otherwise. -/
theorem env_var_name_accepts_lowercase (name : List Char) (hlen : name.length < 64) :
    (conf_parse_env_var name = (name.length : Int) ↔
      (isdigit (char_at name 0) = false ∧ ∀ c ∈ name, isalnum c = true ∨ c = '_')) ∧
    (conf_parse_env_var name ≠ (name.length : Int) → conf_parse_env_var name = -EINVAL) := by
  have hmin : min name.length SVC_ENV_NAME_MAX = name.length :=
    Nat.min_eq_left (by unfold SVC_ENV_NAME_MAX; omega)
  have hnot : ¬ name.length ≥ SVC_ENV_NAME_MAX := by unfold SVC_ENV_NAME_MAX; omega
  have hneg : (-EINVAL : Int) ≠ (name.length : Int) := by unfold EINVAL; omega
  unfold conf_parse_env_var
  simp only [hmin, hnot, if_false]
  by_cases hd : isdigit (char_at name 0) = true
  · simp only [hd, if_true]
    by_cases h0 : name.length = 0
    · have hnil : name = [] := List.length_eq_zero.mp h0
      subst hnil
      exact absurd hd (by decide)
    · have h0n : (0 : Nat) ≠ name.length := fun h => h0 h.symm
      simp only [ne_eq, h0n, not_false_eq_true, if_true, hneg, Bool.true_eq_false, false_and,
        implies_true, and_self]
  · have hdf : isdigit (char_at name 0) = false := by simpa using hd
    simp only [hdf, Bool.false_eq_true, if_false, true_and]
    by_cases hs : strspn name (ALNUM_CHARSET ++ "_".toList) = name.length
    · simp only [hs, ne_eq, not_true_eq_false, if_false, true_iff, false_implies, and_true]
      intro c hc
      exact (mem_env_charset c).mp ((strspn_eq_length_iff _ _).mp hs c hc)
    · simp only [ne_eq, hs, not_false_eq_true, if_true, hneg, false_iff, implies_true, and_true]
      intro h
      exact hs ((strspn_eq_length_iff _ _).mpr (fun c hc => (mem_env_charset c).mpr (h c hc)))

/-- C20, witness: the name "path" is accepted with its length 4, and does not
match `[A-Z_][A-Z0-9_]*`. -/
theorem env_var_name_accepts_lowercase_witness :
    "path".toList.length < 64 ∧ conf_parse_env_var "path".toList = 4 ∧
      spec_env_name_pattern "path".toList = false :=
  ⟨by decide,
   (env_var_name_accepts_lowercase "path".toList (by decide)).1.mpr ⟨by decide, by decide⟩,
   by decide⟩

theorem strnlen_le (data : Nat → Nat) (max off : Nat) : strnlen data off max ≤ max := by
  induction max generalizing off with
  | zero => simp [strnlen]
  | succ m ih =>
    unfold strnlen
    split
    · omega
    · have := ih (off + 1); omega

theorem strnlen_eq_iff (data : Nat → Nat) (max off n : Nat) :
    strnlen data off max = n ↔
      n ≤ max ∧ (∀ i, i < n → data (off + i) ≠ 0) ∧ (n < max → data (off + n) = 0) := by
  induction max generalizing off n with
  | zero =>
    simp only [strnlen]
    constructor
    · intro h; subst h; simp
    · rintro ⟨h, -, -⟩; omega
  | succ m ih =>
    unfold strnlen
    by_cases h0 : data off = 0
    · simp only [h0, if_true]
      constructor
      · intro h; subst h; simp [h0]
      · rintro ⟨-, h2, -⟩
        by_contra hn
        exact h2 0 (by omega) (by simpa using h0)
    · simp only [h0, if_false]
      cases n with
      | zero =>
        constructor
        · intro h; omega
        · rintro ⟨-, -, h3⟩
          exact absurd (h3 (by omega)) (by simpa using h0)
      | succ k =>
        rw [Nat.succ_inj', ih (off + 1) k]
        constructor
        · rintro ⟨h1, h2, h3⟩
          refine ⟨by omega, fun i hi => ?_, fun hlt => ?_⟩
          · cases i with
            | zero => simpa using h0
            | succ j =>
              have := h2 j (by omega)
              rwa [show off + 1 + j = off + (j + 1) by omega] at this
          · have := h3 (by omega)
            rwa [show off + 1 + k = off + (k + 1) by omega] at this
        · rintro ⟨h1, h2, h3⟩
          refine ⟨by omega, fun i hi => ?_, fun hlt => ?_⟩
          · have := h2 (i + 1) (by omega)
            rwa [show off + (i + 1) = off + 1 + i by omega] at this
          · have := h3 (by omega)
            rwa [show off + (k + 1) = off + 1 + k by omega] at this

/-- C16: `tinit_srv_parse_request` accepts a datagram exactly when it holds the
4-byte header and 2 to 256 further bytes, the type is below
`TINIT_MSG_TYPE_NR` (one of the six types), the last byte is zero and no byte
of the pattern before it is; it then returns the length of the pattern, from
1 to 255, with the type and the pattern (its NUL included) copied out.  Every
other datagram, one shorter than the header included, gets -EPROTO and nothing
is copied. -/
theorem parse_request_accepts (buff : unsk_dgram_buff) (hb : buff.bytes ≤ TINIT_MSG_SIZE_MAX) :
    ((4 + 2 ≤ buff.bytes ∧ buff.bytes ≤ 4 + 256 ∧ load_u16 buff.data 2 < 6 ∧
        (∀ i, i < buff.bytes - 5 → buff.data (4 + i) ≠ 0) ∧ buff.data (buff.bytes - 1) = 0) →
      tinit_srv_parse_request buff =
          (((buff.bytes - 5 : Nat) : Int),
            some (load_u16 buff.data 2, mem_bytes buff.data 4 (buff.bytes - 4))) ∧
        1 ≤ buff.bytes - 5 ∧ buff.bytes - 5 ≤ 255) ∧
    (¬ (4 + 2 ≤ buff.bytes ∧ buff.bytes ≤ 4 + 256 ∧ load_u16 buff.data 2 < 6 ∧
        (∀ i, i < buff.bytes - 5 → buff.data (4 + i) ≠ 0) ∧ buff.data (buff.bytes - 1) = 0) →
      tinit_srv_parse_request buff = (-EPROTO, none)) := by
  unfold TINIT_MSG_SIZE_MAX at hb
  unfold tinit_srv_parse_request TINIT_SVC_PATTERN_MAX TINIT_MSG_TYPE_NR
  by_cases h4 : buff.bytes < 4
  · have hsz : (buff.bytes + 18446744073709551616 - 4) % 18446744073709551616 =
        buff.bytes + 18446744073709551616 - 4 := Nat.mod_eq_of_lt (by omega)
    have hbig : buff.bytes + 18446744073709551616 - 4 ≤ 1 ∨
        buff.bytes + 18446744073709551616 - 4 > 256 := Or.inr (by omega)
    simp only [hsz, hbig, if_true]
    exact ⟨fun h => by omega, fun _ => trivial⟩
  · have hsz : (buff.bytes + 18446744073709551616 - 4) % 18446744073709551616 =
        buff.bytes - 4 := by omega
    simp only [hsz]
    by_cases hr : buff.bytes - 4 ≤ 1 ∨ buff.bytes - 4 > 256
    · simp only [hr, if_true]
      exact ⟨fun h => by omega, fun _ => trivial⟩
    · simp only [hr, if_false]
      by_cases ht : load_u16 buff.data 2 ≥ 6
      · simp only [ht, if_true]
        exact ⟨fun h => by omega, fun _ => trivial⟩
      · simp only [ht, if_false]
        have hlen := strnlen_eq_iff buff.data (buff.bytes - 4) 4 (buff.bytes - 5)
        have he1 : 4 + (buff.bytes - 5) = buff.bytes - 1 := by omega
        rw [he1] at hlen
        by_cases hs : strnlen buff.data 4 (buff.bytes - 4) + 1 ≠ buff.bytes - 4
        · rw [if_pos hs]
          refine ⟨fun h => ?_, fun _ => rfl⟩
          exfalso
          apply hs
          have := hlen.mpr ⟨by omega, h.2.2.2.1, fun _ => h.2.2.2.2⟩
          omega
        · rw [if_neg hs]
          have hs2 : strnlen buff.data 4 (buff.bytes - 4) = buff.bytes - 5 := by
            have : strnlen buff.data 4 (buff.bytes - 4) + 1 = buff.bytes - 4 := by
              by_contra hc; exact hs hc
            omega
          have h5 : buff.bytes - 4 - 1 = buff.bytes - 5 := by omega
          rw [h5]
          refine ⟨fun _ => ⟨rfl, by omega, by omega⟩, fun h => ?_⟩
          exfalso
          apply h
          have := hlen.mp hs2
          exact ⟨by omega, by omega, by omega, this.2.1, this.2.2 (by omega)⟩

/-- C16, witness: the START request for "ssh" of 8 bytes is accepted with the
pattern length 3, the type 1 and the four bytes of the pattern copied. -/
theorem parse_request_accepts_witness :
    demo_request.bytes ≤ TINIT_MSG_SIZE_MAX ∧
      tinit_srv_parse_request demo_request = (3, some (1, [115, 115, 104, 0])) :=
  ⟨by decide,
   ((parse_request_accepts demo_request (by decide)).1
      ⟨by decide, by decide, by decide, by decide, by decide⟩).1⟩

theorem load_store_u16 (data : Nat → Nat) (off v : Nat) :
    load_u16 (store_u16 data off v) off = v % 65536 := by
  unfold load_u16 store_u16
  rw [Function.update_same, Function.update_noteq (by omega), Function.update_same]
  omega

theorem append_bytes_le (buff : unsk_dgram_buff) (pid : Int) (is_on : Bool)
    (state : tinit_svc_state) (path : List Nat) (len : Nat) :
    (tinit_srv_append_status_reply buff pid is_on state path len).1.bytes ≤ TINIT_MSG_SIZE_MAX := by
  unfold tinit_srv_append_status_reply
  simp only
  split
  · unfold TINIT_MSG_SIZE_MAX; simp
  · simp only; omega

theorem loop_bytes_le (fnmatch : List Nat → String → Int) (pattern : List Nat) (l : List svc) :
    ∀ (buff : unsk_dgram_buff) (cnt : Nat), buff.bytes ≤ TINIT_MSG_SIZE_MAX →
      (tinit_srv_request_status_loop fnmatch pattern l buff cnt).bytes ≤ TINIT_MSG_SIZE_MAX := by
  induction l with
  | nil =>
    intro buff cnt hb
    unfold tinit_srv_request_status_loop
    split
    · unfold tinit_srv_build_reply TINIT_MSG_SIZE_MAX; simp
    · exact hb
  | cons v rest ih =>
    intro buff cnt hb
    unfold tinit_srv_request_status_loop
    split
    · exact ih buff cnt hb
    · split
      · unfold tinit_srv_build_reply TINIT_MSG_SIZE_MAX; simp
      · simp only
        split
        · exact append_bytes_le _ _ _ _ _ _
        · exact ih _ _ (append_bytes_le _ _ _ _ _ _)

theorem round_upper_ge (b : Nat) : b ≤ stroll_round_upper b 8 := by
  unfold stroll_round_upper; omega

theorem status_reply_size_ge (ps : List (List Nat)) : ∀ b, b ≤ status_reply_size b ps := by
  induction ps with
  | nil => intro b; exact Nat.le_refl _
  | cons p ps ih =>
    intro b
    unfold status_reply_size
    have := ih (stroll_round_upper b 8 + (8 + p.length + 1))
    have := round_upper_ge b
    omega

theorem loop_overflow (fnmatch : List Nat → String → Int) (pattern : List Nat) (l : List svc)
    (hf : ∀ v ∈ l, fnmatch pattern v.conf.name = 0 ∨ fnmatch pattern v.conf.name = FNM_NOMATCH) :
    ∀ (buff : unsk_dgram_buff) (cnt : Nat),
      status_reply_size buff.bytes ((status_matches fnmatch pattern l).map (fun v => v.conf.path))
        > TINIT_MSG_SIZE_MAX → buff.bytes ≤ TINIT_MSG_SIZE_MAX →
      (tinit_srv_request_status_loop fnmatch pattern l buff cnt).bytes = 6 ∧
      load_u16 (tinit_srv_request_status_loop fnmatch pattern l buff cnt).data 4 = 28 := by
  induction l with
  | nil =>
    intro buff cnt hsz hb
    simp only [status_matches, List.filter_nil, List.map_nil, status_reply_size] at hsz
    omega
  | cons v rest ih =>
    intro buff cnt hsz hb
    have ih2 := ih (fun w hw => hf w (List.mem_cons_of_mem _ hw))
    unfold tinit_srv_request_status_loop
    rcases hf v (List.mem_cons_self _ _) with h0 | h1
    · have hne : ¬ fnmatch pattern v.conf.name = FNM_NOMATCH := by rw [h0]; decide
      have hm : status_matches fnmatch pattern (v :: rest) =
          v :: status_matches fnmatch pattern rest := by
        simp [status_matches, h0]
      rw [hm, List.map_cons, status_reply_size] at hsz
      have hz : ¬ fnmatch pattern v.conf.name ≠ 0 := fun h => h h0
      rw [if_neg hne, if_neg hz]
      simp only
      by_cases hov : stroll_round_upper buff.bytes 8 + (8 + v.conf.path.length + 1) >
          TINIT_MSG_SIZE_MAX
      · have hr : tinit_srv_append_status_reply buff v.child (svc_is_on v) v.state v.conf.path
            v.conf.path.length =
            ({ bytes := 6, data := store_u16 buff.data 4 ENOSPC.toNat }, -ENOSPC) := by
          unfold tinit_srv_append_status_reply
          simp only [hov, if_true]
        rw [hr]
        have hnz : (-ENOSPC : Int) ≠ 0 := by decide
        simp only [hnz, ne_eq, not_false_eq_true, if_true, load_store_u16]
        exact ⟨trivial, by decide⟩
      · have hr : tinit_srv_append_status_reply buff v.child (svc_is_on v) v.state v.conf.path
            v.conf.path.length =
            ({ bytes := stroll_round_upper buff.bytes 8 + (8 + v.conf.path.length + 1),
               data := memcpy (Function.update (Function.update
                 (store_u32 buff.data (stroll_round_upper buff.bytes 8) (to_unsigned v.child))
                 (stroll_round_upper buff.bytes 8 + 4) (if svc_is_on v then 1 else 0))
                 (stroll_round_upper buff.bytes 8 + 5) v.state.code)
                 (stroll_round_upper buff.bytes 8 + 6)
                 ((v.conf.path ++ [0]).take (v.conf.path.length + 1)) }, 0) := by
          unfold tinit_srv_append_status_reply
          simp only [hov, if_false]
        rw [hr]
        simp only [ne_eq, not_true_eq_false, if_false]
        exact ih2 _ _ hsz (by simp only; omega)
    · have hm : status_matches fnmatch pattern (v :: rest) =
          status_matches fnmatch pattern rest := by
        have : ¬ fnmatch pattern v.conf.name = 0 := by rw [h1]; decide
        simp [status_matches, this]
      rw [hm] at hsz
      rw [if_pos h1]
      exact ih2 buff cnt hsz hb

/-- C17: the reply that `tinit_srv_request_status` leaves in the buffer is at
most 4096 bytes long, for every repository, pattern and matching function.
When a service matches and its record would end beyond 4096 bytes, the loop
stops there, whatever services follow: the reply is the 6 bytes of the head
with `ret = ENOSPC`.  So when the records of the matching services do not fit
in 4096 bytes together, the whole request ends with that 6-byte reply. -/
theorem status_reply_bounded (fnmatch : List Nat → String → Int) (s : sys)
    (buff : unsk_dgram_buff) (pattern : List Nat) :
    (tinit_srv_request_status fnmatch s buff pattern).bytes ≤ 4096 ∧
    (∀ (v : svc) (rest : List svc) (b : unsk_dgram_buff) (cnt : Nat),
      fnmatch pattern v.conf.name = 0 →
      stroll_round_upper b.bytes 8 + (8 + v.conf.path.length + 1) > 4096 →
      tinit_srv_request_status_loop fnmatch pattern (v :: rest) b cnt =
        { bytes := 6, data := store_u16 b.data 4 28 }) ∧
    ((∀ v ∈ s.svcs, fnmatch pattern v.conf.name = 0 ∨ fnmatch pattern v.conf.name = FNM_NOMATCH) →
      status_reply_size 8 ((status_matches fnmatch pattern s.svcs).map (fun v => v.conf.path))
        > 4096 →
      (tinit_srv_request_status fnmatch s buff pattern).bytes = 6 ∧
        load_u16 (tinit_srv_request_status fnmatch s buff pattern).data 4 = 28) := by
  refine ⟨?_, ?_, ?_⟩
  · exact loop_bytes_le fnmatch pattern s.svcs _ 0 (by show 8 ≤ 4096; omega)
  · intro v rest b cnt h0 hov
    have hne : ¬ fnmatch pattern v.conf.name = FNM_NOMATCH := by rw [h0]; decide
    have hz : ¬ fnmatch pattern v.conf.name ≠ 0 := fun h => h h0
    have hov2 : stroll_round_upper b.bytes 8 + (8 + v.conf.path.length + 1) >
        TINIT_MSG_SIZE_MAX := hov
    have hr : tinit_srv_append_status_reply b v.child (svc_is_on v) v.state v.conf.path
        v.conf.path.length =
        ({ bytes := 6, data := store_u16 b.data 4 ENOSPC.toNat }, -ENOSPC) := by
      unfold tinit_srv_append_status_reply
      simp only [hov2, if_true]
    have hnz : (-ENOSPC : Int) ≠ 0 := by decide
    unfold tinit_srv_request_status_loop
    rw [if_neg hne, if_neg hz]
    simp only [hr, hnz, ne_eq, not_false_eq_true, if_true]
    rfl
  · intro hf hsz
    exact loop_overflow fnmatch pattern s.svcs hf _ 0 hsz (by show 8 ≤ 4096; omega)

set_option maxRecDepth 100000 in
/-- C17, witness: 16 matching services with origin file names of 254 bytes take
8 + 16 * 264 = 4232 bytes: the reply is the bare head with `ret = ENOSPC`. -/
theorem status_reply_bounded_witness :
    status_reply_size 8 ((status_matches (fun _ _ => 0) [42] demo_long_paths.svcs).map
        (fun v => v.conf.path)) > 4096 ∧
      (tinit_srv_request_status (fun _ _ => 0) demo_long_paths
        { bytes := 6, data := fun _ => 0 } [42]).bytes = 6 ∧
      load_u16 (tinit_srv_request_status (fun _ _ => 0) demo_long_paths
        { bytes := 6, data := fun _ => 0 } [42]).data 4 = 28 :=
  ⟨by decide,
   (status_reply_bounded (fun _ _ => 0) demo_long_paths { bytes := 6, data := fun _ => 0 }
      [42]).2.2 (fun _ _ => Or.inl rfl) (by decide)⟩

theorem load_store_u32 (data : Nat → Nat) (off v : Nat) :
    load_u32 (store_u32 data off v) off = v % 4294967296 := by
  unfold load_u32 store_u32
  rw [Function.update_noteq (by omega), Function.update_noteq (by omega),
    Function.update_noteq (by omega), Function.update_same,
    Function.update_noteq (by omega), Function.update_noteq (by omega), Function.update_same,
    Function.update_noteq (by omega), Function.update_same, Function.update_same]
  omega

theorem store_u32_frame (data : Nat → Nat) (off v i : Nat) (h : i < off ∨ off + 4 ≤ i) :
    store_u32 data off v i = data i := by
  unfold store_u32
  rw [Function.update_noteq (by omega), Function.update_noteq (by omega),
    Function.update_noteq (by omega), Function.update_noteq (by omega)]

theorem store_u16_frame (data : Nat → Nat) (off v i : Nat) (h : i < off ∨ off + 2 ≤ i) :
    store_u16 data off v i = data i := by
  unfold store_u16
  rw [Function.update_noteq (by omega), Function.update_noteq (by omega)]

theorem load_u32_congr (D D2 : Nat → Nat) (o : Nat)
    (h : ∀ i, o ≤ i → i < o + 4 → D2 i = D i) : load_u32 D2 o = load_u32 D o := by
  unfold load_u32
  rw [h o (by omega) (by omega), h (o + 1) (by omega) (by omega),
    h (o + 2) (by omega) (by omega), h (o + 3) (by omega) (by omega)]

theorem status_held_congr (D D2 : Nat → Nat) (o : Nat) (v : svc)
    (h : ∀ i, o ≤ i → i < o + (8 + v.conf.path.length + 1) → D2 i = D i)
    (hh : status_held D o v) : status_held D2 o v := by
  obtain ⟨h1, h2, h3, h4, h5⟩ := hh
  refine ⟨?_, ?_, ?_, ?_, ?_⟩
  · rw [load_u32_congr D D2 o (fun i hi hi2 => h i hi (by omega))]; exact h1
  · rw [h _ (by omega) (by omega)]; exact h2
  · rw [h _ (by omega) (by omega)]; exact h3
  · intro i hi; rw [h _ (by omega) (by omega)]; exact h4 i hi
  · rw [h _ (by omega) (by omega)]; exact h5

theorem status_stored_congr (D D2 : Nat → Nat) (l : List svc) :
    ∀ (o e : Nat), (∀ i, o ≤ i → D2 i = D i) → status_stored D o l e → status_stored D2 o l e := by
  induction l with
  | nil => intro o e _ hs; exact hs
  | cons v rest ih =>
    intro o e h hs
    obtain ⟨h1, h2, h3⟩ := hs
    refine ⟨status_held_congr D D2 o v (fun i hi _ => h i hi) h1, h2,
      ih _ e (fun i hi => h i (by omega)) h3⟩

theorem round_upper_add (o x : Nat) (ho : o % 8 = 0) :
    stroll_round_upper (o + x) 8 = o + uround_upper x 8 := by
  unfold stroll_round_upper uround_upper
  omega

theorem round_upper_mod (b : Nat) : stroll_round_upper b 8 % 8 = 0 := by
  unfold stroll_round_upper
  omega

theorem uround_upper_ge (b : Nat) : b ≤ uround_upper b 8 := by
  unfold uround_upper; omega

/-- What an append that fits leaves in the buffer. -/
theorem append_fits (buff : unsk_dgram_buff) (v : svc)
    (hfit : stroll_round_upper buff.bytes 8 + (8 + v.conf.path.length + 1) ≤ TINIT_MSG_SIZE_MAX) :
    (tinit_srv_append_status_reply buff v.child (svc_is_on v) v.state v.conf.path
        v.conf.path.length).2 = 0 ∧
    (tinit_srv_append_status_reply buff v.child (svc_is_on v) v.state v.conf.path
        v.conf.path.length).1.bytes =
      stroll_round_upper buff.bytes 8 + (8 + v.conf.path.length + 1) ∧
    (∀ i, i < stroll_round_upper buff.bytes 8 →
      (tinit_srv_append_status_reply buff v.child (svc_is_on v) v.state v.conf.path
        v.conf.path.length).1.data i = buff.data i) ∧
    status_held (tinit_srv_append_status_reply buff v.child (svc_is_on v) v.state v.conf.path
        v.conf.path.length).1.data (stroll_round_upper buff.bytes 8) v := by
  have hnot : ¬ stroll_round_upper buff.bytes 8 + (8 + v.conf.path.length + 1) >
      TINIT_MSG_SIZE_MAX := by omega
  have htake : (v.conf.path ++ [0]).take (v.conf.path.length + 1) = v.conf.path ++ [0] := by
    apply List.take_of_length_le
    simp
  unfold tinit_srv_append_status_reply
  simp only [hnot, if_false, htake]
  refine ⟨trivial, trivial, ?_, ?_⟩
  · intro i hi
    unfold memcpy
    have hc : ¬ (stroll_round_upper buff.bytes 8 + 6 ≤ i ∧
        i < stroll_round_upper buff.bytes 8 + 6 + (v.conf.path ++ [0]).length) := by omega
    simp only [hc, if_false]
    rw [Function.update_noteq (by omega), Function.update_noteq (by omega)]
    exact store_u32_frame _ _ _ _ (Or.inl hi)
  · generalize stroll_round_upper buff.bytes 8 = o
    have hlow : ∀ i, i < o + 6 → memcpy (Function.update (Function.update
        (store_u32 buff.data o (to_unsigned v.child)) (o + 4) (if svc_is_on v then 1 else 0))
        (o + 5) v.state.code) (o + 6) (v.conf.path ++ [0]) i =
        (Function.update (Function.update
        (store_u32 buff.data o (to_unsigned v.child)) (o + 4) (if svc_is_on v then 1 else 0))
        (o + 5) v.state.code) i := by
      intro i hi
      unfold memcpy
      have hc : ¬ (o + 6 ≤ i ∧ i < o + 6 + (v.conf.path ++ [0]).length) := by omega
      simp only [hc, if_false]
    have hhigh : ∀ i, i ≤ v.conf.path.length → memcpy (Function.update (Function.update
        (store_u32 buff.data o (to_unsigned v.child)) (o + 4) (if svc_is_on v then 1 else 0))
        (o + 5) v.state.code) (o + 6) (v.conf.path ++ [0]) (o + 6 + i) =
        (v.conf.path ++ [0]).getD i 0 := by
      intro i hi
      unfold memcpy
      have hc : (o + 6 ≤ o + 6 + i ∧ o + 6 + i < o + 6 + (v.conf.path ++ [0]).length) := by
        simp; omega
      simp only [hc, and_self, if_true]
      congr 1
      omega
    refine ⟨?_, ?_, ?_, ?_, ?_⟩
    · rw [load_u32_congr _ _ o (fun i _ hi2 => hlow i (by omega))]
      rw [load_u32_congr (store_u32 buff.data o (to_unsigned v.child)) _ o (fun i _ hi2 => by
        rw [Function.update_noteq (by omega), Function.update_noteq (by omega)])]
      rw [load_store_u32]
      unfold to_unsigned
      omega
    · rw [hlow _ (by omega), Function.update_noteq (by omega), Function.update_same]
    · rw [hlow _ (by omega), Function.update_same]
    · intro i hi
      rw [hhigh i (by omega)]
      simp [List.getD_eq_getElem?_getD, List.getElem?_append_left hi]
    · rw [hhigh _ (Nat.le_refl _)]
      simp [List.getD_eq_getElem?_getD]

theorem loop_stored (fnmatch : List Nat → String → Int) (pattern : List Nat) (l : List svc)
    (hf : ∀ v ∈ l, fnmatch pattern v.conf.name = 0 ∨ fnmatch pattern v.conf.name = FNM_NOMATCH) :
    ∀ (buff : unsk_dgram_buff) (cnt : Nat),
      status_reply_size buff.bytes ((status_matches fnmatch pattern l).map (fun v => v.conf.path))
        ≤ TINIT_MSG_SIZE_MAX →
      (cnt ≠ 0 ∨ status_matches fnmatch pattern l ≠ []) →
      (tinit_srv_request_status_loop fnmatch pattern l buff cnt).bytes =
        status_reply_size buff.bytes
          ((status_matches fnmatch pattern l).map (fun v => v.conf.path)) ∧
      status_stored (tinit_srv_request_status_loop fnmatch pattern l buff cnt).data
        (stroll_round_upper buff.bytes 8) (status_matches fnmatch pattern l)
        (tinit_srv_request_status_loop fnmatch pattern l buff cnt).bytes ∧
      ∀ i, i < buff.bytes →
        (tinit_srv_request_status_loop fnmatch pattern l buff cnt).data i = buff.data i := by
  induction l with
  | nil =>
    intro buff cnt _ hc
    have hcnt : cnt ≠ 0 := by
      rcases hc with h | h
      · exact h
      · exact absurd rfl h
    unfold tinit_srv_request_status_loop
    rw [if_neg hcnt]
    refine ⟨rfl, ?_, fun _ _ => rfl⟩
    show buff.bytes ≤ stroll_round_upper buff.bytes 8 + 6
    have := round_upper_ge buff.bytes
    omega
  | cons v rest ih =>
    intro buff cnt hsz hc
    have ih2 := ih (fun w hw => hf w (List.mem_cons_of_mem _ hw))
    unfold tinit_srv_request_status_loop
    rcases hf v (List.mem_cons_self _ _) with h0 | h1
    · have hne : ¬ fnmatch pattern v.conf.name = FNM_NOMATCH := by rw [h0]; decide
      have hz : ¬ fnmatch pattern v.conf.name ≠ 0 := fun h => h h0
      have hm : status_matches fnmatch pattern (v :: rest) =
          v :: status_matches fnmatch pattern rest := by
        simp [status_matches, h0]
      rw [hm, List.map_cons, status_reply_size] at hsz
      rw [hm, List.map_cons, status_reply_size]
      have hge := status_reply_size_ge
        ((status_matches fnmatch pattern rest).map (fun v => v.conf.path))
        (stroll_round_upper buff.bytes 8 + (8 + v.conf.path.length + 1))
      obtain ⟨a1, a2, a3, a4⟩ := append_fits buff v (by omega)
      rw [if_neg hne, if_neg hz]
      have ha1 : ¬ (tinit_srv_append_status_reply buff v.child (svc_is_on v) v.state v.conf.path
          v.conf.path.length).2 ≠ 0 := fun h => h a1
      simp only [ha1, if_false]
      obtain ⟨b1, b2, b3⟩ := ih2 _ (cnt + 1) (by rw [a2]; exact hsz) (Or.inl (by omega))
      rw [a2] at b1 b2 b3
      refine ⟨b1, ⟨?_, ?_, ?_⟩, ?_⟩
      · exact status_held_congr _ _ _ v (fun i _ hi2 => b3 i hi2) a4
      · rw [b1]; exact hge
      · rw [round_upper_add _ _ (round_upper_mod _)] at b2
        exact b2
      · intro i hi
        have := round_upper_ge buff.bytes
        rw [b3 i (by omega)]
        exact a3 i (by omega)
    · have hm : status_matches fnmatch pattern (v :: rest) =
          status_matches fnmatch pattern rest := by
        have : ¬ fnmatch pattern v.conf.name = 0 := by rw [h1]; decide
        simp [status_matches, this]
      rw [hm] at hsz hc
      rw [hm, if_pos h1]
      exact ih2 buff cnt hsz hc

theorem mem_bytes_eq (D : Nat → Nat) (o : Nat) (l : List Nat)
    (h : ∀ i, i < l.length → D (o + i) = l.getD i 0) : mem_bytes D o l.length = l := by
  unfold mem_bytes
  apply List.ext_getElem
  · simp
  · intro i h1 h2
    simp only [List.getElem_map, List.getElem_range]
    rw [h i h2, List.getD_eq_getElem _ _ h2]

theorem reportable_is_on (v : svc) (hg : v.good) :
    svc_is_on v = true ↔ (v.state = .STARTING ∨ v.state = .READY) := by
  unfold svc_is_on
  rw [decide_eq_true_eq]
  exact hg.2.2.1

/-- What the decoder finds at a stored record. -/
theorem parse_held (D : Nat → Nat) (o e : Nat) (v : svc) (hr : v.reportable)
    (hh : status_held D o v) (he : o + (8 + v.conf.path.length + 1) ≤ e) :
    (tinit_parse_status_data D o e).2 = (v.conf.path.length : Int) ∧
    (∀ i, o + 4 ≤ i → (tinit_parse_status_data D o e).1 i = D i) ∧
    status_row_at (tinit_parse_status_data D o e).1
      { end_off := e, status := o, len := v.conf.path.length } = status_row_of v := by
  obtain ⟨hg, hc1, hc2, hp1, hp2, hp3⟩ := hr
  obtain ⟨h1, h2, h3, h4, h5⟩ := hh
  unfold NAME_MAX at hp2
  have hlt6 : o + 6 < e := by omega
  have hmaxlt : v.conf.path.length < min (e - (o + 6)) NAME_MAX := by
    unfold NAME_MAX
    rw [Nat.lt_min]
    omega
  have hlen : strnlen D (o + 6) (min (e - (o + 6)) NAME_MAX) = v.conf.path.length := by
    rw [strnlen_eq_iff]
    refine ⟨by omega, fun i hi => ?_, fun _ => h5⟩
    rw [h4 i hi, List.getD_eq_getElem _ _ hi]
    intro h0
    exact hp3 (h0 ▸ List.getElem_mem _)
  have hcond : ¬ (v.conf.path.length = 0 ∨
      v.conf.path.length ≥ min (e - (o + 6)) NAME_MAX) := by omega
  have hpath : ∀ D2 : Nat → Nat, (∀ i, o + 4 ≤ i → D2 i = D i) →
      mem_bytes D2 (o + 6) v.conf.path.length = v.conf.path := by
    intro D2 hD2
    apply mem_bytes_eq
    intro i hi
    rw [hD2 _ (by omega)]
    exact h4 i hi
  have hon := reportable_is_on v hg
  unfold tinit_parse_status_data
  simp only [hlt6, if_true, hlen, hcond, if_false, h2, h3]
  cases hs : v.state
  · -- STOPPED
    have hoff : svc_is_on v = false := by
      by_contra hc
      have := hon.mp (by simpa using hc)
      rw [hs] at this
      simp at this
    simp only [hoff, Bool.false_eq_true, if_false, if_true, tinit_svc_state.code, true_or]
    refine ⟨trivial, fun i hi => store_u32_frame _ _ _ _ (Or.inr hi), ?_⟩
    simp only [status_row_at, status_row_of, tinit_get_status_pid, tinit_get_status_adm_state,
      tinit_get_status_run_state, load_store_u32, hs, hoff]
    rw [store_u32_frame _ _ _ _ (Or.inr (by omega)), store_u32_frame _ _ _ _ (Or.inr (by omega)),
      h2, h3, hpath _ (fun i hi => store_u32_frame _ _ _ _ (Or.inr hi)), hs, hoff]
    simp [to_signed, tinit_svc_state.code]
  · -- STARTING
    have hon1 : svc_is_on v = true := hon.mpr (Or.inl hs)
    simp only [hon1, if_true, tinit_svc_state.code, one_ne_zero, if_false]
    refine ⟨trivial, fun i hi => store_u32_frame _ _ _ _ (Or.inr hi), ?_⟩
    simp only [status_row_at, status_row_of, tinit_get_status_pid, tinit_get_status_adm_state,
      tinit_get_status_run_state, load_store_u32, hs, hon1]
    rw [store_u32_frame _ _ _ _ (Or.inr (by omega)), store_u32_frame _ _ _ _ (Or.inr (by omega)),
      h2, h3, hpath _ (fun i hi => store_u32_frame _ _ _ _ (Or.inr hi)), hs, hon1]
    simp [to_signed, tinit_svc_state.code]
  · -- READY
    have hon1 : svc_is_on v = true := hon.mpr (Or.inr hs)
    have hchild : v.child ≠ 0 := by
      rcases hg.2.2.2 hs with h | h
      · omega
      · omega
    have hpid : ¬ load_u32 D o = 0 := by
      rw [h1]; unfold to_unsigned; omega
    simp only [hon1, if_true, tinit_svc_state.code, one_ne_zero, if_false, hpid]
    simp only [OfNat.ofNat_ne_one, if_false, if_true]
    refine ⟨trivial, fun _ _ => trivial, ?_⟩
    simp only [status_row_at, status_row_of, tinit_get_status_pid, tinit_get_status_adm_state,
      tinit_get_status_run_state, hs, hon1]
    rw [h1, h2, h3, hpath _ (fun i hi => rfl), hs, hon1]
    have hsg : to_signed (to_unsigned v.child) = v.child := by
      unfold to_signed to_unsigned
      split <;> omega
    simp [hsg, tinit_svc_state.code]
  · -- STOPPING
    have hoff : svc_is_on v = false := by
      by_contra hc
      have := hon.mp (by simpa using hc)
      rw [hs] at this
      simp at this
    simp only [hoff, Bool.false_eq_true, if_false, if_true, tinit_svc_state.code, or_true]
    refine ⟨trivial, fun i hi => store_u32_frame _ _ _ _ (Or.inr hi), ?_⟩
    simp only [status_row_at, status_row_of, tinit_get_status_pid, tinit_get_status_adm_state,
      tinit_get_status_run_state, load_store_u32, hs, hoff]
    rw [store_u32_frame _ _ _ _ (Or.inr (by omega)), store_u32_frame _ _ _ _ (Or.inr (by omega)),
      h2, h3, hpath _ (fun i hi => store_u32_frame _ _ _ _ (Or.inr hi)), hs, hoff]
    simp [to_signed, tinit_svc_state.code]

theorem parse_at_end (D : Nat → Nat) (o e : Nat) (h : e ≤ o + 6) :
    tinit_parse_status_data D o e = (D, -ENOENT) := by
  unfold tinit_parse_status_data
  have : ¬ o + 6 < e := by omega
  simp only [this, if_false]

theorem show_status_rows_stored (rest : List svc) :
    ∀ (v : svc) (D : Nat → Nat) (o e fuel : Nat),
      status_row_at D { end_off := e, status := o, len := v.conf.path.length } =
        status_row_of v →
      status_stored D (o + uround_upper (8 + v.conf.path.length + 1) 8) rest e →
      (∀ w ∈ rest, w.reportable) → rest.length < fuel →
      show_status_rows fuel D { end_off := e, status := o, len := v.conf.path.length } =
        some ((v :: rest).map status_row_of, -ENOENT) := by
  induction rest with
  | nil =>
    intro v D o e fuel hrow hst _ hfuel
    obtain ⟨f, rfl⟩ : ∃ f, fuel = f + 1 := ⟨fuel - 1, by simp at hfuel; omega⟩
    have hp := parse_at_end D _ e hst
    unfold show_status_rows tinit_step_status
    simp only [hp]
    have hneg : (-ENOENT : Int) < 0 := by decide
    have hnz : (-ENOENT : Int) ≠ 0 := by decide
    simp only [hneg, if_true, hnz, ne_eq, not_false_eq_true, hrow, List.map_cons, List.map_nil]
  | cons w rest ih =>
    intro v D o e fuel hrow hst hrep hfuel
    obtain ⟨f, rfl⟩ : ∃ f, fuel = f + 1 := ⟨fuel - 1, by simp at hfuel; omega⟩
    obtain ⟨s1, s2, s3⟩ := hst
    obtain ⟨p1, p2, p3⟩ := parse_held D _ e w (hrep w (List.mem_cons_self _ _)) s1 s2
    have hnn : ¬ (tinit_parse_status_data D (o + uround_upper (8 + v.conf.path.length + 1) 8)
        e).2 < 0 := by rw [p1]; omega
    have hge := uround_upper_ge (8 + w.conf.path.length + 1)
    have hih := ih w (tinit_parse_status_data D (o + uround_upper (8 + v.conf.path.length + 1) 8)
        e).1 (o + uround_upper (8 + v.conf.path.length + 1) 8) e f p3
      (status_stored_congr D _ rest _ e (fun i hi => p2 i (by omega)) s3)
      (fun x hx => hrep x (List.mem_cons_of_mem _ hx)) (by simp at hfuel; omega)
    have hstep : tinit_step_status D { end_off := e, status := o, len := v.conf.path.length } =
        ((tinit_parse_status_data D (o + uround_upper (8 + v.conf.path.length + 1) 8) e).1,
          { end_off := e, status := o + uround_upper (8 + v.conf.path.length + 1) 8,
            len := w.conf.path.length }, 0) := by
      unfold tinit_step_status
      simp only
      rw [if_neg hnn, p1, Int.toNat_ofNat]
    unfold show_status_rows
    simp only [hstep, ne_eq, not_true_eq_false, if_false, hih, hrow, List.map_cons]

/-- C18: the status reply round-trips.  When the services that the pattern
matches are at least one and their records fit in 4096 bytes, the reply that
`tinit_srv_request_status` builds for them is accepted by
`tinit_parse_status_reply`, and reading the record under the iterator then
calling `tinit_step_status`, again and again, gives the records of the matching
services in the order of the repository, each with its admin state, its run
state and its file name, and with its pid when it is READY (0 otherwise); the
call of `tinit_step_status` after the last record returns -ENOENT. -/
theorem status_round_trip (fnmatch : List Nat → String → Int) (s : sys) (buff : unsk_dgram_buff)
    (pattern : List Nat) (seqno fuel : Nat)
    (hrep : ∀ v ∈ s.svcs, v.reportable)
    (hf : ∀ v ∈ s.svcs,
      fnmatch pattern v.conf.name = 0 ∨ fnmatch pattern v.conf.name = FNM_NOMATCH)
    (hne : status_matches fnmatch pattern s.svcs ≠ [])
    (hfit : status_reply_size 8 ((status_matches fnmatch pattern s.svcs).map
      (fun v => v.conf.path)) ≤ 4096)
    (hseq : load_u16 buff.data 0 = seqno)
    (htype : load_u16 buff.data 2 = TINIT_STATUS_MSG_TYPE)
    (hfuel : (status_matches fnmatch pattern s.svcs).length ≤ fuel) :
    ∃ iter,
      (tinit_parse_status_reply (tinit_srv_request_status fnmatch s buff pattern).data
        (tinit_srv_request_status fnmatch s buff pattern).bytes seqno).2 = (some iter, 0) ∧
      show_status_rows fuel
        (tinit_parse_status_reply (tinit_srv_request_status fnmatch s buff pattern).data
          (tinit_srv_request_status fnmatch s buff pattern).bytes seqno).1 iter =
        some ((status_matches fnmatch pattern s.svcs).map status_row_of, -ENOENT) := by
  obtain ⟨b1, b2, b3⟩ := loop_stored fnmatch pattern s.svcs hf (tinit_srv_setup_status_reply buff)
    0 hfit (Or.inr hne)
  have hr8 : stroll_round_upper (tinit_srv_setup_status_reply buff).bytes 8 = 8 := by
    show stroll_round_upper 8 8 = 8
    decide
  rw [hr8] at b2
  have hb8 : (tinit_srv_setup_status_reply buff).bytes = 8 := rfl
  rw [hb8] at b1 b3
  change (tinit_srv_request_status fnmatch s buff pattern).bytes = _ at b1
  change status_stored (tinit_srv_request_status fnmatch s buff pattern).data 8 _
    (tinit_srv_request_status fnmatch s buff pattern).bytes at b2
  change ∀ i, i < 8 → (tinit_srv_request_status fnmatch s buff pattern).data i = _ at b3
  generalize tinit_srv_request_status fnmatch s buff pattern = r at b1 b2 b3 ⊢
  have hD0 : load_u16 r.data 0 = seqno := by
    unfold load_u16 at hseq ⊢
    rw [b3 0 (by omega), b3 1 (by omega)]
    simp only [tinit_srv_setup_status_reply]
    rw [store_u16_frame _ _ _ _ (Or.inl (by omega)), store_u16_frame _ _ _ _ (Or.inl (by omega))]
    exact hseq
  have hD2 : load_u16 r.data 2 = TINIT_STATUS_MSG_TYPE := by
    unfold load_u16 at htype ⊢
    rw [b3 2 (by omega), b3 3 (by omega)]
    simp only [tinit_srv_setup_status_reply]
    rw [store_u16_frame _ _ _ _ (Or.inl (by omega)), store_u16_frame _ _ _ _ (Or.inl (by omega))]
    exact htype
  have hD4 : load_u16 r.data 4 = 0 := by
    have : load_u16 r.data 4 = load_u16 (tinit_srv_setup_status_reply buff).data 4 := by
      unfold load_u16
      rw [b3 4 (by omega), b3 5 (by omega)]
    rw [this]
    simp only [tinit_srv_setup_status_reply, load_store_u16]
  cases hm : status_matches fnmatch pattern s.svcs with
  | nil => exact absurd hm hne
  | cons v rest =>
    rw [hm] at b2 hfuel
    obtain ⟨s1, s2, s3⟩ := b2
    have hvr : v.reportable := hrep v (by
      have : v ∈ status_matches fnmatch pattern s.svcs := by rw [hm]; exact List.mem_cons_self _ _
      exact (List.mem_filter.mp this).1)
    have hrr : ∀ w ∈ rest, w.reportable := fun w hw => hrep w (by
      have : w ∈ status_matches fnmatch pattern s.svcs := by
        rw [hm]; exact List.mem_cons_of_mem _ hw
      exact (List.mem_filter.mp this).1)
    obtain ⟨p1, p2, p3⟩ := parse_held r.data 8 r.bytes v hvr s1 s2
    have hnn : ¬ (tinit_parse_status_data r.data 8 r.bytes).2 < 0 := by rw [p1]; omega
    have hsize : ¬ r.bytes < 8 := by omega
    have hhead : ¬ (r.bytes < 6 ∨ load_u16 r.data 0 ≠ seqno ∨
        load_u16 r.data 2 ≠ TINIT_STATUS_MSG_TYPE) := by
      rintro (h | h | h)
      · omega
      · exact h hD0
      · exact h hD2
    have hret : ¬ load_u16 r.data 4 ≠ 0 := fun h => h hD4
    have hparse : tinit_parse_status_reply r.data r.bytes seqno =
        ((tinit_parse_status_data r.data 8 r.bytes).1,
          some { end_off := r.bytes, status := 8, len := v.conf.path.length }, 0) := by
      unfold tinit_parse_status_reply
      rw [if_neg hhead, if_neg hret, if_neg hsize]
      simp only
      rw [if_neg hnn, p1, Int.toNat_ofNat]
    rw [hparse]
    refine ⟨_, rfl, ?_⟩
    have hge := uround_upper_ge (8 + v.conf.path.length + 1)
    exact show_status_rows_stored rest v _ 8 r.bytes fuel p3
      (status_stored_congr r.data _ rest _ r.bytes (fun i hi => p2 i (by omega)) s3) hrr
      (by simp at hfuel; omega)

set_option maxRecDepth 100000 in
/-- C18, witness: the reply to a STATUS request that matches the three services
of `demo_status_repo` decodes to their three records, the pid 100 of the READY
service kept and the pid 101 of the STARTING one read as 0, then -ENOENT. -/
theorem status_round_trip_witness :
    ∃ iter,
      (tinit_parse_status_reply
        (tinit_srv_request_status (fun _ _ => 0) demo_status_repo demo_status_request [42]).data
        (tinit_srv_request_status (fun _ _ => 0) demo_status_repo demo_status_request [42]).bytes
        7).2 = (some iter, 0) ∧
      show_status_rows 3
        (tinit_parse_status_reply
          (tinit_srv_request_status (fun _ _ => 0) demo_status_repo demo_status_request
            [42]).data
          (tinit_srv_request_status (fun _ _ => 0) demo_status_repo demo_status_request
            [42]).bytes 7).1 iter =
        some ([{ pid := 100, adm_state := true, run_state := 2,
                 conf_path := [97, 46, 99, 111, 110, 102] },
               { pid := 0, adm_state := false, run_state := 0,
                 conf_path := [98, 46, 99, 111, 110, 102] },
               { pid := 0, adm_state := true, run_state := 1,
                 conf_path := [99, 99, 46, 99, 111, 110, 102] }], -ENOENT) :=
  status_round_trip (fun _ _ => 0) demo_status_repo demo_status_request [42] 7 3
    (by
      intro v hv
      simp only [demo_status_repo, List.mem_cons, List.mem_singleton, List.not_mem_nil,
        or_false] at hv
      rcases hv with rfl | rfl | rfl <;>
        exact ⟨⟨by decide, by decide, by decide, by decide⟩, by decide, by decide, by decide,
          by decide, by decide⟩)
    (fun _ _ => Or.inl rfl) (by decide) (by decide) (by decide) (by decide) (by decide)

theorem frame_upd (s : sys) (i : Nat) (f : svc → svc) (hf : ∀ w, (f w).frame = w.frame) :
    (s.upd i f).svcs.map svc.frame = s.svcs.map svc.frame := by
  apply List.ext_getElem?
  intro j
  rw [List.getElem?_map, List.getElem?_map, get_upd]
  cases s.svcs[j]? with
  | none => rfl
  | some w =>
    simp only [Option.map_some']
    split
    · rw [hf]
    · rfl

theorem frame_upd_of (s : sys) (i : Nat) (v : svc) (f : svc → svc) (hv : s.svcs[i]? = some v)
    (hf : (f v).frame = v.frame) :
    (s.upd i f).svcs.map svc.frame = s.svcs.map svc.frame := by
  apply List.ext_getElem?
  intro j
  rw [List.getElem?_map, List.getElem?_map, get_upd]
  by_cases hij : i = j
  · subst hij
    rw [hv]
    simp [hf]
  · cases s.svcs[j]? with
    | none => rfl
    | some w => simp [hij]

theorem micro_frame {g : Bool} {s t : sys} (h : micro g s t) :
    t.svcs.map svc.frame = s.svcs.map svc.frame := by
  cases h with
  | count nfork nkill l => rfl
  | arm i v t hv hs => exact frame_upd _ _ _ (fun w => rfl)
  | child_start i v r hv hs hd => exact frame_upd _ _ _ (fun w => rfl)
  | ready i v hv hs hc hd =>
    exact frame_upd_of _ _ v _ hv (by simp [svc.frame, svc.active, hs])
  | stop_index i v hv hs => exact frame_upd _ _ _ (fun w => rfl)
  | stopped i v hv hs hg hd =>
    exact frame_upd_of _ _ v _ hv (by simp [svc.frame, svc.active, hs])
  | child_stop i v r hv hs hd => exact frame_upd _ _ _ (fun w => rfl)

theorem casc_frame {g : Bool} {s t : sys} (h : casc g s t) :
    t.svcs.map svc.frame = s.svcs.map svc.frame := by
  induction h with
  | refl => rfl
  | tail _ hstep ih => rw [micro_frame hstep, ih]

theorem search_byname_from_congr (name : String) :
    ∀ (l1 l2 : List svc) (n : Nat), l1.map svc.frame = l2.map svc.frame →
      tinit_repo_search_byname_from name l1 n = tinit_repo_search_byname_from name l2 n := by
  intro l1
  induction l1 with
  | nil =>
    intro l2 n h
    cases l2 with
    | nil => rfl
    | cons b l2 => simp at h
  | cons a l1 ih =>
    intro l2 n h
    cases l2 with
    | nil => simp at h
    | cons b l2 =>
      simp only [List.map_cons, List.cons.injEq] at h
      have hc : a.conf = b.conf := congrArg Prod.fst h.1
      unfold tinit_repo_search_byname_from
      rw [hc, ih l2 (n + 1) h.2]

theorem search_byname_congr {s t : sys} (name : String)
    (h : t.svcs.map svc.frame = s.svcs.map svc.frame) :
    tinit_repo_search_byname t name = tinit_repo_search_byname s name :=
  search_byname_from_congr name _ _ 0 h

theorem frame_get {s t : sys} (h : t.svcs.map svc.frame = s.svcs.map svc.frame) (j : Nat) :
    (t.svcs[j]?).map svc.frame = (s.svcs[j]?).map svc.frame := by
  rw [← List.getElem?_map, ← List.getElem?_map, h]

theorem active_of_frame {s t : sys} (h : t.svcs.map svc.frame = s.svcs.map svc.frame) (j : Nat) :
    (t.svcs[j]?).map svc.active = (s.svcs[j]?).map svc.active := by
  have := congrArg (Option.map (fun p => p.2.2.2.2.2.2.2)) (frame_get h j)
  simpa [Option.map_map, Function.comp_def, svc.frame] using this

theorem upd_none (s : sys) (i : Nat) (f : svc → svc) (h : s.svcs[i]? = none) :
    s.upd i f = s := by
  unfold sys.upd
  have : s.svcs.modify f i = s.svcs := by
    apply List.ext_getElem?
    intro j
    rw [List.getElem?_modify]
    by_cases hij : i = j
    · subst hij; simp [h]
    · simp [hij]
  rw [this]

/-- `svc_start` is its writes to the service, then elementary changes. -/
theorem svc_start_casc (g : Bool) (e : env) (fuel : Nat) (s : sys) (i : Nat) :
    casc g (s.upd i svc.turn_on) (svc_start (svc_handle_notif e fuel) e s i) := by
  show casc g _ (if svc_may_start (s.upd i svc.turn_on) i then
      svc_spawn_start_cmd (svc_handle_notif e fuel) e (s.upd i svc.turn_on) i
    else s.upd i svc.turn_on)
  split
  · cases hv : (s.upd i svc.turn_on).svcs[i]? with
    | none =>
      unfold svc_spawn_start_cmd
      rw [hv]
      exact casc_refl _ _
    | some v0 =>
      have hst : v0.state = .STARTING := by
        rw [get_upd_self] at hv
        cases hw : s.svcs[i]? with
        | none => rw [hw] at hv; cases hv
        | some w => rw [hw] at hv; cases hv; rfl
      exact svc_spawn_start_cmd_casc (svc_handle_notif_casc g e fuel) e _ i v0 hv hst
  · exact casc_refl _ _

/-- `svc_stop` is its writes to the service, then elementary changes. -/
theorem svc_stop_casc (e : env) (fuel : Nat) (s : sys) (i : Nat) :
    casc false (s.upd i svc.turn_off) (svc_stop (svc_handle_notif e fuel) e s i) := by
  unfold svc_stop
  cases hw : s.svcs[i]? with
  | none =>
    simp only
    rw [upd_none _ _ _ hw]
    exact casc_refl _ _
  | some w =>
    simp only
    have hv0 : (s.upd i svc.turn_off).svcs[i]? = some w.turn_off := by
      rw [get_upd_self, hw]; rfl
    show casc false _ (if (!svc_may_stop (s.upd i svc.turn_off) i) = true then
        s.upd i svc.turn_off
      else if (svc_kill e (s.upd i svc.turn_off) i w.conf.stop_sig).2 = 0 then
        (svc_kill e (s.upd i svc.turn_off) i w.conf.stop_sig).1.upd i
          (fun w => { w with timer := utimer_arm_sec w.timer 5 })
      else svc_spawn_stop_cmd (svc_handle_notif e fuel) e
        (svc_kill e (s.upd i svc.turn_off) i w.conf.stop_sig).1 i)
    have hk := svc_kill_svcs e (s.upd i svc.turn_off) i w.conf.stop_sig
    have hkc := svc_kill_casc false e (s.upd i svc.turn_off) i w.conf.stop_sig
    have hv1 : (svc_kill e (s.upd i svc.turn_off) i w.conf.stop_sig).1.svcs[i]? =
        some w.turn_off := by rw [hk]; exact hv0
    split
    · exact casc_refl _ _
    · split
      · exact casc_trans hkc (casc_one (micro.arm _ i _ 5 hv1 (Or.inr rfl)))
      · exact casc_trans hkc (svc_spawn_stop_cmd_casc (svc_handle_notif_casc false e fuel) e _ i
          _ hv1 rfl (fun h => by cases h))

/-- After `svc_start` the frame of every service is what the writes of
`svc_start` to the started service make it. -/
theorem svc_start_frame (e : env) (fuel : Nat) (s : sys) (i : Nat) :
    (svc_start (svc_handle_notif e fuel) e s i).svcs.map svc.frame =
      (s.upd i svc.turn_on).svcs.map svc.frame :=
  casc_frame (svc_start_casc false e fuel s i)

theorem svc_stop_frame (e : env) (fuel : Nat) (s : sys) (i : Nat) :
    (svc_stop (svc_handle_notif e fuel) e s i).svcs.map svc.frame =
      (s.upd i svc.turn_off).svcs.map svc.frame :=
  casc_frame (svc_stop_casc e fuel s i)

theorem search_byname_from_conf (name : String) :
    ∀ (l1 l2 : List svc) (n : Nat), l1.map svc.conf = l2.map svc.conf →
      tinit_repo_search_byname_from name l1 n = tinit_repo_search_byname_from name l2 n := by
  intro l1
  induction l1 with
  | nil =>
    intro l2 n h
    cases l2 with
    | nil => rfl
    | cons b l2 => simp at h
  | cons a l1 ih =>
    intro l2 n h
    cases l2 with
    | nil => simp at h
    | cons b l2 =>
      simp only [List.map_cons, List.cons.injEq] at h
      unfold tinit_repo_search_byname_from
      rw [h.1, ih l2 (n + 1) h.2]

theorem conf_of_frame {l1 l2 : List svc} (h : l1.map svc.frame = l2.map svc.frame) :
    l1.map svc.conf = l2.map svc.conf := by
  have := congrArg (List.map Prod.fst) h
  simpa [List.map_map, Function.comp_def, svc.frame] using this

theorem conf_upd (s : sys) (i : Nat) (f : svc → svc) (hf : ∀ w, (f w).conf = w.conf) :
    (s.upd i f).svcs.map svc.conf = s.svcs.map svc.conf := by
  apply List.ext_getElem?
  intro j
  rw [List.getElem?_map, List.getElem?_map, get_upd]
  cases s.svcs[j]? with
  | none => rfl
  | some w =>
    simp only [Option.map_some']
    split
    · rw [hf]
    · rfl

theorem search_byname_from_some (name : String) :
    ∀ (l : List svc) (n k : Nat), tinit_repo_search_byname_from name l n = some k →
      n ≤ k ∧ ∃ v, l[k - n]? = some v ∧
        strncmp v.conf.name.toList name.toList TINIT_SVC_NAME_MAX = 0 := by
  intro l
  induction l with
  | nil => intro n k h; cases h
  | cons a l ih =>
    intro n k h
    unfold tinit_repo_search_byname_from at h
    split at h
    · cases h
      exact ⟨Nat.le_refl _, a, by simp, by assumption⟩
    · obtain ⟨h1, v, h2, h3⟩ := ih (n + 1) k h
      refine ⟨by omega, v, ?_, h3⟩
      have : k - n = (k - (n + 1)) + 1 := by omega
      rw [this, List.getElem?_cons_succ]
      exact h2

theorem search_byname_some {s : sys} {name : String} {i : Nat}
    (h : tinit_repo_search_byname s name = some i) : ∃ v, s.svcs[i]? = some v := by
  obtain ⟨_, v, h2, _⟩ := search_byname_from_some name s.svcs 0 i h
  exact ⟨v, by simpa using h2⟩

theorem active_state {v : svc} (h : v.active = true) : v.state = .STARTING ∨ v.state = .READY := by
  simpa [svc.active] using h

theorem inactive_state {v : svc} (h : v.active = false) :
    v.state = .STOPPING ∨ v.state = .STOPPED := by
  cases hs : v.state <;> simp [svc.active, hs] at h ⊢

/-- After `svc_start` on an existing service the names are as before and the
service is STARTING or READY. -/
theorem svc_start_active (e : env) (fuel : Nat) (s : sys) (i : Nat) (v : svc)
    (hv : s.svcs[i]? = some v) :
    (svc_start (svc_handle_notif e fuel) e s i).svcs.map svc.conf = s.svcs.map svc.conf ∧
    ((svc_start (svc_handle_notif e fuel) e s i).state_of i = some .STARTING ∨
      (svc_start (svc_handle_notif e fuel) e s i).state_of i = some .READY) := by
  have hf := svc_start_frame e fuel s i
  refine ⟨(conf_of_frame hf).trans (conf_upd _ _ _ (fun w => rfl)), ?_⟩
  have ha := active_of_frame hf i
  rw [get_upd_self, hv] at ha
  cases hw : (svc_start (svc_handle_notif e fuel) e s i).svcs[i]? with
  | none => rw [hw] at ha; cases ha
  | some w =>
    rw [hw] at ha
    have hact : w.active = true := by
      have := Option.some.inj ha
      rw [this]; rfl
    unfold sys.state_of
    rw [hw]
    rcases active_state hact with h | h
    · left; simp [h]
    · right; simp [h]

theorem svc_stop_inactive (e : env) (fuel : Nat) (s : sys) (i : Nat) (v : svc)
    (hv : s.svcs[i]? = some v) :
    (svc_stop (svc_handle_notif e fuel) e s i).svcs.map svc.conf = s.svcs.map svc.conf ∧
    ((svc_stop (svc_handle_notif e fuel) e s i).state_of i = some .STOPPING ∨
      (svc_stop (svc_handle_notif e fuel) e s i).state_of i = some .STOPPED) := by
  have hf := svc_stop_frame e fuel s i
  refine ⟨(conf_of_frame hf).trans (conf_upd _ _ _ (fun w => rfl)), ?_⟩
  have ha := active_of_frame hf i
  rw [get_upd_self, hv] at ha
  cases hw : (svc_stop (svc_handle_notif e fuel) e s i).svcs[i]? with
  | none => rw [hw] at ha; cases ha
  | some w =>
    rw [hw] at ha
    have hact : w.active = false := by
      have := Option.some.inj ha
      rw [this]; rfl
    unfold sys.state_of
    rw [hw]
    rcases inactive_state hact with h | h
    · left; simp [h]
    · right; simp [h]

theorem request_start_on (e : env) (fuel : Nat) (s : sys) (buff : unsk_dgram_buff)
    (name : String) (len i : Nat) (hname : tinit_check_svc_name name.toList len = 0)
    (hfind : tinit_repo_search_byname s name = some i)
    (hst : s.state_of i = some .STARTING ∨ s.state_of i = some .READY) :
    tinit_srv_request_start (svc_handle_notif e fuel) e s buff name len =
      (s, tinit_srv_build_reply buff 0) := by
  unfold tinit_srv_request_start
  have h0 : ¬ tinit_check_svc_name name.toList len ≠ 0 := fun h => h hname
  rw [if_neg h0, hfind]
  rcases hst with h | h <;> simp only [h]

theorem request_stop_off (e : env) (fuel : Nat) (s : sys) (buff : unsk_dgram_buff)
    (name : String) (len i : Nat) (hname : tinit_check_svc_name name.toList len = 0)
    (hfind : tinit_repo_search_byname s name = some i)
    (hst : s.state_of i = some .STOPPING ∨ s.state_of i = some .STOPPED) :
    tinit_srv_request_stop (svc_handle_notif e fuel) e s buff name len =
      (s, tinit_srv_build_reply buff 0) := by
  unfold tinit_srv_request_stop
  have h0 : ¬ tinit_check_svc_name name.toList len ≠ 0 := fun h => h hname
  rw [if_neg h0, hfind]
  rcases hst with h | h <;> simp only [h]

/-- C12: a START request for a service that is STARTING or READY, and a STOP
request for a service that is STOPPING or STOPPED, change nothing in the
supervisor (no field of any service, no call made) and reply `ret = 0` in a
6-byte reply.  So a second START after a START, and a second STOP after a
STOP, leave the state that the first one left, and reply `ret = 0`. -/
theorem start_stop_idempotent (e : env) (fuel : Nat) (s : sys) (buff : unsk_dgram_buff)
    (name : String) (len i : Nat) (hname : tinit_check_svc_name name.toList len = 0)
    (hfind : tinit_repo_search_byname s name = some i) :
    ((s.state_of i = some .STARTING ∨ s.state_of i = some .READY) →
      tinit_srv_request_start (svc_handle_notif e fuel) e s buff name len =
        (s, tinit_srv_build_reply buff 0)) ∧
    ((s.state_of i = some .STOPPING ∨ s.state_of i = some .STOPPED) →
      tinit_srv_request_stop (svc_handle_notif e fuel) e s buff name len =
        (s, tinit_srv_build_reply buff 0)) ∧
    (∀ buff2 : unsk_dgram_buff,
      tinit_srv_request_start (svc_handle_notif e fuel) e
          (tinit_srv_request_start (svc_handle_notif e fuel) e s buff name len).1 buff2 name len =
        ((tinit_srv_request_start (svc_handle_notif e fuel) e s buff name len).1,
          tinit_srv_build_reply buff2 0)) ∧
    (∀ buff2 : unsk_dgram_buff,
      tinit_srv_request_stop (svc_handle_notif e fuel) e
          (tinit_srv_request_stop (svc_handle_notif e fuel) e s buff name len).1 buff2 name len =
        ((tinit_srv_request_stop (svc_handle_notif e fuel) e s buff name len).1,
          tinit_srv_build_reply buff2 0)) ∧
    (tinit_srv_build_reply buff 0).bytes = 6 ∧
    load_u16 (tinit_srv_build_reply buff 0).data 4 = 0 := by
  obtain ⟨v, hv⟩ := search_byname_some hfind
  have h0 : ¬ tinit_check_svc_name name.toList len ≠ 0 := fun h => h hname
  refine ⟨request_start_on e fuel s buff name len i hname hfind,
    request_stop_off e fuel s buff name len i hname hfind, ?_, ?_, rfl, ?_⟩
  · intro buff2
    by_cases hst : s.state_of i = some .STARTING ∨ s.state_of i = some .READY
    · rw [request_start_on e fuel s buff name len i hname hfind hst]
      exact request_start_on e fuel s buff2 name len i hname hfind hst
    · have h1 : tinit_srv_request_start (svc_handle_notif e fuel) e s buff name len =
          (svc_start (svc_handle_notif e fuel) e s i, tinit_srv_build_reply buff 0) := by
        unfold tinit_srv_request_start
        rw [if_neg h0, hfind]
        simp only
        split
        · rename_i h; exact absurd (Or.inl h) hst
        · rename_i h; exact absurd (Or.inr h) hst
        · rfl
      rw [h1]
      obtain ⟨hc, ha⟩ := svc_start_active e fuel s i v hv
      exact request_start_on e fuel _ buff2 name len i hname
        ((search_byname_from_conf name _ _ 0 hc).trans hfind) ha
  · intro buff2
    by_cases hst : s.state_of i = some .STOPPING ∨ s.state_of i = some .STOPPED
    · rw [request_stop_off e fuel s buff name len i hname hfind hst]
      exact request_stop_off e fuel s buff2 name len i hname hfind hst
    · have h1 : tinit_srv_request_stop (svc_handle_notif e fuel) e s buff name len =
          (svc_stop (svc_handle_notif e fuel) e s i, tinit_srv_build_reply buff 0) := by
        unfold tinit_srv_request_stop
        rw [if_neg h0, hfind]
        simp only
        split
        · rename_i h; exact absurd (Or.inr h) hst
        · rename_i h; exact absurd (Or.inl h) hst
        · rfl
      rw [h1]
      obtain ⟨hc, ha⟩ := svc_stop_inactive e fuel s i v hv
      exact request_stop_off e fuel _ buff2 name len i hname
        ((search_byname_from_conf name _ _ 0 hc).trans hfind) ha
  · simp only [tinit_srv_build_reply, load_store_u16]
    rfl

/-- C12, witness: on the repository of the service "echo", a START request
starts the daemon (READY, pid 100), and a second START request leaves that
state as it is and replies 0. -/
theorem start_stop_idempotent_witness :
    tinit_check_svc_name "echo".toList 4 = 0 ∧
      tinit_repo_search_byname demo_daemon "echo" = some 0 ∧
      (tinit_srv_request_start (svc_handle_notif demo_env 2) demo_env demo_daemon
        demo_request "echo" 4).1.state_of 0 = some .READY ∧
      (tinit_srv_request_start (svc_handle_notif demo_env 2) demo_env
        (tinit_srv_request_start (svc_handle_notif demo_env 2) demo_env demo_daemon
          demo_request "echo" 4).1 demo_request "echo" 4).1 =
        (tinit_srv_request_start (svc_handle_notif demo_env 2) demo_env demo_daemon
          demo_request "echo" 4).1 :=
  ⟨by decide, by decide, by decide,
   congrArg Prod.fst ((start_stop_idempotent demo_env 2 demo_daemon demo_request "echo" 4 0
     (by decide) (by decide)).2.2.1 demo_request)⟩

/-- C14, counterexample: the service "echo" is STOPPED with no child; a RELOAD
request for it starts it: the service is READY with the daemon 100 in its child
slot afterwards. -/
theorem reload_starts_stopped_counterexample :
    demo_daemon.state_of 0 = some .STOPPED ∧
      (tinit_srv_request_reload (svc_handle_notif demo_env 2) demo_env demo_daemon demo_request
        "echo" 4).1.svcs[0]? = some demo_daemon_ready := by
  decide

/-- C14, amended: a RELOAD request for an existing service replies `ret = 0`.
For a STARTING service it changes nothing.  For a READY service it leaves
every service as it is, and sends the reload signal of the descriptor to the
child when the child slot holds a pid (nothing is sent otherwise).  For a
STOPPED or STOPPING service it calls `svc_start`, after which the service is
STARTING or READY. -/
theorem reload_effect (e : env) (fuel : Nat) (s : sys) (buff : unsk_dgram_buff)
    (name : String) (len i : Nat) (v : svc)
    (hname : tinit_check_svc_name name.toList len = 0)
    (hfind : tinit_repo_search_byname s name = some i) (hv : s.svcs[i]? = some v) :
    (tinit_srv_request_reload (svc_handle_notif e fuel) e s buff name len).2 =
      tinit_srv_build_reply buff 0 ∧
    (v.state = .STARTING →
      (tinit_srv_request_reload (svc_handle_notif e fuel) e s buff name len).1 = s) ∧
    (v.state = .READY →
      (tinit_srv_request_reload (svc_handle_notif e fuel) e s buff name len).1.svcs = s.svcs ∧
      (0 < v.child →
        (tinit_srv_request_reload (svc_handle_notif e fuel) e s buff name len).1 =
          { s with nkill := s.nkill + 1,
                   log := .kill i v.child v.conf.reload_sig (e.kill s.nkill) :: s.log }) ∧
      (v.child ≤ 0 →
        (tinit_srv_request_reload (svc_handle_notif e fuel) e s buff name len).1 = s)) ∧
    ((v.state = .STOPPED ∨ v.state = .STOPPING) →
      (tinit_srv_request_reload (svc_handle_notif e fuel) e s buff name len).1 =
        svc_start (svc_handle_notif e fuel) e s i ∧
      ((svc_start (svc_handle_notif e fuel) e s i).state_of i = some .STARTING ∨
        (svc_start (svc_handle_notif e fuel) e s i).state_of i = some .READY)) := by
  have h0 : ¬ tinit_check_svc_name name.toList len ≠ 0 := fun h => h hname
  have hso : s.state_of i = some v.state := by unfold sys.state_of; rw [hv]; rfl
  unfold tinit_srv_request_reload
  rw [if_neg h0, hfind]
  simp only [hso]
  cases hs : v.state
  · -- STOPPED
    simp only [false_implies, true_implies, reduceCtorEq, true_or, true_and, and_true]
    exact (svc_start_active e fuel s i v hv).2
  · -- STARTING
    simp only [false_implies, true_implies, reduceCtorEq, or_self, true_and, and_true]
  · -- READY
    simp only [false_implies, true_implies, reduceCtorEq, or_self, true_and, and_true]
    unfold svc_reload
    rw [hv]
    simp only
    refine ⟨svc_kill_svcs e s i _, ?_, ?_⟩
    · intro hc
      unfold svc_kill
      rw [hv]
      have : ¬ v.child ≤ 0 := by omega
      simp only [this, if_false]
      split <;> rfl
    · intro hc
      unfold svc_kill
      rw [hv]
      simp only [hc, if_true]
  · -- STOPPING
    simp only [false_implies, true_implies, reduceCtorEq, or_true, true_and, and_true]
    exact (svc_start_active e fuel s i v hv).2

/-- C14, witness: a RELOAD request for the READY service "echo" with its daemon
100 leaves the service as it is and sends it SIGTERM, the reload signal of its
descriptor. -/
theorem reload_effect_witness :
    tinit_check_svc_name "echo".toList 4 = 0 ∧
      (tinit_srv_request_reload (svc_handle_notif demo_env 2) demo_env
        { demo_daemon with svcs := [demo_daemon_ready] } demo_request "echo" 4).1 =
        { svcs := [demo_daemon_ready], nfork := 0, nkill := 1,
          log := [.kill 0 100 SIGTERM true] } :=
  ⟨by decide,
   ((reload_effect demo_env 2 { demo_daemon with svcs := [demo_daemon_ready] } demo_request
      "echo" 4 0 demo_daemon_ready (by decide) (by decide) (by decide)).2.2.1 (by decide)).2.1
      (by decide)⟩

theorem found_congr {s t : sys} (iter : List Nat) (name : String)
    (h : t.svcs.map svc.conf = s.svcs.map svc.conf) :
    tinit_target_switch_found t iter name = tinit_target_switch_found s iter name := by
  unfold tinit_target_switch_found
  congr 1
  funext c
  have hc : (t.svcs[c]?).map svc.conf = (s.svcs[c]?).map svc.conf := by
    rw [← List.getElem?_map, ← List.getElem?_map, h]
  cases ht : t.svcs[c]? with
  | none =>
    rw [ht] at hc
    cases hs : s.svcs[c]? with
    | none => rfl
    | some b => rw [hs] at hc; cases hc
  | some a =>
    rw [ht] at hc
    cases hs : s.svcs[c]? with
    | none => rw [hs] at hc; cases hc
    | some b =>
      rw [hs] at hc
      have : a.conf = b.conf := Option.some.inj hc
      simp only [this]

theorem active_upd_ne (s : sys) (i j : Nat) (f : svc → svc) (h : i ≠ j) :
    ((s.upd i f).svcs[j]?).map svc.active = (s.svcs[j]?).map svc.active := by
  rw [get_upd_ne _ _ _ _ h]

/-- One turn of the loop: the descriptors stay, the activity of the other
services stays, and the service of the turn is active exactly when its name is
in the new target. -/
theorem switch_svc_step (e : env) (fuel : Nat) (iter : List Nat) (u : sys) (k : Nat) :
    (tinit_target_switch_svc (svc_handle_notif e fuel) e iter u k).svcs.map svc.conf =
      u.svcs.map svc.conf ∧
    (∀ j, j ≠ k →
      ((tinit_target_switch_svc (svc_handle_notif e fuel) e iter u k).svcs[j]?).map svc.active =
        (u.svcs[j]?).map svc.active) ∧
    ((tinit_target_switch_svc (svc_handle_notif e fuel) e iter u k).svcs[k]?).map svc.active =
      (u.svcs[k]?).map (fun w => tinit_target_switch_found u iter w.conf.name) := by
  unfold tinit_target_switch_svc
  cases hv : u.svcs[k]? with
  | none => exact ⟨rfl, fun _ _ => rfl, by rw [hv]; rfl⟩
  | some v =>
    simp only [Option.map_some']
    by_cases hf : tinit_target_switch_found u iter v.conf.name = true
    · simp only [hf, Bool.not_true, Bool.false_eq_true, if_false]
      by_cases hs : v.state = .STOPPED ∨ v.state = .STOPPING
      · simp only [hs, if_true]
        have hfr := svc_start_frame e fuel u k
        refine ⟨(conf_of_frame hfr).trans (conf_upd _ _ _ (fun w => rfl)), fun j hj => ?_, ?_⟩
        · rw [active_of_frame hfr j, active_upd_ne _ _ _ _ (Ne.symm hj)]
        · rw [active_of_frame hfr k, get_upd_self, hv]; rfl
      · simp only [hs, if_false, hv, Option.map_some', true_and, implies_true, Option.some.injEq]
        cases hst : v.state <;> simp [svc.active, hst] at hs ⊢
    · have hf2 : tinit_target_switch_found u iter v.conf.name = false := by simpa using hf
      simp only [hf2, Bool.not_false, if_true]
      by_cases hs : v.state = .STARTING ∨ v.state = .READY
      · simp only [hs, if_true]
        have hfr := svc_stop_frame e fuel u k
        refine ⟨(conf_of_frame hfr).trans (conf_upd _ _ _ (fun w => rfl)), fun j hj => ?_, ?_⟩
        · rw [active_of_frame hfr j, active_upd_ne _ _ _ _ (Ne.symm hj)]
        · rw [active_of_frame hfr k, get_upd_self, hv]; rfl
      · simp only [hs, if_false, hv, Option.map_some', true_and, implies_true, Option.some.injEq]
        simpa [svc.active] using hs

theorem switch_fold (e : env) (fuel : Nat) (iter : List Nat) (s : sys) (l : List Nat) :
    ∀ u : sys, u.svcs.map svc.conf = s.svcs.map svc.conf →
      (l.foldl (tinit_target_switch_svc (svc_handle_notif e fuel) e iter) u).svcs.map svc.conf =
        s.svcs.map svc.conf ∧
      (∀ j, j ∉ l →
        ((l.foldl (tinit_target_switch_svc (svc_handle_notif e fuel) e iter) u).svcs[j]?).map
          svc.active = (u.svcs[j]?).map svc.active) ∧
      (∀ j, j ∈ l →
        ((l.foldl (tinit_target_switch_svc (svc_handle_notif e fuel) e iter) u).svcs[j]?).map
          svc.active = (s.svcs[j]?).map (fun w => tinit_target_switch_found s iter w.conf.name))
    := by
  induction l with
  | nil => intro u hu; exact ⟨hu, fun _ _ => rfl, fun j hj => by cases hj⟩
  | cons a l ih =>
    intro u hu
    obtain ⟨c1, c2, c3⟩ := switch_svc_step e fuel iter u a
    obtain ⟨d1, d2, d3⟩ := ih _ (c1.trans hu)
    rw [List.foldl_cons]
    refine ⟨d1, fun j hj => ?_, fun j hj => ?_⟩
    · rw [d2 j (fun h => hj (List.mem_cons_of_mem _ h))]
      exact c2 j (fun h => hj (h ▸ List.mem_cons_self _ _))
    · by_cases hjl : j ∈ l
      · exact d3 j hjl
      · have hja : j = a := by
          rcases List.mem_cons.mp hj with h | h
          · exact h
          · exact absurd h hjl
        subst hja
        rw [d2 j hjl, c3]
        have hc : (u.svcs[j]?).map svc.conf = (s.svcs[j]?).map svc.conf := by
          rw [← List.getElem?_map, ← List.getElem?_map, hu]
        cases hu1 : u.svcs[j]? with
        | none =>
          rw [hu1] at hc
          cases hs1 : s.svcs[j]? with
          | none => rfl
          | some b => rw [hs1] at hc; cases hc
        | some a1 =>
          rw [hu1] at hc
          cases hs1 : s.svcs[j]? with
          | none => rw [hs1] at hc; cases hc
          | some b =>
            rw [hs1] at hc
            have : a1.conf = b.conf := Option.some.inj hc
            simp only [Option.map_some', this, found_congr iter _ hu]

/-- A turn of the loop leaves a service that is READY and named in the new
target, or STOPPED and not named in it, as it is. -/
theorem switch_svc_keeps (e : env) (fuel : Nat) (iter : List Nat) (u : sys) (k j : Nat)
    (w : svc) (hw : u.svcs[j]? = some w)
    (hk : (w.state = .READY ∧ tinit_target_switch_found u iter w.conf.name = true) ∨
      (w.state = .STOPPED ∧ tinit_target_switch_found u iter w.conf.name = false)) :
    (tinit_target_switch_svc (svc_handle_notif e fuel) e iter u k).svcs[j]? = some w := by
  have hst : w.state = .STOPPED ∨ w.state = .READY := by
    rcases hk with h | h
    · exact Or.inr h.1
    · exact Or.inl h.1
  unfold tinit_target_switch_svc
  by_cases hjk : k = j
  · subst hjk
    rw [hw]
    simp only
    rcases hk with ⟨h1, h2⟩ | ⟨h1, h2⟩
    · simp [h1, h2, hw]
    · simp [h1, h2, hw]
  · cases hv : u.svcs[k]? with
    | none => exact hw
    | some v =>
      simp only
      split
      · split
        · exact casc_keeps (svc_stop_casc e fuel u k) j w
            (by rw [get_upd_ne _ _ _ _ hjk]; exact hw) hst
        · exact hw
      · split
        · exact casc_keeps (svc_start_casc false e fuel u k) j w
            (by rw [get_upd_ne _ _ _ _ hjk]; exact hw) hst
        · exact hw

theorem switch_fold_keeps (e : env) (fuel : Nat) (iter : List Nat) (s : sys) (l : List Nat)
    (j : Nat) (w : svc)
    (hk : (w.state = .READY ∧ tinit_target_switch_found s iter w.conf.name = true) ∨
      (w.state = .STOPPED ∧ tinit_target_switch_found s iter w.conf.name = false)) :
    ∀ u : sys, u.svcs.map svc.conf = s.svcs.map svc.conf → u.svcs[j]? = some w →
      (l.foldl (tinit_target_switch_svc (svc_handle_notif e fuel) e iter) u).svcs[j]? = some w
    := by
  induction l with
  | nil => intro u _ hw; exact hw
  | cons a l ih =>
    intro u hu hw
    rw [List.foldl_cons]
    refine ih _ ((switch_svc_step e fuel iter u a).1.trans hu) ?_
    exact switch_svc_keeps e fuel iter u a j w hw (by rw [found_congr iter _ hu]; exact hk)

/-- A turn of the loop does nothing when the service of the turn is already on
the side of the new target. -/
theorem switch_svc_noop (notify : sys → Nat → Nat → sys) (e : env) (iter : List Nat) (s : sys)
    (k : Nat)
    (h : ∀ w, s.svcs[k]? = some w → w.active = tinit_target_switch_found s iter w.conf.name) :
    tinit_target_switch_svc notify e iter s k = s := by
  unfold tinit_target_switch_svc
  cases hv : s.svcs[k]? with
  | none => rfl
  | some v =>
    have ha := h v hv
    simp only
    by_cases hf : tinit_target_switch_found s iter v.conf.name = true
    · rw [hf] at ha
      have hs : ¬ (v.state = .STOPPED ∨ v.state = .STOPPING) := by
        rcases active_state ha with h1 | h1 <;> simp [h1]
      simp only [hf, Bool.not_true, Bool.false_eq_true, if_false, hs]
    · have hf2 : tinit_target_switch_found s iter v.conf.name = false := by simpa using hf
      rw [hf2] at ha
      have hs : ¬ (v.state = .STARTING ∨ v.state = .READY) := by
        rcases inactive_state ha with h1 | h1 <;> simp [h1]
      simp only [hf2, Bool.not_false, if_true, hs, if_false]

theorem switch_fold_noop (notify : sys → Nat → Nat → sys) (e : env) (iter : List Nat) (s : sys)
    (h : ∀ (k : Nat) (w : svc), s.svcs[k]? = some w →
      w.active = tinit_target_switch_found s iter w.conf.name)
    (l : List Nat) : l.foldl (tinit_target_switch_svc notify e iter) s = s := by
  induction l with
  | nil => rfl
  | cons a l ih => rw [List.foldl_cons, switch_svc_noop notify e iter s a (h a), ih]

/-- C13, counterexample: "a" waits for "b" in STARTING (the state that
`svc_start` on "a" leaves while "b" is STOPPED), and both names are in the new
target.  The switch starts "b", which becomes READY and notifies "a": the
service "a", present in the running set and in the new set, goes from STARTING
with no child to READY with the child 101. -/
theorem switch_cascade_counterexample :
    svc_start (svc_handle_notif demo_env 2) demo_env demo_wait 0 = demo_waiting ∧
      demo_waiting.svcs[0]? = some demo_wait_a_waiting ∧
      demo_waiting.state_of 1 = some .STOPPED ∧
      tinit_target_switch_found demo_waiting [0, 1] "a" = true ∧
      (tinit_target_switch (svc_handle_notif demo_env 2) demo_env demo_waiting
        [0, 1]).1.svcs[0]? =
        some { demo_wait_a_waiting with
               state := .READY, child := 101, timer := { armed := some 1, expire := some .on } }
    := by
  decide

/-- C13, amended: `tinit_target_switch` to a new set that is not empty returns
0 and keeps the services of the repository; afterwards a service is STARTING or
READY exactly when its name is in the new set.  A service that was READY and
named in the new set, or STOPPED and not named in it, is left exactly as it
was (a STARTING service named in the new set is not started again, but a
service that the switch starts may notify it).  When every service is
already on the side of the new set, the switch changes nothing. -/
theorem target_switch_sides (e : env) (fuel : Nat) (s : sys) (iter : List Nat)
    (hne : iter ≠ []) :
    (tinit_target_switch (svc_handle_notif e fuel) e s iter).2 = 0 ∧
    (tinit_target_switch (svc_handle_notif e fuel) e s iter).1.svcs.map svc.conf =
      s.svcs.map svc.conf ∧
    (∀ (j : Nat) (w : svc),
      (tinit_target_switch (svc_handle_notif e fuel) e s iter).1.svcs[j]? = some w →
      ((w.state = .STARTING ∨ w.state = .READY) ↔
        tinit_target_switch_found s iter w.conf.name = true)) ∧
    (∀ (j : Nat) (w : svc), s.svcs[j]? = some w →
      ((w.state = .READY ∧ tinit_target_switch_found s iter w.conf.name = true) ∨
        (w.state = .STOPPED ∧ tinit_target_switch_found s iter w.conf.name = false)) →
      (tinit_target_switch (svc_handle_notif e fuel) e s iter).1.svcs[j]? = some w) ∧
    ((∀ (k : Nat) (w : svc), s.svcs[k]? = some w →
        ((w.state = .STARTING ∨ w.state = .READY) ↔
          tinit_target_switch_found s iter w.conf.name = true)) →
      (tinit_target_switch (svc_handle_notif e fuel) e s iter).1 = s) := by
  have hlen : ¬ iter.length = 0 := fun h => hne (List.length_eq_zero.mp h)
  unfold tinit_target_switch
  rw [if_neg hlen]
  simp only
  obtain ⟨f1, _, f3⟩ := switch_fold e fuel iter s (List.range s.svcs.length) s rfl
  refine ⟨trivial, f1, ?_, ?_, ?_⟩
  · intro j w hw
    have hj : j < s.svcs.length := by
      have h1 : j < ((List.range s.svcs.length).foldl
          (tinit_target_switch_svc (svc_handle_notif e fuel) e iter) s).svcs.length := by
        by_contra hc
        rw [List.getElem?_eq_none (by omega)] at hw
        cases hw
      have h2 := congrArg List.length f1
      simp only [List.length_map] at h2
      omega
    have h3 := f3 j (List.mem_range.mpr hj)
    rw [hw] at h3
    have hc : (((List.range s.svcs.length).foldl
        (tinit_target_switch_svc (svc_handle_notif e fuel) e iter) s).svcs[j]?).map svc.conf =
        (s.svcs[j]?).map svc.conf := by
      rw [← List.getElem?_map, ← List.getElem?_map, f1]
    rw [hw] at hc
    cases hs : s.svcs[j]? with
    | none => rw [hs] at hc; cases hc
    | some b =>
      rw [hs] at hc h3
      have hcb : w.conf = b.conf := Option.some.inj hc
      have ha : w.active = tinit_target_switch_found s iter b.conf.name := Option.some.inj h3
      rw [hcb, ← ha]
      simp [svc.active]
  · intro j w hw hk
    exact switch_fold_keeps e fuel iter s _ j w hk s rfl hw
  · intro h
    apply switch_fold_noop
    intro k w hw
    have := h k w hw
    cases hf : tinit_target_switch_found s iter w.conf.name
    · rw [hf] at this
      simp only [svc.active, decide_eq_false_iff_not]
      intro hc
      exact absurd (this.mp hc) (by simp)
    · rw [hf] at this
      simp only [svc.active, decide_eq_true_eq]
      exact this.mpr rfl

/-- C13, witness: "echo" is READY with its daemon 100 and "b" is STOPPED; the
switch to the set of "b" alone returns 0, stops "echo" (signalled, STOPPING)
and starts "b" (READY). -/
theorem target_switch_sides_witness :
    ([1] : List Nat) ≠ [] ∧
      (tinit_target_switch (svc_handle_notif demo_env 2) demo_env demo_switch_from [1]).2 = 0 ∧
      (tinit_target_switch (svc_handle_notif demo_env 2) demo_env demo_switch_from
        [1]).1.state_of 0 = some .STOPPING ∧
      (tinit_target_switch (svc_handle_notif demo_env 2) demo_env demo_switch_from
        [1]).1.state_of 1 = some .READY :=
  ⟨by decide, (target_switch_sides demo_env 2 demo_switch_from [1] (by decide)).1, by decide,
   by decide⟩

theorem demo_mutual_load :
    tinit_repo_load demo_mutual (fun _ => (0, 0)) 2 demo_dir = some demo_loop := by
  decide

theorem strncmp_self (a : List Char) (n : Nat) : strncmp a a n = 0 := by
  simp [strncmp]

/-- C11, counterexample: the repository loads "a" (`starton = ["b"]`) then "b"
(`starton = ["a"]`); the wiring pass registers "b" as notifier of "a" and
rejects the second registration.  Afterwards `svc_start` on "a" while "b" is
STOPPED leaves "a" STARTING with no child and runs no dispatcher: the log is
empty. -/
theorem cyclic_starton_counterexample :
    tinit_repo_load demo_mutual (fun _ => (0, 0)) 2 demo_dir = some demo_loop ∧
      svc_register_starton_obsrv 2 demo_loop 0 1 = some demo_loop ∧
      demo_loop.state_of 1 = some .STOPPED ∧
      svc_start (svc_handle_notif demo_env 2) demo_env demo_loop 0 = demo_loop_waiting ∧
      demo_loop_waiting.state_of 0 = some .STARTING ∧
      demo_loop_waiting.log = [] := by
  decide

/-- C11, amended: for two descriptors that name each other in their starton
lists, the wiring pass registers the second service as notifier of the first
and rejects the registration of the first as notifier of the second, which
would close a cycle.  From then on, whatever the states: `svc_start` on the
second service runs its start dispatcher at once; `svc_start` on the first
service runs its start dispatcher at once when the second is READY, and
otherwise leaves the first service STARTING, waiting for the second. -/
theorem cyclic_starton_keeps_first_edge (e : env) (fuel wfuel : Nat) (ca cb : conf_svc)
    (ja jb : Nat × Int)
    (ha : ca.starton = some [cb.name]) (hb : cb.starton = some [ca.name])
    (hsa : ca.stopon = none) (hsb : cb.stopon = none)
    (hne : strncmp ca.name.toList cb.name.toList TINIT_SVC_NAME_MAX ≠ 0) (hf : 2 ≤ wfuel) :
    tinit_repo_load_wire wfuel [0, 1]
        { svcs := [svc_create ca ja, svc_create cb jb], nfork := 0, nkill := 0, log := [] } =
      some { svcs := [{ svc_create ca ja with starton_notif := some { nr := 1, srcs := [1] } },
                      { svc_create cb jb with starton_obsrv := [0] }],
             nfork := 0, nkill := 0, log := [] } ∧
    ∀ u : sys, (u.svcs[0]?).map svc.starton_notif = some (some { nr := 1, srcs := [1] }) →
      (u.svcs[1]?).map svc.starton_notif = some (some { nr := 1, srcs := [] }) →
      (svc_start (svc_handle_notif e fuel) e u 1).ran u.log 1 ∧
      (u.state_of 1 ≠ some .READY →
        svc_start (svc_handle_notif e fuel) e u 0 = u.upd 0 svc.turn_on) ∧
      (u.state_of 1 = some .READY → (svc_start (svc_handle_notif e fuel) e u 0).ran u.log 0) := by
  constructor
  · obtain ⟨f, rfl⟩ : ∃ f, wfuel = f + 2 := ⟨wfuel - 2, by omega⟩
    have hne2 : ¬ strncmp ca.name.data cb.name.data TINIT_SVC_NAME_MAX = 0 := hne
    simp [tinit_repo_load_wire, tinit_repo_setup_svc_starton, tinit_repo_setup_svc_stopon,
      tinit_repo_setup_svc_names, tinit_repo_search_byname, tinit_repo_search_byname_from,
      svc_create, svc_init, ha, hb, hsa, hsb, hne2, strncmp_self, svc_register_obsrv,
      svc_has_notifier, svc.notif, notif_any, notif_get_poll_cnt, notif_register_poll_sink,
      sys.upd, svc.set_notif, svc.push_obsrv, notif_poll.push]
  · intro u h0 h1
    cases hw0 : u.svcs[0]? with
    | none => rw [hw0] at h0; cases h0
    | some w0 =>
      cases hw1 : u.svcs[1]? with
      | none => rw [hw1] at h1; cases h1
      | some w1 =>
        rw [hw0] at h0
        rw [hw1] at h1
        have hn0 : w0.starton_notif = some { nr := 1, srcs := [1] } := Option.some.inj h0
        have hn1 : w1.starton_notif = some { nr := 1, srcs := [] } := Option.some.inj h1
        have hv1 : (u.upd 1 svc.turn_on).svcs[1]? = some w1.turn_on := by
          rw [get_upd_self, hw1]; rfl
        have hv0 : (u.upd 0 svc.turn_on).svcs[0]? = some w0.turn_on := by
          rw [get_upd_self, hw0]; rfl
        have hm1 : svc_may_start (u.upd 1 svc.turn_on) 1 = true := by
          rw [svc_may_start_iff _ _ _ hv1]
          intro src hsrc
          have : w1.turn_on.srcs .starton = [] := by
            simp [svc.srcs, svc.notif, svc.turn_on, hn1]
          rw [this] at hsrc
          cases hsrc
        have hs0 : w0.turn_on.srcs .starton = [1] := by
          simp [svc.srcs, svc.notif, svc.turn_on, hn0]
        have hst1 : (u.upd 0 svc.turn_on).state_of 1 = u.state_of 1 :=
          state_of_upd_other _ _ _ _ (by decide)
        refine ⟨?_, ?_, ?_⟩
        · show (if svc_may_start (u.upd 1 svc.turn_on) 1 then
              svc_spawn_start_cmd (svc_handle_notif e fuel) e (u.upd 1 svc.turn_on) 1
            else u.upd 1 svc.turn_on).ran u.log 1
          rw [if_pos hm1]
          exact svc_spawn_start_cmd_ran (svc_handle_notif_casc false e fuel) e _ 1 _ hv1 rfl
            u.log ⟨[], rfl⟩
        · intro hnr
          have hm0 : ¬ svc_may_start (u.upd 0 svc.turn_on) 0 = true := by
            rw [svc_may_start_iff _ _ _ hv0, hs0]
            intro h
            have := h 1 (List.mem_singleton.mpr rfl)
            rw [hst1] at this
            exact hnr this
          show (if svc_may_start (u.upd 0 svc.turn_on) 0 then
              svc_spawn_start_cmd (svc_handle_notif e fuel) e (u.upd 0 svc.turn_on) 0
            else u.upd 0 svc.turn_on) = _
          rw [if_neg hm0]
        · intro hr
          have hm0 : svc_may_start (u.upd 0 svc.turn_on) 0 = true := by
            rw [svc_may_start_iff _ _ _ hv0, hs0]
            intro src hsrc
            rw [List.mem_singleton.mp hsrc, hst1]
            exact hr
          show (if svc_may_start (u.upd 0 svc.turn_on) 0 then
              svc_spawn_start_cmd (svc_handle_notif e fuel) e (u.upd 0 svc.turn_on) 0
            else u.upd 0 svc.turn_on).ran u.log 0
          rw [if_pos hm0]
          exact svc_spawn_start_cmd_ran (svc_handle_notif_casc false e fuel) e _ 0 _ hv0 rfl
            u.log ⟨[], rfl⟩

/-- C11, witness: for the descriptors of "a" and "b" of `demo_loop_base`, the
wiring pass ends with "b" as the one registered notifier, of "a". -/
theorem cyclic_starton_keeps_first_edge_witness :
    strncmp "a".toList "b".toList TINIT_SVC_NAME_MAX ≠ 0 ∧
      tinit_repo_load_wire 2 [0, 1] demo_loop_base = some demo_loop :=
  ⟨by decide,
   (cyclic_starton_keeps_first_edge demo_env 2 2
      { demo_conf "a" 0 true 0 with starton := some ["b"] }
      { demo_conf "b" 0 true 0 with starton := some ["a"] } (0, 0) (0, 0) rfl rfl rfl rfl
      (by decide) (by decide)).1⟩

theorem strcmp_eq_zero (a b : List Char) : strcmp a b = 0 ↔ a = b := by
  unfold strcmp
  split <;> simp [*]

theorem load_svc_conf (parse : String → Option conf_svc) (junk : Nat → Nat × Int)
    (repo : List svc) (ent : dirent) :
    (tinit_repo_load_svc parse junk repo ent).map svc.conf =
      repo.map svc.conf ++ (loaded_descriptor parse ent).toList := by
  unfold tinit_repo_load_svc loaded_descriptor
  by_cases ht : ent.d_type = DT_REG
  · have ht2 : ¬ ent.d_type ≠ DT_REG := fun h => h ht
    rw [if_neg ht2]
    cases hx : strrchr ent.d_name.toList '.' with
    | none => simp [ht]
    | some ext =>
      simp only [Option.map_some', Option.some.injEq, ht, true_and]
      by_cases hc : ext.drop 1 = "conf".toList
      · have hc2 : ¬ strcmp (ext.drop 1) "conf".toList ≠ 0 :=
          fun h => h ((strcmp_eq_zero _ _).mpr hc)
        rw [if_neg hc2, if_pos hc]
        cases parse ent.d_name with
        | none => simp
        | some conf => simp [svc_create, svc_init]
      · have hc2 : strcmp (ext.drop 1) "conf".toList ≠ 0 :=
          fun h => hc ((strcmp_eq_zero _ _).mp h)
        rw [if_pos hc2, if_neg hc]
        simp
  · have ht2 : ent.d_type ≠ DT_REG := ht
    rw [if_pos ht2]
    simp [ht]

theorem load_fold_conf (parse : String → Option conf_svc) (junk : Nat → Nat × Int)
    (ents : List dirent) :
    ∀ repo : List svc, (ents.foldl (tinit_repo_load_svc parse junk) repo).map svc.conf =
      repo.map svc.conf ++ ents.filterMap (loaded_descriptor parse) := by
  induction ents with
  | nil => intro repo; simp
  | cons ent ents ih =>
    intro repo
    rw [List.foldl_cons, ih, load_svc_conf, List.append_assoc]
    congr 1
    cases h : loaded_descriptor parse ent with
    | none => simp [List.filterMap_cons, h]
    | some c => simp [List.filterMap_cons, h]

theorem register_conf (k : notif_kind) (fuel : Nat) (s t : sys) (src obsrv : Nat)
    (h : svc_register_obsrv k fuel s src obsrv = some t) :
    t.svcs.map svc.conf = s.svcs.map svc.conf := by
  unfold svc_register_obsrv at h
  split at h
  · split at h
    · cases h
    · split at h
      · cases h
      · cases h; rfl
      · split at h
        · cases h
          unfold notif_register_poll_sink
          rw [conf_upd _ _ _ (fun w => by cases k <;> rfl),
            conf_upd _ _ _ (fun w => by cases k <;> rfl)]
        · cases h
  · cases h

theorem setup_names_conf (k : notif_kind) (fuel i : Nat) (names : List String) :
    ∀ s t : sys, tinit_repo_setup_svc_names k fuel i names s = some t →
      t.svcs.map svc.conf = s.svcs.map svc.conf := by
  induction names with
  | nil => intro s t h; cases h; rfl
  | cons name names ih =>
    intro s t h
    unfold tinit_repo_setup_svc_names at h
    cases hsearch : tinit_repo_search_byname s name with
    | none =>
      rw [hsearch] at h
      exact ih _ _ h
    | some notif =>
      rw [hsearch] at h
      simp only at h
      cases hreg : svc_register_obsrv k fuel s notif i with
      | none => rw [hreg] at h; cases h
      | some s1 =>
        rw [hreg] at h
        exact (ih _ _ h).trans (register_conf _ _ _ _ _ _ hreg)

theorem wire_conf (fuel : Nat) (l : List Nat) :
    ∀ s t : sys, tinit_repo_load_wire fuel l s = some t →
      t.svcs.map svc.conf = s.svcs.map svc.conf := by
  induction l with
  | nil => intro s t h; cases h; rfl
  | cons i l ih =>
    intro s t h
    unfold tinit_repo_load_wire at h
    split at h
    · cases h
    · rename_i s1 h1
      split at h
      · cases h
      · rename_i s2 h2
        have e1 : s1.svcs.map svc.conf = s.svcs.map svc.conf := by
          unfold tinit_repo_setup_svc_starton at h1
          split at h1
          · cases h1; rfl
          · split at h1
            · cases h1; rfl
            · exact setup_names_conf _ _ _ _ _ _ h1
        have e2 : s2.svcs.map svc.conf = s1.svcs.map svc.conf := by
          unfold tinit_repo_setup_svc_stopon at h2
          split at h2
          · cases h2; rfl
          · split at h2
            · cases h2; rfl
            · exact setup_names_conf _ _ _ _ _ _ h2
        exact (ih _ _ h).trans (e2.trans e1)

theorem search_byname_from_first (name : String) :
    ∀ (l : List svc) (n k : Nat), tinit_repo_search_byname_from name l n = some k →
      ∀ (j : Nat) (w : svc), j < k - n → l[j]? = some w →
        strncmp w.conf.name.toList name.toList TINIT_SVC_NAME_MAX ≠ 0 := by
  intro l
  induction l with
  | nil => intro n k h; cases h
  | cons a l ih =>
    intro n k h j w hj hw
    unfold tinit_repo_search_byname_from at h
    split at h
    · cases h; omega
    · rename_i hne
      have hk := (search_byname_from_some name l (n + 1) k h).1
      cases j with
      | zero => simp at hw; rw [← hw]; exact hne
      | succ j =>
        rw [List.getElem?_cons_succ] at hw
        exact ih (n + 1) k h j w (by omega) hw

theorem search_byname_from_none (name : String) :
    ∀ (l : List svc) (n : Nat), tinit_repo_search_byname_from name l n = none ↔
      ∀ v ∈ l, strncmp v.conf.name.toList name.toList TINIT_SVC_NAME_MAX ≠ 0 := by
  intro l
  induction l with
  | nil => intro n; simp [tinit_repo_search_byname_from]
  | cons a l ih =>
    intro n
    unfold tinit_repo_search_byname_from
    split
    · rename_i h0
      simp only [reduceCtorEq, false_iff]
      intro h
      exact h a (List.mem_cons_self _ _) h0
    · rename_i hne
      rw [ih (n + 1)]
      constructor
      · intro h v hv
        rcases List.mem_cons.mp hv with rfl | hv
        · exact hne
        · exact h v hv
      · intro h v hv
        exact h v (List.mem_cons_of_mem _ hv)

/-- C15, counterexample: the files "x.conf" and "y.conf" hold two valid
descriptors with the same name "a"; the repository loads both, so two services
of the list are named "a". -/
theorem repo_same_name_counterexample :
    (demo_same_name "x.conf").map conf_svc.valid = some true ∧
      (demo_same_name "y.conf").map conf_svc.valid = some true ∧
      (tinit_repo_load demo_same_name (fun _ => (0, 0)) 2 demo_dir).map
        (fun t => t.svcs.map (fun v => v.conf.name)) = some ["a", "a"] := by
  decide

/-- C15, amended: the repository holds one service per descriptor loaded from
a regular "*.conf" entry of the directory, in the order of the directory,
whatever the names of the descriptors: its names are unique exactly when those
of the descriptors are.  `tinit_repo_search_byname` returns the first service
of the list with the name, and none exactly when no service has the name. -/
theorem repo_holds_every_descriptor (parse : String → Option conf_svc)
    (junk : Nat → Nat × Int) (fuel : Nat) (ents : List dirent) (t : sys)
    (hload : tinit_repo_load parse junk fuel ents = some t) :
    t.svcs.map svc.conf = ents.filterMap (loaded_descriptor parse) ∧
    ((t.svcs.map (fun v => v.conf.name)).Nodup ↔
      ((ents.filterMap (loaded_descriptor parse)).map conf_svc.name).Nodup) ∧
    (∀ (name : String) (i : Nat), tinit_repo_search_byname t name = some i →
      (∃ v, t.svcs[i]? = some v ∧
        strncmp v.conf.name.toList name.toList TINIT_SVC_NAME_MAX = 0) ∧
      ∀ (j : Nat) (w : svc), j < i → t.svcs[j]? = some w →
        strncmp w.conf.name.toList name.toList TINIT_SVC_NAME_MAX ≠ 0) ∧
    (∀ name : String, tinit_repo_search_byname t name = none ↔
      ∀ v ∈ t.svcs, strncmp v.conf.name.toList name.toList TINIT_SVC_NAME_MAX ≠ 0) := by
  have hconf : t.svcs.map svc.conf = ents.filterMap (loaded_descriptor parse) := by
    unfold tinit_repo_load at hload
    have h1 := wire_conf _ _ _ _ hload
    have h2 := load_fold_conf parse junk ents []
    simp only [List.map_nil, List.nil_append] at h2
    exact h1.trans h2
  refine ⟨hconf, ?_, ?_, ?_⟩
  · have : t.svcs.map (fun v => v.conf.name) = (t.svcs.map svc.conf).map conf_svc.name := by
      rw [List.map_map]; rfl
    rw [this, hconf]
  · intro name i h
    obtain ⟨_, v, h2, h3⟩ := search_byname_from_some name t.svcs 0 i h
    refine ⟨⟨v, by simpa using h2, h3⟩, fun j w hj hw => ?_⟩
    exact search_byname_from_first name t.svcs 0 i h j w (by omega) hw
  · intro name
    exact search_byname_from_none name t.svcs 0

/-- C15, witness: with descriptors named "a" and "b" in "x.conf" and "y.conf",
the repository holds the two services in that order. -/
theorem repo_holds_every_descriptor_witness :
    tinit_repo_load demo_mutual (fun _ => (0, 0)) 2 demo_dir = some demo_loop ∧
      demo_loop.svcs.map svc.conf =
        [{ demo_conf "a" 0 true 0 with starton := some ["b"] },
         { demo_conf "b" 0 true 0 with starton := some ["a"] }] :=
  ⟨by decide,
   (repo_holds_every_descriptor demo_mutual (fun _ => (0, 0)) 2 demo_dir demo_loop
      (by decide)).1⟩

theorem demo_oneshot_initial : ∀ v ∈ demo_oneshot.svcs, v.initial := by
  intro v hv
  simp [demo_oneshot] at hv
  subst hv
  simp [svc.initial, svc_init]

theorem demo_wait_initial : ∀ v ∈ demo_wait.svcs, v.initial := by
  intro v hv
  have h : demo_wait.svcs = demo_waiting.svcs.map (fun w => { w with
      handle_evts := .off, handle_notif := .off, state := .STOPPED, timer := utimer_init }) := by
    decide
  rw [h] at hv
  simp only [demo_waiting, List.map_cons, List.map_nil, List.mem_cons, List.mem_singleton,
    List.not_mem_nil, or_false] at hv
  rcases hv with hv | hv <;> subst hv <;> exact ⟨rfl, rfl, rfl, rfl, rfl⟩

/-- C27, the code at the failing inputs.  For a setting that is not a string,
that is the empty string, or that has PATH_MAX characters or more,
`conf_load_stdio` returns a positive value (the errno itself: the negative code
of `conf_parse_string_setting` is negated) and stores nothing through `path`;
`conf_load_stdout`, which tests for a negative value, goes on and reads `path`,
which nothing has set, and so does `conf_load_stdin`. -/
theorem stdio_error_code_positive (setting : Option (List Char))
    (h : setting = none ∨ setting = some [] ∨
      ∃ str, setting = some str ∧ PATH_MAX ≤ str.length) :
    0 < (conf_load_stdio setting).1 ∧ (conf_load_stdio setting).2 = none ∧
    conf_load_stdout setting = .unset_path (conf_load_stdio setting).1 ∧
    conf_load_stdin setting = .unset_path (conf_load_stdio setting).1 ∧
    ((conf_load_stdio setting).1 = EBADMSG ∨ (conf_load_stdio setting).1 = ENODATA ∨
      (conf_load_stdio setting).1 = EMSGSIZE) := by
  have key : conf_load_stdio setting = (EBADMSG, none) ∨
      conf_load_stdio setting = (ENODATA, none) ∨ conf_load_stdio setting = (EMSGSIZE, none) := by
    rcases h with h | h | ⟨str, h, hlen⟩
    · subst h
      left
      simp [conf_load_stdio, conf_parse_string_setting, EBADMSG]
    · subst h
      right; left
      simp [conf_load_stdio, conf_parse_string_setting, ENODATA]
    · subst h
      right; right
      have h1 : min str.length PATH_MAX = PATH_MAX := Nat.min_eq_right hlen
      have h2 : conf_parse_string_setting (some str) PATH_MAX = (-EMSGSIZE, none) := by
        simp only [conf_parse_string_setting, h1]
        rw [if_neg (by decide), if_pos (le_refl _)]
      simp [conf_load_stdio, h2, EMSGSIZE]
  rcases key with k | k | k <;> rw [k] <;>
    simp [conf_load_stdout, conf_load_stdin, k, EBADMSG, ENODATA, EMSGSIZE]

/-- C27 on the setting `stdout = ""`: `conf_load_stdio` returns 61 and
`conf_load_stdout` reads the path that was not set. -/
theorem stdio_error_code_positive_witness :
    (conf_load_stdio (some [])).1 = 61 ∧ conf_load_stdout (some []) = .unset_path 61 := by
  have h := stdio_error_code_positive (some []) (Or.inr (Or.inl rfl))
  have h1 : (conf_load_stdio (some [])).1 = 61 := by decide
  exact ⟨h1, h1 ▸ h.2.2.1⟩

/-- C30, the code at the failing input: "echo" has one start command and no
daemon.  It is started (start command 100), the command exits with status 0
and the service is marked READY with no child (slot -1).  A RELOAD request for
it finds it READY and calls `svc_reload`, whose second assertion does not
hold. -/
theorem reload_asserts_fail :
    reachable demo_env (run demo_env 1 demo_oneshot [.start 0, .sigchld [⟨100, .EXITED, 0⟩]]) ∧
    ((run demo_env 1 demo_oneshot [.start 0, .sigchld [⟨100, .EXITED, 0⟩]]).svcs[0]?).map
      (fun v => (v.state, v.child)) = some (.READY, -1) ∧
    tinit_check_svc_name "echo".toList 4 = 0 ∧
    tinit_repo_search_byname
      (run demo_env 1 demo_oneshot [.start 0, .sigchld [⟨100, .EXITED, 0⟩]]) "echo" = some 0 ∧
    svc_reload_asserts (run demo_env 1 demo_oneshot [.start 0, .sigchld [⟨100, .EXITED, 0⟩]]) 0
      = false ∧
    tinit_srv_request_reload (svc_handle_notif demo_env 1) demo_env
      (run demo_env 1 demo_oneshot [.start 0, .sigchld [⟨100, .EXITED, 0⟩]]) demo_request
      "echo" 4 =
      (svc_reload demo_env
        (run demo_env 1 demo_oneshot [.start 0, .sigchld [⟨100, .EXITED, 0⟩]]) 0,
       tinit_srv_build_reply demo_request 0) :=
  ⟨reachable_run _ _ _ _ (reachable.init _ demo_oneshot_initial), by decide, by decide,
   by decide, by decide, by
    simp only [tinit_srv_request_reload]
    rw [if_neg (by decide)]
    have h1 : tinit_repo_search_byname
      (run demo_env 1 demo_oneshot [.start 0, .sigchld [⟨100, .EXITED, 0⟩]]) "echo" = some 0 := by
      decide
    have h2 : (run demo_env 1 demo_oneshot [.start 0, .sigchld [⟨100, .EXITED, 0⟩]]).state_of 0
      = some .READY := by decide
    rw [h1]
    simp only [h2]⟩

/-- C24, the code at the failing input: "a" (index 0) has no start command, a
daemon and `starton = ["b"]`.  "b" then "a" are started (daemons 100 and 101),
"a" then "b" are stopped (both signalled, none reaped yet), and "a" is started
again: it waits for "b" in STARTING with the index 0 and the pid 101 still in
its child slot.  The only EXIT event is the one `tinit_sigchan_handle_sigchld`
delivers for the pid 101, with status 0: the index becomes 1, above the number
of start commands, which is 0 (and the daemon 102 is spawned while "b" is not
READY). -/
theorem start_index_exceeds_commands :
    reachable demo_env (run demo_env 2 demo_wait
      [.start 1, .start 0, .stop 0, .stop 1, .start 0, .sigchld [⟨101, .EXITED, 0⟩]]) ∧
    ((run demo_env 2 demo_wait [.start 1, .start 0, .stop 0, .stop 1, .start 0]).svcs[0]?).map
      (fun v => (v.state, v.start_cmd, v.conf.start_nr, v.child)) = some (.STARTING, 0, 0, 101) ∧
    tinit_repo_search_bypid
      (run demo_env 2 demo_wait [.start 1, .start 0, .stop 0, .stop 1, .start 0]) 101 = some 0 ∧
    ((run demo_env 2 demo_wait
      [.start 1, .start 0, .stop 0, .stop 1, .start 0, .sigchld [⟨101, .EXITED, 0⟩]]).svcs[0]?).map
      (fun v => (v.state, v.start_cmd, v.conf.start_nr, v.child)) = some (.READY, 1, 0, 102) ∧
    (run demo_env 2 demo_wait
      [.start 1, .start 0, .stop 0, .stop 1, .start 0, .sigchld [⟨101, .EXITED, 0⟩]]).state_of 1
      = some .STOPPING :=
  ⟨reachable_run _ _ _ _ (reachable.init _ demo_wait_initial), by decide, by decide, by decide,
   by decide⟩

/-- C28, the code at the failing inputs.  First run: "a" (daemon 100) waits
for "b" (daemon 101) to stop; "a" is stopped (deferred: no signal), "b" is
stopped (SIGTERM to 101) and its daemon exits: "b" is marked STOPPED and its
notification marks "a" STOPPED, child slot cleared, while 100 was neither
signalled (the only `kill` is the one to 101) nor reaped.  Second run: the
same with one stop command for "a": the notification spawns the stop command
102 over the slot that held 100. -/
theorem deferred_stop_skips_signal :
    ((run demo_env 2 (demo_stopon 0 true) [.start 0, .start 1, .stop 0, .stop 1]).svcs[0]?).map
      (fun v => (v.state, v.child)) = some (.STOPPING, 100) ∧
    ((run demo_env 2 (demo_stopon 0 true)
      [.start 0, .start 1, .stop 0, .stop 1, .sigchld [⟨101, .EXITED, 0⟩]]).svcs[0]?).map
      (fun v => (v.state, v.child)) = some (.STOPPED, -1) ∧
    (run demo_env 2 (demo_stopon 0 true)
      [.start 0, .start 1, .stop 0, .stop 1, .sigchld [⟨101, .EXITED, 0⟩]]).log.filter
      (fun a => match a with
        | .kill _ _ _ _ => true
        | .reaped _ => true
        | _ => false) = [.reaped 101, .kill 1 101 SIGTERM true] ∧
    outstanding 0 (run demo_env 2 (demo_stopon 0 true)
      [.start 0, .start 1, .stop 0, .stop 1, .sigchld [⟨101, .EXITED, 0⟩]]).log = [100] ∧
    ((run demo_env 2 demo_stopcmd
      [.start 0, .start 1, .stop 0, .stop 1, .sigchld [⟨101, .EXITED, 0⟩]]).svcs[0]?).map
      (fun v => (v.state, v.child)) = some (.STOPPING, 102) ∧
    (run demo_env 2 demo_stopcmd
      [.start 0, .start 1, .stop 0, .stop 1, .sigchld [⟨101, .EXITED, 0⟩]]).log.filter
      (fun a => match a with
        | .kill _ _ _ _ => true
        | .reaped _ => true
        | _ => false) = [.reaped 101, .kill 1 101 SIGTERM true] ∧
    outstanding 0 (run demo_env 2 demo_stopcmd
      [.start 0, .start 1, .stop 0, .stop 1, .sigchld [⟨101, .EXITED, 0⟩]]).log = [102, 100] := by
  refine ⟨?_, ?_, ?_, ?_, ?_, ?_, ?_⟩ <;> decide

theorem svc_spawn_fail (e : env) (s : sys) (i : Nat) (cmd : cmd_ref) (t : Nat)
    (h : (e.vfork s.nfork).val < 0) :
    svc_spawn e s i cmd t =
      ({ s with nfork := s.nfork + 1, log := .spawn i cmd t (e.vfork s.nfork).val :: s.log },
        (e.vfork s.nfork).val) := by
  unfold svc_spawn
  simp only []
  rw [if_pos h]

theorem svc_spawn_ok (e : env) (s : sys) (i : Nat) (cmd : cmd_ref) (t : Nat)
    (h : ¬ (e.vfork s.nfork).val < 0) :
    svc_spawn e s i cmd t =
      (({ s with nfork := s.nfork + 1,
                 log := .spawn i cmd t (e.vfork s.nfork).val :: s.log }).upd i
          (fun w => { w with timer := utimer_arm_sec w.timer t }), (e.vfork s.nfork).val) := by
  unfold svc_spawn
  simp only []
  rw [if_neg h]

/-- The start dispatcher when the start command index is below the number of
start commands. -/
theorem svc_spawn_start_cmd_lt (notify : sys → Nat → Nat → sys) (e : env) (s : sys) (i : Nat)
    (v : svc) (hv : s.svcs[i]? = some v) (hlt : v.start_cmd < v.conf.start_nr) :
    svc_spawn_start_cmd notify e s i =
      ({ s with nfork := s.nfork + 1,
                log := .spawn i (.start v.start_cmd) 1 (e.vfork s.nfork).val ::
                  .start_dispatch i :: s.log }).upd i
        (fun w => { w with
          child := (e.vfork s.nfork).val,
          timer := if (e.vfork s.nfork).val < 0 then w.timer else utimer_arm_sec w.timer 1 }) := by
  unfold svc_spawn_start_cmd
  rw [hv]
  simp only [if_pos hlt]
  by_cases hp : (e.vfork s.nfork).val < 0
  · have h1 := svc_spawn_fail e (s.emit (.start_dispatch i)) i (.start v.start_cmd) 1 hp
    have hp2 : (e.vfork (s.emit (.start_dispatch i)).nfork).val < 0 := hp
    rw [h1]
    simp only [if_pos hp2]
    simp only [sys.emit, if_pos hp]
  · have h1 := svc_spawn_ok e (s.emit (.start_dispatch i)) i (.start v.start_cmd) 1 hp
    have hp2 : ¬ (e.vfork (s.emit (.start_dispatch i)).nfork).val < 0 := hp
    rw [h1]
    simp only [if_neg hp2, upd_upd]
    simp only [sys.emit, Bool.false_eq_true, if_false, if_neg hp]

/-- The start dispatcher when the spawn of the daemon fails. -/
theorem svc_spawn_start_cmd_daemon_fail (notify : sys → Nat → Nat → sys) (e : env) (s : sys)
    (i : Nat) (v : svc) (hv : s.svcs[i]? = some v) (hge : v.conf.start_nr ≤ v.start_cmd)
    (hd : v.conf.daemon = true) (hp : (e.vfork s.nfork).val < 0) :
    svc_spawn_start_cmd notify e s i =
      ({ s with nfork := s.nfork + 1,
                log := .spawn i .daemon 1 (e.vfork s.nfork).val ::
                  .start_dispatch i :: s.log }).upd i
        (fun w => { w with child := (e.vfork s.nfork).val }) := by
  unfold svc_spawn_start_cmd
  rw [hv]
  simp only [if_neg (Nat.not_lt.2 hge), hd, if_true]
  have h1 := svc_spawn_fail e (s.emit (.start_dispatch i)) i .daemon 1 hp
  have hp2 : (e.vfork (s.emit (.start_dispatch i)).nfork).val < 0 := hp
  rw [h1]
  simp only [if_pos hp2]
  rfl

/-- The start dispatcher when the spawn of the daemon succeeds. -/
theorem svc_spawn_start_cmd_daemon_ok (notify : sys → Nat → Nat → sys) (e : env) (s : sys)
    (i : Nat) (v : svc) (hv : s.svcs[i]? = some v) (hge : v.conf.start_nr ≤ v.start_cmd)
    (hd : v.conf.daemon = true) (hp : ¬ (e.vfork s.nfork).val < 0) :
    svc_spawn_start_cmd notify e s i =
      svc_mark_ready notify
        (({ s with nfork := s.nfork + 1,
                   log := .spawn i .daemon 1 (e.vfork s.nfork).val ::
                     .start_dispatch i :: s.log }).upd i
          (fun w => { w with child := (e.vfork s.nfork).val,
                             timer := utimer_arm_sec w.timer 1 })) i := by
  unfold svc_spawn_start_cmd
  rw [hv]
  simp only [if_neg (Nat.not_lt.2 hge), hd, if_true]
  have h1 := svc_spawn_ok e (s.emit (.start_dispatch i)) i .daemon 1 hp
  have hp2 : ¬ (e.vfork (s.emit (.start_dispatch i)).nfork).val < 0 := hp
  rw [h1]
  simp only [if_neg hp2, upd_upd]
  rfl

/-- The start dispatcher when there is no daemon argv. -/
theorem svc_spawn_start_cmd_none (notify : sys → Nat → Nat → sys) (e : env) (s : sys)
    (i : Nat) (v : svc) (hv : s.svcs[i]? = some v) (hge : v.conf.start_nr ≤ v.start_cmd)
    (hd : v.conf.daemon = false) :
    svc_spawn_start_cmd notify e s i =
      svc_mark_ready notify
        ((s.emit (.start_dispatch i)).upd i (fun w => { w with child := -1 })) i := by
  unfold svc_spawn_start_cmd
  rw [hv]
  simp only [if_neg (Nat.not_lt.2 hge), hd]
  rfl

/-- What `svc_mark_ready` leaves: the service is READY, its other fields as
they were, and the log has grown over the record of the marking. -/
theorem svc_mark_ready_result (e : env) (fuel : Nat) (s : sys) (i : Nat) (v : svc)
    (hv : s.svcs[i]? = some v) :
    (svc_mark_ready (svc_handle_notif e fuel) s i).svcs[i]? = some { v with state := .READY } ∧
    ∃ l, (svc_mark_ready (svc_handle_notif e fuel) s i).log = l ++ .ready i :: s.log := by
  unfold svc_mark_ready
  rw [hv]
  simp only []
  have hc := casc_foldl (svc_handle_notif_casc false e fuel) v.starton_obsrv i
    ((s.upd i (fun w => { w with state := .READY })).emit (.ready i))
  refine ⟨casc_keeps hc i _ ?_ (Or.inr rfl), casc_log hc⟩
  rw [svcs_emit, get_upd_self, hv]
  rfl

theorem upd_congr (s : sys) (i : Nat) (v : svc) (f g : svc → svc) (hv : s.svcs[i]? = some v)
    (h : f v = g v) : s.upd i f = s.upd i g := by
  unfold sys.upd
  simp only [sys.mk.injEq, and_true]
  apply List.ext_getElem?
  intro n
  simp only [List.getElem?_modify]
  by_cases hin : i = n
  · subst hin
    rw [hv]
    simp [h]
  · cases s.svcs[n]? <;> simp [hin]

theorem get_upd_some (s : sys) (i : Nat) (v : svc) (f : svc → svc) (hv : s.svcs[i]? = some v) :
    (s.upd i f).svcs[i]? = some (f v) := by
  rw [get_upd_self, hv]
  rfl

/-- C22: the start dispatcher, for a service `i` with the record `v`.  With the
index below the number of start commands it spawns the start command of that
index with a timeout of 1 second, stores what the spawn returned in the child
slot, and marks nothing READY (the state is as it was).  Otherwise, with a
daemon argv it spawns the daemon with a timeout of 1 second; a failed spawn
only fills the child slot, a successful one is followed by the marking: the
service is READY with the pid in its slot and the timer armed.  With no daemon
argv nothing is spawned for the service: the child slot is -1 and the service
is marked READY at once. -/
theorem start_dispatcher_branches (e : env) (fuel : Nat) (s : sys) (i : Nat) (v : svc)
    (hv : s.svcs[i]? = some v) :
    (v.start_cmd < v.conf.start_nr →
      svc_spawn_start_cmd (svc_handle_notif e fuel) e s i =
        ({ s with nfork := s.nfork + 1,
                  log := .spawn i (.start v.start_cmd) 1 (e.vfork s.nfork).val ::
                    .start_dispatch i :: s.log }).upd i
          (fun w => { w with
            child := (e.vfork s.nfork).val,
            timer := if (e.vfork s.nfork).val < 0 then w.timer else utimer_arm_sec w.timer 1 }) ∧
      (svc_spawn_start_cmd (svc_handle_notif e fuel) e s i).state_of i = some v.state) ∧
    (v.conf.start_nr ≤ v.start_cmd → v.conf.daemon = true → (e.vfork s.nfork).val < 0 →
      svc_spawn_start_cmd (svc_handle_notif e fuel) e s i =
        ({ s with nfork := s.nfork + 1,
                  log := .spawn i .daemon 1 (e.vfork s.nfork).val ::
                    .start_dispatch i :: s.log }).upd i
          (fun w => { w with child := (e.vfork s.nfork).val }) ∧
      (svc_spawn_start_cmd (svc_handle_notif e fuel) e s i).state_of i = some v.state) ∧
    (v.conf.start_nr ≤ v.start_cmd → v.conf.daemon = true → 0 ≤ (e.vfork s.nfork).val →
      (svc_spawn_start_cmd (svc_handle_notif e fuel) e s i).svcs[i]? =
        some { v with child := (e.vfork s.nfork).val, timer := utimer_arm_sec v.timer 1,
                      state := .READY } ∧
      ∃ l, (svc_spawn_start_cmd (svc_handle_notif e fuel) e s i).log =
        l ++ .ready i :: .spawn i .daemon 1 (e.vfork s.nfork).val :: .start_dispatch i :: s.log) ∧
    (v.conf.start_nr ≤ v.start_cmd → v.conf.daemon = false →
      (svc_spawn_start_cmd (svc_handle_notif e fuel) e s i).svcs[i]? =
        some { v with child := -1, state := .READY } ∧
      ∃ l, (svc_spawn_start_cmd (svc_handle_notif e fuel) e s i).log =
        l ++ .ready i :: .start_dispatch i :: s.log) := by
  refine ⟨?_, ?_, ?_, ?_⟩
  · intro hlt
    have h := svc_spawn_start_cmd_lt (svc_handle_notif e fuel) e s i v hv hlt
    refine ⟨h, ?_⟩
    rw [h, sys.state_of, get_upd_self]
    exact congrArg _ (congrArg _ hv)
  · intro hge hd hp
    have h := svc_spawn_start_cmd_daemon_fail (svc_handle_notif e fuel) e s i v hv hge hd hp
    refine ⟨h, ?_⟩
    rw [h, sys.state_of, get_upd_self]
    exact congrArg _ (congrArg _ hv)
  · intro hge hd hp
    rw [svc_spawn_start_cmd_daemon_ok (svc_handle_notif e fuel) e s i v hv hge hd
      (not_lt.2 hp)]
    exact svc_mark_ready_result e fuel _ i
      { v with child := (e.vfork s.nfork).val, timer := utimer_arm_sec v.timer 1 }
      (by rw [get_upd_self]; exact congrArg _ hv)
  · intro hge hd
    rw [svc_spawn_start_cmd_none (svc_handle_notif e fuel) e s i v hv hge hd]
    exact svc_mark_ready_result e fuel _ i { v with child := -1 }
      (by rw [get_upd_self]; exact congrArg _ hv)

/-- C22 on the service "echo" (a daemon, no start command), STOPPED: the
dispatcher spawns the daemon 100 and the service is READY with 100 in its
slot and the timer armed for 1 second. -/
theorem start_dispatcher_branches_witness :
    (svc_spawn_start_cmd (svc_handle_notif demo_env 1) demo_env demo_daemon 0).svcs[0]? =
      some { svc_init (demo_conf "echo" 0 true 0) 0 0 with
             child := 100, timer := { armed := some 1, expire := none }, state := .READY } :=
  ((start_dispatcher_branches demo_env 1 demo_daemon 0 (svc_init (demo_conf "echo" 0 true 0) 0 0)
    rfl).2.2.1 (by decide) rfl (by decide)).1

/-- C25, as stated, fails: "echo" has two start commands.  The first one (100)
is spawned, which arms the timer for 1 second, and exits with status 0 at
once; the spawn of the second one fails with ENOMEM: the child slot holds
-12 and the service is STARTING, but the timer is still pending.  Its expiry,
with no notification and no STOP in between, spawns the second start command
again (102). -/
theorem start_spawn_failure_counterexample :
    ((run demo_env_nomem 1 demo_twostep [.start 0, .sigchld [⟨100, .EXITED, 0⟩]]).svcs[0]?).map
      (fun v => (v.state, v.start_cmd, v.child, v.timer.armed)) = some (.STARTING, 1, -12, some 1) ∧
    (run demo_env_nomem 1 demo_twostep [.start 0, .sigchld [⟨100, .EXITED, 0⟩]]).log.head?
      = some (.spawn 0 (.start 1) 1 (-12)) ∧
    ((run demo_env_nomem 1 demo_twostep
      [.start 0, .sigchld [⟨100, .EXITED, 0⟩], .expire 0]).svcs[0]?).map
      (fun v => (v.state, v.start_cmd, v.child, v.timer.armed)) = some (.STARTING, 1, 102, some 1) ∧
    (run demo_env_nomem 1 demo_twostep
      [.start 0, .sigchld [⟨100, .EXITED, 0⟩], .expire 0]).log.take 2
      = [.spawn 0 (.start 1) 1 102, .start_dispatch 0] := by
  refine ⟨?_, ?_, ?_, ?_⟩ <;> decide

/-- C25, amended: when the spawn of a start command or of the daemon fails for
a STARTING service, the child slot holds the negative value returned, the
service stays STARTING and is not marked READY, and the timer is left as it
was (the failed spawn does not arm it, an earlier arm stays pending); no other
service changes.  With the timer idle, its expiry and a START event change
nothing.  With the timer pending, its expiry runs the start dispatcher again. -/
theorem start_spawn_failure_effect (e : env) (fuel : Nat) (s : sys) (i : Nat) (v : svc)
    (hv : s.svcs[i]? = some v) (hs : v.state = .STARTING) (hh : v.handle_evts = .on)
    (hargs : v.start_cmd < v.conf.start_nr ∨ v.conf.daemon = true)
    (hfail : (e.vfork s.nfork).val < 0) :
    (svc_spawn_start_cmd (svc_handle_notif e fuel) e s i).svcs[i]? =
      some { v with child := (e.vfork s.nfork).val } ∧
    (∀ j, j ≠ i → (svc_spawn_start_cmd (svc_handle_notif e fuel) e s i).svcs[j]? = s.svcs[j]?) ∧
    (svc_spawn_start_cmd (svc_handle_notif e fuel) e s i).log =
      .spawn i (if v.start_cmd < v.conf.start_nr then .start v.start_cmd else .daemon) 1
        (e.vfork s.nfork).val :: .start_dispatch i :: s.log ∧
    (v.timer.armed = none →
      utimer_expire (svc_handle_notif e fuel) e
        (svc_spawn_start_cmd (svc_handle_notif e fuel) e s i) i =
        svc_spawn_start_cmd (svc_handle_notif e fuel) e s i ∧
      svc_handle_evts (svc_handle_notif e fuel) e
        (svc_spawn_start_cmd (svc_handle_notif e fuel) e s i) i .START 0 =
        svc_spawn_start_cmd (svc_handle_notif e fuel) e s i) ∧
    (v.timer.armed ≠ none → v.timer.expire = some .on →
      utimer_expire (svc_handle_notif e fuel) e
        (svc_spawn_start_cmd (svc_handle_notif e fuel) e s i) i =
        svc_spawn_start_cmd (svc_handle_notif e fuel) e
          ((svc_spawn_start_cmd (svc_handle_notif e fuel) e s i).upd i
            (fun w => { w with timer := { w.timer with armed := none } })) i) := by
  have key : svc_spawn_start_cmd (svc_handle_notif e fuel) e s i =
      ({ s with nfork := s.nfork + 1,
                log := .spawn i (if v.start_cmd < v.conf.start_nr then .start v.start_cmd
                  else .daemon) 1 (e.vfork s.nfork).val :: .start_dispatch i :: s.log }).upd i
        (fun w => { w with child := (e.vfork s.nfork).val }) := by
    by_cases hlt : v.start_cmd < v.conf.start_nr
    · rw [svc_spawn_start_cmd_lt _ e s i v hv hlt, if_pos hlt]
      simp only [if_pos hfail]
    · rw [if_neg hlt]
      rcases hargs with h | h
      · exact absurd h hlt
      · exact svc_spawn_start_cmd_daemon_fail _ e s i v hv (Nat.not_lt.1 hlt) h hfail
  have hget : (svc_spawn_start_cmd (svc_handle_notif e fuel) e s i).svcs[i]? =
      some { v with child := (e.vfork s.nfork).val } := by
    rw [key, get_upd_self]
    exact congrArg _ hv
  refine ⟨hget, ?_, ?_, ?_, ?_⟩
  · intro j hj
    rw [key, get_upd_ne _ _ _ _ (Ne.symm hj)]
  · rw [key]
    rfl
  · intro harm
    constructor
    · unfold utimer_expire
      rw [hget]
      simp [utimer_is_armed, harm]
    · unfold svc_handle_evts
      rw [hget]
      simp only [hh]
      unfold svc_handle_on_evts
      rw [hget]
      simp only [hs]
  · intro harm hexp
    unfold utimer_expire
    rw [hget]
    have h1 : utimer_is_armed v.timer = true := by
      unfold utimer_is_armed
      cases h : v.timer.armed with
      | none => exact absurd h harm
      | some n => rfl
    simp only [h1, if_true, hexp]
    unfold svc_expire_on
    rw [get_upd_some _ i _ _ hget]
    simp only [hs, if_pos hfail]
    rfl

/-- C25, amended, on "echo" after the failed spawn of its second start
command: the child slot holds -12 and the state is STARTING. -/
theorem start_spawn_failure_effect_witness :
    (run demo_env_nomem 1 demo_twostep [.start 0, .sigchld [⟨100, .EXITED, 0⟩]]).svcs[0]? =
      some { demo_twostep_first with start_cmd := 1, child := -12 } := by
  have h := (start_spawn_failure_effect demo_env_nomem 1
    ((run demo_env_nomem 1 demo_twostep [.start 0]).upd 0
      (fun w => { w with start_cmd := 1 })) 0
    { demo_twostep_first with start_cmd := 1 } (by decide) rfl rfl (Or.inl (by decide))
    (by decide)).1
  exact h

/-- C26: for a STARTING service `i` (record `v`, on-handlers) that gets an EXIT
event.  Status not 0 (a child killed by a signal is reported with the negated
signal number) and timer pending: only the child slot is cleared, nothing is
spawned, and the expiry of the timer runs the start dispatcher with the index
as it was, which spawns the start command of that index.  Status not 0 and
timer idle: the start dispatcher runs at once with the index as it was.
Status 0: the index grows by exactly one, then the start dispatcher runs. -/
theorem starting_exit_effect (e : env) (fuel : Nat) (s : sys) (i : Nat) (v : svc)
    (hv : s.svcs[i]? = some v) (hs : v.state = .STARTING) (hh : v.handle_evts = .on)
    (status : Int) :
    (status ≠ 0 → v.timer.armed ≠ none →
      svc_handle_evts (svc_handle_notif e fuel) e s i .EXIT status =
        s.upd i (fun w => { w with child := -1 }) ∧
      (v.timer.expire = some .on →
        utimer_expire (svc_handle_notif e fuel) e (s.upd i (fun w => { w with child := -1 })) i =
          svc_spawn_start_cmd (svc_handle_notif e fuel) e
            (s.upd i (fun w => { w with child := -1, timer := { w.timer with armed := none } })) i ∧
        (v.start_cmd < v.conf.start_nr →
          (utimer_expire (svc_handle_notif e fuel) e
            (s.upd i (fun w => { w with child := -1 })) i).log =
            .spawn i (.start v.start_cmd) 1 (e.vfork s.nfork).val :: .start_dispatch i :: s.log))) ∧
    (status ≠ 0 → v.timer.armed = none →
      svc_handle_evts (svc_handle_notif e fuel) e s i .EXIT status =
        svc_spawn_start_cmd (svc_handle_notif e fuel) e s i ∧
      (v.start_cmd < v.conf.start_nr →
        (svc_handle_evts (svc_handle_notif e fuel) e s i .EXIT status).log =
          .spawn i (.start v.start_cmd) 1 (e.vfork s.nfork).val :: .start_dispatch i :: s.log)) ∧
    (status = 0 → v.start_cmd + 1 < 4294967296 →
      svc_handle_evts (svc_handle_notif e fuel) e s i .EXIT status =
        svc_spawn_start_cmd (svc_handle_notif e fuel) e
          (s.upd i (fun w => { w with start_cmd := v.start_cmd + 1 })) i ∧
      (v.start_cmd + 1 < v.conf.start_nr →
        (svc_handle_evts (svc_handle_notif e fuel) e s i .EXIT status).log =
          .spawn i (.start (v.start_cmd + 1)) 1 (e.vfork s.nfork).val ::
            .start_dispatch i :: s.log)) ∧
    (∀ (pid sig : Int), pid ≠ 0 → sig ≠ 0 → tinit_repo_search_bypid s pid = some i →
      (tinit_sigchan_handle_sigchld (svc_handle_notif e fuel) e s [⟨pid, .KILLED, sig⟩] 0).1 =
        svc_handle_evts (svc_handle_notif e fuel) e (s.emit (.reaped pid)) i .EXIT (-sig) ∧
      -sig ≠ 0) := by
  have hevt : ∀ st : Int, svc_handle_evts (svc_handle_notif e fuel) e s i .EXIT st =
      if st = 0 then
        svc_respawn (svc_handle_notif e fuel) e
          (s.upd i (fun w => { w with start_cmd := (w.start_cmd + 1) % 4294967296 })) i
      else if !utimer_is_armed v.timer then svc_respawn (svc_handle_notif e fuel) e s i
      else s.upd i (fun w => { w with child := -1 }) := by
    intro st
    unfold svc_handle_evts
    rw [hv]
    simp only [hh]
    unfold svc_handle_on_evts
    rw [hv]
    simp only [hs]
  refine ⟨?_, ?_, ?_, ?_⟩
  · intro hst harm
    have h1 : utimer_is_armed v.timer = true := by
      unfold utimer_is_armed
      cases h : v.timer.armed with
      | none => exact absurd h harm
      | some n => rfl
    have hget : (s.upd i (fun w => { w with child := -1 })).svcs[i]? =
        some { v with child := -1 } := get_upd_some s i v _ hv
    refine ⟨?_, ?_⟩
    · rw [hevt, if_neg hst, h1]
      rfl
    · intro hexp
      have h2 : utimer_expire (svc_handle_notif e fuel) e
          (s.upd i (fun w => { w with child := -1 })) i =
          svc_spawn_start_cmd (svc_handle_notif e fuel) e
            (s.upd i (fun w => { w with child := -1,
                                        timer := { w.timer with armed := none } })) i := by
        unfold utimer_expire
        rw [hget]
        simp only [h1, if_true, hexp, upd_upd]
        unfold svc_expire_on
        rw [get_upd_some s i v _ hv]
        simp only [hs]
        rw [if_pos (by decide)]
        rfl
      refine ⟨h2, ?_⟩
      intro hlt
      rw [h2, svc_spawn_start_cmd_lt _ e _ i _ (get_upd_some s i v _ hv) hlt]
      rfl
  · intro hst harm
    have h1 : utimer_is_armed v.timer = false := by
      unfold utimer_is_armed
      rw [harm]
      rfl
    have h2 : svc_handle_evts (svc_handle_notif e fuel) e s i .EXIT status =
        svc_spawn_start_cmd (svc_handle_notif e fuel) e s i := by
      rw [hevt, if_neg hst, h1]
      rfl
    refine ⟨h2, ?_⟩
    intro hlt
    rw [h2, svc_spawn_start_cmd_lt _ e s i v hv hlt]
    rfl
  · intro hst hsmall
    have h2 : svc_handle_evts (svc_handle_notif e fuel) e s i .EXIT status =
        svc_spawn_start_cmd (svc_handle_notif e fuel) e
          (s.upd i (fun w => { w with start_cmd := v.start_cmd + 1 })) i := by
      rw [hevt, if_pos hst]
      unfold svc_respawn
      rw [upd_congr s i v _ (fun w => { w with start_cmd := v.start_cmd + 1 }) hv]
      simp only [Nat.mod_eq_of_lt hsmall]
    refine ⟨h2, ?_⟩
    intro hlt
    rw [h2, svc_spawn_start_cmd_lt _ e _ i _ (get_upd_some s i v _ hv) hlt]
    rfl
  · intro pid sig hpid hsig hfind
    refine ⟨?_, neg_ne_zero.2 hsig⟩
    have hfind2 : tinit_repo_search_bypid (s.emit (.reaped pid)) pid = some i := hfind
    simp only [tinit_sigchan_handle_sigchld]
    rw [if_neg hpid]
    simp only [hfind2]

/-- C26 on "echo" with two start commands, STARTING with the first one (100) in
flight and the timer pending: the exit of 100 with status 1 only clears the
child slot. -/
theorem starting_exit_effect_witness :
    (run demo_env 1 demo_twostep [.start 0]).svcs[0]? = some demo_twostep_first ∧
    svc_handle_evts (svc_handle_notif demo_env 1) demo_env
      (run demo_env 1 demo_twostep [.start 0]) 0 .EXIT 1 =
      (run demo_env 1 demo_twostep [.start 0]).upd 0 (fun w => { w with child := -1 }) :=
  ⟨by decide,
   ((starting_exit_effect demo_env 1 (run demo_env 1 demo_twostep [.start 0]) 0
      demo_twostep_first (by decide) rfl rfl 1).1 (by decide) (by decide)).1⟩

theorem notif_any_true (f : Nat → Option Bool) (l : List Nat) (h : notif_any f l = some true) :
    ∃ n ∈ l, f n = some true := by
  induction l with
  | nil => simp [notif_any] at h
  | cons x l ih =>
    unfold notif_any at h
    cases hx : f x with
    | none => simp [hx] at h
    | some b =>
      cases b with
      | true => exact ⟨x, List.mem_cons_self _ _, hx⟩
      | false =>
        simp only [hx] at h
        obtain ⟨n, hn, hfn⟩ := ih h
        exact ⟨n, List.mem_cons_of_mem _ hn, hfn⟩

/-- A cycle search that answers "yes" is right: the match is the service or
one of its direct or transitive notifiers. -/
theorem svc_has_notifier_true (k : notif_kind) (s : sys) (fuel : Nat) :
    ∀ i m, svc_has_notifier k s fuel i m = some true →
      Relation.ReflTransGen (s.notifier k) m i := by
  induction fuel with
  | zero => intro i m h; simp [svc_has_notifier] at h
  | succ n ih =>
    intro i m h
    unfold svc_has_notifier at h
    by_cases him : i = m
    · subst him
      exact Relation.ReflTransGen.refl
    · simp only [him, if_false] at h
      cases hv : s.svcs[i]? with
      | none => simp [hv] at h
      | some v =>
        simp only [hv] at h
        cases hp : v.notif k with
        | none => simp [hp] at h
        | some poll =>
          simp only [hp] at h
          obtain ⟨c, hc, hfc⟩ := notif_any_true _ _ h
          exact Relation.ReflTransGen.tail (ih c m hfc) ⟨v, hv, by simp [svc.srcs, hp, hc]⟩

/-- A notifier graph with no cycle has a rank: the number of the direct and
transitive notifiers of a service. -/
theorem acyclic_ranked (s : sys) (k : notif_kind)
    (h : ∀ a, ¬ Relation.TransGen (s.notifier k) a a) : s.ranked k := by
  classical
  have hfin : ∀ y, {z | Relation.TransGen (s.notifier k) z y}.Finite := by
    intro y
    apply Set.Finite.subset (List.finite_toSet (s.svcs.flatMap (fun w => w.srcs k)))
    intro z hz
    obtain ⟨c, hzc, _⟩ := Relation.TransGen.head'_iff.1 hz
    obtain ⟨v, hv, hzv⟩ := hzc
    simp only [Set.mem_setOf_eq, List.mem_flatMap]
    exact ⟨v, List.mem_iff_getElem?.2 ⟨_, hv⟩, hzv⟩
  refine ⟨fun y => {z | Relation.TransGen (s.notifier k) z y}.ncard, ?_⟩
  intro x y hxy
  apply Set.ncard_lt_ncard _ (hfin y)
  constructor
  · intro z hz
    exact Relation.TransGen.tail hz hxy
  · intro hsub
    exact h x (hsub (Relation.TransGen.single hxy))

/-- The direct notifiers before a registration are still there after it. -/
theorem notifier_register_old (k k2 : notif_kind) (s : sys) (obsrv src : Nat) (o : svc)
    (poll : notif_poll) (ho : s.svcs[obsrv]? = some o) (hp : o.notif k = some poll)
    (x y : Nat) (h : s.notifier k2 x y) :
    (notif_register_poll_sink k s obsrv src poll).notifier k2 x y := by
  obtain ⟨u, hu, hx⟩ := h
  unfold notif_register_poll_sink
  unfold sys.notifier
  rw [get_upd, get_upd, hu]
  simp only [Option.map_some', Option.some.injEq, exists_eq_left']
  have hpush : ∀ w : svc, x ∈ w.srcs k2 →
      x ∈ (if src = y then w.push_obsrv k obsrv else w).srcs k2 := by
    intro w hw
    split
    · rw [srcs_push_obsrv]; exact hw
    · exact hw
  apply hpush
  by_cases hoy : obsrv = y
  · subst hoy
    rw [ho] at hu
    cases hu
    simp only [if_true]
    rw [srcs_set_notif]
    by_cases hk : k2 = k
    · subst hk
      simp only [if_true, notif_poll.push, List.mem_append, List.mem_singleton]
      left
      simpa [svc.srcs, hp] using hx
    · simp only [hk, if_false]
      exact hx
  · simp only [hoy, if_false]
    exact hx

/-- The new edge is there after a registration. -/
theorem notifier_register_new (k : notif_kind) (s : sys) (obsrv src : Nat) (o : svc)
    (poll : notif_poll) (ho : s.svcs[obsrv]? = some o) :
    (notif_register_poll_sink k s obsrv src poll).notifier k src obsrv := by
  unfold notif_register_poll_sink
  unfold sys.notifier
  rw [get_upd, get_upd, ho]
  simp only [Option.map_some', Option.some.injEq, exists_eq_left', if_true]
  have hpush : ∀ w : svc, src ∈ w.srcs k →
      src ∈ (if src = obsrv then w.push_obsrv k obsrv else w).srcs k := by
    intro w hw
    split
    · rw [srcs_push_obsrv]; exact hw
    · exact hw
  apply hpush
  rw [srcs_set_notif]
  simp [notif_poll.push]

/-- C23: on a notifier graph of kind `k` with no cycle, for existing services
`src` and `obsrv` (the sink), the poll of the sink having a free member: with
enough fuel for the cycle search, the registration returns.  It leaves the
state as it is exactly when the sink is `src` or a direct or transitive
notifier of `src`.  Otherwise the sink is appended at the tail of the observer
list of `src`, `src` is appended to the poll of the sink, whose count grows by
one, no other service changes, and the edges after the registration are the old
ones and the edge from `src` to the sink. -/
theorem register_obsrv_effect (k : notif_kind) (s : sys) (src obsrv : Nat) (vs o : svc)
    (poll : notif_poll) (hacyc : ∀ a, ¬ Relation.TransGen (s.notifier k) a a)
    (hsrc : s.svcs[src]? = some vs) (hobs : s.svcs[obsrv]? = some o)
    (hpoll : o.notif k = some poll) (hroom : notif_get_poll_cnt poll < poll.nr) :
    ∃ F, ∀ fuel, F ≤ fuel → ∃ t, svc_register_obsrv k fuel s src obsrv = some t ∧
      (t = s ↔ Relation.ReflTransGen (s.notifier k) obsrv src) ∧
      (¬ Relation.ReflTransGen (s.notifier k) obsrv src →
        t.svcs[src]? = some (vs.push_obsrv k obsrv) ∧
        (vs.push_obsrv k obsrv).obsrv k = vs.obsrv k ++ [obsrv] ∧
        t.svcs[obsrv]? = some (o.set_notif k (poll.push src)) ∧
        (o.set_notif k (poll.push src)).srcs k = poll.srcs ++ [src] ∧
        notif_get_poll_cnt (poll.push src) = notif_get_poll_cnt poll + 1 ∧
        (∀ j, j ≠ src → j ≠ obsrv → t.svcs[j]? = s.svcs[j]?) ∧
        (∀ k2 x y, t.notifier k2 x y ↔
          s.notifier k2 x y ∨ (k2 = k ∧ x = src ∧ y = obsrv))) := by
  obtain ⟨r, hr⟩ := acyclic_ranked s k hacyc
  refine ⟨r src + 1, ?_⟩
  intro fuel hfuel
  obtain ⟨b, hb⟩ := svc_has_notifier_returns k s r hr obsrv fuel src (by omega)
  unfold svc_register_obsrv
  simp only [hsrc, hobs, hpoll, hb]
  cases b with
  | true =>
    have hreach := svc_has_notifier_true k s fuel src obsrv hb
    exact ⟨s, rfl, ⟨fun _ => hreach, fun _ => rfl⟩, fun h => absurd hreach h⟩
  | false =>
    have hno := svc_has_notifier_false k s fuel src obsrv hb
    have hne : src ≠ obsrv := by
      intro h
      apply hno
      rw [h]
    simp only [if_pos hroom]
    have hgo : (notif_register_poll_sink k s obsrv src poll).svcs[obsrv]? =
        some (o.set_notif k (poll.push src)) := by
      unfold notif_register_poll_sink
      rw [get_upd_ne _ _ _ _ hne, get_upd_self, hobs]
      rfl
    have hgs : (notif_register_poll_sink k s obsrv src poll).svcs[src]? =
        some (vs.push_obsrv k obsrv) := by
      unfold notif_register_poll_sink
      rw [get_upd_self, get_upd_ne _ _ _ _ (Ne.symm hne), hsrc]
      rfl
    have hsrcs : (o.set_notif k (poll.push src)).srcs k = poll.srcs ++ [src] := by
      rw [srcs_set_notif]
      simp [notif_poll.push]
    refine ⟨_, rfl, ⟨fun h => ?_, fun h => absurd h hno⟩, fun _ => ⟨hgs, ?_, hgo, hsrcs, ?_, ?_, ?_⟩⟩
    · exfalso
      rw [h, hobs] at hgo
      have h1 := congrArg (fun w => (w.map (fun u => (u.srcs k).length))) hgo
      simp only [Option.map_some', hsrcs, Option.some.injEq, List.length_append,
        List.length_singleton] at h1
      have h2 : o.srcs k = poll.srcs := by simp [svc.srcs, hpoll]
      rw [h2] at h1
      omega
    · cases k <;> rfl
    · simp [notif_get_poll_cnt, notif_poll.push]
    · intro j hj1 hj2
      unfold notif_register_poll_sink
      rw [get_upd_ne _ _ _ _ (Ne.symm hj1), get_upd_ne _ _ _ _ (Ne.symm hj2)]
    · intro k2 x y
      constructor
      · exact notifier_register k k2 s obsrv src o poll hobs hpoll x y
      · rintro (h | ⟨h1, h2, h3⟩)
        · exact notifier_register_old k k2 s obsrv src o poll hobs hpoll x y h
        · subst h1; subst h2; subst h3
          exact notifier_register_new k2 s y x o poll hobs

/-- C23 on the two services of `demo_chain_base`: "b" (index 1) is registered
as the starton notifier of "a" (index 0), which has no notifier yet: "a" is
queued in the observer list of "b". -/
theorem register_obsrv_effect_witness :
    ∃ F, ∀ fuel, F ≤ fuel → ∃ t, svc_register_obsrv .starton fuel demo_chain_base 1 0 = some t ∧
      t.svcs[1]? = some demo_chain_b := by
  have hno : ∀ a b, ¬ demo_chain_base.notifier .starton a b := by
    intro a b ⟨v, hv, ha⟩
    have hmem : v ∈ demo_chain_base.svcs := List.mem_iff_getElem?.2 ⟨_, hv⟩
    simp only [demo_chain_base, List.mem_cons, List.mem_singleton, List.not_mem_nil,
      or_false] at hmem
    rcases hmem with rfl | rfl <;> simp [svc.srcs, svc.notif, svc_init, demo_conf] at ha
  have hnt : ∀ a b, ¬ Relation.TransGen (demo_chain_base.notifier .starton) a b := by
    intro a b h
    obtain ⟨c, hc, _⟩ := Relation.TransGen.head'_iff.1 h
    exact hno a c hc
  obtain ⟨F, hF⟩ := register_obsrv_effect .starton demo_chain_base 1 0
    (svc_init (demo_conf "b" 0 true 0) 0 0)
    (svc_init { demo_conf "a" 1 true 0 with starton := some ["b"] } 0 0)
    { nr := 1, srcs := [] } (fun a => hnt a a) rfl rfl rfl (by decide)
  refine ⟨F, fun fuel hfuel => ?_⟩
  obtain ⟨t, ht, _, h2⟩ := hF fuel hfuel
  refine ⟨t, ht, ?_⟩
  have hnr : ¬ Relation.ReflTransGen (demo_chain_base.notifier .starton) 0 1 := by
    intro h
    rcases Relation.reflTransGen_iff_eq_or_transGen.1 h with h | h
    · exact absurd h (by decide)
    · exact hnt 0 1 h
  exact (h2 hnr).1

theorem notif_push_obsrv (v : svc) (k k2 : notif_kind) (x : Nat) :
    (v.push_obsrv k x).notif k2 = v.notif k2 := by
  cases k <;> cases k2 <;> rfl

theorem notif_set_notif (v : svc) (k k2 : notif_kind) (poll : notif_poll) :
    (v.set_notif k poll).notif k2 = if k2 = k then some poll else v.notif k2 := by
  cases k <;> cases k2 <;> simp [svc.set_notif, svc.notif]

theorem srcs_of_notif (v : svc) (k : notif_kind) (poll : notif_poll) (h : v.notif k = some poll) :
    v.srcs k = poll.srcs := by
  simp [svc.srcs, h]

/-- The poll of a kind of a service after a registration. -/
theorem register_notif (k k2 : notif_kind) (s : sys) (obsrv src j : Nat) (poll : notif_poll)
    (v : svc) (hv : s.svcs[j]? = some v) :
    ∃ w, (notif_register_poll_sink k s obsrv src poll).svcs[j]? = some w ∧
      w.notif k2 = if obsrv = j ∧ k2 = k then some (poll.push src) else v.notif k2 := by
  unfold notif_register_poll_sink
  rw [get_upd, get_upd, hv]
  refine ⟨_, rfl, ?_⟩
  have h1 : ∀ w : svc, (if src = j then w.push_obsrv k obsrv else w).notif k2 = w.notif k2 := by
    intro w
    split
    · exact notif_push_obsrv w k k2 obsrv
    · rfl
  rw [h1]
  by_cases hoj : obsrv = j
  · simp only [hoj, if_true, true_and]
    exact notif_set_notif v k k2 _
  · simp only [hoj, if_false, false_and]

theorem register_none (k : notif_kind) (s : sys) (obsrv src j : Nat) (poll : notif_poll)
    (hv : s.svcs[j]? = none) :
    (notif_register_poll_sink k s obsrv src poll).svcs[j]? = none := by
  unfold notif_register_poll_sink
  rw [get_upd, get_upd, hv]
  rfl

theorem register_cap (k : notif_kind) (s : sys) (obsrv src : Nat) (o : svc) (poll : notif_poll)
    (ho : s.svcs[obsrv]? = some o) (hp : o.notif k = some poll) (j : Nat) (k2 : notif_kind) :
    (notif_register_poll_sink k s obsrv src poll).cap j k2 = s.cap j k2 := by
  unfold sys.cap
  cases hv : s.svcs[j]? with
  | none => rw [register_none k s obsrv src j poll hv]
  | some v =>
    obtain ⟨w, hw, hn⟩ := register_notif k k2 s obsrv src j poll v hv
    rw [hw]
    simp only [Option.some_bind, hn]
    by_cases hc : obsrv = j ∧ k2 = k
    · rw [if_pos hc]
      obtain ⟨h1, h2⟩ := hc
      subst h1; subst h2
      rw [ho] at hv
      cases hv
      rw [hp]
      rfl
    · rw [if_neg hc]

theorem register_cnt (k : notif_kind) (s : sys) (obsrv src : Nat) (o : svc) (poll : notif_poll)
    (ho : s.svcs[obsrv]? = some o) (hp : o.notif k = some poll) (j : Nat) (k2 : notif_kind) :
    (notif_register_poll_sink k s obsrv src poll).cnt j k2 =
      if obsrv = j ∧ k2 = k then s.cnt j k2 + 1 else s.cnt j k2 := by
  unfold sys.cnt
  cases hv : s.svcs[j]? with
  | none =>
    rw [register_none k s obsrv src j poll hv]
    have hne : ¬ (obsrv = j ∧ k2 = k) := by
      rintro ⟨h1, _⟩
      subst h1
      rw [ho] at hv
      cases hv
    rw [if_neg hne]
  | some v =>
    obtain ⟨w, hw, hn⟩ := register_notif k k2 s obsrv src j poll v hv
    rw [hw]
    simp only [Option.map_some', Option.getD_some]
    by_cases hc : obsrv = j ∧ k2 = k
    · rw [if_pos hc] at hn
      rw [if_pos hc, srcs_of_notif w k2 _ hn]
      obtain ⟨h1, h2⟩ := hc
      subst h1; subst h2
      rw [ho] at hv
      cases hv
      rw [srcs_of_notif o k2 poll hp]
      simp [notif_poll.push]
    · rw [if_neg hc] at hn
      rw [if_neg hc]
      simp only [svc.srcs, hn]

/-- One registration of the wiring pass: on a wiring built by registrations,
with a free member in the poll of the observer, the registration returns with
enough fuel. -/
theorem register_fit (k : notif_kind) (s : sys) (src obsrv : Nat) (vs : svc) (c : Nat)
    (hw : wired s) (hs : s.svcs[src]? = some vs) (hcap : s.cap obsrv k = some c)
    (hroom : s.cnt obsrv k < c) :
    ∃ t, (∃ F, ∀ fuel, F ≤ fuel → svc_register_obsrv k fuel s src obsrv = some t) ∧ wired t ∧
      t.svcs.map svc.conf = s.svcs.map svc.conf ∧ (∀ j k2, t.cap j k2 = s.cap j k2) ∧
      t.cnt obsrv k ≤ s.cnt obsrv k + 1 ∧
      (∀ j k2, (j ≠ obsrv ∨ k2 ≠ k) → t.cnt j k2 = s.cnt j k2) := by
  cases ho : s.svcs[obsrv]? with
  | none => simp [sys.cap, ho] at hcap
  | some o =>
    cases hp : o.notif k with
    | none => simp [sys.cap, ho, hp] at hcap
    | some poll =>
      have hnr : poll.nr = c := by simpa [sys.cap, ho, hp] using hcap
      have hcnt : s.cnt obsrv k = notif_get_poll_cnt poll := by
        simp [sys.cnt, ho, srcs_of_notif o k poll hp, notif_get_poll_cnt]
      obtain ⟨F, b, hb⟩ := svc_has_notifier_terminates s hw k src obsrv
      have hreg : ∀ fuel, F ≤ fuel → svc_register_obsrv k fuel s src obsrv =
          some (if b then s else notif_register_poll_sink k s obsrv src poll) := by
        intro fuel hfuel
        have h1 := hb (fuel - F)
        rw [show F + (fuel - F) = fuel by omega] at h1
        unfold svc_register_obsrv
        simp only [hs, ho, hp, h1]
        cases b with
        | true => rfl
        | false =>
          simp only [Bool.false_eq_true, if_false]
          rw [if_pos (by omega)]
      refine ⟨_, ⟨F, hreg⟩, ?_, ?_⟩
      · cases k with
        | starton => exact wired.starton s _ F src obsrv hw (hreg F (le_refl _))
        | stopon => exact wired.stopon s _ F src obsrv hw (hreg F (le_refl _))
      · cases b with
        | true =>
          rw [if_pos rfl]
          exact ⟨rfl, fun _ _ => rfl, by omega, fun _ _ _ => rfl⟩
        | false =>
          simp only [Bool.false_eq_true, if_false]
          refine ⟨register_conf k F s _ src obsrv (hreg F (le_refl _)),
            register_cap k s obsrv src o poll ho hp, ?_, ?_⟩
          · rw [register_cnt k s obsrv src o poll ho hp, if_pos ⟨rfl, rfl⟩]
          · intro j k2 hne
            rw [register_cnt k s obsrv src o poll ho hp, if_neg]
            rintro ⟨h1, h2⟩
            rcases hne with h | h
            · exact h h1.symm
            · exact h h2

/-- The loop over the names of one list: with room in the poll for every name
of the list, each registration finds a free member, and the loop returns. -/
theorem setup_names_fit (k : notif_kind) (i : Nat) (c : Nat) :
    ∀ (names : List String) (s : sys), wired s → s.cap i k = some c →
      s.cnt i k + names.length ≤ c →
      ∃ t, (∃ F, ∀ fuel, F ≤ fuel → tinit_repo_setup_svc_names k fuel i names s = some t) ∧
        wired t ∧ t.svcs.map svc.conf = s.svcs.map svc.conf ∧
        (∀ j k2, t.cap j k2 = s.cap j k2) ∧ t.cnt i k ≤ c ∧
        (∀ j k2, (j ≠ i ∨ k2 ≠ k) → t.cnt j k2 = s.cnt j k2) := by
  intro names
  induction names with
  | nil =>
    intro s hw hcap hroom
    exact ⟨s, ⟨0, fun _ _ => rfl⟩, hw, rfl, fun _ _ => rfl, by simpa using hroom,
      fun _ _ _ => rfl⟩
  | cons name names ih =>
    intro s hw hcap hroom
    simp only [List.length_cons] at hroom
    cases hsearch : tinit_repo_search_byname s name with
    | none =>
      obtain ⟨t, ⟨F, hF⟩, h1, h2, h3, h4, h5⟩ := ih s hw hcap (by omega)
      refine ⟨t, ⟨F, fun fuel hfuel => ?_⟩, h1, h2, h3, h4, h5⟩
      unfold tinit_repo_setup_svc_names
      rw [hsearch]
      exact hF fuel hfuel
    | some notif =>
      obtain ⟨vs, hvs⟩ := search_byname_some hsearch
      obtain ⟨s1, ⟨F1, hF1⟩, hw1, hc1, hcap1, hcnt1, hoth1⟩ :=
        register_fit k s notif i vs c hw hvs hcap (by omega)
      obtain ⟨t, ⟨F2, hF2⟩, h1, h2, h3, h4, h5⟩ :=
        ih s1 hw1 ((hcap1 i k).trans hcap) (by omega)
      refine ⟨t, ⟨max F1 F2, fun fuel hfuel => ?_⟩, h1, h2.trans hc1,
        fun j k2 => (h3 j k2).trans (hcap1 j k2), h4,
        fun j k2 hne => (h5 j k2 hne).trans (hoth1 j k2 hne)⟩
      unfold tinit_repo_setup_svc_names
      rw [hsearch]
      simp only [hF1 fuel (le_trans (le_max_left _ _) hfuel)]
      exact hF2 fuel (le_trans (le_max_right _ _) hfuel)

theorem conf_get_of_map {s t : sys} (h : t.svcs.map svc.conf = s.svcs.map svc.conf) (j : Nat)
    (w : svc) (hw : t.svcs[j]? = some w) : ∃ v, s.svcs[j]? = some v ∧ v.conf = w.conf := by
  have h1 : (t.svcs[j]?).map svc.conf = (s.svcs[j]?).map svc.conf := by
    rw [← List.getElem?_map, ← List.getElem?_map, h]
  rw [hw] at h1
  cases hv : s.svcs[j]? with
  | none => rw [hv] at h1; cases h1
  | some v =>
    rw [hv] at h1
    simp only [Option.map_some', Option.some.injEq] at h1
    exact ⟨v, rfl, h1.symm⟩

/-- The shape and the bound are kept by a change that leaves the descriptors
and the capacities as they are, and keeps the poll it fills within its
capacity. -/
theorem fit_step {s t : sys} (i : Nat) (k : notif_kind) (hsh : s.shaped) (hb : s.bounded)
    (hconf : t.svcs.map svc.conf = s.svcs.map svc.conf) (hcap : ∀ j k2, t.cap j k2 = s.cap j k2)
    (hcnt : ∀ c, s.cap i k = some c → t.cnt i k ≤ c)
    (hoth : ∀ j k2, (j ≠ i ∨ k2 ≠ k) → t.cnt j k2 = s.cnt j k2) : t.shaped ∧ t.bounded := by
  constructor
  · intro j w k2 hw
    obtain ⟨v, hv, hvc⟩ := conf_get_of_map hconf j w hw
    rw [hcap, hsh j v k2 hv, hvc]
  · intro j k2 c hc
    rw [hcap] at hc
    by_cases h : j = i ∧ k2 = k
    · obtain ⟨h1, h2⟩ := h
      subst h1; subst h2
      exact hcnt c hc
    · rw [hoth j k2 (by tauto)]
      exact hb j k2 c hc

/-- The wiring of one list of one service. -/
theorem setup_kind_fit (k : notif_kind) (i : Nat) (s : sys) (v : svc) (names : List String)
    (hw : wired s) (hsh : s.shaped) (hb : s.bounded) (hfresh : s.cnt i k = 0)
    (hv : s.svcs[i]? = some v) (hn : v.conf.names k = some names) :
    ∃ t, (∃ F, ∀ fuel, F ≤ fuel → tinit_repo_setup_svc_names k fuel i names s = some t) ∧
      wired t ∧ t.shaped ∧ t.bounded ∧
      (∀ j k2, (j ≠ i ∨ k2 ≠ k) → t.cnt j k2 = s.cnt j k2) := by
  have hcap : s.cap i k = some names.length := by
    rw [hsh i v k hv, hn]
    rfl
  obtain ⟨t, hF, h1, h2, h3, h4, h5⟩ :=
    setup_names_fit k i names.length names s hw hcap (by omega)
  have h6 := fit_step i k hsh hb h2 h3
    (fun c hc => by rw [hcap] at hc; cases hc; exact h4) h5
  exact ⟨t, hF, h1, h6.1, h6.2, h5⟩

theorem setup_svc_starton_fit (i : Nat) (s : sys) (hw : wired s) (hsh : s.shaped)
    (hb : s.bounded) (hfresh : s.cnt i .starton = 0) :
    ∃ t, (∃ F, ∀ fuel, F ≤ fuel → tinit_repo_setup_svc_starton fuel s i = some t) ∧
      wired t ∧ t.shaped ∧ t.bounded ∧
      (∀ j k2, (j ≠ i ∨ k2 ≠ .starton) → t.cnt j k2 = s.cnt j k2) := by
  cases hv : s.svcs[i]? with
  | none =>
    refine ⟨s, ⟨0, fun fuel _ => ?_⟩, hw, hsh, hb, fun _ _ _ => rfl⟩
    unfold tinit_repo_setup_svc_starton
    rw [hv]
  | some v =>
    cases hn : v.conf.starton with
    | none =>
      refine ⟨s, ⟨0, fun fuel _ => ?_⟩, hw, hsh, hb, fun _ _ _ => rfl⟩
      unfold tinit_repo_setup_svc_starton
      rw [hv]
      simp only [hn]
    | some names =>
      obtain ⟨t, ⟨F, hF⟩, h⟩ := setup_kind_fit .starton i s v names hw hsh hb hfresh hv hn
      refine ⟨t, ⟨F, fun fuel hfuel => ?_⟩, h⟩
      unfold tinit_repo_setup_svc_starton
      rw [hv]
      simp only [hn]
      exact hF fuel hfuel

theorem setup_svc_stopon_fit (i : Nat) (s : sys) (hw : wired s) (hsh : s.shaped)
    (hb : s.bounded) (hfresh : s.cnt i .stopon = 0) :
    ∃ t, (∃ F, ∀ fuel, F ≤ fuel → tinit_repo_setup_svc_stopon fuel s i = some t) ∧
      wired t ∧ t.shaped ∧ t.bounded ∧
      (∀ j k2, (j ≠ i ∨ k2 ≠ .stopon) → t.cnt j k2 = s.cnt j k2) := by
  cases hv : s.svcs[i]? with
  | none =>
    refine ⟨s, ⟨0, fun fuel _ => ?_⟩, hw, hsh, hb, fun _ _ _ => rfl⟩
    unfold tinit_repo_setup_svc_stopon
    rw [hv]
  | some v =>
    cases hn : v.conf.stopon with
    | none =>
      refine ⟨s, ⟨0, fun fuel _ => ?_⟩, hw, hsh, hb, fun _ _ _ => rfl⟩
      unfold tinit_repo_setup_svc_stopon
      rw [hv]
      simp only [hn]
    | some names =>
      obtain ⟨t, ⟨F, hF⟩, h⟩ := setup_kind_fit .stopon i s v names hw hsh hb hfresh hv hn
      refine ⟨t, ⟨F, fun fuel hfuel => ?_⟩, h⟩
      unfold tinit_repo_setup_svc_stopon
      rw [hv]
      simp only [hn]
      exact hF fuel hfuel

/-- The wiring pass over services whose polls are still empty. -/
theorem wire_fit : ∀ (l : List Nat) (s : sys), l.Nodup → wired s → s.shaped → s.bounded →
    (∀ j ∈ l, ∀ k, s.cnt j k = 0) →
    ∃ t, (∃ F, ∀ fuel, F ≤ fuel → tinit_repo_load_wire fuel l s = some t) ∧
      wired t ∧ t.shaped ∧ t.bounded := by
  intro l
  induction l with
  | nil =>
    intro s _ hw hsh hb _
    exact ⟨s, ⟨0, fun _ _ => rfl⟩, hw, hsh, hb⟩
  | cons i l ih =>
    intro s hnd hw hsh hb hfresh
    obtain ⟨hil, hnd2⟩ := List.nodup_cons.1 hnd
    obtain ⟨s1, ⟨F1, hF1⟩, hw1, hsh1, hb1, hoth1⟩ :=
      setup_svc_starton_fit i s hw hsh hb (hfresh i (List.mem_cons_self _ _) .starton)
    obtain ⟨s2, ⟨F2, hF2⟩, hw2, hsh2, hb2, hoth2⟩ :=
      setup_svc_stopon_fit i s1 hw1 hsh1 hb1
        ((hoth1 i .stopon (Or.inr (by decide))).trans
          (hfresh i (List.mem_cons_self _ _) .stopon))
    obtain ⟨t, ⟨F3, hF3⟩, h⟩ := ih s2 hnd2 hw2 hsh2 hb2 (by
      intro j hj k
      have hji : j ≠ i := fun h => hil (h ▸ hj)
      rw [hoth2 j k (Or.inl hji), hoth1 j k (Or.inl hji)]
      exact hfresh j (List.mem_cons_of_mem _ hj) k)
    refine ⟨t, ⟨max F1 (max F2 F3), fun fuel hfuel => ?_⟩, h⟩
    have hf1 : F1 ≤ fuel := le_trans (le_max_left _ _) hfuel
    have hf2 : F2 ≤ fuel := le_trans (le_trans (le_max_left _ _) (le_max_right _ _)) hfuel
    have hf3 : F3 ≤ fuel := le_trans (le_trans (le_max_right _ _) (le_max_right _ _)) hfuel
    unfold tinit_repo_load_wire
    simp only [hF1 fuel hf1, hF2 fuel hf2]
    exact hF3 fuel hf3

/-- Every service of the list built by the first loop of `tinit_repo_load` is
as `svc_create` leaves it. -/
theorem load_fold_created (parse : String → Option conf_svc) (junk : Nat → Nat × Int)
    (ents : List dirent) :
    ∀ repo : List svc, (∀ v ∈ repo, ∃ conf jk, v = svc_create conf jk) →
      ∀ v ∈ ents.foldl (tinit_repo_load_svc parse junk) repo, ∃ conf jk, v = svc_create conf jk := by
  induction ents with
  | nil => intro repo h; exact h
  | cons ent ents ih =>
    intro repo h
    rw [List.foldl_cons]
    apply ih
    intro v hv
    unfold tinit_repo_load_svc at hv
    split at hv
    · exact h v hv
    · split at hv
      · exact h v hv
      · split at hv
        · exact h v hv
        · split at hv
          · exact h v hv
          · rcases List.mem_append.1 hv with h1 | h1
            · exact h v h1
            · rw [List.mem_singleton] at h1
              exact ⟨_, _, h1⟩

/-- A repository of services as `svc_create` leaves them: no registered edge,
polls of the capacity of the lists, all empty. -/
theorem created_fit (s : sys) (h : ∀ v ∈ s.svcs, ∃ conf jk, v = svc_create conf jk) :
    wired s ∧ s.shaped ∧ s.bounded ∧ ∀ j k, s.cnt j k = 0 := by
  have hcnt : ∀ j k, s.cnt j k = 0 := by
    intro j k
    unfold sys.cnt
    cases hv : s.svcs[j]? with
    | none => rfl
    | some v =>
      obtain ⟨conf, jk, hc⟩ := h v (List.mem_iff_getElem?.2 ⟨_, hv⟩)
      subst hc
      cases k <;> cases h1 : conf.starton <;> cases h2 : conf.stopon <;>
        simp [svc_create, svc_init, svc.srcs, svc.notif, h1, h2]
  refine ⟨wired.init s ?_, ?_, ?_, hcnt⟩
  · intro v hv k
    obtain ⟨conf, jk, hc⟩ := h v hv
    subst hc
    cases k <;> cases h1 : conf.starton <;> cases h2 : conf.stopon <;>
      simp [svc_create, svc_init, svc.srcs, svc.notif, svc.obsrv, h1, h2]
  · intro j v k hv
    obtain ⟨conf, jk, hc⟩ := h v (List.mem_iff_getElem?.2 ⟨_, hv⟩)
    subst hc
    unfold sys.cap
    rw [hv]
    cases k <;> cases h1 : conf.starton <;> cases h2 : conf.stopon <;>
      simp [svc_create, svc_init, svc.notif, conf_svc.names, h1, h2]
  · intro j k c _
    rw [hcnt]
    exact Nat.zero_le _

/-- C29: whatever the directory holds, the load of the repository returns with
enough fuel for the cycle searches: no registration of the wiring pass finds
its poll full (a registration that does has no value and makes the load return
none).  After the load every poll has the capacity `nr` of the number of names
of its starton or stopon list, and a count that is at most `nr`. -/
theorem wiring_within_capacity (parse : String → Option conf_svc) (junk : Nat → Nat × Int)
    (ents : List dirent) :
    ∃ t, (∃ F, ∀ fuel, F ≤ fuel → tinit_repo_load parse junk fuel ents = some t) ∧
      ∀ (j : Nat) (v : svc) (k : notif_kind) (poll : notif_poll),
        t.svcs[j]? = some v → v.notif k = some poll →
          notif_get_poll_cnt poll ≤ poll.nr ∧
          (v.conf.names k).map List.length = some poll.nr := by
  obtain ⟨hw, hsh, hb, hcnt⟩ := created_fit
    { svcs := ents.foldl (tinit_repo_load_svc parse junk) [], nfork := 0, nkill := 0, log := [] }
    (load_fold_created parse junk ents [] (by simp))
  obtain ⟨t, hF, _, hsh2, hb2⟩ := wire_fit
    (List.range (ents.foldl (tinit_repo_load_svc parse junk) []).length) _
    (List.nodup_range _) hw hsh hb (fun j _ k => hcnt j k)
  refine ⟨t, hF, ?_⟩
  intro j v k poll hv hp
  have hcap : t.cap j k = some poll.nr := by
    simp [sys.cap, hv, hp]
  have h1 := hb2 j k poll.nr hcap
  have h2 := hsh2 j v k hv
  rw [hcap] at h2
  refine ⟨?_, h2.symm⟩
  simpa [sys.cnt, hv, srcs_of_notif v k poll hp, notif_get_poll_cnt] using h1

theorem wiring_of_frame {s t : sys} (h : t.svcs.map svc.frame = s.svcs.map svc.frame) :
    t.svcs.map svc.wiring = s.svcs.map svc.wiring := by
  have h1 : svc.wiring = (fun p : conf_svc × Option notif_poll × Option notif_poll × List Nat ×
      List Nat × handlers × handlers × Bool => (p.2.1, p.2.2.1, p.2.2.2.1, p.2.2.2.2.1)) ∘
      svc.frame := rfl
  rw [h1, ← List.map_map, ← List.map_map, h]

theorem wiring_upd (s : sys) (i : Nat) (f : svc → svc) (hf : ∀ w, (f w).wiring = w.wiring) :
    (s.upd i f).svcs.map svc.wiring = s.svcs.map svc.wiring := by
  apply List.ext_getElem?
  intro j
  rw [List.getElem?_map, List.getElem?_map, get_upd]
  cases s.svcs[j]? with
  | none => rfl
  | some u =>
    simp only [Option.map_some', Option.some.injEq]
    split
    · exact hf u
    · rfl

theorem wiring_get {s g : sys} (h : s.svcs.map svc.wiring = g.svcs.map svc.wiring) (j : Nat)
    (v : svc) (hv : s.svcs[j]? = some v) : ∃ vg, g.svcs[j]? = some vg ∧ vg.wiring = v.wiring := by
  have h1 : (s.svcs[j]?).map svc.wiring = (g.svcs[j]?).map svc.wiring := by
    rw [← List.getElem?_map, ← List.getElem?_map, h]
  rw [hv] at h1
  cases hg : g.svcs[j]? with
  | none => rw [hg] at h1; cases h1
  | some vg =>
    rw [hg] at h1
    simp only [Option.map_some', Option.some.injEq] at h1
    exact ⟨vg, rfl, h1.symm⟩

theorem obsrv_of_wiring {v w : svc} (h : v.wiring = w.wiring) (k : notif_kind) :
    v.obsrv k = w.obsrv k := by
  simp only [svc.wiring, Prod.mk.injEq] at h
  cases k
  · exact h.2.2.1
  · exact h.2.2.2

theorem notifies_only_nil (P : Nat → Prop) : notifies_only P [] := by
  intro a ha
  cases ha

theorem notifies_only_append {P : Nat → Prop} {l1 l2 : List action}
    (h1 : notifies_only P l1) (h2 : notifies_only P l2) : notifies_only P (l1 ++ l2) := by
  intro a ha
  rcases List.mem_append.1 ha with h | h
  · exact h1 a h
  · exact h2 a h

theorem notifies_only_mono {P Q : Nat → Prop} {l : List action} (hpq : ∀ y, P y → Q y)
    (h : notifies_only P l) : notifies_only Q l := by
  intro a ha
  exact ⟨(h a ha).1, fun sink src hs => hpq _ ((h a ha).2 sink src hs)⟩

theorem notifies_only_notify {P : Nat → Prop} {j src : Nat} (h : P j) :
    notifies_only P [.notify j src] := by
  intro a ha
  rw [List.mem_singleton] at ha
  subst ha
  refine ⟨by simp, ?_⟩
  intro sink src2 hs
  cases hs
  exact h

theorem want_keeps (k : notif_kind) : k.want = .STOPPED ∨ k.want = .READY := by
  cases k
  · exact Or.inr rfl
  · exact Or.inl rfl

/-- The loop of `svc_mark_ready` and `svc_mark_stopped` over the observers. -/
theorem fold_quiet (e : env) (g : sys) (k : notif_kind) (r : Nat → Nat) (R fuel : Nat)
    (hr : ∀ x y, g.notifier k x y → r x < r y) (hR : ∀ x y, g.notifier k x y → r y ≤ R)
    (ih : cascade_ok e g k r R fuel) (i : Nat) (w : svc) (hws : w.state = k.want)
    (hfuel : R - r i < fuel + 1) :
    ∀ (sinks : List Nat) (acc : sys), (∀ y ∈ sinks, g.notifier k i y) →
      acc.svcs.map svc.wiring = g.svcs.map svc.wiring → acc.svcs[i]? = some w →
      ∃ l, (sinks.foldl (fun a y => svc_handle_notif e fuel a y i) acc).log = l ++ acc.log ∧
        notifies_only (Relation.TransGen (g.notifier k) i) l := by
  intro sinks
  induction sinks with
  | nil =>
    intro acc _ _ _
    exact ⟨[], rfl, notifies_only_nil _⟩
  | cons y ys ihs =>
    intro acc hedge hwir hacc
    have hy := hedge y (List.mem_cons_self _ _)
    have h1 := hr i y hy
    have h2 := hR i y hy
    obtain ⟨l1, hq1, hl1⟩ := ih acc y i hwir (by simp [sys.state_of, hacc, hws]) (by omega)
    have hc := svc_handle_notif_casc false e fuel acc y i
    have hwir1 := (wiring_of_frame (casc_frame hc)).trans hwir
    have hacc1 := casc_keeps hc i w hacc (hws ▸ want_keeps k)
    obtain ⟨l2, hl2, hq2⟩ := ihs _ (fun z hz => hedge z (List.mem_cons_of_mem _ hz)) hwir1 hacc1
    have hq1i : notifies_only (Relation.TransGen (g.notifier k) i) l1 :=
      notifies_only_mono (fun z hz => Relation.TransGen.head hy hz) hq1
    rw [List.foldl_cons, hl2]
    rcases hl1 with hl1 | ⟨hl1, _⟩
    · refine ⟨l2 ++ (l1 ++ [.notify y i]), by rw [hl1]; simp, ?_⟩
      exact notifies_only_append hq2 (notifies_only_append hq1i
        (notifies_only_notify (Relation.TransGen.single hy)))
    · exact ⟨l2, by rw [hl1], hq2⟩

/-- The edges out of a service, read from its observer list. -/
theorem obsrv_edges {s g : sys} (hl : g.linked)
    (hwir : s.svcs.map svc.wiring = g.svcs.map svc.wiring) (k : notif_kind) (i : Nat) (v : svc)
    (hv : s.svcs[i]? = some v) : ∀ y ∈ v.obsrv k, g.notifier k i y := by
  intro y hy
  obtain ⟨vg, hvg, hwg⟩ := wiring_get hwir i v hv
  rw [← obsrv_of_wiring hwg k] at hy
  exact hl k i y vg hvg hy

theorem mark_ready_quiet (e : env) (g : sys) (r : Nat → Nat) (R fuel : Nat) (hl : g.linked)
    (hr : ∀ x y, g.notifier .starton x y → r x < r y)
    (hR : ∀ x y, g.notifier .starton x y → r y ≤ R)
    (ih : cascade_ok e g .starton r R fuel) (s : sys) (i : Nat)
    (hwir : s.svcs.map svc.wiring = g.svcs.map svc.wiring) (hfuel : R - r i < fuel + 1) :
    ∃ l, (svc_mark_ready (svc_handle_notif e fuel) s i).log = l ++ s.log ∧
      notifies_only (Relation.TransGen (g.notifier .starton) i) l := by
  unfold svc_mark_ready
  cases hv : s.svcs[i]? with
  | none => exact ⟨[], rfl, notifies_only_nil _⟩
  | some v =>
    simp only []
    obtain ⟨l, hl1, hq⟩ := fold_quiet e g .starton r R fuel hr hR ih i { v with state := .READY }
      rfl hfuel v.starton_obsrv ((s.upd i (fun w => { w with state := .READY })).emit (.ready i))
      (obsrv_edges hl hwir .starton i v hv)
      ((wiring_upd s i (fun w => { w with state := .READY }) (fun _ => rfl)).trans hwir)
      (by rw [svcs_emit, get_upd_self, hv]; rfl)
    refine ⟨l ++ [.ready i], by rw [hl1]; simp [sys.emit, sys.upd], ?_⟩
    refine notifies_only_append hq ?_
    intro a ha
    rw [List.mem_singleton] at ha
    subst ha
    exact ⟨by simp, fun _ _ h => by cases h⟩

theorem mark_stopped_quiet (e : env) (g : sys) (r : Nat → Nat) (R fuel : Nat) (hl : g.linked)
    (hr : ∀ x y, g.notifier .stopon x y → r x < r y)
    (hR : ∀ x y, g.notifier .stopon x y → r y ≤ R)
    (ih : cascade_ok e g .stopon r R fuel) (s : sys) (i : Nat)
    (hwir : s.svcs.map svc.wiring = g.svcs.map svc.wiring) (hfuel : R - r i < fuel + 1) :
    ∃ l, (svc_mark_stopped (svc_handle_notif e fuel) s i).log = l ++ s.log ∧
      notifies_only (Relation.TransGen (g.notifier .stopon) i) l := by
  unfold svc_mark_stopped
  cases hv : s.svcs[i]? with
  | none => exact ⟨[], rfl, notifies_only_nil _⟩
  | some v =>
    simp only []
    obtain ⟨l, hl1, hq⟩ := fold_quiet e g .stopon r R fuel hr hR ih i
      { v with child := -1, state := .STOPPED }
      rfl hfuel v.stopon_obsrv
      ((s.upd i (fun w => { w with child := -1, state := .STOPPED })).emit (.stopped i))
      (obsrv_edges hl hwir .stopon i v hv)
      ((wiring_upd s i (fun w => { w with child := -1, state := .STOPPED })
        (fun _ => rfl)).trans hwir)
      (by rw [svcs_emit, get_upd_self, hv]; rfl)
    refine ⟨l ++ [.stopped i], by rw [hl1]; simp [sys.emit, sys.upd], ?_⟩
    refine notifies_only_append hq ?_
    intro a ha
    rw [List.mem_singleton] at ha
    subst ha
    exact ⟨by simp, fun _ _ h => by cases h⟩

theorem notifies_only_plain (P : Nat → Prop) (l : List action)
    (h : ∀ a ∈ l, a ≠ .fuel_out ∧ ∀ sink src, a ≠ .notify sink src) : notifies_only P l := by
  intro a ha
  exact ⟨(h a ha).1, fun sink src hs => absurd hs ((h a ha).2 sink src)⟩

theorem spawn_start_cmd_quiet (e : env) (g : sys) (r : Nat → Nat) (R fuel : Nat)
    (hl : g.linked) (hr : ∀ x y, g.notifier .starton x y → r x < r y)
    (hR : ∀ x y, g.notifier .starton x y → r y ≤ R)
    (ih : cascade_ok e g .starton r R fuel) (s : sys) (i : Nat)
    (hwir : s.svcs.map svc.wiring = g.svcs.map svc.wiring) (hfuel : R - r i < fuel + 1) :
    ∃ l, (svc_spawn_start_cmd (svc_handle_notif e fuel) e s i).log = l ++ s.log ∧
      notifies_only (Relation.TransGen (g.notifier .starton) i) l := by
  cases hv : s.svcs[i]? with
  | none =>
    unfold svc_spawn_start_cmd
    rw [hv]
    exact ⟨[], rfl, notifies_only_nil _⟩
  | some v =>
    by_cases hlt : v.start_cmd < v.conf.start_nr
    · rw [svc_spawn_start_cmd_lt _ e s i v hv hlt]
      refine ⟨[.spawn i (.start v.start_cmd) 1 (e.vfork s.nfork).val, .start_dispatch i], rfl,
        notifies_only_plain _ _ ?_⟩
      intro a ha
      simp only [List.mem_cons, List.mem_singleton, List.not_mem_nil, or_false] at ha
      rcases ha with rfl | rfl <;> simp
    · have hge : v.conf.start_nr ≤ v.start_cmd := Nat.not_lt.1 hlt
      cases hd : v.conf.daemon with
      | false =>
        rw [svc_spawn_start_cmd_none _ e s i v hv hge hd]
        obtain ⟨l, hl1, hq⟩ := mark_ready_quiet e g r R fuel hl hr hR ih
          ((s.emit (.start_dispatch i)).upd i (fun w => { w with child := -1 })) i
          ((wiring_upd (s.emit (.start_dispatch i)) i (fun w => { w with child := -1 })
            (fun _ => rfl)).trans hwir) hfuel
        refine ⟨l ++ [.start_dispatch i], by rw [hl1]; simp [sys.emit, sys.upd], ?_⟩
        refine notifies_only_append hq (notifies_only_plain _ _ ?_)
        intro a ha
        simp only [List.mem_singleton] at ha
        subst ha
        simp
      | true =>
        by_cases hp : (e.vfork s.nfork).val < 0
        · rw [svc_spawn_start_cmd_daemon_fail _ e s i v hv hge hd hp]
          refine ⟨[.spawn i .daemon 1 (e.vfork s.nfork).val, .start_dispatch i], rfl,
            notifies_only_plain _ _ ?_⟩
          intro a ha
          simp only [List.mem_cons, List.mem_singleton, List.not_mem_nil, or_false] at ha
          rcases ha with rfl | rfl <;> simp
        · rw [svc_spawn_start_cmd_daemon_ok _ e s i v hv hge hd hp]
          obtain ⟨l, hl1, hq⟩ := mark_ready_quiet e g r R fuel hl hr hR ih
            (({ s with nfork := s.nfork + 1,
                       log := .spawn i .daemon 1 (e.vfork s.nfork).val ::
                         .start_dispatch i :: s.log }).upd i
              (fun w => { w with child := (e.vfork s.nfork).val,
                                 timer := utimer_arm_sec w.timer 1 })) i
            ((wiring_upd { s with nfork := s.nfork + 1,
                                  log := .spawn i .daemon 1 (e.vfork s.nfork).val ::
                                    .start_dispatch i :: s.log } i
              (fun w => { w with child := (e.vfork s.nfork).val,
                                 timer := utimer_arm_sec w.timer 1 })
              (fun _ => rfl)).trans hwir) hfuel
          refine ⟨l ++ [.spawn i .daemon 1 (e.vfork s.nfork).val, .start_dispatch i],
            by rw [hl1]; simp [sys.upd], ?_⟩
          refine notifies_only_append hq (notifies_only_plain _ _ ?_)
          intro a ha
          simp only [List.mem_cons, List.mem_singleton, List.not_mem_nil, or_false] at ha
          rcases ha with rfl | rfl <;> simp

theorem spawn_stop_cmd_quiet (e : env) (g : sys) (r : Nat → Nat) (R fuel : Nat)
    (hl : g.linked) (hr : ∀ x y, g.notifier .stopon x y → r x < r y)
    (hR : ∀ x y, g.notifier .stopon x y → r y ≤ R)
    (ih : cascade_ok e g .stopon r R fuel) (s : sys) (i : Nat)
    (hwir : s.svcs.map svc.wiring = g.svcs.map svc.wiring) (hfuel : R - r i < fuel + 1) :
    ∃ l, (svc_spawn_stop_cmd (svc_handle_notif e fuel) e s i).log = l ++ s.log ∧
      notifies_only (Relation.TransGen (g.notifier .stopon) i) l := by
  unfold svc_spawn_stop_cmd
  cases hv : s.svcs[i]? with
  | none => exact ⟨[], rfl, notifies_only_nil _⟩
  | some v =>
    simp only []
    split
    · obtain ⟨l, hl1, hq⟩ := mark_stopped_quiet e g r R fuel hl hr hR ih
        ((s.upd i (fun w => { w with stop_cmd := w.stop_cmd + 1 })).emit (.stop_dispatch i)) i
        ((wiring_upd s i (fun w => { w with stop_cmd := w.stop_cmd + 1 })
          (fun _ => rfl)).trans hwir) hfuel
      refine ⟨l ++ [.stop_dispatch i], by rw [hl1]; simp [sys.emit, sys.upd], ?_⟩
      refine notifies_only_append hq (notifies_only_plain _ _ ?_)
      intro a ha
      simp only [List.mem_singleton] at ha
      subst ha
      simp
    · refine ⟨[.spawn i (.stop (to_unsigned (v.stop_cmd + 1))) 5
          (e.vfork ((s.upd i (fun w => { w with stop_cmd := w.stop_cmd + 1 })).emit
            (.stop_dispatch i)).nfork).val, .stop_dispatch i], ?_, notifies_only_plain _ _ ?_⟩
      · show (svc_spawn e _ i _ 5).1.log = _
        rw [svc_spawn_log]
        rfl
      · intro a ha
        simp only [List.mem_cons, List.mem_singleton, List.not_mem_nil, or_false] at ha
        rcases ha with rfl | rfl <;> simp

theorem handle_on_notif_quiet (e : env) (g : sys) (r : Nat → Nat) (R fuel : Nat)
    (hl : g.linked) (hr : ∀ x y, g.notifier .starton x y → r x < r y)
    (hR : ∀ x y, g.notifier .starton x y → r y ≤ R)
    (ih : cascade_ok e g .starton r R fuel) (s : sys) (j src : Nat)
    (hwir : s.svcs.map svc.wiring = g.svcs.map svc.wiring) (hfuel : R - r j < fuel + 1) :
    ∃ l, (svc_handle_on_notif (svc_handle_notif e fuel) e s j src).log = l ++ s.log ∧
      notifies_only (Relation.TransGen (g.notifier .starton) j) l := by
  unfold svc_handle_on_notif
  split
  · exact ⟨[], rfl, notifies_only_nil _⟩
  · split
    · split
      · split
        · exact spawn_start_cmd_quiet e g r R fuel hl hr hR ih s j hwir hfuel
        · exact ⟨[], rfl, notifies_only_nil _⟩
      · exact ⟨[], rfl, notifies_only_nil _⟩
    · exact ⟨[], rfl, notifies_only_nil _⟩

theorem handle_off_notif_quiet (e : env) (g : sys) (r : Nat → Nat) (R fuel : Nat)
    (hl : g.linked) (hr : ∀ x y, g.notifier .stopon x y → r x < r y)
    (hR : ∀ x y, g.notifier .stopon x y → r y ≤ R)
    (ih : cascade_ok e g .stopon r R fuel) (s : sys) (j src : Nat)
    (hwir : s.svcs.map svc.wiring = g.svcs.map svc.wiring) (hfuel : R - r j < fuel + 1) :
    ∃ l, (svc_handle_off_notif (svc_handle_notif e fuel) e s j src).log = l ++ s.log ∧
      notifies_only (Relation.TransGen (g.notifier .stopon) j) l := by
  unfold svc_handle_off_notif
  split
  · exact ⟨[], rfl, notifies_only_nil _⟩
  · split
    · split
      · split
        · exact spawn_stop_cmd_quiet e g r R fuel hl hr hR ih s j hwir hfuel
        · exact ⟨[], rfl, notifies_only_nil _⟩
      · exact ⟨[], rfl, notifies_only_nil _⟩
    · exact ⟨[], rfl, notifies_only_nil _⟩

/-- The on-handler does nothing for a source that is not READY. -/
theorem handle_on_notif_idle (notify : sys → Nat → Nat → sys) (e : env) (s : sys) (j src : Nat)
    (h : s.state_of src ≠ some .READY) : svc_handle_on_notif notify e s j src = s := by
  unfold svc_handle_on_notif
  split
  · rfl
  · split
    · split
      · rename_i h1
        exact absurd h1 h
      · rfl
    · rfl

/-- The off-handler does nothing for a source that is not STOPPED. -/
theorem handle_off_notif_idle (notify : sys → Nat → Nat → sys) (e : env) (s : sys) (j src : Nat)
    (h : s.state_of src ≠ some .STOPPED) : svc_handle_off_notif notify e s j src = s := by
  unfold svc_handle_off_notif
  split
  · rfl
  · split
    · split
      · rename_i h1
        exact absurd h1 h
      · rfl
    · rfl

theorem cascade_ok_succ (e : env) (g : sys) (k : notif_kind) (r : Nat → Nat) (R fuel : Nat)
    (hl : g.linked) (hr : ∀ x y, g.notifier k x y → r x < r y)
    (hR : ∀ x y, g.notifier k x y → r y ≤ R) (ih : cascade_ok e g k r R fuel) :
    cascade_ok e g k r R (fuel + 1) := by
  intro s j src hwir hsrc hfuel
  unfold svc_handle_notif
  cases hv : s.svcs[j]? with
  | none => exact ⟨[], notifies_only_nil _, Or.inr ⟨rfl, rfl⟩⟩
  | some v =>
    simp only []
    have hsrc1 : (s.emit (.notify j src)).state_of src = some k.want := hsrc
    have hwir1 : (s.emit (.notify j src)).svcs.map svc.wiring = g.svcs.map svc.wiring := hwir
    cases k with
    | starton =>
      split
      · obtain ⟨l, hl1, hq⟩ := handle_on_notif_quiet e g r R fuel hl hr hR ih
          (s.emit (.notify j src)) j src hwir1 hfuel
        exact ⟨l, hq, Or.inl hl1⟩
      · rw [handle_off_notif_idle _ e _ j src (by rw [hsrc1]; simp [notif_kind.want])]
        exact ⟨[], notifies_only_nil _, Or.inl rfl⟩
    | stopon =>
      split
      · rw [handle_on_notif_idle _ e _ j src (by rw [hsrc1]; simp [notif_kind.want])]
        exact ⟨[], notifies_only_nil _, Or.inl rfl⟩
      · obtain ⟨l, hl1, hq⟩ := handle_off_notif_quiet e g r R fuel hl hr hR ih
          (s.emit (.notify j src)) j src hwir1 hfuel
        exact ⟨l, hq, Or.inl hl1⟩

theorem cascade_ok_all (e : env) (g : sys) (k : notif_kind) (r : Nat → Nat) (R : Nat)
    (hl : g.linked) (hr : ∀ x y, g.notifier k x y → r x < r y)
    (hR : ∀ x y, g.notifier k x y → r y ≤ R) : ∀ fuel, cascade_ok e g k r R fuel := by
  intro fuel
  induction fuel with
  | zero =>
    intro s j src _ _ hfuel
    omega
  | succ n ih => exact cascade_ok_succ e g k r R n hl hr hR ih

/-- A notification from a source that is neither READY nor STOPPED calls the
handler of the sink, which does nothing. -/
theorem handle_notif_idle (e : env) (fuel : Nat) (s : sys) (j src : Nat)
    (h1 : s.state_of src ≠ some .READY) (h2 : s.state_of src ≠ some .STOPPED) :
    (svc_handle_notif e (fuel + 1) s j src).log = .notify j src :: s.log ∨
      (svc_handle_notif e (fuel + 1) s j src).log = s.log := by
  unfold svc_handle_notif
  cases hv : s.svcs[j]? with
  | none => exact Or.inr rfl
  | some v =>
    simp only []
    left
    split
    · rw [handle_on_notif_idle _ e (s.emit (.notify j src)) j src h1]
      rfl
    · rw [handle_off_notif_idle _ e (s.emit (.notify j src)) j src h2]
      rfl

theorem obsrv_set_notif (v : svc) (k k2 : notif_kind) (poll : notif_poll) :
    (v.set_notif k poll).obsrv k2 = v.obsrv k2 := by
  cases k <;> cases k2 <;> rfl

theorem obsrv_push_obsrv (v : svc) (k k2 : notif_kind) (x : Nat) :
    (v.push_obsrv k x).obsrv k2 = if k2 = k then v.obsrv k2 ++ [x] else v.obsrv k2 := by
  cases k <;> cases k2 <;> simp [svc.push_obsrv, svc.obsrv]

theorem register_cases (k : notif_kind) (fuel : Nat) (s t : sys) (src obsrv : Nat)
    (h : svc_register_obsrv k fuel s src obsrv = some t) :
    t = s ∨ ∃ o poll, s.svcs[obsrv]? = some o ∧ o.notif k = some poll ∧
      t = notif_register_poll_sink k s obsrv src poll := by
  unfold svc_register_obsrv at h
  cases hs : s.svcs[src]? with
  | none => simp [hs] at h
  | some vs =>
    cases ho : s.svcs[obsrv]? with
    | none => simp [hs, ho] at h
    | some o =>
      simp only [hs, ho] at h
      cases hp : o.notif k with
      | none => simp [hp] at h
      | some poll =>
        simp only [hp] at h
        cases hb : svc_has_notifier k s fuel src obsrv with
        | none => simp [hb] at h
        | some b =>
          cases b with
          | true =>
            simp only [hb, Option.some.injEq] at h
            exact Or.inl h.symm
          | false =>
            simp only [hb] at h
            split at h
            · simp only [Option.some.injEq] at h
              exact Or.inr ⟨o, poll, rfl, hp, h.symm⟩
            · cases h

theorem linked_register (k : notif_kind) (fuel : Nat) (s t : sys) (src obsrv : Nat)
    (hl : s.linked) (h : svc_register_obsrv k fuel s src obsrv = some t) : t.linked := by
  rcases register_cases k fuel s t src obsrv h with h1 | ⟨o, poll, ho, hp, h1⟩
  · rw [h1]; exact hl
  · subst h1
    intro k2 a b w hw hb
    unfold notif_register_poll_sink at hw
    rw [get_upd, get_upd] at hw
    cases hv : s.svcs[a]? with
    | none => simp [hv] at hw
    | some v =>
      simp only [hv, Option.map_some', Option.some.injEq] at hw
      subst hw
      have hinner : ∀ (u : svc) (p : notif_poll),
          (if obsrv = a then u.set_notif k p else u).obsrv k2 = u.obsrv k2 := by
        intro u p
        split
        · exact obsrv_set_notif u k k2 _
        · rfl
      by_cases hsa : src = a
      · rw [if_pos hsa, obsrv_push_obsrv, hinner] at hb
        by_cases hk : k2 = k
        · rw [if_pos hk, List.mem_append, List.mem_singleton] at hb
          subst hk
          rcases hb with hb | hb
          · exact notifier_register_old k2 k2 s obsrv src o poll ho hp a b (hl k2 a b v hv hb)
          · subst hb; subst hsa
            exact notifier_register_new k2 s b src o poll ho
        · rw [if_neg hk] at hb
          exact notifier_register_old k k2 s obsrv src o poll ho hp a b (hl k2 a b v hv hb)
      · rw [if_neg hsa, hinner] at hb
        exact notifier_register_old k k2 s obsrv src o poll ho hp a b (hl k2 a b v hv hb)

/-- On a wiring built by registrations the observer lists agree with the
polls. -/
theorem wired_linked (s : sys) (h : wired s) : s.linked := by
  induction h with
  | init s h0 =>
    intro k a b va hva hb
    have h1 := (h0 va (List.mem_iff_getElem?.2 ⟨_, hva⟩) k).2
    rw [h1] at hb
    cases hb
  | starton s t fuel src obsrv _ hreg ih => exact linked_register .starton fuel s t src obsrv ih hreg
  | stopon s t fuel src obsrv _ hreg ih => exact linked_register .stopon fuel s t src obsrv ih hreg

theorem ranked_transGen {g : sys} {k : notif_kind} {r : Nat → Nat}
    (hr : ∀ x y, g.notifier k x y → r x < r y) {x y : Nat}
    (h : Relation.TransGen (g.notifier k) x y) : r x < r y := by
  induction h with
  | single h1 => exact hr _ _ h1
  | tail _ h2 ih => exact lt_trans ih (hr _ _ h2)

theorem rank_bound (g : sys) (k : notif_kind) (r : Nat → Nat) :
    ∀ x y, g.notifier k x y → r y ≤ (Finset.range g.svcs.length).sup r := by
  intro x y ⟨v, hv, _⟩
  have hy : y < g.svcs.length := (List.getElem?_eq_some_iff.1 hv).1
  exact Finset.le_sup (f := r) (Finset.mem_range.2 hy)

theorem wiring_casc {b : Bool} {s t : sys} (h : casc b s t) :
    t.svcs.map svc.wiring = s.svcs.map svc.wiring :=
  wiring_of_frame (casc_frame h)

theorem mark_ready_wiring (e : env) (fuel : Nat) (s : sys) (i : Nat) :
    (svc_mark_ready (svc_handle_notif e fuel) s i).svcs.map svc.wiring =
      s.svcs.map svc.wiring := by
  unfold svc_mark_ready
  split
  · rfl
  · exact (wiring_casc (casc_foldl (svc_handle_notif_casc false e fuel) _ i _)).trans
      (wiring_upd s i (fun w => { w with state := .READY }) (fun _ => rfl))

theorem mark_stopped_wiring (e : env) (fuel : Nat) (s : sys) (i : Nat) :
    (svc_mark_stopped (svc_handle_notif e fuel) s i).svcs.map svc.wiring =
      s.svcs.map svc.wiring := by
  unfold svc_mark_stopped
  split
  · rfl
  · exact (wiring_casc (casc_foldl (svc_handle_notif_casc false e fuel) _ i _)).trans
      (wiring_upd s i (fun w => { w with child := -1, state := .STOPPED }) (fun _ => rfl))

theorem svc_spawn_wiring (e : env) (s : sys) (i : Nat) (cmd : cmd_ref) (t : Nat) :
    (svc_spawn e s i cmd t).1.svcs.map svc.wiring = s.svcs.map svc.wiring := by
  unfold svc_spawn
  simp only []
  split
  · rfl
  · exact wiring_upd { s with nfork := s.nfork + 1,
                              log := .spawn i cmd t (e.vfork s.nfork).val :: s.log } i
      (fun w => { w with timer := utimer_arm_sec w.timer t }) (fun _ => rfl)

theorem spawn_start_cmd_wiring (e : env) (fuel : Nat) (s : sys) (i : Nat) :
    (svc_spawn_start_cmd (svc_handle_notif e fuel) e s i).svcs.map svc.wiring =
      s.svcs.map svc.wiring := by
  cases hv : s.svcs[i]? with
  | none =>
    unfold svc_spawn_start_cmd
    rw [hv]
  | some v =>
    by_cases hlt : v.start_cmd < v.conf.start_nr
    · rw [svc_spawn_start_cmd_lt _ e s i v hv hlt]
      exact wiring_upd { s with nfork := s.nfork + 1,
                                log := .spawn i (.start v.start_cmd) 1 (e.vfork s.nfork).val ::
                                  .start_dispatch i :: s.log } i
        (fun w => { w with
          child := (e.vfork s.nfork).val,
          timer := if (e.vfork s.nfork).val < 0 then w.timer else utimer_arm_sec w.timer 1 })
        (fun _ => rfl)
    · have hge : v.conf.start_nr ≤ v.start_cmd := Nat.not_lt.1 hlt
      cases hd : v.conf.daemon with
      | false =>
        rw [svc_spawn_start_cmd_none _ e s i v hv hge hd]
        exact (mark_ready_wiring e fuel _ i).trans
          (wiring_upd (s.emit (.start_dispatch i)) i (fun w => { w with child := -1 })
            (fun _ => rfl))
      | true =>
        by_cases hp : (e.vfork s.nfork).val < 0
        · rw [svc_spawn_start_cmd_daemon_fail _ e s i v hv hge hd hp]
          exact wiring_upd { s with nfork := s.nfork + 1,
                                    log := .spawn i .daemon 1 (e.vfork s.nfork).val ::
                                      .start_dispatch i :: s.log } i
            (fun w => { w with child := (e.vfork s.nfork).val }) (fun _ => rfl)
        · rw [svc_spawn_start_cmd_daemon_ok _ e s i v hv hge hd hp]
          exact (mark_ready_wiring e fuel _ i).trans
            (wiring_upd { s with nfork := s.nfork + 1,
                                 log := .spawn i .daemon 1 (e.vfork s.nfork).val ::
                                   .start_dispatch i :: s.log } i
              (fun w => { w with child := (e.vfork s.nfork).val,
                                 timer := utimer_arm_sec w.timer 1 }) (fun _ => rfl))

theorem spawn_stop_cmd_wiring (e : env) (fuel : Nat) (s : sys) (i : Nat) :
    (svc_spawn_stop_cmd (svc_handle_notif e fuel) e s i).svcs.map svc.wiring =
      s.svcs.map svc.wiring := by
  unfold svc_spawn_stop_cmd
  split
  · rfl
  · simp only []
    have h0 := wiring_upd s i (fun w => { w with stop_cmd := w.stop_cmd + 1 }) (fun _ => rfl)
    split
    · exact (mark_stopped_wiring e fuel _ i).trans h0
    · have h1 : ∀ (x : sys × Int),
          (x.1.upd i (fun w => { w with child := x.2 })).svcs.map svc.wiring =
            x.1.svcs.map svc.wiring :=
        fun x => wiring_upd x.1 i (fun w => { w with child := x.2 }) (fun _ => rfl)
      exact (h1 _).trans ((svc_spawn_wiring e _ i _ 5).trans h0)

theorem start_wiring (e : env) (fuel : Nat) (s : sys) (i : Nat) :
    (svc_start (svc_handle_notif e fuel) e s i).svcs.map svc.wiring = s.svcs.map svc.wiring :=
  (wiring_of_frame (svc_start_frame e fuel s i)).trans
    (wiring_upd s i svc.turn_on (fun _ => rfl))

theorem stop_wiring (e : env) (fuel : Nat) (s : sys) (i : Nat) :
    (svc_stop (svc_handle_notif e fuel) e s i).svcs.map svc.wiring = s.svcs.map svc.wiring :=
  (wiring_of_frame (svc_stop_frame e fuel s i)).trans
    (wiring_upd s i svc.turn_off (fun _ => rfl))

theorem handle_evts_wiring (e : env) (fuel : Nat) (s : sys) (i : Nat) (evt : svc_evt)
    (status : Int) :
    (svc_handle_evts (svc_handle_notif e fuel) e s i evt status).svcs.map svc.wiring =
      s.svcs.map svc.wiring := by
  unfold svc_handle_evts
  split
  · rfl
  · split
    · unfold svc_handle_on_evts
      split
      · rfl
      · split
        · split
          · rfl
          · exact stop_wiring e fuel s i
          · split
            · exact (spawn_start_cmd_wiring e fuel _ i).trans
                (wiring_upd s i (fun w => { w with start_cmd := (w.start_cmd + 1) % 4294967296 })
                  (fun _ => rfl))
            · split
              · exact spawn_start_cmd_wiring e fuel s i
              · exact wiring_upd s i (fun w => { w with child := -1 }) (fun _ => rfl)
        · split
          · rfl
          · exact stop_wiring e fuel s i
          · split
            · exact (spawn_start_cmd_wiring e fuel _ i).trans
                (wiring_upd s i (fun w => { w with state := .STARTING }) (fun _ => rfl))
            · exact wiring_upd s i (fun w => { w with child := -1 }) (fun _ => rfl)
        · rfl
    · unfold svc_handle_off_evts
      split
      · rfl
      · split
        · split
          · exact start_wiring e fuel s i
          · rfl
          · rfl
        · split
          · exact start_wiring e fuel s i
          · rfl
          · exact spawn_stop_cmd_wiring e fuel s i
        · rfl

theorem expire_wiring (e : env) (fuel : Nat) (s : sys) (i : Nat) :
    (utimer_expire (svc_handle_notif e fuel) e s i).svcs.map svc.wiring =
      s.svcs.map svc.wiring := by
  unfold utimer_expire
  split
  · rfl
  · split
    · have h0 := wiring_upd s i (fun w => { w with timer := { w.timer with armed := none } })
        (fun _ => rfl)
      simp only []
      split
      · refine Eq.trans ?_ h0
        unfold svc_expire_on
        split
        · rfl
        · split
          · rfl
          · split
            · exact spawn_start_cmd_wiring e fuel _ i
            · rfl
          · rfl
      · refine Eq.trans ?_ h0
        unfold svc_expire_off
        split
        · rfl
        · split
          · rfl
          · have hk : ∀ t : sys, (svc_kill e t i SIGKILL).1.svcs.map svc.wiring =
                t.svcs.map svc.wiring := fun t => by rw [svc_kill_svcs]
            simp only []
            split
            · exact (spawn_stop_cmd_wiring e fuel _ i).trans (hk _)
            · exact hk _
          · rfl
      · exact h0
    · rfl

theorem sigchld_wiring (e : env) (fuel : Nat) (infos : List siginfo) :
    ∀ (s : sys) (cnt : Nat),
      (tinit_sigchan_handle_sigchld (svc_handle_notif e fuel) e s infos cnt).1.svcs.map
        svc.wiring = s.svcs.map svc.wiring := by
  induction infos with
  | nil => intro s cnt; rfl
  | cons info rest ih =>
    intro s cnt
    unfold tinit_sigchan_handle_sigchld
    split
    · rfl
    · simp only []
      split
      · exact ih _ _
      · refine (ih _ _).trans ?_
        split
        · exact handle_evts_wiring e fuel _ _ _ _
        · exact handle_evts_wiring e fuel _ _ _ _
        · exact handle_evts_wiring e fuel _ _ _ _
        · rfl

theorem step_wiring (e : env) (fuel : Nat) (s : sys) (a : input) :
    (step e fuel s a).svcs.map svc.wiring = s.svcs.map svc.wiring := by
  cases a with
  | start i => exact start_wiring e fuel s i
  | stop i => exact stop_wiring e fuel s i
  | evt i evt status => exact handle_evts_wiring e fuel s i evt status
  | notif sink src => exact wiring_casc (svc_handle_notif_casc false e fuel s sink src)
  | expire i => exact expire_wiring e fuel s i
  | sigchld infos => exact sigchld_wiring e fuel infos s 0

theorem run_wiring (e : env) (fuel : Nat) (l : List input) :
    ∀ s : sys, (run e fuel s l).svcs.map svc.wiring = s.svcs.map svc.wiring := by
  induction l with
  | nil => intro s; rfl
  | cons a l ih =>
    intro s
    exact (ih (step e fuel s a)).trans (step_wiring e fuel s a)

/-- C21: on a wiring `g` built by registrations there is an amount of fuel from
which on, in every state `s` with the edges of `g` (every state of a run from
`g` is one), for every service `i`: the cascade of `svc_mark_ready` and the
cascade of `svc_mark_stopped` on `i` return without running out of fuel and
call only the notification handlers of services strictly downstream of `i` in
the graph of the kind, never the one of `i`; and within a call of the
notification handler of `i`, the handler of `i` is not called again. -/
theorem cascade_never_returns (e : env) (g : sys) (hw : wired g) :
    ∃ F, ∀ fuel, F ≤ fuel → ∀ (s : sys) (i : Nat),
      s.svcs.map svc.wiring = g.svcs.map svc.wiring →
      (∃ l, (svc_mark_ready (svc_handle_notif e fuel) s i).log = l ++ s.log ∧
        notifies_only (fun y => y ≠ i ∧ Relation.TransGen (g.notifier .starton) i y) l) ∧
      (∃ l, (svc_mark_stopped (svc_handle_notif e fuel) s i).log = l ++ s.log ∧
        notifies_only (fun y => y ≠ i ∧ Relation.TransGen (g.notifier .stopon) i y) l) ∧
      (∀ src, ∃ l, notifies_only (fun y => y ≠ i) l ∧
        ((svc_handle_notif e fuel s i src).log = l ++ .notify i src :: s.log ∨
          (svc_handle_notif e fuel s i src).log = s.log)) ∧
      (∀ inputs, (run e fuel s inputs).svcs.map svc.wiring = g.svcs.map svc.wiring) := by
  have hl := wired_linked g hw
  obtain ⟨r1, hr1⟩ := wired_ranked g hw .starton
  obtain ⟨r2, hr2⟩ := wired_ranked g hw .stopon
  have hR1 := rank_bound g .starton r1
  have hR2 := rank_bound g .stopon r2
  refine ⟨(Finset.range g.svcs.length).sup r1 + (Finset.range g.svcs.length).sup r2 + 1, ?_⟩
  intro fuel hfuel s i hwir
  have hne1 : ∀ y, Relation.TransGen (g.notifier .starton) i y →
      y ≠ i ∧ Relation.TransGen (g.notifier .starton) i y := by
    intro y hy
    refine ⟨?_, hy⟩
    intro h
    rw [h] at hy
    exact lt_irrefl _ (ranked_transGen hr1 hy)
  have hne2 : ∀ y, Relation.TransGen (g.notifier .stopon) i y →
      y ≠ i ∧ Relation.TransGen (g.notifier .stopon) i y := by
    intro y hy
    refine ⟨?_, hy⟩
    intro h
    rw [h] at hy
    exact lt_irrefl _ (ranked_transGen hr2 hy)
  have ok1 := cascade_ok_all e g .starton r1 _ hl hr1 hR1 fuel
  have ok2 := cascade_ok_all e g .stopon r2 _ hl hr2 hR2 fuel
  refine ⟨?_, ?_, ?_, ?_⟩
  · obtain ⟨l, h1, h2⟩ := mark_ready_quiet e g r1 _ fuel hl hr1 hR1 ok1 s i hwir (by omega)
    exact ⟨l, h1, notifies_only_mono hne1 h2⟩
  · obtain ⟨l, h1, h2⟩ := mark_stopped_quiet e g r2 _ fuel hl hr2 hR2 ok2 s i hwir (by omega)
    exact ⟨l, h1, notifies_only_mono hne2 h2⟩
  · intro src
    by_cases h1 : s.state_of src = some .READY
    · obtain ⟨l, hq, hlog⟩ := ok1 s i src hwir h1 (by omega)
      refine ⟨l, notifies_only_mono (fun y hy => (hne1 y hy).1) hq, ?_⟩
      rcases hlog with h | ⟨h, _⟩
      · exact Or.inl h
      · exact Or.inr h
    · by_cases h2 : s.state_of src = some .STOPPED
      · obtain ⟨l, hq, hlog⟩ := ok2 s i src hwir h2 (by omega)
        refine ⟨l, notifies_only_mono (fun y hy => (hne2 y hy).1) hq, ?_⟩
        rcases hlog with h | ⟨h, _⟩
        · exact Or.inl h
        · exact Or.inr h
      · obtain ⟨n, hn⟩ : ∃ n, fuel = n + 1 := ⟨fuel - 1, by omega⟩
        subst hn
        refine ⟨[], notifies_only_nil _, ?_⟩
        rcases handle_notif_idle e n s i src h1 h2 with h | h
        · exact Or.inl h
        · exact Or.inr h
  · intro inputs
    exact (run_wiring e fuel inputs s).trans hwir

/-- C21 on "a" and "b" of `demo_loop`, where "b" notifies "a": with enough
fuel the cascade of `svc_mark_ready` on "b" never calls the handler of "b". -/
theorem cascade_never_returns_witness :
    ∃ F, ∀ fuel, F ≤ fuel →
      ∃ l, (svc_mark_ready (svc_handle_notif demo_env fuel) demo_loop 1).log =
          l ++ demo_loop.log ∧
        notifies_only
          (fun y => y ≠ 1 ∧ Relation.TransGen (demo_loop.notifier .starton) 1 y) l := by
  obtain ⟨F, hF⟩ := cascade_never_returns demo_env demo_loop
    (wired.starton demo_loop_base demo_loop 2 1 0 (wired.init _ demo_loop_base_unwired)
      (by decide))
  exact ⟨F, fun fuel hfuel => (hF fuel hfuel demo_loop 1 rfl).1⟩

theorem state_of_some {s : sys} {j : Nat} {st : tinit_svc_state} (h : s.state_of j = some st) :
    ∃ w, s.svcs[j]? = some w ∧ w.state = st := by
  unfold sys.state_of at h
  cases hw : s.svcs[j]? with
  | none => rw [hw] at h; cases h
  | some w =>
    rw [hw] at h
    simp only [Option.map_some', Option.some.injEq] at h
    exact ⟨w, rfl, h⟩

theorem state_of_get {s : sys} {j : Nat} {w : svc} (h : s.svcs[j]? = some w) :
    s.state_of j = some w.state := by
  simp [sys.state_of, h]

theorem settles_but_refl (P : Nat → Prop) (s : sys) : s.settles_but P s :=
  ⟨fun _ h => h, fun _ _ _ hw _ => hw,
   fun j w _ hw hst => Or.inl (by rw [state_of_get hw, hst])⟩

theorem settles_but_mono {P Q : Nat → Prop} {s t : sys} (hpq : ∀ j, P j → Q j)
    (h : s.settles_but P t) : s.settles_but Q t :=
  ⟨h.1, fun j w hq => h.2.1 j w (fun hp => hq (hpq j hp)),
   fun j w hq => h.2.2 j w (fun hp => hq (hpq j hp))⟩

theorem settles_but_trans {P : Nat → Prop} {s t u : sys} (h1 : s.settles_but P t)
    (h2 : t.settles_but P u) : s.settles_but P u := by
  refine ⟨fun j hj => h2.1 j (h1.1 j hj),
    fun j w hp hw hst => h2.2.1 j w hp (h1.2.1 j w hp hw hst) hst, ?_⟩
  intro j w hp hw hst
  rcases h2.2.2 j w hp hw hst with h | h
  · obtain ⟨w1, hw1, hst1⟩ := state_of_some h
    have hu := h2.2.1 j w1 hp hw1 hst1
    rw [hw] at hu
    cases hu
    rcases h1.2.2 j w hp hw1 hst with h3 | h3
    · exact Or.inl h3
    · exact Or.inr (fun src hsrc => h2.1 src (h3 src hsrc))
  · exact Or.inr h

/-- Writes to the service `i` that keep it STOPPED if it was, followed by
elementary changes gated by stopon. -/
theorem settles_but_of_casc (i : Nat) (s x t : sys)
    (h1 : ∀ j, j ≠ i → x.svcs[j]? = s.svcs[j]?)
    (h2 : s.state_of i = some .STOPPED → x.state_of i = some .STOPPED)
    (h3 : casc true x t) : s.settles_but (fun j => j = i) t := by
  have hset := casc_settles h3
  refine ⟨?_, ?_, ?_⟩
  · intro j hj
    have hx : x.state_of j = some .STOPPED := by
      by_cases hji : j = i
      · subst hji; exact h2 hj
      · unfold sys.state_of
        rw [h1 j hji]
        exact hj
    obtain ⟨w, hw, hst⟩ := state_of_some hx
    rw [state_of_get (hset.1 j w hw hst), hst]
  · intro j w hji hw hst
    rw [← h1 j hji] at hw
    exact hset.1 j w hw hst
  · intro j w hji hw hst
    rcases hset.2 j w hw hst with h | h
    · left
      unfold sys.state_of at h ⊢
      rw [← h1 j hji]
      exact h
    · exact Or.inr h

theorem settles_but_upd (s : sys) (i : Nat) (f : svc → svc)
    (hf : ∀ w, w.state = .STOPPED → (f w).state = .STOPPED) :
    s.settles_but (fun j => j = i) (s.upd i f) := by
  refine settles_but_of_casc i s (s.upd i f) _ (fun j hj => get_upd_ne s i j f (Ne.symm hj)) ?_
    (casc_refl _ _)
  intro h
  obtain ⟨w, hw, hst⟩ := state_of_some h
  rw [state_of_get (get_upd_some s i w f hw), hf w hst]

theorem svc_spawn_get_ne (e : env) (s : sys) (i j : Nat) (cmd : cmd_ref) (t : Nat)
    (h : i ≠ j) : (svc_spawn e s i cmd t).1.svcs[j]? = s.svcs[j]? := by
  unfold svc_spawn
  simp only []
  split
  · rfl
  · rw [get_upd_ne _ _ _ _ h]

/-- The stop dispatcher writes to its service, then the cascade it starts is
gated by stopon. -/
theorem spawn_stop_cmd_shape (e : env) (fuel : Nat) (s : sys) (i : Nat) :
    ∃ x, (∀ j, j ≠ i → x.svcs[j]? = s.svcs[j]?) ∧
      casc true x (svc_spawn_stop_cmd (svc_handle_notif e fuel) e s i) := by
  unfold svc_spawn_stop_cmd
  cases hv : s.svcs[i]? with
  | none => exact ⟨s, fun _ _ => rfl, casc_refl _ _⟩
  | some v =>
    simp only []
    split
    · unfold svc_mark_stopped
      split
      · refine ⟨_, ?_, casc_refl _ _⟩
        intro j hj
        rw [svcs_emit, get_upd_ne _ _ _ _ (Ne.symm hj)]
      · refine ⟨_, ?_, casc_foldl (svc_handle_notif_casc true e fuel) _ i _⟩
        intro j hj
        rw [svcs_emit, get_upd_ne _ _ _ _ (Ne.symm hj), svcs_emit,
          get_upd_ne _ _ _ _ (Ne.symm hj)]
    · refine ⟨_, ?_, casc_refl _ _⟩
      intro j hj
      rw [get_upd_ne _ _ _ _ (Ne.symm hj), svc_spawn_get_ne _ _ _ _ _ _ (Ne.symm hj), svcs_emit,
        get_upd_ne _ _ _ _ (Ne.symm hj)]

theorem spawn_stop_cmd_settles_but (e : env) (fuel : Nat) (s : sys) (i : Nat)
    (h : s.state_of i ≠ some .STOPPED) :
    s.settles_but (fun j => j = i) (svc_spawn_stop_cmd (svc_handle_notif e fuel) e s i) := by
  obtain ⟨x, h1, h3⟩ := spawn_stop_cmd_shape e fuel s i
  exact settles_but_of_casc i s x _ h1 (fun h2 => absurd h2 h) h3

theorem spawn_start_cmd_settles_but (e : env) (fuel : Nat) (s : sys) (i : Nat) (v : svc)
    (f : svc → svc) (hv : s.svcs[i]? = some v) (hs : v.state ≠ .STOPPED)
    (hf : (f v).state = .STARTING) :
    s.settles_but (fun j => j = i)
      (svc_spawn_start_cmd (svc_handle_notif e fuel) e (s.upd i f) i) := by
  refine settles_but_of_casc i s (s.upd i f) _ (fun j hj => get_upd_ne s i j f (Ne.symm hj)) ?_
    (svc_spawn_start_cmd_casc (svc_handle_notif_casc true e fuel) e _ i (f v)
      (get_upd_some s i v f hv) hf)
  intro h
  rw [state_of_get hv] at h
  simp only [Option.some.injEq] at h
  exact absurd h hs

theorem upd_id (s : sys) (i : Nat) : s.upd i (fun w => w) = s := by
  unfold sys.upd
  have h : s.svcs.modify (fun w => w) i = s.svcs := by
    apply List.ext_getElem?
    intro n
    rw [List.getElem?_modify]
    cases s.svcs[n]? <;> simp
  rw [h]

/-- An EXIT event handed to the service `i`. -/
theorem handle_evts_exit_settles_but (e : env) (fuel : Nat) (s : sys) (i : Nat) (status : Int) :
    s.settles_but (fun j => j = i)
      (svc_handle_evts (svc_handle_notif e fuel) e s i .EXIT status) := by
  unfold svc_handle_evts
  cases hv : s.svcs[i]? with
  | none => exact settles_but_refl _ s
  | some v =>
    simp only []
    split
    · unfold svc_handle_on_evts
      rw [hv]
      simp only []
      cases hst : v.state with
      | STOPPED => exact settles_but_refl _ s
      | STOPPING => exact settles_but_refl _ s
      | STARTING =>
        simp only []
        split
        · exact spawn_start_cmd_settles_but e fuel s i v _ hv (by rw [hst]; simp) hst
        · split
          · have h := spawn_start_cmd_settles_but e fuel s i v (fun w => w) hv
              (by rw [hst]; simp) hst
            rw [upd_id] at h
            exact h
          · exact settles_but_upd s i _ (fun w hw => hw)
      | READY =>
        simp only []
        split
        · exact spawn_start_cmd_settles_but e fuel s i v _ hv (by rw [hst]; simp) rfl
        · exact settles_but_upd s i _ (fun w hw => hw)
    · unfold svc_handle_off_evts
      rw [hv]
      simp only []
      cases hst : v.state with
      | STOPPED => exact settles_but_refl _ s
      | STOPPING =>
        exact spawn_stop_cmd_settles_but e fuel s i (by rw [state_of_get hv, hst]; simp)
      | STARTING => exact settles_but_refl _ s
      | READY => exact settles_but_refl _ s

/-- The expiry of the timer of the service `i`. -/
theorem expire_settles_but (e : env) (fuel : Nat) (s : sys) (i : Nat) :
    s.settles_but (fun j => j = i) (utimer_expire (svc_handle_notif e fuel) e s i) := by
  unfold utimer_expire
  cases hv : s.svcs[i]? with
  | none => exact settles_but_refl _ s
  | some v =>
    simp only []
    split
    · have h0 : s.settles_but (fun j => j = i)
          (s.upd i (fun w => { w with timer := { w.timer with armed := none } })) :=
        settles_but_upd s i _ (fun w hw => hw)
      have hv1 : (s.upd i (fun w => { w with timer := { w.timer with armed := none } })).svcs[i]?
          = some { v with timer := { v.timer with armed := none } } := get_upd_some s i v _ hv
      split
      · refine settles_but_trans h0 ?_
        unfold svc_expire_on
        rw [hv1]
        simp only []
        cases hst : v.state with
        | STOPPED => exact settles_but_refl _ _
        | STOPPING => exact settles_but_refl _ _
        | READY => exact settles_but_refl _ _
        | STARTING =>
          simp only []
          split
          · have h := spawn_start_cmd_settles_but e fuel _ i _ (fun w => w) hv1
              (by simp [hst]) hst
            rw [upd_id] at h
            exact h
          · exact settles_but_refl _ _
      · refine settles_but_trans h0 ?_
        unfold svc_expire_off
        rw [hv1]
        simp only []
        cases hst : v.state with
        | STOPPED => exact settles_but_refl _ _
        | STARTING => exact settles_but_refl _ _
        | READY => exact settles_but_refl _ _
        | STOPPING =>
          simp only []
          have hk : ∀ x : sys, x.settles_but (fun j => j = i) (svc_kill e x i SIGKILL).1 := by
            intro x
            exact settles_but_of_casc i x x _ (fun _ _ => rfl) (fun h => h)
              (svc_kill_casc true e x i SIGKILL)
          split
          · refine settles_but_trans (hk _) (spawn_stop_cmd_settles_but e fuel _ i ?_)
            unfold sys.state_of
            rw [svc_kill_svcs, hv1]
            simp [hst]
          · exact hk _
      · exact h0
    · exact settles_but_refl _ s

theorem settles_but_emit (P : Nat → Prop) (s : sys) (a : action) :
    s.settles_but P (s.emit a) :=
  settles_but_refl P s

/-- One turn of the loop of `tinit_sigchan_handle_sigchld`. -/
theorem sigchld_one_settles_but (e : env) (fuel : Nat) (s : sys) (info : siginfo) (cnt : Nat) :
    s.settles_but (fun j => tinit_repo_search_bypid s info.si_pid = some j)
      (tinit_sigchan_handle_sigchld (svc_handle_notif e fuel) e s [info] cnt).1 := by
  unfold tinit_sigchan_handle_sigchld
  split
  · exact settles_but_refl _ s
  · simp only []
    have hfind : tinit_repo_search_bypid (s.emit (.reaped info.si_pid)) info.si_pid =
        tinit_repo_search_bypid s info.si_pid := rfl
    cases hsearch : tinit_repo_search_bypid s info.si_pid with
    | none =>
      rw [hfind, hsearch]
      simp only [tinit_sigchan_handle_sigchld]
      exact settles_but_refl _ s
    | some i =>
      rw [hfind, hsearch]
      simp only [tinit_sigchan_handle_sigchld]
      refine settles_but_mono (P := fun j => j = i) (fun j hj => by rw [hj]) ?_
      refine settles_but_trans (settles_but_emit _ s (.reaped info.si_pid)) ?_
      split
      · exact handle_evts_exit_settles_but e fuel _ i _
      · exact handle_evts_exit_settles_but e fuel _ i _
      · exact handle_evts_exit_settles_but e fuel _ i _
      · exact settles_but_refl _ _

theorem sigchld_fst_cnt (notify : sys → Nat → Nat → sys) (e : env) (infos : List siginfo) :
    ∀ (s : sys) (c1 c2 : Nat),
      (tinit_sigchan_handle_sigchld notify e s infos c1).1 =
        (tinit_sigchan_handle_sigchld notify e s infos c2).1 := by
  induction infos with
  | nil => intro s c1 c2; rfl
  | cons info rest ih =>
    intro s c1 c2
    unfold tinit_sigchan_handle_sigchld
    split
    · rfl
    · simp only []
      split
      · exact ih _ _ _
      · exact ih _ _ _

theorem sigchld_cons (notify : sys → Nat → Nat → sys) (e : env) (s : sys) (info : siginfo)
    (rest : List siginfo) (cnt : Nat) (h : info.si_pid ≠ 0) :
    (tinit_sigchan_handle_sigchld notify e s (info :: rest) cnt).1 =
      (tinit_sigchan_handle_sigchld notify e
        (tinit_sigchan_handle_sigchld notify e s [info] 0).1 rest 0).1 := by
  rw [tinit_sigchan_handle_sigchld, tinit_sigchan_handle_sigchld]
  rw [if_neg h, if_neg h]
  simp only []
  split
  · simp only [tinit_sigchan_handle_sigchld]
    exact sigchld_fst_cnt notify e rest _ _ _
  · simp only [tinit_sigchan_handle_sigchld]
    exact sigchld_fst_cnt notify e rest _ _ _

/-- The loop of `tinit_sigchan_handle_sigchld`. -/
theorem sigchld_settles_but (e : env) (fuel : Nat) (infos : List siginfo) :
    ∀ (s : sys) (cnt : Nat),
      s.settles_but (fun j => j ∈ tinit_sigchan_reaped (svc_handle_notif e fuel) e s infos)
        (tinit_sigchan_handle_sigchld (svc_handle_notif e fuel) e s infos cnt).1 := by
  induction infos with
  | nil => intro s cnt; exact settles_but_refl _ s
  | cons info rest ih =>
    intro s cnt
    by_cases hpid : info.si_pid = 0
    · unfold tinit_sigchan_handle_sigchld
      rw [if_pos hpid]
      exact settles_but_refl _ s
    · rw [sigchld_cons _ e s info rest cnt hpid]
      have h1 := sigchld_one_settles_but e fuel s info 0
      have h2 := ih (tinit_sigchan_handle_sigchld (svc_handle_notif e fuel) e s [info] 0).1 0
      unfold tinit_sigchan_reaped
      rw [if_neg hpid]
      cases hsearch : tinit_repo_search_bypid s info.si_pid with
      | none =>
        simp only []
        refine settles_but_trans (settles_but_mono ?_ h1) h2
        intro j hj
        rw [hsearch] at hj
        cases hj
      | some i =>
        simp only []
        refine settles_but_trans (settles_but_mono ?_ h1) (settles_but_mono ?_ h2)
        · intro j hj
          rw [hsearch] at hj
          cases hj
          exact List.mem_cons_self _ _
        · intro j hj
          exact List.mem_cons_of_mem _ hj

/-- C7, as stated, fails.  First run: "b" is the registered starton source of
"a"; both are READY with a daemon.  `tinit_target_stop` signals both daemons;
in the drain the daemon of "b" is reaped first and "b" is marked STOPPED while
"a" is STOPPING.  Second run, with stopon in the place of starton: "b" is the
registered stopon source of "a"; `tinit_target_stop` defers the stop of "a" and
signals the daemon of "b"; in the drain the daemon 100 of "a" exits and "a",
the owner of the reaped child, is marked STOPPED while "b" is STOPPING. -/
theorem shutdown_order_counterexample :
    ((run demo_env 2 demo_chain [.start 0, .start 1, .sigchld [⟨101, .EXITED, 0⟩]]).svcs[0]?).map
      (fun v => v.srcs .starton) = some [1] ∧
    (tinit_sigchan_dispatch_stopping (svc_handle_notif demo_env 2) demo_env
      (tinit_target_stop (svc_handle_notif demo_env 2) demo_env
        (run demo_env 2 demo_chain [.start 0, .start 1, .sigchld [⟨101, .EXITED, 0⟩]])
        demo_chan).1
      (tinit_target_stop (svc_handle_notif demo_env 2) demo_env
        (run demo_env 2 demo_chain [.start 0, .start 1, .sigchld [⟨101, .EXITED, 0⟩]])
        demo_chan).2
      [⟨SIGCHLD, [⟨100, .EXITED, 0⟩]⟩]).1.svcs.map svc.state = [.STOPPING, .STOPPED] ∧
    ((run demo_env 2 (demo_stopon 0 true) [.start 0, .start 1]).svcs[0]?).map
      (fun v => v.srcs .stopon) = some [1] ∧
    (tinit_target_stop (svc_handle_notif demo_env 2) demo_env
      (run demo_env 2 (demo_stopon 0 true) [.start 0, .start 1]) demo_chan).1.svcs.map
        (fun v => (v.state, v.child)) = [(.STOPPING, 100), (.STOPPING, 101)] ∧
    (tinit_sigchan_dispatch_stopping (svc_handle_notif demo_env 2) demo_env
      (tinit_target_stop (svc_handle_notif demo_env 2) demo_env
        (run demo_env 2 (demo_stopon 0 true) [.start 0, .start 1]) demo_chan).1
      (tinit_target_stop (svc_handle_notif demo_env 2) demo_env
        (run demo_env 2 (demo_stopon 0 true) [.start 0, .start 1]) demo_chan).2
      [⟨SIGCHLD, [⟨100, .EXITED, 0⟩]⟩]).1.svcs.map svc.state = [.STOPPED, .STOPPING] := by
  refine ⟨?_, ?_, ?_, ?_, ?_⟩ <;> decide

/-- C7, amended: shutdown follows the stopon gate, not starton.  After each
iteration of the loop of `tinit_target_stop` (the first `k` services of the
repository), and when `tinit_target_stop` returns, every service that has
become STOPPED since the call has all its registered stopon sources STOPPED.
In the drain, the dispatcher hands each SIGCHLD record to
`tinit_sigchan_handle_sigchld`: after it, every service that has become
STOPPED and is not one of the owners of the reaped children has all its
registered stopon sources STOPPED; after the expiry of the timer of a service
`i`, so has every service other than `i` that has become STOPPED; and a
STOPPED service stays STOPPED. -/
theorem shutdown_follows_stopon_gate (e : env) (fuel : Nat) (s : sys) (chan : tinit_sigchan) :
    (∀ (k j : Nat) (w : svc),
      (((List.range s.svcs.length).take k).foldl
        (tinit_target_stop_svc (svc_handle_notif e fuel) e) (s, 0)).1.svcs[j]? = some w →
      w.state = .STOPPED → s.state_of j ≠ some .STOPPED →
      ∀ src ∈ w.srcs .stopon,
        (((List.range s.svcs.length).take k).foldl
          (tinit_target_stop_svc (svc_handle_notif e fuel) e) (s, 0)).1.state_of src
          = some .STOPPED) ∧
    (∀ (j : Nat) (w : svc),
      (tinit_target_stop (svc_handle_notif e fuel) e s chan).1.svcs[j]? = some w →
      w.state = .STOPPED → s.state_of j ≠ some .STOPPED →
      ∀ src ∈ w.srcs .stopon,
        (tinit_target_stop (svc_handle_notif e fuel) e s chan).1.state_of src
          = some .STOPPED) ∧
    (∀ (infos : List siginfo),
      (tinit_sigchan_dispatch_stopping (svc_handle_notif e fuel) e s chan
        [⟨SIGCHLD, infos⟩]).1 =
        (tinit_sigchan_handle_sigchld (svc_handle_notif e fuel) e s infos 0).1) ∧
    (∀ (infos : List siginfo) (cnt j : Nat) (w : svc),
      (tinit_sigchan_handle_sigchld (svc_handle_notif e fuel) e s infos cnt).1.svcs[j]? = some w →
      w.state = .STOPPED → s.state_of j ≠ some .STOPPED →
      j ∉ tinit_sigchan_reaped (svc_handle_notif e fuel) e s infos →
      ∀ src ∈ w.srcs .stopon,
        (tinit_sigchan_handle_sigchld (svc_handle_notif e fuel) e s infos cnt).1.state_of src
          = some .STOPPED) ∧
    (∀ (i j : Nat) (w : svc),
      (utimer_expire (svc_handle_notif e fuel) e s i).svcs[j]? = some w →
      w.state = .STOPPED → s.state_of j ≠ some .STOPPED → j ≠ i →
      ∀ src ∈ w.srcs .stopon,
        (utimer_expire (svc_handle_notif e fuel) e s i).state_of src = some .STOPPED) ∧
    (∀ (infos : List siginfo) (cnt j : Nat), s.state_of j = some .STOPPED →
      (tinit_sigchan_handle_sigchld (svc_handle_notif e fuel) e s infos cnt).1.state_of j
        = some .STOPPED) ∧
    (∀ (i j : Nat), s.state_of j = some .STOPPED →
      (utimer_expire (svc_handle_notif e fuel) e s i).state_of j = some .STOPPED) := by
  refine ⟨?_, ?_, ?_, ?_, ?_, ?_, ?_⟩
  · intro k j w hw hst hnot
    rcases (tinit_target_stop_fold_settles e fuel _ (s, 0)).2 j w hw hst with h | h
    · exact absurd h hnot
    · exact h
  · intro j w hw hst hnot
    rcases (tinit_target_stop_fold_settles e fuel (List.range s.svcs.length) (s, 0)).2 j w hw hst
      with h | h
    · exact absurd h hnot
    · exact h
  · intro infos
    simp only [tinit_sigchan_dispatch_stopping, if_true]
    split <;> rfl
  · intro infos cnt j w hw hst hnot hown
    rcases (sigchld_settles_but e fuel infos s cnt).2.2 j w hown hw hst with h | h
    · exact absurd h hnot
    · exact h
  · intro i j w hw hst hnot hji
    rcases (expire_settles_but e fuel s i).2.2 j w hji hw hst with h | h
    · exact absurd h hnot
    · exact h
  · intro infos cnt j hj
    exact (sigchld_settles_but e fuel infos s cnt).1 j hj
  · intro i j hj
    exact (expire_settles_but e fuel s i).1 j hj

/-- C7, amended, on "a" (waits for "b" to stop) and "b".  When "b" has no
child, `tinit_target_stop` marks "a" STOPPED, and its stopon source "b" is
STOPPED.  When "b" has the daemon 101, the stop of "a" is deferred; in the
drain the daemon 101 is reaped, "b" is its owner, and "a", which is not, is
marked STOPPED by notification: its stopon source "b" is STOPPED. -/
theorem shutdown_follows_stopon_gate_witness :
    (tinit_target_stop (svc_handle_notif demo_env 2) demo_env
      (run demo_env 2 (demo_stopon 0 false) [.start 0, .start 1, .sigchld [⟨101, .EXITED, 0⟩]])
      demo_chan).1.svcs[0]? = some demo_stopon_a_stopped ∧
    (run demo_env 2 (demo_stopon 0 false)
      [.start 0, .start 1, .sigchld [⟨101, .EXITED, 0⟩]]).state_of 0 ≠ some .STOPPED ∧
    (∀ src ∈ demo_stopon_a_stopped.srcs .stopon,
      (tinit_target_stop (svc_handle_notif demo_env 2) demo_env
        (run demo_env 2 (demo_stopon 0 false) [.start 0, .start 1, .sigchld [⟨101, .EXITED, 0⟩]])
        demo_chan).1.state_of src = some .STOPPED) ∧
    tinit_sigchan_reaped (svc_handle_notif demo_env 2) demo_env
      (tinit_target_stop (svc_handle_notif demo_env 2) demo_env
        (run demo_env 2 (demo_stopon 0 true) [.start 0, .start 1]) demo_chan).1
      [⟨101, .EXITED, 0⟩] = [1] ∧
    ((tinit_sigchan_handle_sigchld (svc_handle_notif demo_env 2) demo_env
      (tinit_target_stop (svc_handle_notif demo_env 2) demo_env
        (run demo_env 2 (demo_stopon 0 true) [.start 0, .start 1]) demo_chan).1
      [⟨101, .EXITED, 0⟩] 0).1.svcs[0]?).map svc.state = some .STOPPED ∧
    (∀ src ∈ demo_stopon_a_stopped.srcs .stopon,
      (tinit_sigchan_handle_sigchld (svc_handle_notif demo_env 2) demo_env
        (tinit_target_stop (svc_handle_notif demo_env 2) demo_env
          (run demo_env 2 (demo_stopon 0 true) [.start 0, .start 1]) demo_chan).1
        [⟨101, .EXITED, 0⟩] 0).1.state_of src = some .STOPPED) :=
  ⟨by decide, by decide,
   (shutdown_follows_stopon_gate demo_env 2
      (run demo_env 2 (demo_stopon 0 false) [.start 0, .start 1, .sigchld [⟨101, .EXITED, 0⟩]])
      demo_chan).2.1 0 demo_stopon_a_stopped (by decide) rfl (by decide),
   by decide, by decide,
   (shutdown_follows_stopon_gate demo_env 2
      (tinit_target_stop (svc_handle_notif demo_env 2) demo_env
        (run demo_env 2 (demo_stopon 0 true) [.start 0, .start 1]) demo_chan).1
      demo_chan).2.2.2.1 [⟨101, .EXITED, 0⟩] 0 0 demo_stopon_a_stopped (by decide) rfl (by decide)
      (by decide)⟩

end Einit
